import Mathlib

/-!
# CART driver: register codec, frame cache and storage translation layer

A shallow embedding of `cart_driver.c`, `cart_cache.c` and `cart_client.c`.

Conventions of the embedding.

* Machine integers are `Nat`/`Int` with the reduction of the C type written out:
  `CartXferRegister` is `uint64_t`, `CartridgeIndex` and `CartFrameIndex` are
  `uint16_t`, `int` is 32 bits wide (two's complement, conversions wrap).
* A C array is a function from the index to the element; a buffer (`char[1024]`,
  `void *`) is a function from the byte offset to the byte.
* A pointer into `infoTable` is the pair of its grid coordinates, `NULL` is `none`;
  a pointer to a slot's `framebuf` is the slot's index.
* Global state is passed explicitly.
-/

namespace Cart

/-! ## Register codec (`create_cart_opcode`, `extract_cart_opcode`) -/

/-- The 64 machine bits of an `int64_t` value (two's complement). -/
def bits64 (x : Int) : Nat := (x % 18446744073709551616).toNat

/-- The C expression `(x & mask) << sh` on an `int64_t` operand, stored into a
`CartXferRegister` (`uint64_t`): the bits that leave the 64-bit word are lost. -/
def maskShift (x : Int) (mask sh : Nat) : Nat :=
  ((bits64 x &&& mask) <<< sh) % 18446744073709551616

/-- `create_cart_opcode` of `cart_driver.c`. -/
def create_cart_opcode (ky1 ky2 rt1 ct1 fm1 : Int) : Nat :=
  let temp_ky1 := maskShift ky1 0xff 56
  let temp_ky2 := maskShift ky2 0xff 48
  let temp_rt1 := maskShift rt1 0xf 47
  let temp_ct1 := maskShift ct1 0xffff 31
  let temp_fm1 := maskShift fm1 0xffff 15
  temp_ky1 ||| temp_ky2 ||| temp_rt1 ||| temp_ct1 ||| temp_fm1

/-- `create_cache_opcode` of `cart_cache.c` (the same body). -/
def create_cache_opcode (ky1 ky2 rt1 ct1 fm1 : Int) : Nat :=
  let temp_ky1 := maskShift ky1 0xff 56
  let temp_ky2 := maskShift ky2 0xff 48
  let temp_rt1 := maskShift rt1 0xf 47
  let temp_ct1 := maskShift ct1 0xffff 31
  let temp_fm1 := maskShift fm1 0xffff 15
  temp_ky1 ||| temp_ky2 ||| temp_rt1 ||| temp_ct1 ||| temp_fm1

/-- `x <<= k` on a `uint64_t`. -/
def shl64 (x k : Nat) : Nat := (x <<< k) % 18446744073709551616

/-- The five register fields held by the caller's variables
`ky1, ky2, rt1, ct1, fm1` (each a `CartXferRegister`). -/
structure Fields where
  ky1 : Nat
  ky2 : Nat
  rt1 : Nat
  ct1 : Nat
  fm1 : Nat
deriving DecidableEq, Repr

/-- `extract_cart_opcode` of `cart_driver.c`: the return value and the new contents
of the five pointed-to variables.  The body reads `*ky1 .. *fm1`, the previous
contents of the outputs, and never reads `resp`. -/
def extract_cart_opcode (resp : Nat) (old : Fields) : Int × Fields :=
  let _ := resp
  let extract_ky1 := old.ky1 &&& 0xff
  let extract_ky2 := old.ky2 &&& 0xff
  let extract_rt1 := old.rt1 &&& 0xff
  let extract_ct1 := old.ct1 &&& 0xff
  let extract_fm1 := old.fm1 &&& 0xff
  let extract_ky1 := shl64 (extract_ky1 >>> 56) 56
  let extract_ky2 := (shl64 extract_ky2 8) >>> 56
  let extract_rt1 := (shl64 extract_rt1 16) >>> 63
  let extract_ct1 := (shl64 extract_ct1 17) >>> 48
  let extract_fm1 := (shl64 extract_fm1 33) >>> 48
  (0, { ky1 := extract_ky1, ky2 := extract_ky2, rt1 := extract_rt1,
        ct1 := extract_ct1, fm1 := extract_fm1 })

/-- `extract_cache_opcode` of `cart_cache.c` (the same body). -/
def extract_cache_opcode (resp : Nat) (old : Fields) : Int × Fields :=
  let _ := resp
  let extract_ky1 := old.ky1 &&& 0xff
  let extract_ky2 := old.ky2 &&& 0xff
  let extract_rt1 := old.rt1 &&& 0xff
  let extract_ct1 := old.ct1 &&& 0xff
  let extract_fm1 := old.fm1 &&& 0xff
  let extract_ky1 := shl64 (extract_ky1 >>> 56) 56
  let extract_ky2 := (shl64 extract_ky2 8) >>> 56
  let extract_rt1 := (shl64 extract_rt1 16) >>> 63
  let extract_ct1 := (shl64 extract_ct1 17) >>> 48
  let extract_fm1 := (shl64 extract_fm1 33) >>> 48
  (0, { ky1 := extract_ky1, ky2 := extract_ky2, rt1 := extract_rt1,
        ct1 := extract_ct1, fm1 := extract_fm1 })

/-! ## Machine conversions and buffers -/

/-- Conversion of an unsigned value to `int` (32 bits, wrapping). -/
def toInt32 (n : Nat) : Int :=
  if n % 4294967296 < 2147483648 then ((n % 4294967296 : Nat) : Int)
  else ((n % 4294967296 : Nat) : Int) - 4294967296

/-- Conversion of an unsigned value to `int16_t` (wrapping). -/
def toInt16 (n : Nat) : Int :=
  if n % 65536 < 32768 then ((n % 65536 : Nat) : Int) else ((n % 65536 : Nat) : Int) - 65536

/-- Conversion of a signed value to `uint32_t`. -/
def toU32 (x : Int) : Nat := (x % 4294967296).toNat

/-- A buffer: the byte at each offset. -/
abbrev Buf := Nat → Nat

/-- A C string (or string literal) given by its characters: NUL past its end. -/
def cstr (s : List Nat) : Buf := fun i => s.getD i 0

/-- `strlen`: number of characters before the first NUL. -/
def strlen (s : List Nat) : Nat := (s.takeWhile (fun c => c != 0)).length

/-- Some byte of `src[0..i)` is NUL. -/
def nulBefore (src : Buf) : Nat → Bool
  | 0 => false
  | i + 1 => nulBefore src i || (src i == 0)

/-- `strncpy(dst, src, n)`: the bytes of `src` up to its first NUL, then NUL padding,
`n` bytes in all; `dst` keeps its bytes from offset `n` on. -/
def strncpy (dst src : Buf) (n : Nat) : Buf :=
  fun i => if i < n then (if nulBefore src i then 0 else src i) else dst i

/-- `memcpy(&dst[doff], &src[soff], n)`. -/
def memcpy (dst : Buf) (doff : Nat) (src : Buf) (soff n : Nat) : Buf :=
  fun i => if doff ≤ i ∧ i < doff + n then src (soff + (i - doff)) else dst i

/-- `strncmp(a + k, b + k, n) == 0`. -/
def strncmp0 (a b : Buf) : Nat → Nat → Bool
  | 0, _ => true
  | n + 1, k => if a k != b k then false else if a k == 0 then true else strncmp0 a b n (k + 1)

/-- The loop `for (i = 0; i < n; i++) if (p i) { ...; break; }`: the index at which
the body runs, if any (the least `i < n` with `p i`). -/
def firstIndex (p : Nat → Bool) : Nat → Option Nat
  | 0 => none
  | n + 1 =>
    match firstIndex p n with
    | some i => some i
    | none => if p n then some n else none

/-! ## Frame cache (`cart_cache.c`) -/

/-- `DEFAULT_CART_FRAME_CACHE_SIZE` of `cart_cache.h`: the length of the slot array. -/
def DEFAULT_CART_FRAME_CACHE_SIZE : Nat := 1024

/-- `struct CacheFrames` (without `mark`, which only the unit test's own array uses).
`frame_num` and `cart_num` are `CartFrameIndex`, an unsigned 16-bit type: the `-1`
stored in an empty slot is 65535. -/
structure CacheFrames where
  time : Int
  frame_num : Nat
  cart_num : Nat
  framebuf : Buf

/-- The globals `cache_structure` (fields `size`, `num_occupied`, `open`, `frames`)
and `global_time` of `cart_cache.c`. -/
structure CacheState where
  size : Int
  num_occupied : Int
  open_ : Bool
  frames : Nat → CacheFrames
  global_time : Nat

/-- `global_time++` on the `uint64_t` clock. -/
def tick (g : Nat) : Nat := (g + 1) % 18446744073709551616

/-- `get_cache_size`. -/
def get_cache_size (s : CacheState) : Int := s.size

/-- `get_cache_num_occupied`. -/
def get_cache_num_occupied (s : CacheState) : Int := s.num_occupied

/-- `(int) INFINITY` as the compiler folds it: `INT_MAX`. -/
def INT_MAX : Int := 2147483647

/-- The loop shared by `get_lowest_time_frame` and `get_lowest_time_cart`:
`(min_time, index_of_frame)` after the iterations `i < n`. -/
def lowest_time_loop (s : CacheState) : Nat → Int × Nat
  | 0 => (INT_MAX, 0)
  | i + 1 =>
    let r := lowest_time_loop s i
    if (s.frames i).time < r.1 then ((s.frames i).time, i) else r

/-- `index_of_frame` at the end of the loop. -/
def lowest_time_index (s : CacheState) : Nat := (lowest_time_loop s s.size.toNat).2

/-- `get_lowest_time_frame`. -/
def get_lowest_time_frame (s : CacheState) : Nat :=
  (s.frames (lowest_time_index s)).frame_num

/-- `get_lowest_time_cart`. -/
def get_lowest_time_cart (s : CacheState) : Nat :=
  (s.frames (lowest_time_index s)).cart_num

/-- The test `frames[i].cart_num == cart && frames[i].frame_num == frm`. -/
def slotMatches (s : CacheState) (cart frm : Nat) (i : Nat) : Bool :=
  (s.frames i).cart_num == cart && (s.frames i).frame_num == frm

/-- `update_cache` (returns 0).  The arguments are converted to the 16-bit
parameter types. -/
def update_cache (s : CacheState) (cart frm : Nat) (buf : Buf) : CacheState :=
  match firstIndex (slotMatches s (cart % 65536) (frm % 65536)) s.size.toNat with
  | some i =>
    { s with
      frames := Function.update s.frames i
        { s.frames i with
          time := toInt32 s.global_time
          framebuf := strncpy (s.frames i).framebuf buf 1024 }
      global_time := tick s.global_time }
  | none => s

/-- `set_cart_cache_size` (returns 0): the `uint32_t` argument is stored in the
`int` field. -/
def set_cart_cache_size (s : CacheState) (max_frames : Nat) : CacheState :=
  { s with size := toInt32 max_frames }

/-- The reset of one slot in `init_cart_cache` and `close_cart_cache`. -/
def resetSlot (fr : CacheFrames) : CacheFrames :=
  { time := -1, cart_num := 65535, frame_num := 65535,
    framebuf := strncpy fr.framebuf (cstr [32]) 1 }

/-- `init_cart_cache` (returns 0). -/
def init_cart_cache (s : CacheState) : CacheState :=
  { s with
    open_ := true
    num_occupied := 0
    frames := fun i => if i < s.size.toNat then resetSlot (s.frames i) else s.frames i }

/-- `close_cart_cache` (returns 0). -/
def close_cart_cache (s : CacheState) : CacheState :=
  { s with
    frames := fun i =>
      if i < DEFAULT_CART_FRAME_CACHE_SIZE then resetSlot (s.frames i) else s.frames i
    open_ := false }

/-- `put_cart_cache` (returns 0). -/
def put_cart_cache (s : CacheState) (cart frm : Nat) (buf : Buf) : CacheState :=
  match firstIndex (fun i => (s.frames i).time == -1) s.size.toNat with
  | some i =>
    { s with
      frames := Function.update s.frames i
        { framebuf := strncpy (s.frames i).framebuf buf 1024
          time := toInt32 s.global_time
          cart_num := cart % 65536
          frame_num := frm % 65536 }
      num_occupied := s.num_occupied + 1
      global_time := tick s.global_time }
  | none => s

/-- `get_cart_cache`: the new state and the returned pointer, `none` for `NULL`,
`some i` for `&frames[i].framebuf`. -/
def get_cart_cache (s : CacheState) (cart frm : Nat) : CacheState × Option Nat :=
  match firstIndex (slotMatches s (cart % 65536) (frm % 65536)) s.size.toNat with
  | some i =>
    ({ s with
       frames := Function.update s.frames i { s.frames i with time := toInt32 s.global_time }
       global_time := tick s.global_time }, some i)
  | none => ({ s with global_time := tick s.global_time }, none)

/-- `delete_cart_cache`: the new state and the index `i` of the returned pointer
`&frames[i].framebuf` (0 when no slot matched). -/
def delete_cart_cache (s : CacheState) (cart blk : Nat) : CacheState × Nat :=
  match firstIndex (slotMatches s (cart % 65536) (blk % 65536)) s.size.toNat with
  | some i =>
    ({ s with
       frames := Function.update s.frames i
         { s.frames i with frame_num := 65535, cart_num := 65535, time := -1 }
       num_occupied := s.num_occupied - 1 }, i)
  | none => (s, 0)

/-- The buffer behind a pointer returned by `get_cart_cache`. -/
def cachedBuf (r : CacheState × Option Nat) : Option Buf :=
  r.2.map (fun i => (r.1.frames i).framebuf)

/-! ### The unit test `cartCacheUnitTest` -/

/-- The state of the unit test: the cache and the `mark` flag the test keeps for
each frame it draws, here indexed by the frame's `(cart_num, frame_num)`. -/
structure TestState where
  cache : CacheState
  mark : Nat → Nat → Bool

/-- The string literal the test puts after an eviction. -/
def testBufEvict : Buf :=
  cstr [67, 97, 110, 116, 32, 117, 115, 101, 32, 110, 117, 108, 108, 32, 98, 114, 117, 104]

/-- The string literal the test puts into a cache that is not full. -/
def testBufInsert : Buf := cstr [74, 97, 115, 111, 110, 32, 76, 105, 110, 103]

/-- The string literal the test stores with `update_cache`. -/
def testBufUpdate : Buf :=
  cstr [65, 32, 98, 105, 108, 108, 105, 111, 110, 32, 104, 111, 117, 114, 115, 32, 111, 110,
    32, 116, 104, 105, 115, 32, 97, 115, 115, 105, 103, 110, 109, 101, 110, 116, 32, 115,
    109, 104]

/-- One drawn step of the test: `get_or_put` and the frame's pair. -/
structure TestDraw where
  get_or_put : Nat
  cart_num : Nat
  frame_num : Nat

/-- The statement `global_time++` at the head of the test's loop. -/
def tickClock (s : CacheState) : CacheState := { s with global_time := tick s.global_time }

/-- One iteration of the loop of `cartCacheUnitTest` for the drawn step; `none` when
the iteration returns -1. -/
def unitTestStep (t : TestState) (d : TestDraw) : Option TestState :=
  let c0 := tickClock t.cache
  let r := get_cart_cache c0 d.cart_num d.frame_num
  if d.get_or_put = 0 then
    if r.2.isNone && t.mark d.cart_num d.frame_num then none
    else if r.2.isSome && !(t.mark d.cart_num d.frame_num) then none
    else some { cache := r.1, mark := t.mark }
  else
    if r.2.isNone && r.1.size == r.1.num_occupied then
      let temp_cart := get_lowest_time_cart r.1
      let temp_frame := get_lowest_time_frame r.1
      let c1 := (delete_cart_cache r.1 temp_cart temp_frame).1
      let m1 : Nat → Nat → Bool :=
        fun c f => if c = temp_cart ∧ f = temp_frame then false else t.mark c f
      let c2 := put_cart_cache c1 d.cart_num d.frame_num testBufEvict
      some { cache := c2
             mark := fun c f => if c = d.cart_num ∧ f = d.frame_num then true else m1 c f }
    else if r.2.isNone && decide (r.1.size > r.1.num_occupied) then
      let c2 := put_cart_cache r.1 d.cart_num d.frame_num testBufInsert
      some { cache := c2
             mark := fun c f => if c = d.cart_num ∧ f = d.frame_num then true else t.mark c f }
    else if r.2.isSome then
      let c2 := update_cache r.1 d.cart_num d.frame_num testBufUpdate
      some { cache := c2
             mark := fun c f => if c = d.cart_num ∧ f = d.frame_num then true else t.mark c f }
    else none

/-- The loop of the test over a list of drawn steps. -/
def unitTestRun : TestState → List TestDraw → Option TestState
  | t, [] => some t
  | t, d :: ds =>
    match unitTestStep t d with
    | some t1 => unitTestRun t1 ds
    | none => none

/-- The start of a test sequence for capacity `cache_size`: `set_cart_cache_size`,
then `init_cart_cache`, every `mark` false. -/
def freshTest (s : CacheState) (cache_size : Nat) : TestState :=
  { cache := init_cart_cache (set_cart_cache_size s cache_size)
    mark := fun _ _ => false }

/-- The set-up of `cartCacheUnitTest`: `global_time = 0`, then the start of a test
sequence (the test itself takes `cache_size = 40`). -/
def unitTestInit (s : CacheState) (cache_size : Nat) : TestState :=
  freshTest { s with global_time := 0 } cache_size

/-! ## Transport (`cart_client.c` and the device behind it) -/

/-- The constants of `cart_controller.h` and `cart_driver.h`, headers that are not
among the sources: the grid and file-table dimensions and the opcode values. -/
structure CartConfig where
  CART_MAX_CARTRIDGES : Nat
  CART_CARTRIDGE_SIZE : Nat
  CART_MAX_TOTAL_FILES : Nat
  CART_MAX_PATH_LENGTH : Nat
  CART_OP_INITMS : Nat
  CART_OP_BZERO : Nat
  CART_OP_LDCART : Nat
  CART_OP_RDFRME : Nat
  CART_OP_WRFRME : Nat
  CART_OP_POWOFF : Nat

/-- Modelled from the spec: the device reached through `client_cart_bus_request`
(an external collaborator, spec section 6) as a store: the cartridge selected by
the last LOAD-CARTRIDGE, the 1024-byte payload last written to each
(cartridge, frame), and the registers received so far, oldest first. -/
structure Transport where
  loaded : Nat
  store : Nat → Nat → Buf
  log : List Nat

/-- `extract_reg` of `cart_client.c`: `reg >> 56` stored in an `int8_t`. -/
def extract_reg (reg : Nat) : Int :=
  let d := (reg >>> 56) % 256
  if d < 128 then (d : Int) else (d : Int) - 256

/-- Modelled from the spec: the cartridge field of a register (spec section 3). -/
def regCart (reg : Nat) : Nat := (reg >>> 31) % 65536

/-- Modelled from the spec: the frame field of a register (spec section 3). -/
def regFrame (reg : Nat) : Nat := (reg >>> 15) % 65536

/-- `client_cart_bus_request` of `cart_client.c` on an established connection, with
the device modelled from the spec (section 6): the new device state and the contents
of `buf` after the call (the payload read back on READ-FRAME, `buf` itself
otherwise).  The response register, which the driver never reads, is left out. -/
def client_cart_bus_request (cfg : CartConfig) (t : Transport) (reg : Nat) (buf : Buf) :
    Transport × Buf :=
  let opcode := extract_reg reg
  let t1 := { t with log := t.log ++ [reg] }
  if opcode = (cfg.CART_OP_RDFRME : Int) then
    (t1, fun i => if i < 1024 then t.store t.loaded (regFrame reg) i else buf i)
  else if opcode = (cfg.CART_OP_WRFRME : Int) then
    ({ t1 with
       store := fun c f =>
         if c = t.loaded ∧ f = regFrame reg then (fun i => if i < 1024 then buf i else 0)
         else t.store c f }, buf)
  else if opcode = (cfg.CART_OP_POWOFF : Int) then (t1, buf)
  else if opcode = (cfg.CART_OP_INITMS : Int) then (t1, buf)
  else if opcode = (cfg.CART_OP_BZERO : Int) then
    ({ t1 with store := fun c f => if c = t.loaded then (fun _ => 0) else t.store c f }, buf)
  else if opcode = (cfg.CART_OP_LDCART : Int) then
    ({ t1 with loaded := regCart reg }, buf)
  else (t1, buf)

/-! ## Storage translation layer (`cart_driver.c`) -/

/-- A `struct Table *` into `infoTable`: the grid coordinates, `none` for `NULL`. -/
abbrev FramePtr := Option (Nat × Nat)

/-- `struct Table`. -/
structure Table where
  handle : Int
  bytesUsed : Nat
  frame_num : Nat
  cart_num : Nat
  nextFrame : FramePtr

/-- `struct FileStructure`. -/
structure FileStructure where
  fileName : Buf
  open_ : Bool
  filled : Bool
  handle : Int
  length : Nat
  location : Nat
  tablePtr : FramePtr

/-- `struct CartStructure`, the type of the global `mainStructure`. -/
structure CartStructure where
  cart_is_on : Bool
  infoTable : Nat → Nat → Table
  fileTable : Nat → FileStructure

/-- The whole state: `mainStructure`, the cache globals and the device. -/
structure State where
  mainStructure : CartStructure
  cache : CacheState
  bus : Transport

/-- Assignment to the fields of `fileTable[idx]`. -/
def setFile (m : CartStructure) (idx : Nat) (f : FileStructure) : CartStructure :=
  { m with fileTable := Function.update m.fileTable idx f }

/-- Assignment to the fields of `infoTable[i][j]`. -/
def setInfo (m : CartStructure) (p : Nat × Nat) (t : Table) : CartStructure :=
  { m with infoTable := fun a b => if a = p.1 ∧ b = p.2 then t else m.infoTable a b }

/-- The tables as `cart_poweron` and `cart_poweroff` initialise them. -/
def clearedTables (cfg : CartConfig) (m : CartStructure) : CartStructure :=
  { m with
    fileTable := fun i =>
      if i < cfg.CART_MAX_TOTAL_FILES then
        { fileName := strncpy (m.fileTable i).fileName (cstr [32]) cfg.CART_MAX_PATH_LENGTH
          open_ := false, filled := false, handle := -1, length := 0
          tablePtr := none, location := 0 }
      else m.fileTable i
    infoTable := fun i j =>
      if i < cfg.CART_MAX_CARTRIDGES ∧ j < cfg.CART_CARTRIDGE_SIZE then
        { handle := -1, bytesUsed := 0, cart_num := i, frame_num := j, nextFrame := none }
      else m.infoTable i j }

/-- The loop of `cart_poweron` that loads and zeroes the cartridges `i, i+1, ..`
(`n` of them). -/
def loadAndZero (cfg : CartConfig) : Nat → Nat → Transport → Transport
  | 0, _, t => t
  | n + 1, i, t =>
    let t1 := (client_cart_bus_request cfg t
      (create_cart_opcode cfg.CART_OP_LDCART 0 0 i 0) (fun _ => 0)).1
    let t2 := (client_cart_bus_request cfg t1
      (create_cart_opcode cfg.CART_OP_BZERO 0 0 0 0) (fun _ => 0)).1
    loadAndZero cfg n (i + 1) t2

/-- `cart_poweron`. -/
def cart_poweron (cfg : CartConfig) (s : State) : State × Int :=
  let cache := init_cart_cache s.cache
  if s.mainStructure.cart_is_on then ({ s with cache := cache }, -1)
  else
    let m := { clearedTables cfg s.mainStructure with cart_is_on := true }
    let t1 := (client_cart_bus_request cfg s.bus
      (create_cart_opcode cfg.CART_OP_INITMS 0 0 0 0) (fun _ => 0)).1
    let t2 := loadAndZero cfg cfg.CART_MAX_CARTRIDGES 0 t1
    ({ mainStructure := m, cache := cache, bus := t2 }, 0)

/-- `cart_poweroff`. -/
def cart_poweroff (cfg : CartConfig) (s : State) : State × Int :=
  let cache := close_cart_cache s.cache
  if !s.mainStructure.cart_is_on then ({ s with cache := cache }, -1)
  else
    let t1 := (client_cart_bus_request cfg s.bus
      (create_cart_opcode cfg.CART_OP_POWOFF 0 0 0 0) (fun _ => 0)).1
    let m := clearedTables cfg { s.mainStructure with cart_is_on := false }
    ({ mainStructure := m, cache := cache, bus := t1 }, 0)

/-- The test `strncmp(fileTable[i].fileName, name, length_of_path) == 0`. -/
def nameMatches (m : CartStructure) (path : List Nat) (i : Nat) : Bool :=
  strncmp0 (m.fileTable i).fileName (cstr path) (strlen path) 0

/-- `cart_open`; `none` when the search for an unfilled slot leaves the file table. -/
def cart_open (cfg : CartConfig) (s : State) (path : List Nat) : Option (State × Int) :=
  let m := s.mainStructure
  match firstIndex (nameMatches m path) cfg.CART_MAX_TOTAL_FILES with
  | some i =>
    if (m.fileTable i).open_ then some (s, -1)
    else
      let f : FileStructure := { m.fileTable i with open_ := true, location := 0 }
      some ({ s with mainStructure := setFile m i f }, toInt16 i)
  | none =>
    match firstIndex (fun i => !(m.fileTable i).filled) cfg.CART_MAX_TOTAL_FILES with
    | some counter =>
      let f : FileStructure :=
        { m.fileTable counter with
          handle := toInt16 counter
          fileName := strncpy (m.fileTable counter).fileName (cstr path) (strlen path)
          open_ := true
          length := 0
          filled := true
          location := 0 }
      some ({ s with mainStructure := setFile m counter f }, toInt16 counter)
    | none => none

/-- The search `for (i ..) if (fileTable[i].handle == fd)` shared by `cart_close`,
`cart_read`, `cart_write` and `cart_seek`. -/
def findHandle (cfg : CartConfig) (m : CartStructure) (fd : Int) : Option Nat :=
  firstIndex (fun i => (m.fileTable i).handle == fd) cfg.CART_MAX_TOTAL_FILES

/-- `cart_close`. -/
def cart_close (cfg : CartConfig) (s : State) (fd : Int) : State × Int :=
  match findHandle cfg s.mainStructure fd with
  | none => (s, -1)
  | some idx =>
    if !(s.mainStructure.fileTable idx).open_ then (s, -1)
    else
      let f : FileStructure := { s.mainStructure.fileTable idx with open_ := false }
      ({ s with mainStructure := setFile s.mainStructure idx f }, 0)

/-- `cart_seek`. -/
def cart_seek (cfg : CartConfig) (s : State) (fd : Int) (loc : Nat) : State × Int :=
  match findHandle cfg s.mainStructure fd with
  | none => (s, -1)
  | some idx =>
    if loc > (s.mainStructure.fileTable idx).length then (s, -1)
    else if !(s.mainStructure.fileTable idx).open_ then (s, -1)
    else
      let f : FileStructure := { s.mainStructure.fileTable idx with location := loc }
      ({ s with mainStructure := setFile s.mainStructure idx f }, 0)

/-- The walk `while (counter != k) { tempPtr = tempPtr->nextFrame; counter++; }`;
`none` when it dereferences `NULL`. -/
def walkFrames (m : CartStructure) : Nat → FramePtr → Option FramePtr
  | 0, p => some p
  | k + 1, p =>
    match p with
    | none => none
    | some q => walkFrames m k (m.infoTable q.1 q.2).nextFrame

/-- One request of the driver: `action_code = create_cart_opcode(..)`,
`client_cart_bus_request(action_code, buf)`, then
`extract_cart_opcode(action_code, &ky1, .., &fm1)` on the same variables. -/
def busCall (cfg : CartConfig) (t : Transport) (r : Fields) (buf : Buf) :
    Transport × Buf × Fields :=
  let action_code := create_cart_opcode r.ky1 r.ky2 r.rt1 r.ct1 r.fm1
  let q := client_cart_bus_request cfg t action_code buf
  (q.1, q.2, (extract_cart_opcode action_code r).2)

/-- The bytes handled by one iteration of `cart_read` and `cart_write`
(`bytes_reading_now`, `bytes_writing_now`): up to the end of the frame when
`start_bit + bytes_left > 1024`, all the bytes left otherwise (in `cart_write` the
cases `== 1024` and `< 1024` are two branches with the same assignment). -/
def chunk (start_bit bytes_left : Int) : Int :=
  if start_bit + bytes_left > 1024 then 1024 - start_bit else bytes_left

/-- The local variables of `cart_read` that live across iterations, with the state
and the caller's buffer. -/
structure ReadLoop where
  st : State
  buf : Buf
  regs : Fields
  start_read_bit : Int
  bytes_left_to_read : Int
  start_buf_read_bit : Int
  tempPtr : FramePtr

/-- One iteration of `while (bytes_left_to_read > 0)` in `cart_read`; `none` when
`tempPtr` is `NULL`. -/
def cart_read_body (cfg : CartConfig) (idx : Nat) (L : ReadLoop) : Option ReadLoop :=
  match L.tempPtr with
  | none => none
  | some p =>
    let fr := L.st.mainStructure.infoTable p.1 p.2
    let bytes_reading_now : Int := chunk L.start_read_bit L.bytes_left_to_read
    let g := get_cart_cache L.st.cache fr.cart_num fr.frame_num
    let out : Transport × Buf × Fields :=
      match g.2 with
      | some i =>
        (L.st.bus,
         memcpy L.buf L.start_buf_read_bit.toNat (g.1.frames i).framebuf
           L.start_read_bit.toNat bytes_reading_now.toNat,
         L.regs)
      | none =>
        let r1 := { L.regs with ky1 := cfg.CART_OP_LDCART, ct1 := fr.cart_num }
        let b1 := busCall cfg L.st.bus r1 (fun _ => 0)
        let r2 := { b1.2.2 with ky1 := cfg.CART_OP_RDFRME, fm1 := fr.frame_num }
        let b2 := busCall cfg b1.1 r2 (fun _ => 0)
        (b2.1,
         memcpy L.buf L.start_buf_read_bit.toNat b2.2.1
           L.start_read_bit.toNat bytes_reading_now.toNat,
         b2.2.2)
    let f := L.st.mainStructure.fileTable idx
    let m1 := setFile L.st.mainStructure idx
      { f with location := toU32 ((f.location : Int) + bytes_reading_now) }
    let bytes_read_already := L.start_read_bit + bytes_reading_now
    let left := L.bytes_left_to_read - bytes_reading_now
    some
      { st := { mainStructure := m1, cache := g.1, bus := out.1 }
        buf := out.2.1
        regs := out.2.2
        start_read_bit := 0
        bytes_left_to_read := left
        start_buf_read_bit := L.start_buf_read_bit + bytes_reading_now
        tempPtr := if bytes_read_already = 1024 ∧ left > 0 then fr.nextFrame else L.tempPtr }

/-- The loop `while (bytes_left_to_read > 0)` of `cart_read`, at most `fuel`
iterations; `none` on a `NULL` dereference or when the fuel runs out. -/
def cart_read_loop (cfg : CartConfig) (idx : Nat) : Nat → ReadLoop → Option ReadLoop
  | 0, L => if L.bytes_left_to_read > 0 then none else some L
  | fuel + 1, L =>
    if L.bytes_left_to_read > 0 then
      match cart_read_body cfg idx L with
      | some L1 => cart_read_loop cfg idx fuel L1
      | none => none
    else some L

/-- The clamp of `cart_read`: `if (count + location > length) { bytes_left_to_read =
length - location; count = bytes_left_to_read; }`, the sum and the difference computed
in `uint32_t`, the result stored in an `int32_t`. -/
def readCount (f : FileStructure) (count : Int) : Int :=
  if (toU32 count + f.location) % 4294967296 > f.length then
    toInt32 ((f.length + 4294967296 - f.location) % 4294967296)
  else count

/-- `cart_read`: the new state, the return value and the caller's buffer; `none` when
the call dereferences `NULL`.  Every iteration reads at least one byte, so
`bytes_left_to_read` iterations are enough fuel. -/
def cart_read (cfg : CartConfig) (s : State) (fd : Int) (buf : Buf) (count : Int) :
    Option (State × Int × Buf) :=
  match findHandle cfg s.mainStructure fd with
  | none => some (s, -1, buf)
  | some idx =>
    let f := s.mainStructure.fileTable idx
    let start_read_frame := f.location / 1024
    let start_read_bit := f.location % 1024
    let bytes_left_to_read : Int := readCount f count
    let count := bytes_left_to_read
    match walkFrames s.mainStructure start_read_frame f.tablePtr with
    | none => none
    | some tempPtr =>
      match cart_read_loop cfg idx bytes_left_to_read.toNat
          { st := s, buf := buf, regs := ⟨0, 0, 0, 0, 0⟩, start_read_bit := start_read_bit
            bytes_left_to_read := bytes_left_to_read, start_buf_read_bit := 0
            tempPtr := tempPtr } with
      | none => none
      | some L => some (L.st, count, L.buf)

/-- The loops that look for a free frame (`handle == -1`), cartridge by cartridge
from `i`, over `n` cartridges, with the flag that ends the outer loop: the frame
found, if any, and the flag afterwards. -/
def freeFrameSearch (cfg : CartConfig) (m : CartStructure) :
    Nat → Nat → Bool → FramePtr × Bool
  | 0, _, done => (none, done)
  | n + 1, i, done =>
    match firstIndex (fun j => (m.infoTable i j).handle == -1) cfg.CART_CARTRIDGE_SIZE with
    | some j => (some (i, j), true)
    | none => if done then (none, done) else freeFrameSearch cfg m n (i + 1) done

/-- The local variables of `cart_write` that live across iterations, with the state. -/
structure WriteLoop where
  st : State
  regs : Fields
  start_write_bit : Int
  bytes_left_to_write : Int
  buf_starting_point : Int
  tempbuf : Buf
  tempPtr : FramePtr
  done2 : Bool

/-- One iteration of `while (bytes_left_to_write > 0)` in `cart_write`; `none` when
`tempPtr` is `NULL`. -/
def cart_write_body (cfg : CartConfig) (idx : Nat) (buf : Buf) (L : WriteLoop) :
    Option WriteLoop :=
  match L.tempPtr with
  | none => none
  | some p =>
    let fr := L.st.mainStructure.infoTable p.1 p.2
    let bytes_writing_now : Int := chunk L.start_write_bit L.bytes_left_to_write
    let g := get_cart_cache L.st.cache fr.cart_num fr.frame_num
    let out : CacheState × Transport × Buf × Fields :=
      match g.2 with
      | none =>
        if get_cache_size g.1 = get_cache_num_occupied g.1 then
          let temp_low_cart := get_lowest_time_cart g.1
          let temp_low_frame := get_lowest_time_frame g.1
          let c1 := (delete_cart_cache g.1 temp_low_cart temp_low_frame).1
          let r1 := { L.regs with ky1 := cfg.CART_OP_LDCART, ct1 := fr.cart_num }
          let b1 := busCall cfg L.st.bus r1 (fun _ => 0)
          let r2 := { b1.2.2 with ky1 := cfg.CART_OP_RDFRME, fm1 := fr.frame_num }
          let b2 := busCall cfg b1.1 r2 L.tempbuf
          let tempbuf := memcpy b2.2.1 L.start_write_bit.toNat buf
            L.buf_starting_point.toNat bytes_writing_now.toNat
          let r3 := { b2.2.2 with ky1 := cfg.CART_OP_WRFRME, fm1 := fr.frame_num }
          let b3 := busCall cfg b2.1 r3 tempbuf
          (put_cart_cache c1 fr.cart_num fr.frame_num tempbuf, b3.1, tempbuf, b3.2.2)
        else
          let tempbuf := memcpy L.tempbuf L.start_write_bit.toNat buf
            L.buf_starting_point.toNat bytes_writing_now.toNat
          let r1 := { L.regs with ky1 := cfg.CART_OP_LDCART, ct1 := fr.cart_num }
          let b1 := busCall cfg L.st.bus r1 (fun _ => 0)
          let r2 := { b1.2.2 with ky1 := cfg.CART_OP_WRFRME, fm1 := fr.frame_num }
          let b2 := busCall cfg b1.1 r2 tempbuf
          (put_cart_cache g.1 fr.cart_num fr.frame_num tempbuf, b2.1, tempbuf, b2.2.2)
      | some i =>
        let cachebuf := memcpy (g.1.frames i).framebuf L.start_write_bit.toNat buf
          L.buf_starting_point.toNat bytes_writing_now.toNat
        let c1 := { g.1 with
          frames := Function.update g.1.frames i { g.1.frames i with framebuf := cachebuf } }
        let r1 := { L.regs with ky1 := cfg.CART_OP_LDCART, ct1 := fr.cart_num }
        let b1 := busCall cfg L.st.bus r1 (fun _ => 0)
        let r2 := { b1.2.2 with ky1 := cfg.CART_OP_WRFRME, fm1 := fr.frame_num }
        let b2 := busCall cfg b1.1 r2 cachebuf
        (update_cache c1 fr.cart_num fr.frame_num cachebuf, b2.1, L.tempbuf, b2.2.2)
    let f := L.st.mainStructure.fileTable idx
    let location := toU32 ((f.location : Int) + bytes_writing_now)
    let left := L.bytes_left_to_write - bytes_writing_now
    let f1 : FileStructure :=
      { f with
        location := location
        length := if location > f.length then location else f.length }
    let m1 := setFile L.st.mainStructure idx f1
    let bytesUsed := toU32 (L.start_write_bit + bytes_writing_now)
    let m2 := setInfo m1 p { fr with bytesUsed := bytesUsed }
    let link : CartStructure × FramePtr × Bool :=
      if bytesUsed = 1024 ∧ fr.nextFrame = none then
        let found := freeFrameSearch cfg m2
          (cfg.CART_MAX_CARTRIDGES - fr.cart_num % 65536) (fr.cart_num % 65536) L.done2
        match found.1 with
        | some q =>
          let m3 := setInfo m2 p { m2.infoTable p.1 p.2 with nextFrame := some q }
          let m4 := setInfo m3 q { m3.infoTable q.1 q.2 with handle := fr.handle }
          (m4, some q, found.2)
        | none => (m2, L.tempPtr, found.2)
      else if bytesUsed = 1024 ∧ fr.nextFrame ≠ none then (m2, fr.nextFrame, L.done2)
      else (m2, L.tempPtr, L.done2)
    some
      { st := { mainStructure := link.1, cache := out.1, bus := out.2.1 }
        regs := out.2.2.2
        start_write_bit := 0
        bytes_left_to_write := left
        buf_starting_point := L.buf_starting_point + bytes_writing_now
        tempbuf := out.2.2.1
        tempPtr := link.2.1
        done2 := link.2.2 }

/-- The loop `while (bytes_left_to_write > 0)` of `cart_write`, at most `fuel`
iterations; `none` on a `NULL` dereference or when the fuel runs out. -/
def cart_write_loop (cfg : CartConfig) (idx : Nat) (buf : Buf) :
    Nat → WriteLoop → Option WriteLoop
  | 0, L => if L.bytes_left_to_write > 0 then none else some L
  | fuel + 1, L =>
    if L.bytes_left_to_write > 0 then
      match cart_write_body cfg idx buf L with
      | some L1 => cart_write_loop cfg idx buf fuel L1
      | none => none
    else some L

/-- `cart_write`: the new state and the return value; `none` when the call
dereferences `NULL`.  `tempbuf0` is the indeterminate initial content of the local
`tempbuf`.  Every iteration writes at least one byte, so `count` iterations are
enough fuel. -/
def cart_write (cfg : CartConfig) (s : State) (fd : Int) (buf : Buf) (count : Int)
    (tempbuf0 : Buf) : Option (State × Int) :=
  match findHandle cfg s.mainStructure fd with
  | none => some (s, -1)
  | some idx =>
    let m0 := s.mainStructure
    let m1 : CartStructure :=
      if (m0.fileTable idx).tablePtr = none then
        match (freeFrameSearch cfg m0 cfg.CART_MAX_CARTRIDGES 0 false).1 with
        | some q =>
          setInfo (setFile m0 idx { m0.fileTable idx with tablePtr := some q }) q
            { m0.infoTable q.1 q.2 with handle := fd }
        | none => m0
      else m0
    let f := m1.fileTable idx
    let start_write_frame := f.location / 1024
    let start_write_bit := f.location % 1024
    match walkFrames m1 start_write_frame f.tablePtr with
    | none => none
    | some tempPtr =>
      match cart_write_loop cfg idx buf count.toNat
          { st := { s with mainStructure := m1 }, regs := ⟨0, 0, 0, 0, 0⟩
            start_write_bit := start_write_bit, bytes_left_to_write := count
            buf_starting_point := 0, tempbuf := tempbuf0, tempPtr := tempPtr
            done2 := false } with
      | none => none
      | some L => some (L.st, count)

/-! ## Call sequences, scenarios and reference definitions of the statements -/

/-- One call of the cache interface. -/
inductive CacheOp where
  | put (cart frm : Nat) (buf : Buf)
  | get (cart frm : Nat)
  | update (cart frm : Nat) (buf : Buf)
  | delete (cart frm : Nat)

/-- The cache after one call. -/
def applyOp (s : CacheState) : CacheOp → CacheState
  | CacheOp.put c f b => put_cart_cache s c f b
  | CacheOp.get c f => (get_cart_cache s c f).1
  | CacheOp.update c f b => update_cache s c f b
  | CacheOp.delete c f => (delete_cart_cache s c f).1

/-- The cache after a sequence of calls. -/
def runOps : CacheState → List CacheOp → CacheState
  | s, [] => s
  | s, op :: ops => runOps (applyOp s op) ops

/-- Number of slots among the first `n` whose timestamp is not -1. -/
def countNonEmpty (frames : Nat → CacheFrames) : Nat → Nat
  | 0 => 0
  | n + 1 => countNonEmpty frames n + (if (frames n).time = -1 then 0 else 1)

/-- The all-zero buffer. -/
def zeroBuf : Buf := fun _ => 0

/-- The cache globals at program start: static storage is zero, `size` is
initialised to `DEFAULT_CART_FRAME_CACHE_SIZE`. -/
def bootCache : CacheState :=
  { size := 1024, num_occupied := 0, open_ := false
    frames := fun _ => { time := 0, frame_num := 0, cart_num := 0, framebuf := zeroBuf }
    global_time := 0 }

/-- The program state at start: zeroed `mainStructure`, the cache globals of
`bootCache`, a device whose frames are all zero. -/
def bootState : State :=
  { mainStructure :=
      { cart_is_on := false
        infoTable := fun _ _ =>
          { handle := 0, bytesUsed := 0, frame_num := 0, cart_num := 0, nextFrame := none }
        fileTable := fun _ =>
          { fileName := zeroBuf, open_ := false, filled := false, handle := 0, length := 0
            location := 0, tablePtr := none } }
    cache := bootCache
    bus := { loaded := 0, store := fun _ _ => zeroBuf, log := [] } }

/-- A small instance of the constants: 2 cartridges of 3 frames, 4 files, the
opcodes numbered 0 to 5. -/
def smallConfig : CartConfig :=
  { CART_MAX_CARTRIDGES := 2, CART_CARTRIDGE_SIZE := 3, CART_MAX_TOTAL_FILES := 4
    CART_MAX_PATH_LENGTH := 128, CART_OP_INITMS := 0, CART_OP_BZERO := 1
    CART_OP_LDCART := 2, CART_OP_RDFRME := 3, CART_OP_WRFRME := 4, CART_OP_POWOFF := 5 }

/-- The round-trip scenario: `cart_poweron`, `h = cart_open(name)`,
`cart_write(h, P, n)`, `cart_seek(h, 0)`, `cart_read(h, buf, n)`: the value returned by
the read and the buffer it filled. -/
def roundTrip (cfg : CartConfig) (s : State) (name : List Nat) (P : Buf) (n : Nat)
    (tempbuf0 buf0 : Buf) : Option (Int × Buf) :=
  let s1 := (cart_poweron cfg s).1
  match cart_open cfg s1 name with
  | none => none
  | some r2 =>
    match cart_write cfg r2.1 r2.2 P n tempbuf0 with
    | none => none
    | some r3 =>
      let s4 := (cart_seek cfg r3.1 r2.2 0).1
      match cart_read cfg s4 r2.2 buf0 n with
      | none => none
      | some r5 => some (r5.2.1, r5.2.2)

/-- The occupancy counter is at most the number of non-empty slots (and the capacity
is not negative). -/
def OccBound (s : CacheState) : Prop :=
  0 ≤ s.size ∧ s.num_occupied ≤ (countNonEmpty s.frames s.size.toNat : Int)

/-- A consistent cache: the capacity lies within the slot array, the occupancy counts
the non-empty slots, an empty slot holds the pair (65535, 65535) that
`init_cart_cache` and `delete_cart_cache` store, a non-empty slot holds a 16-bit pair
other than that one, and no two non-empty slots hold the same pair. -/
def CacheConsistent (s : CacheState) : Prop :=
  0 ≤ s.size ∧ s.size ≤ 1024
  ∧ s.num_occupied = (countNonEmpty s.frames s.size.toNat : Int)
  ∧ (∀ i, i < s.size.toNat → (s.frames i).time = -1 →
      (s.frames i).cart_num = 65535 ∧ (s.frames i).frame_num = 65535)
  ∧ (∀ i, i < s.size.toNat → (s.frames i).time ≠ -1 →
      (s.frames i).cart_num < 65536 ∧ (s.frames i).frame_num < 65536
      ∧ ¬ ((s.frames i).cart_num = 65535 ∧ (s.frames i).frame_num = 65535))
  ∧ (∀ i, i < s.size.toNat → ∀ j, j < s.size.toNat →
      ((s.frames i).time ≠ -1 ∧ (s.frames j).time ≠ -1
        ∧ (s.frames i).cart_num = (s.frames j).cart_num
        ∧ (s.frames i).frame_num = (s.frames j).frame_num) → i = j)

/-- The eviction done by `cart_write` and by the unit test:
`delete_cart_cache(get_lowest_time_cart(), get_lowest_time_frame())`. -/
def evictLowest (s : CacheState) : CacheState :=
  (delete_cart_cache s (get_lowest_time_cart s) (get_lowest_time_frame s)).1

/-- A full cache of capacity 2: the start-up globals, `set_cart_cache_size(2)`,
`init_cart_cache()`, then the pairs (1, 1) and (2, 2) put. -/
def fullCache2 : CacheState :=
  runOps (init_cart_cache (set_cart_cache_size bootCache 2))
    [CacheOp.put 1 1 zeroBuf, CacheOp.put 2 2 zeroBuf]

/-- The pair `(c, f)` is held by a non-empty slot of the cache. -/
def Held (s : CacheState) (c f : Nat) : Prop :=
  ∃ i, i < s.size.toNat ∧ (s.frames i).time ≠ -1
    ∧ (s.frames i).cart_num = c ∧ (s.frames i).frame_num = f

/-- The invariant of the unit test: the cache is consistent, of capacity at least 1,
and the `mark` flags are exactly the pairs held by the cache. -/
def TestInv (t : TestState) : Prop :=
  CacheConsistent t.cache ∧ 1 ≤ t.cache.size
  ∧ ∀ c f, t.mark c f = true ↔ Held t.cache c f

/-- A buffer whose first byte is NUL and whose second byte is 1. -/
def nulThenOne : Buf := fun i => if i = 1 then 1 else 0

/-- A buffer of bytes 1. -/
def allOnes : Buf := fun _ => 1

/-- The pair held by slot `i`. -/
def slotPair (s : CacheState) (i : Nat) : Nat × Nat :=
  ((s.frames i).cart_num, (s.frames i).frame_num)

/-- Reference recency order, a touch: a cached pair moves to the most recent end;
a pair that is not cached is a miss and changes nothing. -/
def recencyTouch (l : List (Nat × Nat)) (p : Nat × Nat) : List (Nat × Nat) :=
  if p ∈ l then l.erase p ++ [p] else l

/-- Reference recency order of a cache of capacity `C` after one call: the cached
pairs from the least to the most recently touched, where a touch is a put (which
caches the pair when a slot is free and does nothing otherwise), an update of a cached
pair or a successful get. -/
def recencyStep (C : Nat) (l : List (Nat × Nat)) : CacheOp → List (Nat × Nat)
  | CacheOp.put c f _ => if l.length < C then l ++ [(c % 65536, f % 65536)] else l
  | CacheOp.get c f => recencyTouch l (c % 65536, f % 65536)
  | CacheOp.update c f _ => recencyTouch l (c % 65536, f % 65536)
  | CacheOp.delete c f => l.erase (c % 65536, f % 65536)

/-- Reference recency order after a sequence of calls. -/
def recencyOrder (C : Nat) : List (Nat × Nat) → List CacheOp → List (Nat × Nat)
  | l, [] => l
  | l, op :: ops => recencyOrder C (recencyStep C l op) ops

/-- The sequence of calls has no delete and puts only pairs that are not cached at
that point. -/
def putsFresh (C : Nat) : List (Nat × Nat) → List CacheOp → Bool
  | _, [] => true
  | l, op :: ops =>
    (match op with
      | CacheOp.put c f _ => decide ((c % 65536, f % 65536) ∉ l)
      | CacheOp.delete _ _ => false
      | _ => true)
    && putsFresh C (recencyStep C l op) ops

/-- The cache agrees with the recency order `l`: the slots listed in `σ`, the first
`σ.length` slots in order of increasing timestamp, hold the pairs of `l`, and the
other slots are empty. -/
def LruGood (s : CacheState) (l : List (Nat × Nat)) (σ : List Nat) : Prop :=
  0 ≤ s.size ∧ σ.Nodup ∧ (∀ i, i ∈ σ ↔ i < σ.length) ∧ σ.length ≤ s.size.toNat
  ∧ s.num_occupied = (σ.length : Int)
  ∧ l = σ.map (slotPair s) ∧ l.Nodup
  ∧ σ.Pairwise (fun i j => (s.frames i).time < (s.frames j).time)
  ∧ (∀ i, i ∈ σ → 0 ≤ (s.frames i).time ∧ (s.frames i).time < (s.global_time : Int))
  ∧ (∀ i, σ.length ≤ i → i < s.size.toNat →
      (s.frames i).time = -1 ∧ (s.frames i).cart_num = 65535 ∧ (s.frames i).frame_num = 65535)

/-- The occupancy counter is below the number of non-empty slots (a lookup of the
pair (65535, 65535) has stamped an empty slot). -/
def LruBad (s : CacheState) : Prop :=
  0 ≤ s.size ∧ s.num_occupied < (countNonEmpty s.frames s.size.toNat : Int)

/-- A grid of one cartridge of two frames, otherwise as `smallConfig`. -/
def tinyConfig : CartConfig :=
  { CART_MAX_CARTRIDGES := 1, CART_CARTRIDGE_SIZE := 2, CART_MAX_TOTAL_FILES := 4
    CART_MAX_PATH_LENGTH := 128, CART_OP_INITMS := 0, CART_OP_BZERO := 1
    CART_OP_LDCART := 2, CART_OP_RDFRME := 3, CART_OP_WRFRME := 4, CART_OP_POWOFF := 5 }

/-- The program state at start after `set_cart_cache_size(n)`. -/
def bootStateCap (n : Nat) : State :=
  { bootState with cache := set_cart_cache_size bootCache n }

/-- A byte pattern: NUL at every multiple of 1024, 1 elsewhere. -/
def zeroAtFrameStarts : Buf := fun i => if i % 1024 = 0 then 0 else 1

/-- The state and the handle after `cart_poweron`, `h = cart_open(name)`,
`cart_write(h, P, n)` and `cart_seek(h, 0)`. -/
def writtenState (cfg : CartConfig) (s : State) (name : List Nat) (P : Buf) (n : Nat)
    (tempbuf0 : Buf) : Option (State × Int) :=
  let s1 := (cart_poweron cfg s).1
  match cart_open cfg s1 name with
  | none => none
  | some r2 =>
    match cart_write cfg r2.1 r2.2 P n tempbuf0 with
    | none => none
    | some r3 => some ((cart_seek cfg r3.1 r2.2 0).1, r2.2)

/-- The chain of the file holds a Frame Record for every frame that contains bytes of
the file: the walk from the head to each frame index below `ceil(length / 1024)` ends
on a record. -/
def ChainCovers (m : CartStructure) (f : FileStructure) : Prop :=
  ∀ k, k < (f.length + 1023) / 1024 → ((walkFrames m k f.tablePtr).join).isSome = true

/-- A file of 2000 bytes on the small grid, cursor at 0: the state after the file "a"
is opened, written with 2000 bytes 1 and sought to 0. -/
def fileState2000 : State × Int :=
  (writtenState smallConfig (bootStateCap 2) [97] allOnes 2000 zeroBuf).getD (bootState, -1)

/-- One call of the file interface of the driver. -/
inductive FileCall where
  | open_ (path : List Nat)
  | close (fd : Int)
  | seek (fd : Int) (loc : Nat)
  | read (fd : Int) (buf : Buf) (count : Int)
  | write (fd : Int) (buf : Buf) (count : Int) (tempbuf0 : Buf)

/-- The state after one call of the file interface; `none` when the call dereferences
`NULL` or leaves the file table. -/
def applyCall (cfg : CartConfig) (s : State) : FileCall → Option State
  | FileCall.open_ path => (cart_open cfg s path).map (fun r => r.1)
  | FileCall.close fd => some (cart_close cfg s fd).1
  | FileCall.seek fd loc => some (cart_seek cfg s fd loc).1
  | FileCall.read fd buf count => (cart_read cfg s fd buf count).map (fun r => r.1)
  | FileCall.write fd buf count tempbuf0 =>
    (cart_write cfg s fd buf count tempbuf0).map (fun r => r.1)

/-- The state after a sequence of calls of the file interface. -/
def runCalls (cfg : CartConfig) : State → List FileCall → Option State
  | s, [] => some s
  | s, c :: cs =>
    match applyCall cfg s c with
    | some s1 => runCalls cfg s1 cs
    | none => none

/-- The name stored in a `fileName` array is exactly `path`: the characters of `path`
followed by NUL. -/
def holdsName (b : Buf) (path : List Nat) : Prop :=
  (∀ k, k < strlen path → b k = cstr path k) ∧ b (strlen path) = 0

/-- The state after `cart_poweron` on the small grid (cache capacity 2). -/
def poweredState : State := (cart_poweron smallConfig (bootStateCap 2)).1

/-- The calls `cart_open("a")`, `cart_write(0, buf, 4096)` of bytes 1. -/
def bigWriteCalls : List FileCall :=
  [FileCall.open_ [97], FileCall.write 0 allOnes 4096 zeroBuf]

/-- The state after `cart_poweron` and the calls of `bigWriteCalls`. -/
def bigWriteState : State := (runCalls smallConfig poweredState bigWriteCalls).getD bootState

/-- The calls `cart_open("a")`, `cart_open("a")`, `cart_write(-1, buf, 10)`,
`cart_open("b")`. -/
def sharedFrameCalls : List FileCall :=
  [FileCall.open_ [97], FileCall.open_ [97], FileCall.write (-1) allOnes 10 zeroBuf,
   FileCall.open_ [98]]

/-- The state after `cart_poweron` and the calls of `sharedFrameCalls`. -/
def sharedFrameState : State :=
  (runCalls smallConfig poweredState sharedFrameCalls).getD bootState

/-- The state after `cart_poweron` and `cart_open("ab")`. -/
def abState : State :=
  (runCalls smallConfig poweredState [FileCall.open_ [97, 98]]).getD bootState

/-- Every entry of the file table has its cursor within its length, and a length that
fits `uint32_t`. -/
def CursorInv (cfg : CartConfig) (m : CartStructure) : Prop :=
  ∀ i, i < cfg.CART_MAX_TOTAL_FILES →
    (m.fileTable i).location ≤ (m.fileTable i).length
    ∧ (m.fileTable i).length < 4294967296

/-- The filled entries of the file table: each carries its index as handle, the entries
before it are filled, and none of those matches (in the sense of the comparison made by
`cart_open`) a name that this entry holds exactly. -/
def NameInv (cfg : CartConfig) (m : CartStructure) : Prop :=
  ∀ i, i < cfg.CART_MAX_TOTAL_FILES → (m.fileTable i).filled = true →
    (m.fileTable i).handle = toInt16 i
    ∧ ∀ j, j < i → (m.fileTable j).filled = true
        ∧ ∀ path, holdsName (m.fileTable i).fileName path → nameMatches m path j = false

/-- The two tables give every entry the same name, filled flag and handle. -/
def SameNames (m m1 : CartStructure) : Prop :=
  ∀ j, (m1.fileTable j).fileName = (m.fileTable j).fileName
    ∧ (m1.fileTable j).filled = (m.fileTable j).filled
    ∧ (m1.fileTable j).handle = (m.fileTable j).handle

/-- A sample session on the small grid: "a" is opened, written with 2000 bytes, sought
to 500, read to its end and closed; "b" is opened and written with 10 bytes. -/
def sampleCalls : List FileCall :=
  [FileCall.open_ [97], FileCall.write 0 allOnes 2000 zeroBuf, FileCall.seek 0 500,
   FileCall.read 0 zeroBuf 5000, FileCall.close 0, FileCall.open_ [98],
   FileCall.write 1 allOnes 10 zeroBuf]

/-- The state after `cart_poweron` and the calls of `sampleCalls`. -/
def sampleState : State := (runCalls smallConfig poweredState sampleCalls).getD bootState

/-- The state after `cart_poweron` and `cart_open("a")`. -/
def openedState : State :=
  (runCalls smallConfig poweredState [FileCall.open_ [97]]).getD bootState

/-- The opcodes are six distinct values that fit the positive range of `int8_t`. -/
def OpcodesDistinct (cfg : CartConfig) : Prop :=
  cfg.CART_OP_INITMS < 128 ∧ cfg.CART_OP_BZERO < 128 ∧ cfg.CART_OP_LDCART < 128
  ∧ cfg.CART_OP_RDFRME < 128 ∧ cfg.CART_OP_WRFRME < 128 ∧ cfg.CART_OP_POWOFF < 128
  ∧ [cfg.CART_OP_INITMS, cfg.CART_OP_BZERO, cfg.CART_OP_LDCART, cfg.CART_OP_RDFRME,
      cfg.CART_OP_WRFRME, cfg.CART_OP_POWOFF].Nodup

/-- The cache in the eviction scenario after `j` new frames `fo 0, .., fo (j - 1)` have
each been written once, with capacity `C` and the clock at `g0` before the first write:
slot `t` holds the latest frame `fo i` with `i % C = t`, stamped with the time
`g0 + 2 i + 1` of its insertion, and the slots from `j` on are empty. -/
def CacheScen (fo : Nat → Nat × Nat) (C g0 j : Nat) (c : CacheState) : Prop :=
  c.size = (C : Int) ∧ c.global_time = g0 + 2 * j ∧ c.num_occupied = ((min j C : Nat) : Int)
  ∧ ∀ t, t < C →
      (t < j → ∃ i, i < j ∧ j ≤ i + C ∧ i % C = t
          ∧ (c.frames t).time = ((g0 + 2 * i + 1 : Nat) : Int)
          ∧ (c.frames t).cart_num = (fo i).1 ∧ (c.frames t).frame_num = (fo i).2)
      ∧ (j ≤ t → (c.frames t).time = -1 ∧ (c.frames t).cart_num = 65535
          ∧ (c.frames t).frame_num = 65535)

/-- One step of the eviction scenario: the name of a new file, the bytes written to it,
their number, and the indeterminate initial content of the local `tempbuf` of that
`cart_write`. -/
structure NewFileWrite where
  name : List Nat
  buf : Buf
  count : Nat
  tempbuf0 : Buf

/-- `h = cart_open(name); cart_write(h, buf, count);`. -/
def openWrite (cfg : CartConfig) (s : State) (w : NewFileWrite) : Option State :=
  match cart_open cfg s w.name with
  | none => none
  | some r => (cart_write cfg r.1 r.2 w.buf w.count w.tempbuf0).map (fun q => q.1)

/-- A sequence of steps `openWrite`. -/
def openWrites (cfg : CartConfig) : State → List NewFileWrite → Option State
  | s, [] => some s
  | s, w :: ws =>
    match openWrite cfg s w with
    | some s1 => openWrites cfg s1 ws
    | none => none

/-- The eviction scenario: `set_cart_cache_size(C)`, `cart_poweron()`, then one write to
each of the new files. -/
def evictionScenario (cfg : CartConfig) (s0 : State) (C : Nat) (ws : List NewFileWrite) :
    Option State :=
  openWrites cfg (cart_poweron cfg { s0 with cache := set_cart_cache_size s0.cache C }).1 ws

/-- The `i`-th frame of the grid in the order of the free-frame search: cartridge by
cartridge, frame by frame. -/
def frameOf (cfg : CartConfig) (i : Nat) : Nat × Nat :=
  (i / cfg.CART_CARTRIDGE_SIZE, i % cfg.CART_CARTRIDGE_SIZE)

/-- The state of the eviction scenario after the writes `done`: file `i` is entry `i`
with handle `i` and chain head `frameOf i`, the other entries are as `cart_poweron` left
them, the frames from `done.length` on are free, the cache is as `CacheScen` describes,
and the device holds the bytes written to each frame. -/
def ScenInv (cfg : CartConfig) (C g0 : Nat) (done : List NewFileWrite) (s : State) : Prop :=
  (∀ i, i < cfg.CART_MAX_TOTAL_FILES →
      (i < done.length →
        (s.mainStructure.fileTable i).filled = true
        ∧ (s.mainStructure.fileTable i).handle = (i : Int)
        ∧ (s.mainStructure.fileTable i).tablePtr = some (frameOf cfg i)
        ∧ ∃ w, done[i]? = some w ∧ holdsName (s.mainStructure.fileTable i).fileName w.name)
      ∧ (done.length ≤ i →
        (s.mainStructure.fileTable i).filled = false
        ∧ (s.mainStructure.fileTable i).handle = -1
        ∧ (s.mainStructure.fileTable i).tablePtr = none
        ∧ (s.mainStructure.fileTable i).fileName 0 = 32
        ∧ ∀ k, 1 ≤ k → k < cfg.CART_MAX_PATH_LENGTH →
            (s.mainStructure.fileTable i).fileName k = 0))
  ∧ (∀ c f, c < cfg.CART_MAX_CARTRIDGES → f < cfg.CART_CARTRIDGE_SIZE →
      (s.mainStructure.infoTable c f).cart_num = c
      ∧ (s.mainStructure.infoTable c f).frame_num = f
      ∧ ((s.mainStructure.infoTable c f).handle = -1
          ↔ done.length ≤ c * cfg.CART_CARTRIDGE_SIZE + f))
  ∧ CacheScen (frameOf cfg) C g0 done.length s.cache
  ∧ (∀ i w, done[i]? = some w → ∀ b, b < w.count →
      s.bus.store (frameOf cfg i).1 (frameOf cfg i).2 b = w.buf b)

/-- Three small writes to the new files "a", "b" and "c": 10, 20 and 30 bytes 1. -/
def sampleWrites : List NewFileWrite :=
  [⟨[97], allOnes, 10, zeroBuf⟩, ⟨[98], allOnes, 20, zeroBuf⟩, ⟨[99], allOnes, 30, zeroBuf⟩]

/-- The program state at start with the logical clock of the cache at 2147483645. -/
def lateClockState : State :=
  { bootState with cache := { bootCache with global_time := 2147483645 } }

/-- The state after the eviction scenario with capacity 2 and the three writes of
`sampleWrites`, started with the clock at 2147483645. -/
def lateScenarioState : State :=
  (evictionScenario smallConfig lateClockState 2 sampleWrites).getD bootState

/-- The state after `cart_poweron` and the calls `cart_open("a")`,
`cart_write(0, buf, 10)`, `cart_seek(0, 0)`, `cart_close(0)`: the file "a" is closed,
with length 10 and the cursor at 0. -/
def closedFileState : State :=
  (runCalls smallConfig poweredState
    [FileCall.open_ [97], FileCall.write 0 allOnes 10 zeroBuf, FileCall.seek 0 0,
     FileCall.close 0]).getD bootState

/-- The state after `cart_poweron` and the calls `cart_open("a")`,
`cart_write(0, buf, 3072)`. -/
def threeFrameState : State :=
  (runCalls smallConfig poweredState
    [FileCall.open_ [97], FileCall.write 0 allOnes 3072 zeroBuf]).getD bootState

/-- The state after `cart_poweron` and the calls `cart_open("a")`,
`cart_write(0, buf, 10)` with a buffer whose first byte is NUL and second byte is 1. -/
def nulWriteState : State :=
  (runCalls smallConfig poweredState
    [FileCall.open_ [97], FileCall.write 0 nulThenOne 10 zeroBuf]).getD bootState

/-- The occupancy counter equals the number of non-empty slots, and an empty slot holds
the pair (65535, 65535) that `init_cart_cache` and `delete_cart_cache` store. -/
def OccExact (s : CacheState) : Prop :=
  s.num_occupied = (countNonEmpty s.frames s.size.toNat : Int)
  ∧ ∀ i, i < s.size.toNat → (s.frames i).time = -1 →
      (s.frames i).cart_num = 65535 ∧ (s.frames i).frame_num = 65535

/-- The arguments of a cache call are 16-bit values other than the pair (65535, 65535)
that marks an empty slot. -/
def opInDomain : CacheOp → Bool
  | CacheOp.put c f _ => decide (c < 65536 ∧ f < 65536 ∧ ¬ (c = 65535 ∧ f = 65535))
  | CacheOp.get c f => decide (c < 65536 ∧ f < 65536 ∧ ¬ (c = 65535 ∧ f = 65535))
  | CacheOp.update c f _ => decide (c < 65536 ∧ f < 65536 ∧ ¬ (c = 65535 ∧ f = 65535))
  | CacheOp.delete c f => decide (c < 65536 ∧ f < 65536 ∧ ¬ (c = 65535 ∧ f = 65535))

/-- Two cache states hold the same pairs and buffers in every slot and have the same
capacity, occupancy and open flag: they differ at most in slot timestamps and in the
clock. -/
def SameResidents (a b : CacheState) : Prop :=
  b.size = a.size ∧ b.num_occupied = a.num_occupied ∧ b.open_ = a.open_
  ∧ ∀ i, (b.frames i).cart_num = (a.frames i).cart_num
      ∧ (b.frames i).frame_num = (a.frames i).frame_num
      ∧ (b.frames i).framebuf = (a.frames i).framebuf

/-- The state `threeFrameState` after `cart_seek(0, 0)`: the file "a" has three frames,
of which the cache of capacity 2 holds the last two, and the cursor is at 0. -/
def rewoundState : State := (cart_seek smallConfig threeFrameState 0 0).1

/-- Reference form of "the first free Frame Record of the grid in ascending (cartridge,
frame) order": the record `q` lies in the grid and is free (`handle == -1`), and no
record of the grid before it, in that order, is free. -/
def FirstFree (cfg : CartConfig) (m : CartStructure) (q : Nat × Nat) : Prop :=
  q.1 < cfg.CART_MAX_CARTRIDGES ∧ q.2 < cfg.CART_CARTRIDGE_SIZE
  ∧ (m.infoTable q.1 q.2).handle = -1
  ∧ ∀ c, c < cfg.CART_MAX_CARTRIDGES → ∀ f, f < cfg.CART_CARTRIDGE_SIZE →
      (c < q.1 ∨ (c = q.1 ∧ f < q.2)) → (m.infoTable c f).handle ≠ -1

/-- Reference form of the cartridge-load protocol for the Frame Record with indices
`(c, f)`: a group of requests that starts with one LOAD-CARTRIDGE whose cartridge field
is `c`, followed by one or two requests, each a READ-FRAME or a WRITE-FRAME whose frame
field is `f` (the fields are 16 bits wide and carry the indices modulo 2^16). -/
def FrameGroup (cfg : CartConfig) (c f : Nat) (g : List Nat) : Prop :=
  ∃ ld rest, g = ld :: rest ∧ rest ≠ []
    ∧ extract_reg ld = (cfg.CART_OP_LDCART : Int) ∧ regCart ld = c % 65536
    ∧ ∀ r, r ∈ rest →
        (extract_reg r = (cfg.CART_OP_RDFRME : Int) ∨ extract_reg r = (cfg.CART_OP_WRFRME : Int))
        ∧ regFrame r = f % 65536

/-- Reference form of "the records the loop is at": the list `visits` is a walk along a
chain of `m`: its first record is the one reached from `head` by `k` `nextFrame` links,
and each later record is its predecessor or the record its predecessor links to. -/
def ChainWalk (m : CartStructure) (k : Nat) (head : FramePtr)
    (visits : List (Nat × Nat)) : Prop :=
  (∀ p, visits.head? = some p → walkFrames m k head = some (some p))
  ∧ visits.Chain' (fun p p1 => p1 = p ∨ (m.infoTable p.1 p.2).nextFrame = some p1)

/-- The Frame Records the loop of `cart_read` is at, iteration by iteration: the value
of `tempPtr` at the start of each iteration of `cart_read_loop`. -/
def cart_read_loop_visits (cfg : CartConfig) (idx : Nat) : Nat → ReadLoop → List (Nat × Nat)
  | 0, _ => []
  | fuel + 1, L =>
    if L.bytes_left_to_read > 0 then
      match L.tempPtr, cart_read_body cfg idx L with
      | some p, some L1 => p :: cart_read_loop_visits cfg idx fuel L1
      | _, _ => []
    else []

/-- The Frame Records the loop of a `cart_read` call is at, iteration by iteration
(none when the handle is not found or the walk to the first frame fails); the loop
starts as in `cart_read`. -/
def cart_read_visits (cfg : CartConfig) (s : State) (fd : Int) (buf : Buf) (count : Int) :
    List (Nat × Nat) :=
  match findHandle cfg s.mainStructure fd with
  | none => []
  | some idx =>
    let f := s.mainStructure.fileTable idx
    let start_read_frame := f.location / 1024
    let start_read_bit := f.location % 1024
    let bytes_left_to_read : Int := readCount f count
    match walkFrames s.mainStructure start_read_frame f.tablePtr with
    | none => []
    | some tempPtr =>
      cart_read_loop_visits cfg idx bytes_left_to_read.toNat
        { st := s, buf := buf, regs := ⟨0, 0, 0, 0, 0⟩, start_read_bit := start_read_bit
          bytes_left_to_read := bytes_left_to_read, start_buf_read_bit := 0
          tempPtr := tempPtr }

/-- The Frame Records the loop of `cart_write` is at, iteration by iteration: the value
of `tempPtr` at the start of each iteration of `cart_write_loop`. -/
def cart_write_loop_visits (cfg : CartConfig) (idx : Nat) (buf : Buf) :
    Nat → WriteLoop → List (Nat × Nat)
  | 0, _ => []
  | fuel + 1, L =>
    if L.bytes_left_to_write > 0 then
      match L.tempPtr, cart_write_body cfg idx buf L with
      | some p, some L1 => p :: cart_write_loop_visits cfg idx buf fuel L1
      | _, _ => []
    else []

/-- The Frame Records the loop of a `cart_write` call is at, iteration by iteration
(none when the handle is not found or the walk to the first frame fails); the loop
starts as in `cart_write`, after the first frame of an empty file is allocated. -/
def cart_write_visits (cfg : CartConfig) (s : State) (fd : Int) (buf : Buf) (count : Int)
    (tempbuf0 : Buf) : List (Nat × Nat) :=
  match findHandle cfg s.mainStructure fd with
  | none => []
  | some idx =>
    let m0 := s.mainStructure
    let m1 : CartStructure :=
      if (m0.fileTable idx).tablePtr = none then
        match (freeFrameSearch cfg m0 cfg.CART_MAX_CARTRIDGES 0 false).1 with
        | some q =>
          setInfo (setFile m0 idx { m0.fileTable idx with tablePtr := some q }) q
            { m0.infoTable q.1 q.2 with handle := fd }
        | none => m0
      else m0
    let f := m1.fileTable idx
    let start_write_frame := f.location / 1024
    let start_write_bit := f.location % 1024
    match walkFrames m1 start_write_frame f.tablePtr with
    | none => []
    | some tempPtr =>
      cart_write_loop_visits cfg idx buf count.toNat
        { st := { s with mainStructure := m1 }, regs := ⟨0, 0, 0, 0, 0⟩
          start_write_bit := start_write_bit, bytes_left_to_write := count
          buf_starting_point := 0, tempbuf := tempbuf0, tempPtr := tempPtr
          done2 := false }

/-- The state after `cart_poweroff()` followed by `cart_poweron()`. -/
def powerCycle (cfg : CartConfig) (s : State) : State :=
  (cart_poweron cfg (cart_poweroff cfg s).1).1

/-- The names in the file table: an unfilled entry holds the name " " that
`cart_poweron` stores (a blank, then NUL), and a filled entry holds a name that is not
empty and is not " ". -/
def PlaceholderInv (cfg : CartConfig) (m : CartStructure) : Prop :=
  ∀ i, i < cfg.CART_MAX_TOTAL_FILES →
    ((m.fileTable i).filled = false →
      (m.fileTable i).fileName 0 = 32 ∧ (m.fileTable i).fileName 1 = 0)
    ∧ ((m.fileTable i).filled = true →
      (m.fileTable i).fileName 0 ≠ 0
      ∧ ¬ ((m.fileTable i).fileName 0 = 32 ∧ (m.fileTable i).fileName 1 = 0))

/-- The state of the sample session before the file "a" is closed: "a" is open, with
2000 bytes. -/
def openFileState : State :=
  (runCalls smallConfig poweredState
    [FileCall.open_ [97], FileCall.write 0 allOnes 2000 zeroBuf]).getD bootState

/-- A state in which the device is off and the cache, used through its own interface,
holds the pairs (1, 1) and (2, 2). -/
def offStateWithCache : State := { bootState with cache := fullCache2 }

/-- The Frame Records reached from the pointer `p` along the `nextFrame` links, in order,
up to the `NULL` link: `l` is that list. -/
def IsChain (m : CartStructure) : FramePtr → List (Nat × Nat) → Prop
  | p, [] => p = none
  | p, q :: l => p = some q ∧ IsChain m (m.infoTable q.1 q.2).nextFrame l

/-- Reference form of the chain invariant, for the chains `ch i` of the file-table
entries: `ch i` is the chain of entry `i` from its head to a `NULL` link and holds no
record twice; the records on it are owned by the entry's handle, which is not the free
marker -1; an unfilled entry has handle -1; the chains of two entries share no record;
a record of the grid on no chain is free; and a free record of the grid has no link. -/
def ChainInv (cfg : CartConfig) (m : CartStructure) (ch : Nat → List (Nat × Nat)) : Prop :=
  (∀ i, i < cfg.CART_MAX_TOTAL_FILES →
      IsChain m (m.fileTable i).tablePtr (ch i) ∧ (ch i).Nodup
      ∧ (∀ q, q ∈ ch i → (m.infoTable q.1 q.2).handle = (m.fileTable i).handle
          ∧ (m.fileTable i).handle ≠ -1)
      ∧ ((m.fileTable i).filled = false → (m.fileTable i).handle = -1))
  ∧ (∀ i j, i < cfg.CART_MAX_TOTAL_FILES → j < cfg.CART_MAX_TOTAL_FILES → i ≠ j →
      ∀ q, q ∈ ch i → q ∉ ch j)
  ∧ (∀ c f, c < cfg.CART_MAX_CARTRIDGES → f < cfg.CART_CARTRIDGE_SIZE →
      (∀ i, i < cfg.CART_MAX_TOTAL_FILES → (c, f) ∉ ch i) → (m.infoTable c f).handle = -1)
  ∧ (∀ c f, c < cfg.CART_MAX_CARTRIDGES → f < cfg.CART_CARTRIDGE_SIZE →
      (m.infoTable c f).handle = -1 → (m.infoTable c f).nextFrame = none)

/-- The handle passed to a call of the file interface is not -1, the value that
`cart_open` returns on failure. -/
def handleOk : FileCall → Bool
  | FileCall.open_ _ => true
  | FileCall.close fd => fd != -1
  | FileCall.seek fd _ => fd != -1
  | FileCall.read fd _ _ => fd != -1
  | FileCall.write fd _ _ _ => fd != -1

/-- The state after `cart_poweron` and `cart_open(" ")`: the name " " matches the
placeholder name of the unfilled entry 0, which the call marks open. -/
def blankOpenState : State :=
  (runCalls smallConfig poweredState [FileCall.open_ [32]]).getD bootState

/-- The call is not a `put_cart_cache` of a pair that `get_cart_cache` finds in the
cache. -/
def putNotHeld (s : CacheState) : CacheOp → Bool
  | CacheOp.put c f _ => (get_cart_cache s c f).2.isNone
  | _ => true

/-- In the sequence of calls, started on the cache `s`, every `put_cart_cache` is of a
pair that is not in the cache at that point. -/
def putsNotHeld : CacheState → List CacheOp → Bool
  | _, [] => true
  | s, op :: ops => putNotHeld s op && putsNotHeld (applyOp s op) ops

/-- A cache of capacity 2 that holds the pair (1, 1) twice: the start-up globals,
`set_cart_cache_size(2)`, `init_cart_cache()`, then `put_cart_cache(1, 1, buf)` twice. -/
def twiceCache2 : CacheState :=
  runOps (init_cart_cache (set_cart_cache_size bootCache 2))
    [CacheOp.put 1 1 zeroBuf, CacheOp.put 1 1 zeroBuf]

/-! ## Codec lemmas -/

theorem bits64_natCast (n : Nat) (h : n < 18446744073709551616) : bits64 (n : Int) = n := by
  unfold bits64
  omega

theorem maskShift_natCast (n w sh : Nat) (hn : n < 2 ^ w) (hw : w + sh ≤ 64) :
    maskShift (n : Int) (2 ^ w - 1) sh = n * 2 ^ sh := by
  have h64 : (18446744073709551616 : Nat) = 2 ^ 64 := by norm_num
  have hn64 : n < 18446744073709551616 := by
    rw [h64]
    exact lt_of_lt_of_le hn (Nat.pow_le_pow_right (by norm_num) (by omega))
  unfold maskShift
  rw [bits64_natCast n hn64, Nat.and_pow_two_sub_one_eq_mod, Nat.mod_eq_of_lt hn,
    Nat.shiftLeft_eq]
  apply Nat.mod_eq_of_lt
  rw [h64]
  calc n * 2 ^ sh < 2 ^ w * 2 ^ sh := Nat.mul_lt_mul_of_pos_right hn (Nat.two_pow_pos sh)
    _ = 2 ^ (w + sh) := (Nat.pow_add 2 w sh).symm
    _ ≤ 2 ^ 64 := Nat.pow_le_pow_right (by norm_num) hw

theorem or_eq_add_of_shift (a b i : Nat) (hb : b < 2 ^ i) :
    a * 2 ^ i ||| b = a * 2 ^ i + b := by
  rw [Nat.mul_comm a (2 ^ i)]
  exact (Nat.mul_add_lt_is_or hb a).symm

/-- The layout of the register for in-range fields, as a sum. -/
theorem create_cart_opcode_layout (op k2 st c f : Nat)
    (hop : op < 2 ^ 8) (hk2 : k2 < 2 ^ 8) (hst : st < 2) (hc : c < 2 ^ 16) (hf : f < 2 ^ 16) :
    create_cart_opcode op k2 st c f
      = op * 2 ^ 56 + k2 * 2 ^ 48 + st * 2 ^ 47 + c * 2 ^ 31 + f * 2 ^ 15 := by
  have e1 := maskShift_natCast op 8 56 hop (by norm_num)
  have e2 := maskShift_natCast k2 8 48 hk2 (by norm_num)
  have e3 := maskShift_natCast st 4 47 (by omega) (by norm_num)
  have e4 := maskShift_natCast c 16 31 hc (by norm_num)
  have e5 := maskShift_natCast f 16 15 hf (by norm_num)
  norm_num at e1 e2 e3 e4 e5
  unfold create_cart_opcode
  simp only [e1, e2, e3, e4, e5]
  norm_num at hop hk2 hc hf
  have s5 : f * 32768 < 2 ^ 31 := by norm_num; omega
  have s4 : c * 2147483648 + f * 32768 < 2 ^ 47 := by norm_num; omega
  have s3 : st * 140737488355328 + (c * 2147483648 + f * 32768) < 2 ^ 48 := by
    norm_num; omega
  have s2 : k2 * 281474976710656
      + (st * 140737488355328 + (c * 2147483648 + f * 32768)) < 2 ^ 56 := by
    norm_num; omega
  have o5 := or_eq_add_of_shift c (f * 32768) 31 s5
  have o4 := or_eq_add_of_shift st (c * 2147483648 + f * 32768) 47 s4
  have o3 := or_eq_add_of_shift k2 (st * 140737488355328 + (c * 2147483648 + f * 32768)) 48 s3
  have o2 := or_eq_add_of_shift op
    (k2 * 281474976710656 + (st * 140737488355328 + (c * 2147483648 + f * 32768))) 56 s2
  norm_num at o5 o4 o3 o2
  rw [Nat.lor_assoc, Nat.lor_assoc, Nat.lor_assoc, o5, o4, o3, o2]
  norm_num
  omega

/-! ## Basic lemmas on conversions and loops -/

theorem toInt32_of_lt (n : Nat) (h : n < 2147483648) : toInt32 n = (n : Int) := by
  unfold toInt32
  have h1 : n % 4294967296 = n := Nat.mod_eq_of_lt (by omega)
  rw [h1]
  simp [h]

theorem toInt32_ne_neg_one (n : Nat) (h : n < 2147483648) : toInt32 n ≠ -1 := by
  rw [toInt32_of_lt n h]
  omega

theorem tick_of_lt (g : Nat) (h : g < 2147483648) : tick g = g + 1 := by
  unfold tick
  exact Nat.mod_eq_of_lt (by omega)

theorem firstIndex_some {p : Nat → Bool} {n i : Nat} (h : firstIndex p n = some i) :
    i < n ∧ p i = true ∧ ∀ j, j < i → p j = false := by
  induction n with
  | zero => simp [firstIndex] at h
  | succ n ih =>
    unfold firstIndex at h
    cases hn : firstIndex p n with
    | some k =>
      rw [hn] at h
      simp only [Option.some.injEq] at h
      subst h
      obtain ⟨h1, h2, h3⟩ := ih hn
      exact ⟨by omega, h2, h3⟩
    | none =>
      rw [hn] at h
      simp only at h
      by_cases hp : p n = true
      · simp only [hp, if_true, Option.some.injEq] at h
        subst h
        refine ⟨by omega, hp, ?_⟩
        intro j hj
        by_contra hc
        have hc2 : p j = true := by simpa using hc
        have : ∀ m, firstIndex p m = none → ∀ j, j < m → p j = false := by
          intro m
          induction m with
          | zero => intro _ j hj; omega
          | succ m ihm =>
            intro hm j hj
            unfold firstIndex at hm
            cases hm2 : firstIndex p m with
            | some k => rw [hm2] at hm; simp at hm
            | none =>
              rw [hm2] at hm
              simp only at hm
              by_cases hpm : p m = true
              · simp [hpm] at hm
              · by_cases hjm : j = m
                · subst hjm; simpa using hpm
                · exact ihm hm2 j (by omega)
        rw [this n hn j hj] at hc2
        exact Bool.noConfusion hc2
      · simp [hp] at h

theorem firstIndex_none {p : Nat → Bool} {n : Nat} (h : firstIndex p n = none) :
    ∀ j, j < n → p j = false := by
  induction n with
  | zero => intro j hj; omega
  | succ m ihm =>
    intro j hj
    unfold firstIndex at h
    cases hm2 : firstIndex p m with
    | some k => rw [hm2] at h; simp at h
    | none =>
      rw [hm2] at h
      simp only at h
      by_cases hpm : p m = true
      · simp [hpm] at h
      · by_cases hjm : j = m
        · subst hjm; simpa using hpm
        · exact ihm hm2 j (by omega)

theorem firstIndex_isSome_of_exists {p : Nat → Bool} {n : Nat} (j : Nat) (hj : j < n)
    (hp : p j = true) : ∃ i, firstIndex p n = some i := by
  cases h : firstIndex p n with
  | some i => exact ⟨i, rfl⟩
  | none =>
    have := firstIndex_none h j hj
    rw [hp] at this
    exact Bool.noConfusion this

theorem firstIndex_eq_of_least {p : Nat → Bool} {n i : Nat} (hi : i < n) (hp : p i = true)
    (hl : ∀ j, j < i → p j = false) : firstIndex p n = some i := by
  obtain ⟨k, hk⟩ := firstIndex_isSome_of_exists i hi hp
  obtain ⟨_, hk2, hk3⟩ := firstIndex_some hk
  rw [hk]
  congr 1
  by_contra hne
  rcases Nat.lt_or_gt_of_ne hne with h | h
  · have := hl k h
    rw [hk2] at this
    exact Bool.noConfusion this
  · have := hk3 i h
    rw [hp] at this
    exact Bool.noConfusion this

theorem countNonEmpty_le (f : Nat → CacheFrames) (n : Nat) : countNonEmpty f n ≤ n := by
  induction n with
  | zero => simp [countNonEmpty]
  | succ n ih =>
    unfold countNonEmpty
    split <;> omega

theorem countNonEmpty_update_ge (f : Nat → CacheFrames) (n i : Nat) (fr : CacheFrames)
    (h : n ≤ i) : countNonEmpty (Function.update f i fr) n = countNonEmpty f n := by
  induction n with
  | zero => simp [countNonEmpty]
  | succ n ih =>
    unfold countNonEmpty
    rw [ih (by omega), Function.update_noteq (by omega)]

theorem countNonEmpty_update (f : Nat → CacheFrames) (n i : Nat) (fr : CacheFrames)
    (h : i < n) :
    countNonEmpty (Function.update f i fr) n + (if (f i).time = -1 then 0 else 1)
      = countNonEmpty f n + (if fr.time = -1 then 0 else 1) := by
  induction n with
  | zero => omega
  | succ n ih =>
    unfold countNonEmpty
    by_cases hin : i = n
    · subst hin
      rw [countNonEmpty_update_ge f i i fr (le_refl _), Function.update_same]
      omega
    · rw [Function.update_noteq (Ne.symm hin)]
      have := ih (by omega)
      omega

theorem countNonEmpty_full (f : Nat → CacheFrames) (n : Nat)
    (h : countNonEmpty f n = n) : ∀ i, i < n → (f i).time ≠ -1 := by
  induction n with
  | zero => intro i hi; omega
  | succ n ih =>
    unfold countNonEmpty at h
    have hle := countNonEmpty_le f n
    intro i hi
    by_cases hn : (f n).time = -1
    · simp [hn] at h
      omega
    · simp [hn] at h
      by_cases hin : i = n
      · subst hin; exact hn
      · exact ih h i (by omega)

theorem countNonEmpty_lt (f : Nat → CacheFrames) (n : Nat)
    (h : countNonEmpty f n < n) : ∃ i, i < n ∧ (f i).time = -1 := by
  induction n with
  | zero => omega
  | succ n ih =>
    unfold countNonEmpty at h
    by_cases hn : (f n).time = -1
    · exact ⟨n, by omega, hn⟩
    · simp [hn] at h
      obtain ⟨i, hi, hi2⟩ := ih h
      exact ⟨i, by omega, hi2⟩

theorem countNonEmpty_of_all (f : Nat → CacheFrames) (n : Nat)
    (h : ∀ i, i < n → (f i).time ≠ -1) : countNonEmpty f n = n := by
  induction n with
  | zero => simp [countNonEmpty]
  | succ n ih =>
    unfold countNonEmpty
    rw [ih (fun i hi => h i (by omega))]
    simp [h n (by omega)]

theorem countNonEmpty_of_none (f : Nat → CacheFrames) (n : Nat)
    (h : ∀ i, i < n → (f i).time = -1) : countNonEmpty f n = 0 := by
  induction n with
  | zero => simp [countNonEmpty]
  | succ n ih =>
    unfold countNonEmpty
    rw [ih (fun i hi => h i (by omega))]
    simp [h n (by omega)]

/-! ## Claims on the register codec -/

/-- C1 (evaluation at the failing input): encoding the fields (1, 2, 1, 3, 4) and
decoding the register with `extract_cart_opcode` or `extract_cache_opcode`, the
outputs holding the original fields as in the driver's calls, yields all five
fields 0, not the original values. -/
theorem C1_decode_of_encode_is_zero :
    (extract_cart_opcode (create_cart_opcode 1 2 1 3 4) ⟨1, 2, 1, 3, 4⟩).2 = ⟨0, 0, 0, 0, 0⟩
    ∧ (extract_cache_opcode (create_cache_opcode 1 2 1 3 4) ⟨1, 2, 1, 3, 4⟩).2
        = ⟨0, 0, 0, 0, 0⟩
    ∧ (extract_cart_opcode (create_cart_opcode 1 2 1 3 4) ⟨0, 0, 0, 0, 0⟩).2
        ≠ ⟨1, 2, 1, 3, 4⟩ := by
  decide

/-- C2: for in-range fields `create_cart_opcode` (and `create_cache_opcode`) returns
`opcode*2^56 + key2*2^48 + status*2^47 + cartridge*2^31 + frame*2^15`, a 64-bit value
whose low 15 bits are zero and from which each field is read back at its own bit
range. -/
theorem C2_register_layout (op k2 st c f : Nat)
    (hop : op < 2 ^ 8) (hk2 : k2 < 2 ^ 8) (hst : st < 2) (hc : c < 2 ^ 16) (hf : f < 2 ^ 16) :
    create_cart_opcode op k2 st c f
        = op * 2 ^ 56 + k2 * 2 ^ 48 + st * 2 ^ 47 + c * 2 ^ 31 + f * 2 ^ 15
    ∧ create_cache_opcode op k2 st c f = create_cart_opcode op k2 st c f
    ∧ create_cart_opcode op k2 st c f < 2 ^ 64
    ∧ create_cart_opcode op k2 st c f % 2 ^ 15 = 0
    ∧ create_cart_opcode op k2 st c f / 2 ^ 56 = op
    ∧ create_cart_opcode op k2 st c f / 2 ^ 48 % 2 ^ 8 = k2
    ∧ create_cart_opcode op k2 st c f / 2 ^ 47 % 2 = st
    ∧ create_cart_opcode op k2 st c f / 2 ^ 31 % 2 ^ 16 = c
    ∧ create_cart_opcode op k2 st c f / 2 ^ 15 % 2 ^ 16 = f := by
  have h := create_cart_opcode_layout op k2 st c f hop hk2 hst hc hf
  refine ⟨h, rfl, ?_⟩
  rw [h]
  norm_num at hop hk2 hc hf ⊢
  omega

/-- Witness of C2 at the fields (4, 0, 1, 63, 1023). -/
theorem C2_register_layout_witness :
    create_cart_opcode 4 0 1 63 1023 = 4 * 2 ^ 56 + 0 * 2 ^ 48 + 1 * 2 ^ 47 + 63 * 2 ^ 31
      + 1023 * 2 ^ 15 :=
  (C2_register_layout 4 0 1 63 1023 (by norm_num) (by norm_num) (by norm_num) (by norm_num)
    (by norm_num)).1

/-- C3 (evaluation at the failing input): the status value 2 is not truncated to its
one-bit field: `create_cart_opcode(0, 0, 2, 0, 0)` is `2^48`, the lowest bit of the
key2 field, while `create_cart_opcode(0, 0, 2 mod 2, 0, 0)` is 0. -/
theorem C3_status_spills_into_key2 :
    create_cart_opcode 0 0 2 0 0 = 2 ^ 48
    ∧ create_cart_opcode 0 0 (2 % 2) 0 0 = 0
    ∧ create_cart_opcode 0 0 2 0 0 / 2 ^ 48 % 2 ^ 8 = 1 := by
  decide

/-! ## The capacity invariant -/

theorem applyOp_size (s : CacheState) (op : CacheOp) : (applyOp s op).size = s.size := by
  cases op <;> simp only [applyOp, put_cart_cache, get_cart_cache, update_cache,
    delete_cart_cache] <;> split <;> rfl

theorem applyOp_clock (s : CacheState) (op : CacheOp) (hg : s.global_time < 2147483648) :
    (applyOp s op).global_time ≤ s.global_time + 1 := by
  have ht := tick_of_lt s.global_time hg
  cases op <;> simp only [applyOp, put_cart_cache, get_cart_cache, update_cache,
    delete_cart_cache] <;> split <;> simp [ht]

theorem applyOp_occBound (s : CacheState) (op : CacheOp) (h : OccBound s)
    (hg : s.global_time < 2147483648) : OccBound (applyOp s op) := by
  obtain ⟨h0, h1⟩ := h
  have hne := toInt32_ne_neg_one s.global_time hg
  cases op with
  | put c f b =>
    simp only [applyOp, put_cart_cache]
    cases hfi : firstIndex (fun i => (s.frames i).time == -1) s.size.toNat with
    | none => exact ⟨h0, h1⟩
    | some i =>
      obtain ⟨hi, hp, _⟩ := firstIndex_some hfi
      have hti : (s.frames i).time = -1 := by simpa using hp
      refine ⟨h0, ?_⟩
      have hc := countNonEmpty_update s.frames s.size.toNat i
        { framebuf := strncpy (s.frames i).framebuf b 1024, time := toInt32 s.global_time,
          cart_num := c % 65536, frame_num := f % 65536 } hi
      simp only [hti, if_true, hne, if_false] at hc
      simp only
      omega
  | get c f =>
    simp only [applyOp, get_cart_cache]
    cases hfi : firstIndex (slotMatches s (c % 65536) (f % 65536)) s.size.toNat with
    | none => exact ⟨h0, h1⟩
    | some i =>
      obtain ⟨hi, _, _⟩ := firstIndex_some hfi
      refine ⟨h0, ?_⟩
      have hc := countNonEmpty_update s.frames s.size.toNat i
        { s.frames i with time := toInt32 s.global_time } hi
      simp only [hne, if_false] at hc
      simp only
      split at hc <;> omega
  | update c f b =>
    simp only [applyOp, update_cache]
    cases hfi : firstIndex (slotMatches s (c % 65536) (f % 65536)) s.size.toNat with
    | none => exact ⟨h0, h1⟩
    | some i =>
      obtain ⟨hi, _, _⟩ := firstIndex_some hfi
      refine ⟨h0, ?_⟩
      have hc := countNonEmpty_update s.frames s.size.toNat i
        { s.frames i with time := toInt32 s.global_time,
                          framebuf := strncpy (s.frames i).framebuf b 1024 } hi
      simp only [hne, if_false] at hc
      simp only
      split at hc <;> omega
  | delete c f =>
    simp only [applyOp, delete_cart_cache]
    cases hfi : firstIndex (slotMatches s (c % 65536) (f % 65536)) s.size.toNat with
    | none => exact ⟨h0, h1⟩
    | some i =>
      obtain ⟨hi, _, _⟩ := firstIndex_some hfi
      refine ⟨h0, ?_⟩
      have hc := countNonEmpty_update s.frames s.size.toNat i
        { s.frames i with frame_num := 65535, cart_num := 65535, time := -1 } hi
      simp only [if_true] at hc
      simp only
      split at hc <;> omega

theorem runOps_occBound (ops : List CacheOp) (s : CacheState) (h : OccBound s)
    (hg : s.global_time + ops.length < 2147483648) : OccBound (runOps s ops) := by
  induction ops generalizing s with
  | nil => exact h
  | cons op ops ih =>
    simp only [List.length_cons] at hg
    have hc := applyOp_clock s op (by omega)
    exact ih (applyOp s op) (applyOp_occBound s op h (by omega)) (by omega)

theorem runOps_size (ops : List CacheOp) (s : CacheState) : (runOps s ops).size = s.size := by
  induction ops generalizing s with
  | nil => rfl
  | cons op ops ih => simp only [runOps]; rw [ih, applyOp_size]

theorem init_size (s : CacheState) (n : Nat) (hn : n ≤ DEFAULT_CART_FRAME_CACHE_SIZE) :
    (init_cart_cache (set_cart_cache_size s n)).size = (n : Int) := by
  simp only [init_cart_cache, set_cart_cache_size]
  exact toInt32_of_lt n (by unfold DEFAULT_CART_FRAME_CACHE_SIZE at hn; omega)

theorem init_occBound (s : CacheState) (n : Nat) (hn : n ≤ DEFAULT_CART_FRAME_CACHE_SIZE) :
    OccBound (init_cart_cache (set_cart_cache_size s n)) := by
  have hs := init_size s n hn
  refine ⟨by rw [hs]; omega, ?_⟩
  simp only [init_cart_cache]
  exact Int.natCast_nonneg _

/-- C6 (amended): for a capacity `n` within the slot array
(`n ≤ DEFAULT_CART_FRAME_CACHE_SIZE`), after `set_cart_cache_size(n)` and
`init_cart_cache()` the occupancy is 0, and after any sequence of `put_cart_cache`,
`get_cart_cache`, `update_cache` and `delete_cart_cache` calls during which the logical
clock stays below 2^31 the occupancy is at most the capacity. -/
theorem C6_capacity_invariant (s : CacheState) (n : Nat) (ops : List CacheOp)
    (hn : n ≤ DEFAULT_CART_FRAME_CACHE_SIZE)
    (hclock : s.global_time + ops.length < 2147483648) :
    get_cache_num_occupied (init_cart_cache (set_cart_cache_size s n)) = 0
    ∧ get_cache_num_occupied (runOps (init_cart_cache (set_cart_cache_size s n)) ops)
        ≤ get_cache_size (runOps (init_cart_cache (set_cart_cache_size s n)) ops) := by
  refine ⟨rfl, ?_⟩
  have hb := runOps_occBound ops (init_cart_cache (set_cart_cache_size s n))
    (init_occBound s n hn) hclock
  obtain ⟨h0, h1⟩ := hb
  have hle := countNonEmpty_le (runOps (init_cart_cache (set_cart_cache_size s n)) ops).frames
    (runOps (init_cart_cache (set_cart_cache_size s n)) ops).size.toNat
  simp only [get_cache_num_occupied, get_cache_size]
  omega

/-- Witness of C6: capacity 2 from the start-up globals, then three puts, a lookup,
a delete and an update. -/
theorem C6_capacity_invariant_witness :
    get_cache_num_occupied (init_cart_cache (set_cart_cache_size bootCache 2)) = 0
    ∧ get_cache_num_occupied (runOps (init_cart_cache (set_cart_cache_size bootCache 2))
          [CacheOp.put 1 1 zeroBuf, CacheOp.put 2 2 zeroBuf, CacheOp.put 3 3 zeroBuf,
           CacheOp.get 1 1, CacheOp.delete 2 2, CacheOp.update 1 1 zeroBuf])
        ≤ get_cache_size (runOps (init_cart_cache (set_cart_cache_size bootCache 2))
          [CacheOp.put 1 1 zeroBuf, CacheOp.put 2 2 zeroBuf, CacheOp.put 3 3 zeroBuf,
           CacheOp.get 1 1, CacheOp.delete 2 2, CacheOp.update 1 1 zeroBuf]) :=
  C6_capacity_invariant bootCache 2 _ (by decide) (by decide)

/-- C6 (counterexamples to the unrestricted claim): with `set_cart_cache_size(4294967295)`
the `int` capacity is -1, below the occupancy 0 after `init_cart_cache()`; and with the
clock at 4294967295 the timestamp stored by a put is -1, so that two puts into a cache
of capacity 1 leave occupancy 2. -/
theorem C6_counterexample :
    ¬ (get_cache_num_occupied (init_cart_cache (set_cart_cache_size bootCache 4294967295))
        ≤ get_cache_size (init_cart_cache (set_cart_cache_size bootCache 4294967295)))
    ∧ ¬ (get_cache_num_occupied
          (runOps (init_cart_cache
              (set_cart_cache_size { bootCache with global_time := 4294967295 } 1))
            [CacheOp.put 1 1 zeroBuf, CacheOp.put 2 2 zeroBuf])
        ≤ get_cache_size
          (runOps (init_cart_cache
              (set_cart_cache_size { bootCache with global_time := 4294967295 } 1))
            [CacheOp.put 1 1 zeroBuf, CacheOp.put 2 2 zeroBuf])) := by
  decide

/-! ## Lookup, eviction and insertion on a consistent cache -/

theorem firstIndex_eq_none {p : Nat → Bool} {n : Nat} (h : ∀ j, j < n → p j = false) :
    firstIndex p n = none := by
  cases hf : firstIndex p n with
  | none => rfl
  | some i =>
    obtain ⟨hi, hp, _⟩ := firstIndex_some hf
    rw [h i hi] at hp
    exact Bool.noConfusion hp

theorem firstIndex_congr {p q : Nat → Bool} {n : Nat} (h : ∀ j, j < n → p j = q j) :
    firstIndex p n = firstIndex q n := by
  induction n with
  | zero => rfl
  | succ n ih =>
    unfold firstIndex
    rw [ih (fun j hj => h j (by omega)), h n (by omega)]

theorem get_cart_cache_snd (s : CacheState) (c f : Nat) :
    (get_cart_cache s c f).2
      = firstIndex (slotMatches s (c % 65536) (f % 65536)) s.size.toNat := by
  unfold get_cart_cache
  split <;> simp [*]

theorem lowest_time_loop_index (s : CacheState) (k : Nat) :
    (lowest_time_loop s k).2 < k ∨ (lowest_time_loop s k).2 = 0 := by
  induction k with
  | zero => right; rfl
  | succ k ih =>
    unfold lowest_time_loop
    simp only
    split
    · left; simp
    · rcases ih with h | h
      · left; omega
      · right; exact h

theorem lowest_time_index_lt (s : CacheState) (h : 1 ≤ s.size) :
    lowest_time_index s < s.size.toNat := by
  unfold lowest_time_index
  rcases lowest_time_loop_index s s.size.toNat with h1 | h1
  · exact h1
  · rw [h1]; omega

theorem slotMatches_iff (s : CacheState) (c f i : Nat) :
    slotMatches s c f i = true ↔ (s.frames i).cart_num = c ∧ (s.frames i).frame_num = f := by
  simp [slotMatches]

theorem slotMatches_false_iff (s : CacheState) (c f i : Nat) :
    slotMatches s c f i = false ↔ ¬ ((s.frames i).cart_num = c ∧ (s.frames i).frame_num = f) := by
  rw [← slotMatches_iff]
  simp

/-- On a full consistent cache the eviction clears exactly the slot of lowest time. -/
theorem evictLowest_eq (s : CacheState) (hc : CacheConsistent s) (h1 : 1 ≤ s.size)
    (hfull : s.num_occupied = s.size) :
    evictLowest s =
      { s with
        frames := Function.update s.frames (lowest_time_index s)
          { s.frames (lowest_time_index s) with
            frame_num := 65535, cart_num := 65535, time := -1 }
        num_occupied := s.num_occupied - 1 } := by
  obtain ⟨h0, _, hocc, _, hne, hdist⟩ := hc
  have hv := lowest_time_index_lt s h1
  have hcnt : countNonEmpty s.frames s.size.toNat = s.size.toNat := by omega
  have hall := countNonEmpty_full s.frames s.size.toNat hcnt
  obtain ⟨hvc, hvf, _⟩ := hne _ hv (hall _ hv)
  have hfi : firstIndex (slotMatches s (get_lowest_time_cart s % 65536)
      (get_lowest_time_frame s % 65536)) s.size.toNat = some (lowest_time_index s) := by
    apply firstIndex_eq_of_least hv
    · rw [slotMatches_iff]
      unfold get_lowest_time_cart get_lowest_time_frame
      rw [Nat.mod_eq_of_lt hvc, Nat.mod_eq_of_lt hvf]
      exact ⟨rfl, rfl⟩
    · intro j hj
      rw [slotMatches_false_iff]
      unfold get_lowest_time_cart get_lowest_time_frame
      rw [Nat.mod_eq_of_lt hvc, Nat.mod_eq_of_lt hvf]
      intro ⟨e1, e2⟩
      have := hdist j (by omega) _ hv ⟨hall j (by omega), hall _ hv, e1, e2⟩
      omega
  unfold evictLowest delete_cart_cache
  rw [hfi]

/-- Eviction on a full consistent cache of capacity at least 1: deleting the pair
`(get_lowest_time_cart(), get_lowest_time_frame())` decreases the occupancy by exactly
1, removes that pair (a lookup of it misses) and nothing else (every other slot is
unchanged and every other pair is looked up as before), and a subsequent
`put_cart_cache` of any pair succeeds: the pair is found by `get_cart_cache` and the
occupancy equals the capacity again. -/
theorem evictLowest_put_spec (s : CacheState) (hc : CacheConsistent s)
    (h1 : 1 ≤ get_cache_size s) (hfull : get_cache_num_occupied s = get_cache_size s) :
    get_cache_num_occupied (evictLowest s) = get_cache_num_occupied s - 1
    ∧ (get_cart_cache (evictLowest s) (get_lowest_time_cart s) (get_lowest_time_frame s)).2
        = none
    ∧ (∀ i, i ≠ lowest_time_index s → (evictLowest s).frames i = s.frames i)
    ∧ (∀ c f, ¬ (c % 65536 = get_lowest_time_cart s ∧ f % 65536 = get_lowest_time_frame s) →
        ¬ (c % 65536 = 65535 ∧ f % 65536 = 65535) →
        (get_cart_cache (evictLowest s) c f).2 = (get_cart_cache s c f).2)
    ∧ (∀ c f b,
        (get_cart_cache (put_cart_cache (evictLowest s) c f b) c f).2.isSome = true
        ∧ get_cache_num_occupied (put_cart_cache (evictLowest s) c f b)
            = get_cache_size (put_cart_cache (evictLowest s) c f b)) := by
  simp only [get_cache_size, get_cache_num_occupied] at h1 hfull ⊢
  have he := evictLowest_eq s hc h1 hfull
  obtain ⟨h0, _, hocc, _, hne, hdist⟩ := hc
  have hv := lowest_time_index_lt s h1
  have hcnt : countNonEmpty s.frames s.size.toNat = s.size.toNat := by omega
  have hall := countNonEmpty_full s.frames s.size.toNat hcnt
  obtain ⟨hvc, hvf, hvm⟩ := hne _ hv (hall _ hv)
  have hsz : (evictLowest s).size = s.size := by rw [he]
  have hfr : ∀ j, j ≠ lowest_time_index s → (evictLowest s).frames j = s.frames j := by
    intro j hj
    rw [he]
    exact Function.update_noteq hj _ _
  have hfv : (evictLowest s).frames (lowest_time_index s)
      = { s.frames (lowest_time_index s) with
          frame_num := 65535, cart_num := 65535, time := -1 } := by
    rw [he]
    exact Function.update_same _ _ _
  refine ⟨by rw [he], ?_, hfr, ?_, ?_⟩
  · rw [get_cart_cache_snd, hsz]
    apply firstIndex_eq_none
    intro j hj
    rw [slotMatches_false_iff]
    unfold get_lowest_time_cart get_lowest_time_frame
    rw [Nat.mod_eq_of_lt hvc, Nat.mod_eq_of_lt hvf]
    by_cases hjv : j = lowest_time_index s
    · subst hjv
      rw [hfv]
      simp only
      intro ⟨e1, e2⟩
      exact hvm ⟨e1.symm, e2.symm⟩
    · rw [hfr j hjv]
      intro ⟨e1, e2⟩
      exact hjv (hdist j hj _ hv ⟨hall j hj, hall _ hv, e1, e2⟩)
  · intro c f hcf hm
    rw [get_cart_cache_snd, get_cart_cache_snd, hsz]
    apply firstIndex_congr
    intro j _
    by_cases hjv : j = lowest_time_index s
    · subst hjv
      have e1 : slotMatches (evictLowest s) (c % 65536) (f % 65536) (lowest_time_index s)
          = false := by
        rw [slotMatches_false_iff, hfv]
        simp only
        intro ⟨a, b⟩
        exact hm ⟨a.symm, b.symm⟩
      have e2 : slotMatches s (c % 65536) (f % 65536) (lowest_time_index s) = false := by
        rw [slotMatches_false_iff]
        intro ⟨a, b⟩
        exact hcf ⟨a.symm, b.symm⟩
      rw [e1, e2]
    · unfold slotMatches
      rw [hfr j hjv]
  · intro c f b
    have hex : ∃ i, firstIndex (fun i => ((evictLowest s).frames i).time == -1)
        (evictLowest s).size.toNat = some i := by
      apply firstIndex_isSome_of_exists (lowest_time_index s) (by rw [hsz]; exact hv)
      rw [hfv]
      rfl
    obtain ⟨i, hi⟩ := hex
    obtain ⟨hilt, _, _⟩ := firstIndex_some hi
    have hput : put_cart_cache (evictLowest s) c f b =
        { evictLowest s with
          frames := Function.update (evictLowest s).frames i
            { framebuf := strncpy ((evictLowest s).frames i).framebuf b 1024
              time := toInt32 (evictLowest s).global_time
              cart_num := c % 65536
              frame_num := f % 65536 }
          num_occupied := (evictLowest s).num_occupied + 1
          global_time := tick (evictLowest s).global_time } := by
      unfold put_cart_cache
      rw [hi]
    constructor
    · rw [get_cart_cache_snd]
      have : ∃ k, firstIndex (slotMatches (put_cart_cache (evictLowest s) c f b)
          (c % 65536) (f % 65536)) (put_cart_cache (evictLowest s) c f b).size.toNat
            = some k := by
        apply firstIndex_isSome_of_exists i
        · rw [hput]; exact hilt
        · rw [slotMatches_iff, hput]
          simp
      obtain ⟨k, hk⟩ := this
      rw [hk]
      rfl
    · rw [hput]
      simp only
      rw [he]
      simp only
      omega

/-- Example on the full cache holding (1, 1) and (2, 2): the eviction leaves occupancy
1, and after putting (3, 3) that pair is found and the cache is full. -/
theorem evictLowest_put_spec_example :
    CacheConsistent fullCache2 ∧ 1 ≤ get_cache_size fullCache2
    ∧ get_cache_num_occupied fullCache2 = get_cache_size fullCache2
    ∧ get_cache_num_occupied (evictLowest fullCache2) = get_cache_num_occupied fullCache2 - 1
    ∧ (get_cart_cache (put_cart_cache (evictLowest fullCache2) 3 3 zeroBuf) 3 3).2.isSome
        = true :=
  have hc : CacheConsistent fullCache2 := by unfold CacheConsistent; decide
  have h := evictLowest_put_spec fullCache2 hc (by decide) (by decide)
  ⟨hc, by decide, by decide, h.1, (h.2.2.2.2 3 3 zeroBuf).1⟩

/-! ## Consistency is kept by touching, filling and clearing a slot -/

theorem consistent_touch (s s1 : CacheState) (i : Nat) (fr : CacheFrames)
    (hc : CacheConsistent s) (hi : i < s.size.toNat)
    (hsz : s1.size = s.size) (hocc : s1.num_occupied = s.num_occupied)
    (hfr : s1.frames = Function.update s.frames i fr)
    (hne : (s.frames i).time ≠ -1) (hne1 : fr.time ≠ -1)
    (hc1 : fr.cart_num = (s.frames i).cart_num)
    (hf1 : fr.frame_num = (s.frames i).frame_num) :
    CacheConsistent s1 ∧ ∀ c f, Held s1 c f ↔ Held s c f := by
  obtain ⟨h0, hmax, hcnt, hemp, hval, hdist⟩ := hc
  have hpair : ∀ j, (s1.frames j).cart_num = (s.frames j).cart_num
      ∧ (s1.frames j).frame_num = (s.frames j).frame_num
      ∧ ((s1.frames j).time = -1 ↔ (s.frames j).time = -1) := by
    intro j
    rw [hfr]
    by_cases hj : j = i
    · subst hj
      simp only [Function.update_same]
      exact ⟨hc1, hf1, by simp [hne, hne1]⟩
    · rw [Function.update_noteq hj]
      exact ⟨rfl, rfl, Iff.rfl⟩
  have hcount := countNonEmpty_update s.frames s.size.toNat i fr hi
  simp only [hne, hne1, if_false] at hcount
  constructor
  · refine ⟨by rw [hsz]; exact h0, by rw [hsz]; exact hmax, ?_, ?_, ?_, ?_⟩
    · rw [hocc, hsz, hfr, hcnt]; omega
    · intro j hj ht
      rw [hsz] at hj
      obtain ⟨e1, e2, e3⟩ := hpair j
      rw [e1, e2]
      exact hemp j hj (e3.1 ht)
    · intro j hj ht
      rw [hsz] at hj
      obtain ⟨e1, e2, e3⟩ := hpair j
      rw [e1, e2]
      exact hval j hj (fun h => ht (e3.2 h))
    · intro j hj k hk ⟨a, b, c, d⟩
      rw [hsz] at hj hk
      obtain ⟨e1, e2, e3⟩ := hpair j
      obtain ⟨g1, g2, g3⟩ := hpair k
      rw [e1, g1] at c
      rw [e2, g2] at d
      exact hdist j hj k hk ⟨fun h => a (e3.2 h), fun h => b (g3.2 h), c, d⟩
  · intro c f
    unfold Held
    rw [hsz]
    constructor
    · rintro ⟨j, hj, a, b, d⟩
      obtain ⟨e1, e2, e3⟩ := hpair j
      exact ⟨j, hj, fun h => a (e3.2 h), by rw [← e1]; exact b, by rw [← e2]; exact d⟩
    · rintro ⟨j, hj, a, b, d⟩
      obtain ⟨e1, e2, e3⟩ := hpair j
      exact ⟨j, hj, fun h => a (e3.1 h), by rw [e1]; exact b, by rw [e2]; exact d⟩

theorem consistent_fill (s s1 : CacheState) (i : Nat) (fr : CacheFrames)
    (hc : CacheConsistent s) (hi : i < s.size.toNat)
    (hsz : s1.size = s.size) (hocc : s1.num_occupied = s.num_occupied + 1)
    (hfr : s1.frames = Function.update s.frames i fr)
    (hem : (s.frames i).time = -1) (hne1 : fr.time ≠ -1)
    (hpc : fr.cart_num < 65536) (hpf : fr.frame_num < 65536)
    (hpm : ¬ (fr.cart_num = 65535 ∧ fr.frame_num = 65535))
    (hfresh : ¬ Held s fr.cart_num fr.frame_num) :
    CacheConsistent s1
    ∧ ∀ c f, Held s1 c f ↔ (Held s c f ∨ (c = fr.cart_num ∧ f = fr.frame_num)) := by
  obtain ⟨h0, hmax, hcnt, hemp, hval, hdist⟩ := hc
  have hcount := countNonEmpty_update s.frames s.size.toNat i fr hi
  simp only [hem, hne1, if_false, if_true] at hcount
  have hsame : s1.frames i = fr := by rw [hfr]; exact Function.update_same _ _ _
  have hoth : ∀ j, j ≠ i → s1.frames j = s.frames j := by
    intro j hj; rw [hfr]; exact Function.update_noteq hj _ _
  constructor
  · refine ⟨by rw [hsz]; exact h0, by rw [hsz]; exact hmax, ?_, ?_, ?_, ?_⟩
    · rw [hocc, hsz, hfr, hcnt]; omega
    · intro j hj ht
      rw [hsz] at hj
      by_cases hji : j = i
      · subst hji; rw [hsame] at ht; exact absurd ht hne1
      · rw [hoth j hji] at ht ⊢; exact hemp j hj ht
    · intro j hj ht
      rw [hsz] at hj
      by_cases hji : j = i
      · subst hji; rw [hsame]; exact ⟨hpc, hpf, hpm⟩
      · rw [hoth j hji] at ht ⊢; exact hval j hj ht
    · intro j hj k hk ⟨a, b, c, d⟩
      rw [hsz] at hj hk
      by_cases hji : j = i
      · by_cases hki : k = i
        · rw [hji, hki]
        · exfalso
          subst hji
          rw [hsame] at c d
          rw [hoth k hki] at b c d
          exact hfresh ⟨k, hk, b, c.symm, d.symm⟩
      · by_cases hki : k = i
        · exfalso
          subst hki
          rw [hsame] at c d
          rw [hoth j hji] at a c d
          exact hfresh ⟨j, hj, a, c, d⟩
        · rw [hoth j hji] at a c d
          rw [hoth k hki] at b c d
          exact hdist j hj k hk ⟨a, b, c, d⟩
  · intro c f
    unfold Held
    rw [hsz]
    constructor
    · rintro ⟨j, hj, a, b, d⟩
      by_cases hji : j = i
      · subst hji
        rw [hsame] at b d
        exact Or.inr ⟨b.symm, d.symm⟩
      · rw [hoth j hji] at a b d
        exact Or.inl ⟨j, hj, a, b, d⟩
    · rintro (⟨j, hj, a, b, d⟩ | ⟨b, d⟩)
      · have hji : j ≠ i := by
          intro h; subst h; exact a hem
        exact ⟨j, hj, by rw [hoth j hji]; exact a, by rw [hoth j hji]; exact b,
          by rw [hoth j hji]; exact d⟩
      · exact ⟨i, hi, by rw [hsame]; exact hne1, by rw [hsame]; exact b.symm,
          by rw [hsame]; exact d.symm⟩

theorem consistent_clear (s s1 : CacheState) (i : Nat) (fr : CacheFrames)
    (hc : CacheConsistent s) (hi : i < s.size.toNat)
    (hsz : s1.size = s.size) (hocc : s1.num_occupied = s.num_occupied - 1)
    (hfr : s1.frames = Function.update s.frames i fr)
    (hne : (s.frames i).time ≠ -1) (hem1 : fr.time = -1)
    (hpc : fr.cart_num = 65535) (hpf : fr.frame_num = 65535) :
    CacheConsistent s1
    ∧ ∀ c f, Held s1 c f ↔
        (Held s c f ∧ ¬ (c = (s.frames i).cart_num ∧ f = (s.frames i).frame_num)) := by
  obtain ⟨h0, hmax, hcnt, hemp, hval, hdist⟩ := hc
  have hcount := countNonEmpty_update s.frames s.size.toNat i fr hi
  simp only [hem1, hne, if_false, if_true] at hcount
  have hsame : s1.frames i = fr := by rw [hfr]; exact Function.update_same _ _ _
  have hoth : ∀ j, j ≠ i → s1.frames j = s.frames j := by
    intro j hj; rw [hfr]; exact Function.update_noteq hj _ _
  constructor
  · refine ⟨by rw [hsz]; exact h0, by rw [hsz]; exact hmax, ?_, ?_, ?_, ?_⟩
    · rw [hocc, hsz, hfr, hcnt]; omega
    · intro j hj ht
      rw [hsz] at hj
      by_cases hji : j = i
      · subst hji; rw [hsame]; exact ⟨hpc, hpf⟩
      · rw [hoth j hji] at ht ⊢; exact hemp j hj ht
    · intro j hj ht
      rw [hsz] at hj
      by_cases hji : j = i
      · subst hji; rw [hsame] at ht; exact absurd hem1 ht
      · rw [hoth j hji] at ht ⊢; exact hval j hj ht
    · intro j hj k hk ⟨a, b, c, d⟩
      rw [hsz] at hj hk
      by_cases hji : j = i
      · subst hji; rw [hsame] at a; exact absurd hem1 a
      · by_cases hki : k = i
        · subst hki; rw [hsame] at b; exact absurd hem1 b
        · rw [hoth j hji] at a c d
          rw [hoth k hki] at b c d
          exact hdist j hj k hk ⟨a, b, c, d⟩
  · intro c f
    unfold Held
    rw [hsz]
    constructor
    · rintro ⟨j, hj, a, b, d⟩
      have hji : j ≠ i := by
        intro h; subst h; rw [hsame] at a; exact a hem1
      rw [hoth j hji] at a b d
      refine ⟨⟨j, hj, a, b, d⟩, ?_⟩
      rintro ⟨e1, e2⟩
      exact hji (hdist j hj i hi ⟨a, hne, by rw [b, e1], by rw [d, e2]⟩)
    · rintro ⟨⟨j, hj, a, b, d⟩, hn⟩
      have hji : j ≠ i := by
        intro h; subst h; exact hn ⟨b.symm, d.symm⟩
      exact ⟨j, hj, by rw [hoth j hji]; exact a, by rw [hoth j hji]; exact b,
        by rw [hoth j hji]; exact d⟩

theorem consistent_frames_eq (s s1 : CacheState) (hc : CacheConsistent s)
    (hsz : s1.size = s.size) (hocc : s1.num_occupied = s.num_occupied)
    (hfr : s1.frames = s.frames) :
    CacheConsistent s1 ∧ ∀ c f, Held s1 c f ↔ Held s c f := by
  unfold CacheConsistent Held at *
  rw [hsz, hocc, hfr]
  exact ⟨hc, fun _ _ => Iff.rfl⟩

theorem lookup_isSome_iff_held (s : CacheState) (hc : CacheConsistent s) (c f : Nat)
    (hm : ¬ (c = 65535 ∧ f = 65535)) :
    (firstIndex (slotMatches s c f) s.size.toNat).isSome = true ↔ Held s c f := by
  obtain ⟨_, _, _, hemp, _, _⟩ := hc
  constructor
  · intro h
    cases hf : firstIndex (slotMatches s c f) s.size.toNat with
    | none => rw [hf] at h; exact Bool.noConfusion h
    | some i =>
      obtain ⟨hi, hp, _⟩ := firstIndex_some hf
      rw [slotMatches_iff] at hp
      refine ⟨i, hi, ?_, hp.1, hp.2⟩
      intro ht
      obtain ⟨e1, e2⟩ := hemp i hi ht
      exact hm ⟨by rw [← hp.1, e1], by rw [← hp.2, e2]⟩
  · rintro ⟨i, hi, _, b, d⟩
    obtain ⟨k, hk⟩ := firstIndex_isSome_of_exists (p := slotMatches s c f) i hi
      ((slotMatches_iff s c f i).2 ⟨b, d⟩)
    rw [hk]
    rfl

/-! ## The cache calls on a consistent cache -/

theorem held_slot_nonempty (s : CacheState) (hc : CacheConsistent s) (c f i : Nat)
    (hm : ¬ (c = 65535 ∧ f = 65535)) (hi : i < s.size.toNat)
    (hp : slotMatches s c f i = true) : (s.frames i).time ≠ -1 := by
  obtain ⟨_, _, _, hemp, _, _⟩ := hc
  rw [slotMatches_iff] at hp
  intro ht
  obtain ⟨e1, e2⟩ := hemp i hi ht
  exact hm ⟨by rw [← hp.1, e1], by rw [← hp.2, e2]⟩

theorem get_hit_spec (s : CacheState) (hc : CacheConsistent s) (c f : Nat)
    (hcl : c < 65536) (hfl : f < 65536) (hm : ¬ (c = 65535 ∧ f = 65535))
    (hg : s.global_time < 2147483648) (hh : Held s c f) :
    (get_cart_cache s c f).2.isSome = true
    ∧ CacheConsistent (get_cart_cache s c f).1
    ∧ (∀ a b, Held (get_cart_cache s c f).1 a b ↔ Held s a b)
    ∧ (get_cart_cache s c f).1.size = s.size
    ∧ (get_cart_cache s c f).1.num_occupied = s.num_occupied
    ∧ (get_cart_cache s c f).1.global_time = s.global_time + 1 := by
  have hl := (lookup_isSome_iff_held s hc c f hm).2 hh
  cases hfi : firstIndex (slotMatches s c f) s.size.toNat with
  | none => rw [hfi] at hl; exact Bool.noConfusion hl
  | some i =>
    obtain ⟨hi, hp, _⟩ := firstIndex_some hfi
    have hne := held_slot_nonempty s hc c f i hm hi hp
    have hne1 := toInt32_ne_neg_one s.global_time hg
    unfold get_cart_cache
    rw [Nat.mod_eq_of_lt hcl, Nat.mod_eq_of_lt hfl, hfi]
    have ht := consistent_touch s
      { s with
        frames := Function.update s.frames i { s.frames i with time := toInt32 s.global_time }
        global_time := tick s.global_time } i
      { s.frames i with time := toInt32 s.global_time } hc hi rfl rfl rfl hne hne1 rfl rfl
    exact ⟨rfl, ht.1, ht.2, rfl, rfl, tick_of_lt _ hg⟩

theorem get_miss_spec (s : CacheState) (hc : CacheConsistent s) (c f : Nat)
    (hcl : c < 65536) (hfl : f < 65536) (hm : ¬ (c = 65535 ∧ f = 65535))
    (hg : s.global_time < 2147483648) (hh : ¬ Held s c f) :
    (get_cart_cache s c f).2 = none
    ∧ CacheConsistent (get_cart_cache s c f).1
    ∧ (∀ a b, Held (get_cart_cache s c f).1 a b ↔ Held s a b)
    ∧ (get_cart_cache s c f).1.size = s.size
    ∧ (get_cart_cache s c f).1.num_occupied = s.num_occupied
    ∧ (get_cart_cache s c f).1.global_time = s.global_time + 1 := by
  have hl := (lookup_isSome_iff_held s hc c f hm).not.2 hh
  cases hfi : firstIndex (slotMatches s c f) s.size.toNat with
  | some i => rw [hfi] at hl; exact absurd rfl hl
  | none =>
    unfold get_cart_cache
    rw [Nat.mod_eq_of_lt hcl, Nat.mod_eq_of_lt hfl, hfi]
    have ht := consistent_frames_eq s { s with global_time := tick s.global_time } hc rfl rfl rfl
    exact ⟨rfl, ht.1, ht.2, rfl, rfl, tick_of_lt _ hg⟩

theorem update_hit_spec (s : CacheState) (hc : CacheConsistent s) (c f : Nat) (buf : Buf)
    (hcl : c < 65536) (hfl : f < 65536) (hm : ¬ (c = 65535 ∧ f = 65535))
    (hg : s.global_time < 2147483648) (hh : Held s c f) :
    CacheConsistent (update_cache s c f buf)
    ∧ (∀ a b, Held (update_cache s c f buf) a b ↔ Held s a b)
    ∧ (update_cache s c f buf).size = s.size
    ∧ (update_cache s c f buf).num_occupied = s.num_occupied
    ∧ (update_cache s c f buf).global_time = s.global_time + 1 := by
  have hl := (lookup_isSome_iff_held s hc c f hm).2 hh
  cases hfi : firstIndex (slotMatches s c f) s.size.toNat with
  | none => rw [hfi] at hl; exact Bool.noConfusion hl
  | some i =>
    obtain ⟨hi, hp, _⟩ := firstIndex_some hfi
    have hne := held_slot_nonempty s hc c f i hm hi hp
    have hne1 := toInt32_ne_neg_one s.global_time hg
    unfold update_cache
    rw [Nat.mod_eq_of_lt hcl, Nat.mod_eq_of_lt hfl, hfi]
    have ht := consistent_touch s
      { s with
        frames := Function.update s.frames i
          { s.frames i with
            time := toInt32 s.global_time
            framebuf := strncpy (s.frames i).framebuf buf 1024 }
        global_time := tick s.global_time } i
      { s.frames i with
        time := toInt32 s.global_time
        framebuf := strncpy (s.frames i).framebuf buf 1024 } hc hi rfl rfl rfl hne hne1 rfl rfl
    exact ⟨ht.1, ht.2, rfl, rfl, tick_of_lt _ hg⟩

theorem put_spec (s : CacheState) (hc : CacheConsistent s) (c f : Nat) (buf : Buf)
    (hcl : c < 65536) (hfl : f < 65536) (hm : ¬ (c = 65535 ∧ f = 65535))
    (hg : s.global_time < 2147483648) (hh : ¬ Held s c f)
    (hroom : s.num_occupied < s.size) :
    CacheConsistent (put_cart_cache s c f buf)
    ∧ (∀ a b, Held (put_cart_cache s c f buf) a b ↔ (Held s a b ∨ (a = c ∧ b = f)))
    ∧ (put_cart_cache s c f buf).size = s.size
    ∧ (put_cart_cache s c f buf).num_occupied = s.num_occupied + 1
    ∧ (put_cart_cache s c f buf).global_time = s.global_time + 1 := by
  have hc' := hc
  obtain ⟨h0, _, hcnt, _, _, _⟩ := hc'
  have hlt : countNonEmpty s.frames s.size.toNat < s.size.toNat := by omega
  obtain ⟨j, hj, hjt⟩ := countNonEmpty_lt s.frames s.size.toNat hlt
  obtain ⟨i, hfi⟩ := firstIndex_isSome_of_exists (p := fun i => (s.frames i).time == -1) j hj
    (by simp [hjt])
  obtain ⟨hi, hp, _⟩ := firstIndex_some hfi
  have hem : (s.frames i).time = -1 := by simpa using hp
  have hne1 := toInt32_ne_neg_one s.global_time hg
  unfold put_cart_cache
  rw [Nat.mod_eq_of_lt hcl, Nat.mod_eq_of_lt hfl, hfi]
  have ht := consistent_fill s
    { s with
      frames := Function.update s.frames i
        { framebuf := strncpy (s.frames i).framebuf buf 1024
          time := toInt32 s.global_time
          cart_num := c
          frame_num := f }
      num_occupied := s.num_occupied + 1
      global_time := tick s.global_time } i
    { framebuf := strncpy (s.frames i).framebuf buf 1024
      time := toInt32 s.global_time
      cart_num := c
      frame_num := f } hc hi rfl rfl rfl hem hne1 hcl hfl hm hh
  exact ⟨ht.1, ht.2, rfl, rfl, tick_of_lt _ hg⟩

theorem evict_spec (s : CacheState) (hc : CacheConsistent s) (h1 : 1 ≤ s.size)
    (hfull : s.num_occupied = s.size) :
    CacheConsistent (evictLowest s)
    ∧ (∀ a b, Held (evictLowest s) a b ↔
        (Held s a b ∧ ¬ (a = get_lowest_time_cart s ∧ b = get_lowest_time_frame s)))
    ∧ (evictLowest s).size = s.size
    ∧ (evictLowest s).num_occupied = s.num_occupied - 1
    ∧ (evictLowest s).global_time = s.global_time := by
  have he := evictLowest_eq s hc h1 hfull
  have hc' := hc
  obtain ⟨h0, _, hcnt, _, _, _⟩ := hc'
  have hv := lowest_time_index_lt s h1
  have hall := countNonEmpty_full s.frames s.size.toNat (by omega)
  rw [he]
  have ht := consistent_clear s
    { s with
      frames := Function.update s.frames (lowest_time_index s)
        { s.frames (lowest_time_index s) with
          frame_num := 65535, cart_num := 65535, time := -1 }
      num_occupied := s.num_occupied - 1 } (lowest_time_index s)
    { s.frames (lowest_time_index s) with
      frame_num := 65535, cart_num := 65535, time := -1 } hc hv rfl rfl rfl (hall _ hv) rfl rfl rfl
  exact ⟨ht.1, ht.2, rfl, rfl, rfl⟩

theorem consistent_occ_le (s : CacheState) (hc : CacheConsistent s) :
    s.num_occupied ≤ s.size := by
  obtain ⟨h0, _, hcnt, _, _, _⟩ := hc
  have := countNonEmpty_le s.frames s.size.toNat
  omega

theorem evicted_pair_held (s : CacheState) (hc : CacheConsistent s) (h1 : 1 ≤ s.size)
    (hfull : s.num_occupied = s.size) :
    Held s (get_lowest_time_cart s) (get_lowest_time_frame s) := by
  obtain ⟨h0, _, hcnt, _, _, _⟩ := hc
  have hv := lowest_time_index_lt s h1
  have hall := countNonEmpty_full s.frames s.size.toNat (by omega)
  exact ⟨lowest_time_index s, hv, hall _ hv, rfl, rfl⟩

/-! ## The unit test keeps its invariant -/

theorem unitTestStep_read (t : TestState) (d : TestDraw) (h0 : d.get_or_put = 0)
    (hiff : (get_cart_cache (tickClock t.cache)
        d.cart_num d.frame_num).2.isSome = t.mark d.cart_num d.frame_num) :
    unitTestStep t d = some
      { cache := (get_cart_cache (tickClock t.cache)
          d.cart_num d.frame_num).1
        mark := t.mark } := by
  unfold unitTestStep
  simp only [h0, if_true]
  cases hr : (get_cart_cache (tickClock t.cache)
      d.cart_num d.frame_num).2 with
  | none =>
    rw [hr] at hiff
    simp [← hiff]
  | some i =>
    rw [hr] at hiff
    simp [← hiff]

theorem unitTestStep_insert_full (t : TestState) (d : TestDraw) (h0 : d.get_or_put ≠ 0)
    (hnone : (get_cart_cache (tickClock t.cache)
        d.cart_num d.frame_num).2 = none)
    (hfull : (get_cart_cache (tickClock t.cache)
        d.cart_num d.frame_num).1.size
      = (get_cart_cache (tickClock t.cache)
        d.cart_num d.frame_num).1.num_occupied) :
    unitTestStep t d = some
      { cache := put_cart_cache
          (evictLowest (get_cart_cache (tickClock t.cache)
            d.cart_num d.frame_num).1) d.cart_num d.frame_num testBufEvict
        mark := fun c f =>
          if c = d.cart_num ∧ f = d.frame_num then true
          else if c = get_lowest_time_cart
                (get_cart_cache (tickClock t.cache)
                  d.cart_num d.frame_num).1
              ∧ f = get_lowest_time_frame
                (get_cart_cache (tickClock t.cache)
                  d.cart_num d.frame_num).1 then false
          else t.mark c f } := by
  unfold unitTestStep
  simp only [h0, if_false, hnone, hfull]
  simp [evictLowest]

theorem unitTestStep_insert_room (t : TestState) (d : TestDraw) (h0 : d.get_or_put ≠ 0)
    (hnone : (get_cart_cache (tickClock t.cache)
        d.cart_num d.frame_num).2 = none)
    (hroom : (get_cart_cache (tickClock t.cache)
        d.cart_num d.frame_num).1.num_occupied
      < (get_cart_cache (tickClock t.cache)
        d.cart_num d.frame_num).1.size) :
    unitTestStep t d = some
      { cache := put_cart_cache
          (get_cart_cache (tickClock t.cache)
            d.cart_num d.frame_num).1 d.cart_num d.frame_num testBufInsert
        mark := fun c f => if c = d.cart_num ∧ f = d.frame_num then true else t.mark c f } := by
  unfold unitTestStep
  have hne : ¬ ((get_cart_cache (tickClock t.cache)
        d.cart_num d.frame_num).1.size
      = (get_cart_cache (tickClock t.cache)
        d.cart_num d.frame_num).1.num_occupied) := by omega
  simp only [h0, if_false, hnone]
  simp [hne, hroom]

theorem unitTestStep_insert_hit (t : TestState) (d : TestDraw) (h0 : d.get_or_put ≠ 0)
    (hsome : (get_cart_cache (tickClock t.cache)
        d.cart_num d.frame_num).2.isSome = true) :
    unitTestStep t d = some
      { cache := update_cache
          (get_cart_cache (tickClock t.cache)
            d.cart_num d.frame_num).1 d.cart_num d.frame_num testBufUpdate
        mark := fun c f => if c = d.cart_num ∧ f = d.frame_num then true else t.mark c f } := by
  unfold unitTestStep
  obtain ⟨i, hi⟩ := Option.isSome_iff_exists.1 hsome
  simp only [h0, if_false, hi]
  simp

theorem unitTestStep_inv (t : TestState) (d : TestDraw) (hinv : TestInv t)
    (hcl : d.cart_num < 65536) (hfl : d.frame_num < 65536)
    (hm : ¬ (d.cart_num = 65535 ∧ d.frame_num = 65535))
    (hg : t.cache.global_time + 3 < 2147483648) :
    ∃ t1, unitTestStep t d = some t1 ∧ TestInv t1
      ∧ t1.cache.global_time ≤ t.cache.global_time + 3
      ∧ t1.cache.size = t.cache.size := by
  obtain ⟨hc, h1, hmark⟩ := hinv
  have htick := tick_of_lt t.cache.global_time (by omega)
  obtain ⟨hc0, hh0⟩ := consistent_frames_eq t.cache (tickClock t.cache) hc rfl rfl rfl
  have hg0 : (tickClock t.cache).global_time = t.cache.global_time + 1 := htick
  by_cases hh : Held t.cache d.cart_num d.frame_num
  · have hmk : t.mark d.cart_num d.frame_num = true := (hmark _ _).2 hh
    obtain ⟨g1, g2, g3, g4, g5, g6⟩ := get_hit_spec _ hc0 _ _ hcl hfl hm
      (by rw [hg0]; omega) ((hh0 _ _).2 hh)
    by_cases hop : d.get_or_put = 0
    · refine ⟨_, unitTestStep_read t d hop (by rw [g1, hmk]), ⟨g2, by rw [g4]; exact h1, ?_⟩,
        by rw [g6, hg0]; omega, g4⟩
      intro c f
      rw [g3, hh0]
      exact hmark c f
    · have hh1 := (g3 _ _).2 ((hh0 _ _).2 hh)
      obtain ⟨u1, u2, u3, u4, u5⟩ := update_hit_spec _ g2 d.cart_num d.frame_num testBufUpdate
        hcl hfl hm (by rw [g6, hg0]; omega) hh1
      refine ⟨_, unitTestStep_insert_hit t d hop g1, ⟨u1, by rw [u3, g4]; exact h1, ?_⟩,
        by simp only []; rw [u5, g6, hg0], by simp only []; rw [u3, g4]; rfl⟩
      intro c f
      simp only []
      rw [u2, g3, hh0, ← hmark]
      by_cases hcf : c = d.cart_num ∧ f = d.frame_num
      · rw [if_pos hcf, hcf.1, hcf.2, hmk]
      · rw [if_neg hcf]
  · have hmk : t.mark d.cart_num d.frame_num = false := by
      cases hv : t.mark d.cart_num d.frame_num with
      | false => rfl
      | true => exact absurd ((hmark _ _).1 hv) hh
    obtain ⟨g1, g2, g3, g4, g5, g6⟩ := get_miss_spec _ hc0 _ _ hcl hfl hm
      (by rw [hg0]; omega) (fun h => hh ((hh0 _ _).1 h))
    have hnh : ¬ Held (get_cart_cache (tickClock t.cache)
        d.cart_num d.frame_num).1 d.cart_num d.frame_num :=
      fun h => hh ((hh0 _ _).1 ((g3 _ _).1 h))
    by_cases hop : d.get_or_put = 0
    · refine ⟨_, unitTestStep_read t d hop (by rw [g1, hmk]; rfl),
        ⟨g2, by rw [g4]; exact h1, ?_⟩, by rw [g6, hg0]; omega, g4⟩
      intro c f
      rw [g3, hh0]
      exact hmark c f
    · have hle := consistent_occ_le _ g2
      by_cases hfull : (get_cart_cache (tickClock t.cache)
          d.cart_num d.frame_num).1.size
          = (get_cart_cache (tickClock t.cache)
            d.cart_num d.frame_num).1.num_occupied
      · have h1' : 1 ≤ (get_cart_cache (tickClock t.cache)
            d.cart_num d.frame_num).1.size := by rw [g4]; exact h1
        obtain ⟨e1, e2, e3, e4, e5⟩ := evict_spec _ g2 h1' hfull.symm
        have hvh := evicted_pair_held _ g2 h1' hfull.symm
        obtain ⟨p1, p2, p3, p4, p5⟩ := put_spec _ e1 d.cart_num d.frame_num testBufEvict
          hcl hfl hm (by rw [e5, g6, hg0]; omega) (fun h => hnh ((e2 _ _).1 h).1)
          (by rw [e4, e3]; omega)
        refine ⟨_, unitTestStep_insert_full t d hop g1 hfull,
          ⟨p1, by rw [p3, e3, g4]; exact h1, ?_⟩,
          by simp only []; rw [p5, e5, g6, hg0], by simp only []; rw [p3, e3, g4]; rfl⟩
        intro c f
        simp only []
        rw [p2, e2, g3, hh0, ← hmark]
        by_cases hcf : c = d.cart_num ∧ f = d.frame_num
        · rw [if_pos hcf]
          simp [hcf]
        · rw [if_neg hcf]
          by_cases hv : c = get_lowest_time_cart
                (get_cart_cache (tickClock t.cache)
                  d.cart_num d.frame_num).1
              ∧ f = get_lowest_time_frame
                (get_cart_cache (tickClock t.cache)
                  d.cart_num d.frame_num).1
          · rw [if_pos hv]
            constructor
            · intro h
              exact Bool.noConfusion h
            · rintro (⟨_, hn⟩ | h)
              · exact absurd hv hn
              · exact absurd h hcf
          · rw [if_neg hv]
            simp [hcf, hv]
      · have hroom : (get_cart_cache (tickClock t.cache)
            d.cart_num d.frame_num).1.num_occupied
          < (get_cart_cache (tickClock t.cache)
            d.cart_num d.frame_num).1.size := by omega
        obtain ⟨p1, p2, p3, p4, p5⟩ := put_spec _ g2 d.cart_num d.frame_num testBufInsert
          hcl hfl hm (by rw [g6, hg0]; omega) hnh hroom
        refine ⟨_, unitTestStep_insert_room t d hop g1 hroom,
          ⟨p1, by rw [p3, g4]; exact h1, ?_⟩,
          by simp only []; rw [p5, g6, hg0], by simp only []; rw [p3, g4]; rfl⟩
        intro c f
        simp only []
        rw [p2, g3, hh0, ← hmark]
        by_cases hcf : c = d.cart_num ∧ f = d.frame_num
        · rw [if_pos hcf]
          simp [hcf]
        · rw [if_neg hcf]
          simp [hcf]

theorem unitTestRun_inv (ds : List TestDraw) (t : TestState) (hinv : TestInv t)
    (hds : ∀ d ∈ ds, d.cart_num < 65536 ∧ d.frame_num < 65536
      ∧ ¬ (d.cart_num = 65535 ∧ d.frame_num = 65535))
    (hg : t.cache.global_time + 3 * ds.length < 2147483648) :
    ∃ t1, unitTestRun t ds = some t1 ∧ TestInv t1 := by
  induction ds generalizing t with
  | nil => exact ⟨t, rfl, hinv⟩
  | cons d ds ih =>
    simp only [List.length_cons] at hg
    obtain ⟨hd1, hd2, hd3⟩ := hds d (List.mem_cons_self _ _)
    obtain ⟨t1, hs, hi1, hclk, _⟩ := unitTestStep_inv t d hinv hd1 hd2 hd3 (by omega)
    obtain ⟨t2, hr, hi2⟩ := ih t1 hi1 (fun e he => hds e (List.mem_cons_of_mem _ he))
      (by omega)
    refine ⟨t2, ?_, hi2⟩
    unfold unitTestRun
    rw [hs]
    exact hr

theorem init_consistent (s : CacheState) (n : Nat) (hn : n ≤ DEFAULT_CART_FRAME_CACHE_SIZE) :
    CacheConsistent (init_cart_cache (set_cart_cache_size s n))
    ∧ ∀ c f, ¬ Held (init_cart_cache (set_cart_cache_size s n)) c f := by
  have hs := init_size s n hn
  have hemp : ∀ i, i < (init_cart_cache (set_cart_cache_size s n)).size.toNat →
      ((init_cart_cache (set_cart_cache_size s n)).frames i).time = -1
      ∧ ((init_cart_cache (set_cart_cache_size s n)).frames i).cart_num = 65535
      ∧ ((init_cart_cache (set_cart_cache_size s n)).frames i).frame_num = 65535 := by
    intro i hi
    have hi2 : i < (set_cart_cache_size s n).size.toNat := hi
    simp only [init_cart_cache, hi2, if_true, resetSlot]
    exact ⟨trivial, trivial, trivial⟩
  unfold DEFAULT_CART_FRAME_CACHE_SIZE at hn
  constructor
  · refine ⟨by rw [hs]; omega, by rw [hs]; omega, ?_, ?_, ?_, ?_⟩
    · rw [countNonEmpty_of_none _ _ (fun i hi => (hemp i hi).1)]
      rfl
    · intro i hi _
      exact (hemp i hi).2
    · intro i hi hne
      exact absurd (hemp i hi).1 hne
    · intro i hi j _ ⟨a, _⟩
      exact absurd (hemp i hi).1 a
  · rintro c f ⟨i, hi, hne, _⟩
    exact hne (hemp i hi).1

theorem freshTest_inv (s : CacheState) (n : Nat) (h1 : 1 ≤ n)
    (hn : n ≤ DEFAULT_CART_FRAME_CACHE_SIZE) : TestInv (freshTest s n) := by
  obtain ⟨hc, hh⟩ := init_consistent s n hn
  refine ⟨hc, ?_, ?_⟩
  · show 1 ≤ (init_cart_cache (set_cart_cache_size s n)).size
    rw [init_size s n hn]
    omega
  · intro c f
    constructor
    · intro h
      exact Bool.noConfusion h
    · intro h
      exact absurd h (hh c f)

/-- C4 (amended): for a capacity `1 ≤ C ≤ DEFAULT_CART_FRAME_CACHE_SIZE`, after
`set_cart_cache_size(C)` and `init_cart_cache()`, for every sequence of test steps over
16-bit frame pairs other than the empty-slot marker (65535, 65535) during which the
logical clock stays below 2^31, no step of `cartCacheUnitTest` fails, and afterwards
`get_cart_cache(c, f)` returns a buffer if and only if the `mark` of `(c, f)` is set,
that is if and only if the pair was put and has not since been deleted. -/
theorem C4_cache_membership_exact (s : CacheState) (C : Nat) (ds : List TestDraw)
    (hC1 : 1 ≤ C) (hC : C ≤ DEFAULT_CART_FRAME_CACHE_SIZE)
    (hds : ∀ d ∈ ds, d.cart_num < 65536 ∧ d.frame_num < 65536
      ∧ ¬ (d.cart_num = 65535 ∧ d.frame_num = 65535))
    (hclock : s.global_time + 3 * ds.length < 2147483648) :
    ∃ t, unitTestRun (freshTest s C) ds = some t
      ∧ ∀ c f, c < 65536 → f < 65536 → ¬ (c = 65535 ∧ f = 65535) →
          ((get_cart_cache t.cache c f).2.isSome = true ↔ t.mark c f = true) := by
  obtain ⟨t, hr, hc, _, hmark⟩ := unitTestRun_inv ds (freshTest s C)
    (freshTest_inv s C hC1 hC) hds hclock
  refine ⟨t, hr, ?_⟩
  intro c f hcl hfl hm
  rw [get_cart_cache_snd, Nat.mod_eq_of_lt hcl, Nat.mod_eq_of_lt hfl,
    lookup_isSome_iff_held t.cache hc c f hm, hmark]

/-- The unit test as written never returns -1: from any prior state, with
`cache_size = 40` and the clock reset to 0, its 10000 steps (or fewer) over 16-bit pairs
other than (65535, 65535) all pass. -/
theorem cartCacheUnitTest_passes (s : CacheState) (ds : List TestDraw)
    (hds : ∀ d ∈ ds, d.cart_num < 65536 ∧ d.frame_num < 65536
      ∧ ¬ (d.cart_num = 65535 ∧ d.frame_num = 65535))
    (hlen : ds.length ≤ 10000) :
    (unitTestRun (unitTestInit s 40) ds).isSome = true := by
  obtain ⟨t, hr, _⟩ := unitTestRun_inv ds (unitTestInit s 40)
    (freshTest_inv { s with global_time := 0 } 40 (by norm_num)
      (by unfold DEFAULT_CART_FRAME_CACHE_SIZE; norm_num)) hds
    (by
      have : (unitTestInit s 40).cache.global_time = 0 := rfl
      rw [this]
      omega)
  rw [hr]
  rfl

/-- Witness of C4: capacity 2 from the start-up globals; (1, 1) and (2, 2) are
inserted, (1, 1) is read, (3, 3) is inserted (evicting (2, 2)), (2, 2) is read. -/
theorem C4_cache_membership_exact_witness :
    ∃ t, unitTestRun (freshTest bootCache 2)
        [⟨1, 1, 1⟩, ⟨1, 2, 2⟩, ⟨0, 1, 1⟩, ⟨1, 3, 3⟩, ⟨0, 2, 2⟩] = some t
      ∧ ∀ c f, c < 65536 → f < 65536 → ¬ (c = 65535 ∧ f = 65535) →
          ((get_cart_cache t.cache c f).2.isSome = true ↔ t.mark c f = true) :=
  C4_cache_membership_exact bootCache 2
    [⟨1, 1, 1⟩, ⟨1, 2, 2⟩, ⟨0, 1, 1⟩, ⟨1, 3, 3⟩, ⟨0, 2, 2⟩]
    (by decide) (by decide) (by decide) (by decide)

/-- C4 (counterexamples to the unrestricted claim): with capacity 0 the pair (1, 1) is
put after a lookup miss (the put finds no slot) and never deleted, its `mark` is set,
yet `get_cart_cache(1, 1)` returns `NULL` and the next read step of the test fails;
and with the clock at 4294967293 the put of (1, 1) stores timestamp -1, the next
insertion overwrites that slot, and (1, 1), still marked, is no longer found. -/
theorem C4_counterexample :
    (unitTestRun (freshTest bootCache 0) [⟨1, 1, 1⟩]).map
        (fun t => (t.mark 1 1, (get_cart_cache t.cache 1 1).2)) = some (true, none)
    ∧ (unitTestRun (freshTest bootCache 0) [⟨1, 1, 1⟩, ⟨0, 1, 1⟩]).isNone = true
    ∧ (unitTestRun (freshTest { bootCache with global_time := 4294967293 } 2)
          [⟨1, 1, 1⟩, ⟨1, 2, 2⟩]).map
        (fun t => (t.mark 1 1, (get_cart_cache t.cache 1 1).2)) = some (true, none) := by
  decide

/-! ## Claims on the stored buffers -/

/-- C8 (evaluation at the failing input): a 1024-byte buffer whose byte 0 is NUL and
whose byte 1 is 1 is put into an empty cache of capacity 1, or stored by `update_cache`
over a cached frame of bytes 1; the buffer then returned by `get_cart_cache` has byte 1
equal to 0, not 1. -/
theorem C8_zero_byte_truncates_buffer :
    nulThenOne 1 = 1
    ∧ (cachedBuf (get_cart_cache
          (put_cart_cache (init_cart_cache (set_cart_cache_size bootCache 1)) 1 1 nulThenOne)
          1 1)).map (fun b => b 1) = some 0
    ∧ (cachedBuf (get_cart_cache
          (update_cache
            (put_cart_cache (init_cart_cache (set_cart_cache_size bootCache 1)) 1 1 allOnes)
            1 1 nulThenOne)
          1 1)).map (fun b => b 1) = some 0 := by
  decide

/-! ## Least recently used: the slot of lowest time -/

theorem lowest_time_loop_unique (s : CacheState) (i0 : Nat)
    (hmax : (s.frames i0).time < INT_MAX) (n : Nat)
    (hmin : ∀ j, j < n → j ≠ i0 → (s.frames i0).time < (s.frames j).time) :
    (i0 < n → lowest_time_loop s n = ((s.frames i0).time, i0))
    ∧ (n ≤ i0 → (s.frames i0).time < (lowest_time_loop s n).1) := by
  induction n with
  | zero =>
    exact ⟨fun h => absurd h (Nat.not_lt_zero _), fun _ => hmax⟩
  | succ k ih =>
    obtain ⟨ih1, ih2⟩ := ih (fun j hj hne => hmin j (by omega) hne)
    unfold lowest_time_loop
    simp only
    rcases Nat.lt_trichotomy k i0 with h | h | h
    · have hk := hmin k (by omega) (by omega)
      have hm := ih2 (by omega)
      refine ⟨fun h' => by omega, fun _ => ?_⟩
      split
      · exact hk
      · exact hm
    · subst h
      have hm := ih2 (le_refl _)
      refine ⟨fun _ => ?_, fun h' => by omega⟩
      rw [if_pos hm]
    · have hk := hmin k (by omega) (by omega)
      have hl := ih1 h
      refine ⟨fun _ => ?_, fun h' => by omega⟩
      rw [hl]
      simp only
      rw [if_neg (by omega)]

theorem map_erase_of_nodup {α β : Type} [BEq α] [LawfulBEq α] [BEq β] [LawfulBEq β]
    (f : α → β)
    (σ : List α) (a : α) (hnd : (σ.map f).Nodup) (ha : a ∈ σ) :
    (σ.erase a).map f = (σ.map f).erase (f a) := by
  induction σ with
  | nil => simp at ha
  | cons x xs ih =>
    by_cases hx : x = a
    · subst hx
      simp
    · have ha2 : a ∈ xs := by
        rcases List.mem_cons.1 ha with h | h
        · exact absurd h.symm hx
        · exact h
      rw [List.map_cons, List.nodup_cons] at hnd
      have hfx : f x ≠ f a := by
        intro he
        exact hnd.1 (by rw [he]; exact List.mem_map_of_mem f ha2)
      rw [List.erase_cons_tail (by simpa using hx), List.map_cons, List.map_cons,
        List.erase_cons_tail (by simpa using hfx), ih hnd.2 ha2]

theorem countNonEmpty_prefix (f : Nat → CacheFrames) (k n : Nat) (hk : k ≤ n)
    (h1 : ∀ i, i < k → (f i).time ≠ -1) (h2 : ∀ i, k ≤ i → i < n → (f i).time = -1) :
    countNonEmpty f n = k := by
  induction n with
  | zero =>
    have : k = 0 := by omega
    subst this
    rfl
  | succ n ih =>
    unfold countNonEmpty
    by_cases hkn : k = n + 1
    · subst hkn
      rw [countNonEmpty_of_all f n (fun i hi => h1 i (by omega))]
      simp [h1 n (by omega)]
    · rw [ih (by omega) (fun i hi hin => h2 i hi (by omega))]
      simp [h2 n (by omega) (by omega)]

theorem applyOp_lruBad (s : CacheState) (op : CacheOp) (h : LruBad s)
    (hnd : ∀ c f, op ≠ CacheOp.delete c f)
    (hg : s.global_time < 2147483648) : LruBad (applyOp s op) := by
  obtain ⟨h0, h1⟩ := h
  have hne := toInt32_ne_neg_one s.global_time hg
  cases op with
  | put c f b =>
    simp only [applyOp, put_cart_cache]
    cases hfi : firstIndex (fun i => (s.frames i).time == -1) s.size.toNat with
    | none => exact ⟨h0, h1⟩
    | some i =>
      obtain ⟨hi, hp, _⟩ := firstIndex_some hfi
      have hti : (s.frames i).time = -1 := by simpa using hp
      refine ⟨h0, ?_⟩
      have hc := countNonEmpty_update s.frames s.size.toNat i
        { framebuf := strncpy (s.frames i).framebuf b 1024, time := toInt32 s.global_time,
          cart_num := c % 65536, frame_num := f % 65536 } hi
      simp only [hti, if_true, hne, if_false] at hc
      simp only
      omega
  | get c f =>
    simp only [applyOp, get_cart_cache]
    cases hfi : firstIndex (slotMatches s (c % 65536) (f % 65536)) s.size.toNat with
    | none => exact ⟨h0, h1⟩
    | some i =>
      obtain ⟨hi, _, _⟩ := firstIndex_some hfi
      refine ⟨h0, ?_⟩
      have hc := countNonEmpty_update s.frames s.size.toNat i
        { s.frames i with time := toInt32 s.global_time } hi
      simp only [hne, if_false] at hc
      simp only
      split at hc <;> omega
  | update c f b =>
    simp only [applyOp, update_cache]
    cases hfi : firstIndex (slotMatches s (c % 65536) (f % 65536)) s.size.toNat with
    | none => exact ⟨h0, h1⟩
    | some i =>
      obtain ⟨hi, _, _⟩ := firstIndex_some hfi
      refine ⟨h0, ?_⟩
      have hc := countNonEmpty_update s.frames s.size.toNat i
        { s.frames i with time := toInt32 s.global_time,
                          framebuf := strncpy (s.frames i).framebuf b 1024 } hi
      simp only [hne, if_false] at hc
      simp only
      split at hc <;> omega
  | delete c f => exact absurd rfl (hnd c f)

/-! ## The cache follows the reference recency order -/

theorem lruGood_clock (s s1 : CacheState) (l : List (Nat × Nat)) (σ : List Nat)
    (hG : LruGood s l σ) (hsz : s1.size = s.size) (hocc : s1.num_occupied = s.num_occupied)
    (hfr : s1.frames = s.frames) (hclk : s.global_time ≤ s1.global_time) :
    LruGood s1 l σ := by
  obtain ⟨h0, hnd, hperm, hlen, ho, hl, hlnd, hpw, htm, hemp⟩ := hG
  refine ⟨by rw [hsz]; exact h0, hnd, hperm, by rw [hsz]; exact hlen,
    by rw [hocc]; exact ho, ?_, hlnd, ?_, ?_, ?_⟩
  · rw [hl]
    unfold slotPair
    rw [hfr]
  · rw [hfr]; exact hpw
  · intro i hi
    rw [hfr]
    have := htm i hi
    omega
  · rw [hsz, hfr]; exact hemp

theorem lruGood_fill (s s1 : CacheState) (l : List (Nat × Nat)) (σ : List Nat)
    (fr : CacheFrames) (hG : LruGood s l σ) (hroom : σ.length < s.size.toNat)
    (hsz : s1.size = s.size) (hocc : s1.num_occupied = s.num_occupied + 1)
    (hfr : s1.frames = Function.update s.frames σ.length fr)
    (htime : fr.time = (s.global_time : Int))
    (hclk : s1.global_time = s.global_time + 1)
    (hfresh : (fr.cart_num, fr.frame_num) ∉ l) :
    LruGood s1 (l ++ [(fr.cart_num, fr.frame_num)]) (σ ++ [σ.length]) := by
  obtain ⟨h0, hnd, hperm, hlen, ho, hl, hlnd, hpw, htm, hemp⟩ := hG
  have hk : σ.length ∉ σ := fun h => absurd ((hperm _).1 h) (lt_irrefl _)
  have hsame : s1.frames σ.length = fr := by rw [hfr]; exact Function.update_same _ _ _
  have hoth : ∀ j, j ∈ σ → s1.frames j = s.frames j := by
    intro j hj
    rw [hfr]
    exact Function.update_noteq (fun h => hk (by rw [← h]; exact hj)) _ _
  refine ⟨by rw [hsz]; exact h0, ?_, ?_, ?_, ?_, ?_, ?_, ?_, ?_, ?_⟩
  · rw [List.nodup_append]
    refine ⟨hnd, List.nodup_singleton _, ?_⟩
    intro a ha hb
    rw [List.mem_singleton] at hb
    exact hk (hb ▸ ha)
  · intro i
    rw [List.mem_append, List.mem_singleton, List.length_append, List.length_singleton, hperm]
    omega
  · rw [List.length_append, List.length_singleton, hsz]; omega
  · rw [hocc, ho, List.length_append, List.length_singleton]; push_cast; ring
  · rw [List.map_append, List.map_singleton, hl]
    congr 1
    · apply List.map_congr_left
      intro a ha
      unfold slotPair
      rw [hoth a ha]
    · unfold slotPair
      rw [hsame]
  · rw [List.nodup_append]
    refine ⟨hlnd, List.nodup_singleton _, ?_⟩
    intro a ha hb
    rw [List.mem_singleton] at hb
    exact hfresh (hb ▸ ha)
  · rw [List.pairwise_append]
    refine ⟨?_, List.pairwise_singleton _ _, ?_⟩
    · apply List.Pairwise.imp_of_mem _ hpw
      intro a b ha hb hab
      rw [hoth a ha, hoth b hb]
      exact hab
    · intro a ha b hb
      rw [List.mem_singleton] at hb
      subst hb
      rw [hoth a ha, hsame, htime]
      exact (htm a ha).2
  · intro i hi
    rw [List.mem_append, List.mem_singleton] at hi
    rw [hclk]
    rcases hi with hi | hi
    · rw [hoth i hi]
      have := htm i hi
      push_cast
      omega
    · subst hi
      rw [hsame, htime]
      push_cast
      omega
  · intro i hi hin
    rw [List.length_append, List.length_singleton] at hi
    rw [hsz] at hin
    have : s1.frames i = s.frames i := by
      rw [hfr]
      exact Function.update_noteq (by omega) _ _
    rw [this]
    exact hemp i (by omega) hin

theorem lruGood_touch (s s1 : CacheState) (l : List (Nat × Nat)) (σ : List Nat)
    (i0 : Nat) (fr : CacheFrames) (hG : LruGood s l σ) (hi0 : i0 ∈ σ)
    (hsz : s1.size = s.size) (hocc : s1.num_occupied = s.num_occupied)
    (hfr : s1.frames = Function.update s.frames i0 fr)
    (hc : fr.cart_num = (s.frames i0).cart_num)
    (hf : fr.frame_num = (s.frames i0).frame_num)
    (htime : fr.time = (s.global_time : Int))
    (hclk : s1.global_time = s.global_time + 1) :
    LruGood s1 (l.erase (slotPair s i0) ++ [slotPair s i0]) (σ.erase i0 ++ [i0]) := by
  obtain ⟨h0, hnd, hperm, hlen, ho, hl, hlnd, hpw, htm, hemp⟩ := hG
  have hsame : s1.frames i0 = fr := by rw [hfr]; exact Function.update_same _ _ _
  have hoth : ∀ j, j ≠ i0 → s1.frames j = s.frames j := by
    intro j hj
    rw [hfr]
    exact Function.update_noteq hj _ _
  have hpair : ∀ j, slotPair s1 j = slotPair s j := by
    intro j
    unfold slotPair
    by_cases hj : j = i0
    · subst hj; rw [hsame, hc, hf]
    · rw [hoth j hj]
  have hlenE : (σ.erase i0).length + 1 = σ.length := by
    rw [List.length_erase_of_mem hi0]
    have : 0 < σ.length := List.length_pos_of_mem hi0
    omega
  have hmemE : ∀ a, a ∈ σ.erase i0 ↔ a ≠ i0 ∧ a ∈ σ := fun a => hnd.mem_erase_iff
  have hpl : slotPair s i0 ∈ l := by rw [hl]; exact List.mem_map_of_mem _ hi0
  refine ⟨by rw [hsz]; exact h0, ?_, ?_, ?_, ?_, ?_, ?_, ?_, ?_, ?_⟩
  · rw [List.nodup_append]
    refine ⟨hnd.erase _, List.nodup_singleton _, ?_⟩
    intro a ha hb
    rw [List.mem_singleton] at hb
    exact ((hmemE a).1 ha).1 hb
  · intro i
    rw [List.mem_append, List.mem_singleton, List.length_append, List.length_singleton, hlenE,
      hmemE, ← hperm]
    constructor
    · rintro (⟨_, h⟩ | h)
      · exact h
      · exact h ▸ hi0
    · intro h
      by_cases hi : i = i0
      · exact Or.inr hi
      · exact Or.inl ⟨hi, h⟩
  · rw [List.length_append, List.length_singleton, hlenE, hsz]; exact hlen
  · rw [hocc, ho, List.length_append, List.length_singleton, hlenE]
  · rw [List.map_append, List.map_singleton, hpair i0]
    congr 1
    have e1 : List.map (slotPair s1) (σ.erase i0) = List.map (slotPair s) (σ.erase i0) :=
      List.map_congr_left (fun a _ => hpair a)
    rw [e1, map_erase_of_nodup (slotPair s) σ i0 (hl ▸ hlnd) hi0, hl]
  · rw [List.nodup_append]
    refine ⟨hlnd.erase _, List.nodup_singleton _, ?_⟩
    intro a ha hb
    rw [List.mem_singleton] at hb
    exact (hlnd.mem_erase_iff.1 ha).1 hb
  · rw [List.pairwise_append]
    refine ⟨?_, List.pairwise_singleton _ _, ?_⟩
    · apply List.Pairwise.imp_of_mem _ (hpw.sublist (List.erase_sublist i0 σ))
      intro a b ha hb hab
      rw [hoth a ((hmemE a).1 ha).1, hoth b ((hmemE b).1 hb).1]
      exact hab
    · intro a ha b hb
      rw [List.mem_singleton] at hb
      subst hb
      rw [hoth a ((hmemE a).1 ha).1, hsame, htime]
      exact (htm a ((hmemE a).1 ha).2).2
  · intro i hi
    rw [List.mem_append, List.mem_singleton] at hi
    rw [hclk]
    rcases hi with hi | hi
    · rw [hoth i ((hmemE i).1 hi).1]
      have := htm i ((hmemE i).1 hi).2
      push_cast
      omega
    · subst hi
      rw [hsame, htime]
      push_cast
      omega
  · intro i hi hin
    rw [List.length_append, List.length_singleton, hlenE] at hi
    rw [hsz] at hin
    have hne : i ≠ i0 := by
      have := (hperm i0).1 hi0
      omega
    rw [hoth i hne]
    exact hemp i hi hin

theorem lruGood_count (s : CacheState) (l : List (Nat × Nat)) (σ : List Nat)
    (hG : LruGood s l σ) : countNonEmpty s.frames s.size.toNat = σ.length := by
  obtain ⟨h0, hnd, hperm, hlen, ho, hl, hlnd, hpw, htm, hemp⟩ := hG
  apply countNonEmpty_prefix _ _ _ hlen
  · intro i hi
    have := (htm i ((hperm i).2 hi)).1
    omega
  · intro i hi hin
    exact (hemp i hi hin).1

theorem lruGood_steal (s s1 : CacheState) (l : List (Nat × Nat)) (σ : List Nat)
    (k : Nat) (fr : CacheFrames) (hG : LruGood s l σ) (hk : σ.length ≤ k)
    (hkn : k < s.size.toNat)
    (hsz : s1.size = s.size) (hocc : s1.num_occupied = s.num_occupied)
    (hfr : s1.frames = Function.update s.frames k fr) (htime : fr.time ≠ -1) :
    LruBad s1 := by
  have hcnt := lruGood_count s l σ hG
  obtain ⟨h0, hnd, hperm, hlen, ho, hl, hlnd, hpw, htm, hemp⟩ := hG
  have hc := countNonEmpty_update s.frames s.size.toNat k fr hkn
  simp only [(hemp k hk hkn).1, htime, if_true, if_false] at hc
  refine ⟨by rw [hsz]; exact h0, ?_⟩
  rw [hocc, hsz, hfr, ho]
  omega

theorem lruGood_firstEmpty (s : CacheState) (l : List (Nat × Nat)) (σ : List Nat)
    (hG : LruGood s l σ) :
    firstIndex (fun i => (s.frames i).time == -1) s.size.toNat
      = if σ.length < s.size.toNat then some σ.length else none := by
  obtain ⟨h0, hnd, hperm, hlen, ho, hl, hlnd, hpw, htm, hemp⟩ := hG
  have hne : ∀ j, j < σ.length → ((s.frames j).time == -1) = false := by
    intro j hj
    have := (htm j ((hperm j).2 hj)).1
    simp only [beq_eq_false_iff_ne, ne_eq]
    omega
  by_cases hlt : σ.length < s.size.toNat
  · rw [if_pos hlt]
    apply firstIndex_eq_of_least hlt
    · simp [(hemp σ.length (le_refl _) hlt).1]
    · exact hne
  · rw [if_neg hlt]
    apply firstIndex_eq_none
    intro j hj
    exact hne j (by omega)

theorem lruGood_lookup_mem (s : CacheState) (l : List (Nat × Nat)) (σ : List Nat)
    (hG : LruGood s l σ) (p : Nat × Nat) (hp : p ∈ l) :
    ∃ i0, i0 ∈ σ ∧ slotPair s i0 = p
      ∧ firstIndex (slotMatches s p.1 p.2) s.size.toNat = some i0 := by
  obtain ⟨h0, hnd, hperm, hlen, ho, hl, hlnd, hpw, htm, hemp⟩ := hG
  rw [hl, List.mem_map] at hp
  obtain ⟨i0, hi0, hpi⟩ := hp
  refine ⟨i0, hi0, hpi, ?_⟩
  have hlt := (hperm i0).1 hi0
  apply firstIndex_eq_of_least (by omega)
  · rw [slotMatches_iff, ← hpi]
    exact ⟨rfl, rfl⟩
  · intro j hj
    rw [slotMatches_false_iff]
    rintro ⟨e1, e2⟩
    have hj2 : j ∈ σ := (hperm j).2 (by omega)
    have heq : slotPair s j = slotPair s i0 := by
      rw [hpi]
      unfold slotPair
      rw [e1, e2]
    have := List.inj_on_of_nodup_map (hl ▸ hlnd) hj2 hi0 heq
    omega

theorem lruGood_lookup_not_mem (s : CacheState) (l : List (Nat × Nat)) (σ : List Nat)
    (hG : LruGood s l σ) (p : Nat × Nat) (hp : p ∉ l) :
    firstIndex (slotMatches s p.1 p.2) s.size.toNat = none
    ∨ ∃ k, σ.length ≤ k ∧ k < s.size.toNat
        ∧ firstIndex (slotMatches s p.1 p.2) s.size.toNat = some k := by
  obtain ⟨h0, hnd, hperm, hlen, ho, hl, hlnd, hpw, htm, hemp⟩ := hG
  cases hfi : firstIndex (slotMatches s p.1 p.2) s.size.toNat with
  | none => exact Or.inl rfl
  | some k =>
    right
    obtain ⟨hk, hm, _⟩ := firstIndex_some hfi
    refine ⟨k, ?_, hk, rfl⟩
    by_contra hlt
    apply hp
    rw [hl, List.mem_map]
    refine ⟨k, (hperm k).2 (by omega), ?_⟩
    rw [slotMatches_iff] at hm
    unfold slotPair
    rw [hm.1, hm.2]

theorem lruGood_length (s : CacheState) (l : List (Nat × Nat)) (σ : List Nat)
    (hG : LruGood s l σ) : l.length = σ.length := by
  obtain ⟨_, _, _, _, _, hl, _⟩ := hG
  rw [hl, List.length_map]

theorem applyOp_lru (C : Nat) (s : CacheState) (l : List (Nat × Nat)) (σ : List Nat)
    (op : CacheOp) (hG : LruGood s l σ) (hC : s.size = (C : Int))
    (hfresh : putsFresh C l [op] = true) (hg : s.global_time < 2147483647) :
    (∃ σ1, LruGood (applyOp s op) (recencyStep C l op) σ1) ∨ LruBad (applyOp s op) := by
  have hn : s.size.toNat = C := by rw [hC]; exact Int.toNat_natCast C
  have ht32 : toInt32 s.global_time = (s.global_time : Int) := toInt32_of_lt _ (by omega)
  have htk : tick s.global_time = s.global_time + 1 := tick_of_lt _ (by omega)
  have hll := lruGood_length s l σ hG
  cases op with
  | put c f b =>
    left
    have hp : (c % 65536, f % 65536) ∉ l := by
      simpa [putsFresh] using hfresh
    have hfe := lruGood_firstEmpty s l σ hG
    simp only [applyOp, put_cart_cache, recencyStep]
    rw [hfe]
    by_cases hlt : σ.length < s.size.toNat
    · rw [if_pos hlt, if_pos (by omega)]
      exact ⟨_, lruGood_fill s _ l σ
        { framebuf := strncpy (s.frames σ.length).framebuf b 1024
          time := toInt32 s.global_time
          cart_num := c % 65536
          frame_num := f % 65536 } hG hlt rfl rfl rfl ht32 htk hp⟩
    · rw [if_neg hlt, if_neg (by omega)]
      exact ⟨σ, hG⟩
  | get c f =>
    simp only [applyOp, get_cart_cache, recencyStep, recencyTouch]
    by_cases hp : (c % 65536, f % 65536) ∈ l
    · left
      obtain ⟨i0, hi0, hpi, hfi⟩ := lruGood_lookup_mem s l σ hG _ hp
      rw [if_pos hp]
      simp only at hfi
      rw [hfi, ← hpi]
      exact ⟨_, lruGood_touch s _ l σ i0 { s.frames i0 with time := toInt32 s.global_time }
        hG hi0 rfl rfl rfl rfl rfl ht32 htk⟩
    · rw [if_neg hp]
      rcases lruGood_lookup_not_mem s l σ hG _ hp with hfi | ⟨k, hk1, hk2, hfi⟩
      · left
        simp only at hfi
        rw [hfi]
        exact ⟨σ, lruGood_clock s _ l σ hG rfl rfl rfl (by simp only []; omega)⟩
      · right
        simp only at hfi
        rw [hfi]
        exact lruGood_steal s _ l σ k { s.frames k with time := toInt32 s.global_time }
          hG hk1 hk2 rfl rfl rfl (by simp only []; rw [ht32]; omega)
  | update c f b =>
    simp only [applyOp, update_cache, recencyStep, recencyTouch]
    by_cases hp : (c % 65536, f % 65536) ∈ l
    · left
      obtain ⟨i0, hi0, hpi, hfi⟩ := lruGood_lookup_mem s l σ hG _ hp
      rw [if_pos hp]
      simp only at hfi
      rw [hfi, ← hpi]
      exact ⟨_, lruGood_touch s _ l σ i0
        { s.frames i0 with
          time := toInt32 s.global_time
          framebuf := strncpy (s.frames i0).framebuf b 1024 }
        hG hi0 rfl rfl rfl rfl rfl ht32 htk⟩
    · rw [if_neg hp]
      rcases lruGood_lookup_not_mem s l σ hG _ hp with hfi | ⟨k, hk1, hk2, hfi⟩
      · left
        simp only at hfi
        rw [hfi]
        exact ⟨σ, hG⟩
      · right
        simp only at hfi
        rw [hfi]
        exact lruGood_steal s _ l σ k
          { s.frames k with
            time := toInt32 s.global_time
            framebuf := strncpy (s.frames k).framebuf b 1024 }
          hG hk1 hk2 rfl rfl rfl (by simp only []; rw [ht32]; omega)
  | delete c f =>
    simp [putsFresh] at hfresh

theorem runOps_clock (ops : List CacheOp) (s : CacheState)
    (hg : s.global_time + ops.length < 2147483648) :
    (runOps s ops).global_time ≤ s.global_time + ops.length := by
  induction ops generalizing s with
  | nil => exact le_refl _
  | cons op ops ih =>
    simp only [List.length_cons] at hg ⊢
    have hc := applyOp_clock s op (by omega)
    have := ih (applyOp s op) (by omega)
    simp only [runOps]
    omega

theorem runOps_lru (C : Nat) (ops : List CacheOp) (s : CacheState) (l : List (Nat × Nat))
    (hinv : (∃ σ, LruGood s l σ) ∨ LruBad s) (hC : s.size = (C : Int))
    (hfresh : putsFresh C l ops = true)
    (hg : s.global_time + ops.length < 2147483647) :
    (∃ σ, LruGood (runOps s ops) (recencyOrder C l ops) σ) ∨ LruBad (runOps s ops) := by
  induction ops generalizing s l with
  | nil => exact hinv
  | cons op ops ih =>
    simp only [List.length_cons] at hg
    simp only [putsFresh, Bool.and_eq_true] at hfresh
    have hclk := applyOp_clock s op (by omega)
    have hsz : (applyOp s op).size = (C : Int) := by rw [applyOp_size]; exact hC
    simp only [runOps, recencyOrder]
    apply ih (applyOp s op) (recencyStep C l op) _ hsz hfresh.2 (by omega)
    rcases hinv with ⟨σ, hG⟩ | hB
    · exact applyOp_lru C s l σ op hG hC
        (by simp only [putsFresh, Bool.and_true]; exact hfresh.1) (by omega)
    · right
      apply applyOp_lruBad s op hB _ (by omega)
      intro c f hop
      subst hop
      simp at hfresh

theorem init_lruGood (s : CacheState) (n : Nat) (hn : n ≤ DEFAULT_CART_FRAME_CACHE_SIZE) :
    LruGood (init_cart_cache (set_cart_cache_size s n)) [] [] := by
  obtain ⟨⟨h0, _, _, hemp, _, _⟩, _⟩ := init_consistent s n hn
  have hall : ∀ i, i < (init_cart_cache (set_cart_cache_size s n)).size.toNat →
      ((init_cart_cache (set_cart_cache_size s n)).frames i).time = -1 := by
    intro i hi
    have hi2 : i < (set_cart_cache_size s n).size.toNat := hi
    simp only [init_cart_cache, hi2, if_true, resetSlot]
  refine ⟨h0, List.nodup_nil, ?_, Nat.zero_le _, rfl, rfl, List.nodup_nil, List.Pairwise.nil,
    ?_, ?_⟩
  · intro i
    simp
  · intro i hi
    simp at hi
  · intro i _ hin
    exact ⟨hall i hin, hemp i hin (hall i hin)⟩

/-- C5 (amended): for a cache of capacity `1 ≤ C ≤ DEFAULT_CART_FRAME_CACHE_SIZE`
freshly initialised, and any sequence of `put_cart_cache` (of pairs not already
cached), `update_cache` and `get_cart_cache` calls with no delete during which the
logical clock stays below 2^31 - 1, once the occupancy equals `C` the pair
`(get_lowest_time_cart(), get_lowest_time_frame())` is the least recently touched
cached pair, the head of the reference recency order, and both getters read the same
slot. -/
theorem C5_lru_victim (s : CacheState) (C : Nat) (ops : List CacheOp)
    (hC1 : 1 ≤ C) (hC : C ≤ DEFAULT_CART_FRAME_CACHE_SIZE)
    (hfresh : putsFresh C [] ops = true)
    (hclock : s.global_time + ops.length < 2147483647)
    (hfull : get_cache_num_occupied (runOps (init_cart_cache (set_cart_cache_size s C)) ops)
      = get_cache_size (runOps (init_cart_cache (set_cart_cache_size s C)) ops)) :
    (recencyOrder C [] ops).head?
        = some (get_lowest_time_cart (runOps (init_cart_cache (set_cart_cache_size s C)) ops),
                get_lowest_time_frame (runOps (init_cart_cache (set_cart_cache_size s C)) ops))
    ∧ ∃ i, i < C
        ∧ get_lowest_time_cart (runOps (init_cart_cache (set_cart_cache_size s C)) ops)
            = ((runOps (init_cart_cache (set_cart_cache_size s C)) ops).frames i).cart_num
        ∧ get_lowest_time_frame (runOps (init_cart_cache (set_cart_cache_size s C)) ops)
            = ((runOps (init_cart_cache (set_cart_cache_size s C)) ops).frames i).frame_num := by
  have hsz0 := init_size s C hC
  have hg0 : (init_cart_cache (set_cart_cache_size s C)).global_time = s.global_time := rfl
  have hinv := runOps_lru C ops (init_cart_cache (set_cart_cache_size s C)) []
    (Or.inl ⟨[], init_lruGood s C hC⟩) hsz0 hfresh (by rw [hg0]; exact hclock)
  have hclk := runOps_clock ops (init_cart_cache (set_cart_cache_size s C))
    (by rw [hg0]; omega)
  have hsz : (runOps (init_cart_cache (set_cart_cache_size s C)) ops).size = (C : Int) := by
    rw [runOps_size]; exact hsz0
  have hn : (runOps (init_cart_cache (set_cart_cache_size s C)) ops).size.toNat = C := by
    rw [hsz]; exact Int.toNat_natCast C
  simp only [get_cache_num_occupied, get_cache_size] at hfull
  rcases hinv with ⟨σ, hG⟩ | ⟨_, hB⟩
  · have hG' := hG
    obtain ⟨h0, hnd, hperm, hlen, ho, hl, hlnd, hpw, htm, hemp⟩ := hG'
    have hlen2 : σ.length = C := by
      have : (σ.length : Int) = (C : Int) := by rw [← ho, hfull, hsz]
      exact_mod_cast this
    cases σ with
    | nil => simp at hlen2; omega
    | cons i0 rest =>
      have hi0 : i0 < C := by
        rw [← hlen2]
        exact (hperm i0).1 (List.mem_cons_self _ _)
      rw [List.pairwise_cons] at hpw
      rw [List.nodup_cons] at hnd
      have hmin : ∀ j, j < (runOps (init_cart_cache (set_cart_cache_size s C)) ops).size.toNat →
          j ≠ i0 →
          ((runOps (init_cart_cache (set_cart_cache_size s C)) ops).frames i0).time
            < ((runOps (init_cart_cache (set_cart_cache_size s C)) ops).frames j).time := by
        intro j hj hne
        rw [hn, ← hlen2] at hj
        have hj2 := (hperm j).2 hj
        rcases List.mem_cons.1 hj2 with h | h
        · exact absurd h hne
        · exact hpw.1 j h
      have hmax : ((runOps (init_cart_cache (set_cart_cache_size s C)) ops).frames i0).time
          < INT_MAX := by
        have := (htm i0 (List.mem_cons_self _ _)).2
        unfold INT_MAX
        rw [hg0] at hclk
        omega
      have hidx := (lowest_time_loop_unique _ i0 hmax _ hmin).1 (by rw [hn]; exact hi0)
      have hli : lowest_time_index (runOps (init_cart_cache (set_cart_cache_size s C)) ops)
          = i0 := by
        unfold lowest_time_index
        rw [hidx]
      refine ⟨?_, i0, hi0, ?_, ?_⟩
      · rw [hl]
        unfold get_lowest_time_cart get_lowest_time_frame
        rw [hli]
        rfl
      · unfold get_lowest_time_cart
        rw [hli]
      · unfold get_lowest_time_frame
        rw [hli]
  · exfalso
    have := countNonEmpty_le (runOps (init_cart_cache (set_cart_cache_size s C)) ops).frames
      (runOps (init_cart_cache (set_cart_cache_size s C)) ops).size.toNat
    omega

/-- Witness of C5: capacity 2 from the start-up globals; (1, 1) and (2, 2) are put and
(1, 1) is looked up, so that (2, 2) is the pair of lowest time. -/
theorem C5_lru_victim_witness :
    (recencyOrder 2 [] [CacheOp.put 1 1 zeroBuf, CacheOp.put 2 2 zeroBuf, CacheOp.get 1 1]).head?
      = some (get_lowest_time_cart (runOps (init_cart_cache (set_cart_cache_size bootCache 2))
                [CacheOp.put 1 1 zeroBuf, CacheOp.put 2 2 zeroBuf, CacheOp.get 1 1]),
              get_lowest_time_frame (runOps (init_cart_cache (set_cart_cache_size bootCache 2))
                [CacheOp.put 1 1 zeroBuf, CacheOp.put 2 2 zeroBuf, CacheOp.get 1 1])) :=
  (C5_lru_victim bootCache 2
    [CacheOp.put 1 1 zeroBuf, CacheOp.put 2 2 zeroBuf, CacheOp.get 1 1]
    (by decide) (by decide) (by decide) (by decide) (by decide)).1

/-- C5 (counterexample to the unrestricted claim): with the clock at 2147483647 and
capacity 2, the put of (1, 1) is stamped 2147483647 and the later put of (2, 2) is
stamped -2147483648, so that once the cache is full the getters name (2, 2) although
(1, 1) is the least recently touched pair. -/
theorem C5_counterexample :
    get_cache_num_occupied
        (runOps (init_cart_cache
            (set_cart_cache_size { bootCache with global_time := 2147483647 } 2))
          [CacheOp.put 1 1 zeroBuf, CacheOp.put 2 2 zeroBuf]) = 2
    ∧ (recencyOrder 2 [] [CacheOp.put 1 1 zeroBuf, CacheOp.put 2 2 zeroBuf]).head?
        = some (1, 1)
    ∧ get_lowest_time_cart
        (runOps (init_cart_cache
            (set_cart_cache_size { bootCache with global_time := 2147483647 } 2))
          [CacheOp.put 1 1 zeroBuf, CacheOp.put 2 2 zeroBuf]) = 2
    ∧ get_lowest_time_frame
        (runOps (init_cart_cache
            (set_cart_cache_size { bootCache with global_time := 2147483647 } 2))
          [CacheOp.put 1 1 zeroBuf, CacheOp.put 2 2 zeroBuf]) = 2 := by
  decide

/-- C9 (evaluation at the failing input): the 2000-byte pattern with NUL at offsets 0
and 1024 and 1 elsewhere is written to the file "a" and read back from offset 0.  The
read returns 2000, but with cache capacity 2 byte 1 of the result is 0, and with cache
capacity 1 byte 1025 is 0, where the pattern has 1. -/
theorem C9_roundtrip_loses_bytes_after_nul :
    zeroAtFrameStarts 1 = 1 ∧ zeroAtFrameStarts 1025 = 1
    ∧ (roundTrip smallConfig (bootStateCap 2) [97] zeroAtFrameStarts 2000 zeroBuf zeroBuf).map
        (fun r => (r.1, r.2 1)) = some (2000, 0)
    ∧ (roundTrip smallConfig (bootStateCap 1) [97] zeroAtFrameStarts 2000 zeroBuf zeroBuf).map
        (fun r => (r.1, r.2 1025)) = some (2000, 0) := by
  decide

/-! ## Reading -/

theorem walkFrames_succ (m : CartStructure) (k : Nat) (p : FramePtr) :
    walkFrames m (k + 1) p =
      match walkFrames m k p with
      | some (some q) => some (m.infoTable q.1 q.2).nextFrame
      | _ => none := by
  induction k generalizing p with
  | zero => cases p <;> rfl
  | succ k ih =>
    cases p with
    | none => rfl
    | some q =>
      show walkFrames m (k + 1) (m.infoTable q.1 q.2).nextFrame = _
      rw [ih]
      rfl

theorem toU32_of_range (x : Int) (h0 : 0 ≤ x) (h1 : x < 4294967296) : toU32 x = x.toNat := by
  unfold toU32
  rw [Int.emod_eq_of_lt h0 h1]

theorem chunk_bounds (start_bit bytes_left : Int) (h0 : 0 ≤ start_bit) (h1 : start_bit < 1024)
    (h2 : 0 < bytes_left) :
    1 ≤ chunk start_bit bytes_left ∧ chunk start_bit bytes_left ≤ bytes_left
    ∧ start_bit + chunk start_bit bytes_left ≤ 1024
    ∧ (chunk start_bit bytes_left < bytes_left → start_bit + chunk start_bit bytes_left = 1024) := by
  unfold chunk
  split <;> omega

theorem cart_read_body_some (cfg : CartConfig) (idx : Nat) (L : ReadLoop) (p : Nat × Nat)
    (hp : L.tempPtr = some p) :
    ∃ L1, cart_read_body cfg idx L = some L1
      ∧ L1.st.mainStructure = setFile L.st.mainStructure idx
          { L.st.mainStructure.fileTable idx with
            location := toU32 (((L.st.mainStructure.fileTable idx).location : Int)
              + chunk L.start_read_bit L.bytes_left_to_read) }
      ∧ L1.bytes_left_to_read
          = L.bytes_left_to_read - chunk L.start_read_bit L.bytes_left_to_read
      ∧ L1.start_read_bit = 0
      ∧ L1.tempPtr =
          if L.start_read_bit + chunk L.start_read_bit L.bytes_left_to_read = 1024
              ∧ L.bytes_left_to_read - chunk L.start_read_bit L.bytes_left_to_read > 0
          then (L.st.mainStructure.infoTable p.1 p.2).nextFrame else L.tempPtr := by
  unfold cart_read_body
  rw [hp]
  exact ⟨_, rfl, rfl, rfl, rfl, rfl⟩

theorem setFile_setFile (m : CartStructure) (idx : Nat) (a b : FileStructure) :
    setFile (setFile m idx a) idx b = setFile m idx b := by
  unfold setFile
  simp

theorem setFile_self (m : CartStructure) (idx : Nat) :
    setFile m idx { m.fileTable idx with location := (m.fileTable idx).location } = m := by
  unfold setFile
  simp

theorem cart_read_loop_spec (cfg : CartConfig) (idx : Nat) (m0 : CartStructure)
    (hchain : ChainCovers m0 (m0.fileTable idx))
    (hlen : (m0.fileTable idx).length < 2147483648) :
    ∀ (fuel : Nat) (L : ReadLoop) (loc : Nat),
      L.st.mainStructure = setFile m0 idx { m0.fileTable idx with location := loc } →
      0 ≤ L.bytes_left_to_read →
      loc + L.bytes_left_to_read.toNat ≤ (m0.fileTable idx).length →
      (0 < L.bytes_left_to_read →
        L.start_read_bit = ((loc % 1024 : Nat) : Int)
        ∧ walkFrames m0 (loc / 1024) (m0.fileTable idx).tablePtr = some L.tempPtr) →
      L.bytes_left_to_read.toNat ≤ fuel →
      ∃ L1, cart_read_loop cfg idx fuel L = some L1
        ∧ L1.st.mainStructure = setFile m0 idx
            { m0.fileTable idx with location := loc + L.bytes_left_to_read.toNat } := by
  intro fuel
  induction fuel with
  | zero =>
    intro L loc hst h0 _ _ hfuel
    have hz : L.bytes_left_to_read = 0 := by omega
    refine ⟨L, ?_, ?_⟩
    · unfold cart_read_loop
      rw [if_neg (by omega)]
    · rw [hz, hst]
      rfl
  | succ fuel ih =>
    intro L loc hst h0 hle hpos hfuel
    by_cases hl : 0 < L.bytes_left_to_read
    · obtain ⟨hsb, hwalk⟩ := hpos hl
      have hk : loc / 1024 < ((m0.fileTable idx).length + 1023) / 1024 := by omega
      have hcov := hchain (loc / 1024) hk
      rw [hwalk] at hcov
      obtain ⟨p, hp⟩ := Option.isSome_iff_exists.1 hcov
      have hp' : L.tempPtr = some p := hp
      obtain ⟨L1, hb, hm1, hleft1, hsb1, hptr1⟩ := cart_read_body_some cfg idx L p hp'
      have hcb := chunk_bounds L.start_read_bit L.bytes_left_to_read
        (by rw [hsb]; omega) (by rw [hsb]; omega) hl
      obtain ⟨c1, c2, c3, c4⟩ := hcb
      have hfile : L.st.mainStructure.fileTable idx
          = { m0.fileTable idx with location := loc } := by
        rw [hst]
        unfold setFile
        simp
      have hloc1 : toU32 (((L.st.mainStructure.fileTable idx).location : Int)
          + chunk L.start_read_bit L.bytes_left_to_read)
          = loc + (chunk L.start_read_bit L.bytes_left_to_read).toNat := by
        rw [hfile]
        simp only
        rw [toU32_of_range _ (by omega) (by omega)]
        omega
      have hm1' : L1.st.mainStructure = setFile m0 idx
          { m0.fileTable idx with
            location := loc + (chunk L.start_read_bit L.bytes_left_to_read).toNat } := by
        rw [hm1, hloc1, hfile, hst, setFile_setFile]
      have hres := ih L1 (loc + (chunk L.start_read_bit L.bytes_left_to_read).toNat) hm1'
        (by rw [hleft1]; omega) (by rw [hleft1]; omega)
        (by
          intro hpos1
          rw [hleft1] at hpos1
          have hfull := c4 (by omega)
          constructor
          · rw [hsb1]
            rw [hsb] at hfull
            omega
          · rw [hptr1, if_pos ⟨hfull, by omega⟩]
            have hdiv : (loc + (chunk L.start_read_bit L.bytes_left_to_read).toNat) / 1024
                = loc / 1024 + 1 := by
              rw [hsb] at hfull
              omega
            rw [hdiv, walkFrames_succ, hwalk, hp']
            simp only
            rw [hst]
            rfl)
        (by rw [hleft1]; omega)
      obtain ⟨L2, hr, hm2⟩ := hres
      refine ⟨L2, ?_, ?_⟩
      · unfold cart_read_loop
        rw [if_pos (by omega), hb]
        exact hr
      · have e : loc + (chunk L.start_read_bit L.bytes_left_to_read).toNat
            + (L.bytes_left_to_read - chunk L.start_read_bit L.bytes_left_to_read).toNat
            = loc + L.bytes_left_to_read.toNat := by omega
        rw [hm2, hleft1, e]
    · have hz : L.bytes_left_to_read = 0 := by omega
      refine ⟨L, ?_, ?_⟩
      · unfold cart_read_loop
        rw [if_neg (by omega)]
      · rw [hz, hst]
        rfl

theorem readCount_eq_min (f : FileStructure) (n : Int) (hn0 : 0 ≤ n) (hn : n < 2147483648)
    (hloc : f.location ≤ f.length) (hlen : f.length < 2147483648) :
    readCount f n = min n ((f.length : Int) - (f.location : Int)) := by
  unfold readCount
  rw [toU32_of_range n hn0 (by omega)]
  have h1 : (n.toNat + f.location) % 4294967296 = n.toNat + f.location :=
    Nat.mod_eq_of_lt (by omega)
  have h2 : (f.length + 4294967296 - f.location) % 4294967296 = f.length - f.location := by
    omega
  rw [h1, h2, toInt32_of_lt _ (by omega)]
  split <;> omega

theorem walkFrames_within (m : CartStructure) (f : FileStructure) (hchain : ChainCovers m f)
    (hloc : f.location ≤ f.length) :
    ∃ tp, walkFrames m (f.location / 1024) f.tablePtr = some tp := by
  cases hk : f.location / 1024 with
  | zero => exact ⟨f.tablePtr, rfl⟩
  | succ k =>
    have hcov := hchain k (by omega)
    cases hw : walkFrames m k f.tablePtr with
    | none => rw [hw] at hcov; exact Bool.noConfusion hcov
    | some q =>
      cases q with
      | none => rw [hw] at hcov; exact Bool.noConfusion hcov
      | some q =>
        refine ⟨(m.infoTable q.1 q.2).nextFrame, ?_⟩
        rw [walkFrames_succ, hw]

/-- C10 (amended): for a handle that the search of `cart_read` finds (entry `idx`),
a count `0 ≤ n < 2^31`, and a file with `cursor ≤ length < 2^31` whose chain holds a
Frame Record for every frame containing bytes of the file, `cart_read(handle, buf, n)`
does not fail, returns exactly `min(n, length - cursor)`, advances the cursor by the
returned count and changes nothing else in the file table or the frame grid (so the
length is unchanged). -/
theorem C10_read_clamping (cfg : CartConfig) (s : State) (fd : Int) (buf : Buf) (n : Int)
    (idx : Nat) (hfd : findHandle cfg s.mainStructure fd = some idx)
    (hn0 : 0 ≤ n) (hn : n < 2147483648)
    (hloc : (s.mainStructure.fileTable idx).location ≤ (s.mainStructure.fileTable idx).length)
    (hlen : (s.mainStructure.fileTable idx).length < 2147483648)
    (hchain : ChainCovers s.mainStructure (s.mainStructure.fileTable idx)) :
    ∃ s1 b1,
      cart_read cfg s fd buf n
        = some (s1, min n (((s.mainStructure.fileTable idx).length : Int)
                  - ((s.mainStructure.fileTable idx).location : Int)), b1)
      ∧ s1.mainStructure = setFile s.mainStructure idx
          { s.mainStructure.fileTable idx with
            location := (s.mainStructure.fileTable idx).location
              + (min n (((s.mainStructure.fileTable idx).length : Int)
                  - ((s.mainStructure.fileTable idx).location : Int))).toNat }
      ∧ (s1.mainStructure.fileTable idx).location
          = (s.mainStructure.fileTable idx).location
              + (min n (((s.mainStructure.fileTable idx).length : Int)
                  - ((s.mainStructure.fileTable idx).location : Int))).toNat
      ∧ (s1.mainStructure.fileTable idx).length = (s.mainStructure.fileTable idx).length := by
  have hcnt := readCount_eq_min (s.mainStructure.fileTable idx) n hn0 hn hloc hlen
  obtain ⟨tp, hw⟩ := walkFrames_within s.mainStructure (s.mainStructure.fileTable idx)
    hchain hloc
  have hmin0 : 0 ≤ min n (((s.mainStructure.fileTable idx).length : Int)
      - ((s.mainStructure.fileTable idx).location : Int)) := by omega
  obtain ⟨L1, hloop, hm1⟩ := cart_read_loop_spec cfg idx s.mainStructure hchain hlen
    (readCount (s.mainStructure.fileTable idx) n).toNat
    { st := s, buf := buf, regs := ⟨0, 0, 0, 0, 0⟩
      start_read_bit := (((s.mainStructure.fileTable idx).location % 1024 : Nat) : Int)
      bytes_left_to_read := readCount (s.mainStructure.fileTable idx) n
      start_buf_read_bit := 0, tempPtr := tp }
    (s.mainStructure.fileTable idx).location
    (setFile_self s.mainStructure idx).symm
    (by simp only []; rw [hcnt]; exact hmin0)
    (by simp only []; rw [hcnt]; omega)
    (fun _ => ⟨rfl, hw⟩)
    (le_refl _)
  simp only [] at hm1
  rw [hcnt] at hm1
  refine ⟨L1.st, L1.buf, ?_, hm1, ?_, ?_⟩
  · unfold cart_read
    rw [hfd]
    simp only []
    rw [hw]
    simp only []
    rw [← hcnt]
    have hl : cart_read_loop cfg idx (readCount (s.mainStructure.fileTable idx) n).toNat
        { st := s, buf := buf, regs := ⟨0, 0, 0, 0, 0⟩
          start_read_bit := (((s.mainStructure.fileTable idx).location % 1024 : Nat) : Int)
          bytes_left_to_read := readCount (s.mainStructure.fileTable idx) n
          start_buf_read_bit := 0, tempPtr := tp } = some L1 := hloop
    rw [hl]
  · rw [hm1]
    unfold setFile
    simp
  · rw [hm1]
    unfold setFile
    simp

/-- Witness of C10: on the 2000-byte file "a" with the cursor at 0, a read of 5000
bytes returns `min(5000, 2000 - 0)` and moves the cursor by that count. -/
theorem C10_read_clamping_witness :
    ∃ s1 b1,
      cart_read smallConfig fileState2000.1 fileState2000.2 zeroBuf 5000
        = some (s1, min 5000 (((fileState2000.1.mainStructure.fileTable 0).length : Int)
                  - ((fileState2000.1.mainStructure.fileTable 0).location : Int)), b1)
      ∧ s1.mainStructure = setFile fileState2000.1.mainStructure 0
          { fileState2000.1.mainStructure.fileTable 0 with
            location := (fileState2000.1.mainStructure.fileTable 0).location
              + (min 5000 (((fileState2000.1.mainStructure.fileTable 0).length : Int)
                  - ((fileState2000.1.mainStructure.fileTable 0).location : Int))).toNat }
      ∧ (s1.mainStructure.fileTable 0).location
          = (fileState2000.1.mainStructure.fileTable 0).location
              + (min 5000 (((fileState2000.1.mainStructure.fileTable 0).length : Int)
                  - ((fileState2000.1.mainStructure.fileTable 0).location : Int))).toNat
      ∧ (s1.mainStructure.fileTable 0).length
          = (fileState2000.1.mainStructure.fileTable 0).length :=
  C10_read_clamping smallConfig fileState2000.1 fileState2000.2 zeroBuf 5000 0
    (by decide) (by decide) (by decide) (by decide) (by decide)
    (by unfold ChainCovers; decide)

/-- C10 (counterexample to the unrestricted claim): on a grid of one cartridge of two
frames, the file "a" is written with 3072 bytes (the third kilobyte finds no free
frame and overwrites the second frame) and sought to 0; its handle is known, its
length is 3072 and its cursor 0, and `cart_read(h, buf, 3072)` follows the `NULL` link
after the second frame and dereferences it. -/
theorem C10_counterexample :
    (writtenState tinyConfig (bootStateCap 2) [97] allOnes 3072 zeroBuf).map
      (fun r => (findHandle tinyConfig r.1.mainStructure r.2,
        (r.1.mainStructure.fileTable 0).length, (r.1.mainStructure.fileTable 0).location,
        (cart_read tinyConfig r.1 r.2 zeroBuf 3072).isNone))
      = some (some 0, 3072, 0, true) := by
  decide

/-! ## Seeking and closing -/

theorem cart_seek_none (cfg : CartConfig) (s : State) (fd : Int) (loc : Nat)
    (hf : findHandle cfg s.mainStructure fd = none) : cart_seek cfg s fd loc = (s, -1) := by
  unfold cart_seek
  rw [hf]

theorem cart_seek_fail (cfg : CartConfig) (s : State) (fd : Int) (loc idx : Nat)
    (hf : findHandle cfg s.mainStructure fd = some idx)
    (h : (s.mainStructure.fileTable idx).open_ = false
      ∨ (s.mainStructure.fileTable idx).length < loc) : cart_seek cfg s fd loc = (s, -1) := by
  unfold cart_seek
  rw [hf]
  simp only []
  by_cases hl : loc > (s.mainStructure.fileTable idx).length
  · rw [if_pos hl]
  · rw [if_neg hl]
    rcases h with h | h
    · rw [h]
      rfl
    · omega

theorem cart_seek_ok (cfg : CartConfig) (s : State) (fd : Int) (loc idx : Nat)
    (hf : findHandle cfg s.mainStructure fd = some idx)
    (ho : (s.mainStructure.fileTable idx).open_ = true)
    (hl : loc ≤ (s.mainStructure.fileTable idx).length) :
    cart_seek cfg s fd loc =
      ({ s with mainStructure := (setFile s.mainStructure idx
          { s.mainStructure.fileTable idx with location := loc }) }, 0) := by
  unfold cart_seek
  rw [hf]
  simp only []
  rw [if_neg (by omega), ho]
  rfl

/-- The outcome of `cart_seek` in terms of its own handle search (the first entry with
`fileTable[i].handle == fd`, filled or not): `cart_seek(fd, loc)` returns 0 if and only
if the search finds an entry for `fd`, that entry is open and `loc <= length`; in that
case the new state is the old one with the cursor of that entry set to `loc` (nothing
else in the file table, the grid, the cache or the device changes); in every other case
it returns -1 and the whole state is unchanged. -/
theorem cart_seek_search_contract (cfg : CartConfig) (s : State) (fd : Int) (loc : Nat) :
    ((cart_seek cfg s fd loc).2 = 0 ↔
      ∃ idx, findHandle cfg s.mainStructure fd = some idx
        ∧ (s.mainStructure.fileTable idx).open_ = true
        ∧ loc ≤ (s.mainStructure.fileTable idx).length)
    ∧ (∀ idx, findHandle cfg s.mainStructure fd = some idx →
        (s.mainStructure.fileTable idx).open_ = true →
        loc ≤ (s.mainStructure.fileTable idx).length →
        cart_seek cfg s fd loc =
          ({ s with mainStructure := (setFile s.mainStructure idx
              { s.mainStructure.fileTable idx with location := loc }) }, 0))
    ∧ ((cart_seek cfg s fd loc).2 ≠ 0 → cart_seek cfg s fd loc = (s, -1)) := by
  refine ⟨?_, fun idx hf ho hl => cart_seek_ok cfg s fd loc idx hf ho hl, ?_⟩
  · constructor
    · intro h
      cases hf : findHandle cfg s.mainStructure fd with
      | none =>
        rw [cart_seek_none cfg s fd loc hf] at h
        have h2 : (-1 : Int) = 0 := h
        exact absurd h2 (by decide)
      | some idx =>
        refine ⟨idx, rfl, ?_⟩
        by_cases hbad : (s.mainStructure.fileTable idx).open_ = false
            ∨ (s.mainStructure.fileTable idx).length < loc
        · rw [cart_seek_fail cfg s fd loc idx hf hbad] at h
          have h2 : (-1 : Int) = 0 := h
          exact absurd h2 (by decide)
        · constructor
          · cases ho : (s.mainStructure.fileTable idx).open_ with
            | true => rfl
            | false => exact absurd (Or.inl ho) hbad
          · by_cases hl : loc ≤ (s.mainStructure.fileTable idx).length
            · exact hl
            · exact absurd (Or.inr (by omega)) hbad
    · rintro ⟨idx, hf, ho, hl⟩
      rw [cart_seek_ok cfg s fd loc idx hf ho hl]
  · intro h
    cases hf : findHandle cfg s.mainStructure fd with
    | none => exact cart_seek_none cfg s fd loc hf
    | some idx =>
      by_cases hbad : (s.mainStructure.fileTable idx).open_ = false
          ∨ (s.mainStructure.fileTable idx).length < loc
      · exact cart_seek_fail cfg s fd loc idx hf hbad
      · have ho : (s.mainStructure.fileTable idx).open_ = true := by
          cases ho : (s.mainStructure.fileTable idx).open_ with
          | true => rfl
          | false => exact absurd (Or.inl ho) hbad
        have hl : loc ≤ (s.mainStructure.fileTable idx).length := by
          by_cases hl : loc ≤ (s.mainStructure.fileTable idx).length
          · exact hl
          · exact absurd (Or.inr (by omega)) hbad
        rw [cart_seek_ok cfg s fd loc idx hf ho hl] at h
        exact absurd rfl h

/-- Example: on the open 2000-byte file "a" (handle 0), `cart_seek(0, 1000)` returns 0
and `cart_seek(0, 3000)` returns -1 and leaves the state as it was. -/
theorem cart_seek_search_contract_example :
    (cart_seek smallConfig fileState2000.1 0 1000).2 = 0
    ∧ cart_seek smallConfig fileState2000.1 0 3000 = (fileState2000.1, -1) :=
  ⟨(cart_seek_search_contract smallConfig fileState2000.1 0 1000).1.2
      ⟨0, by decide, by decide, by decide⟩,
   (cart_seek_search_contract smallConfig fileState2000.1 0 3000).2.2 (by decide)⟩

theorem cart_close_none (cfg : CartConfig) (s : State) (fd : Int)
    (hf : findHandle cfg s.mainStructure fd = none) : cart_close cfg s fd = (s, -1) := by
  unfold cart_close
  rw [hf]

theorem cart_close_closed (cfg : CartConfig) (s : State) (fd : Int) (idx : Nat)
    (hf : findHandle cfg s.mainStructure fd = some idx)
    (h : (s.mainStructure.fileTable idx).open_ = false) : cart_close cfg s fd = (s, -1) := by
  unfold cart_close
  rw [hf]
  simp only []
  rw [h]
  rfl

theorem cart_close_ok (cfg : CartConfig) (s : State) (fd : Int) (idx : Nat)
    (hf : findHandle cfg s.mainStructure fd = some idx)
    (ho : (s.mainStructure.fileTable idx).open_ = true) :
    cart_close cfg s fd =
      ({ s with mainStructure := (setFile s.mainStructure idx
          { s.mainStructure.fileTable idx with open_ := false }) }, 0) := by
  unfold cart_close
  rw [hf]
  simp only []
  rw [ho]
  rfl

/-- The outcome of `cart_close` in terms of its own handle search (the first entry with
`fileTable[i].handle == fd`, filled or not): `cart_close(fd)` returns -1 if and only if
the search finds no entry for `fd` or the entry found is already closed, and then the
state is unchanged; otherwise it returns 0 and the new state is the old one with the open
flag of that entry cleared (name, length, cursor, chain head and every Frame Record are
kept). -/
theorem cart_close_search_contract (cfg : CartConfig) (s : State) (fd : Int) :
    ((cart_close cfg s fd).2 = -1 ↔
      (findHandle cfg s.mainStructure fd = none
        ∨ ∃ idx, findHandle cfg s.mainStructure fd = some idx
            ∧ (s.mainStructure.fileTable idx).open_ = false))
    ∧ ((cart_close cfg s fd).2 = -1 → (cart_close cfg s fd).1 = s)
    ∧ (∀ idx, findHandle cfg s.mainStructure fd = some idx →
        (s.mainStructure.fileTable idx).open_ = true →
        cart_close cfg s fd =
          ({ s with mainStructure := (setFile s.mainStructure idx
              { s.mainStructure.fileTable idx with open_ := false }) }, 0)) := by
  have key : (cart_close cfg s fd).2 = -1 →
      (findHandle cfg s.mainStructure fd = none
        ∨ ∃ idx, findHandle cfg s.mainStructure fd = some idx
            ∧ (s.mainStructure.fileTable idx).open_ = false) := by
    intro h
    cases hf : findHandle cfg s.mainStructure fd with
    | none => exact Or.inl rfl
    | some idx =>
      cases ho : (s.mainStructure.fileTable idx).open_ with
      | false => exact Or.inr ⟨idx, rfl, ho⟩
      | true =>
        rw [cart_close_ok cfg s fd idx hf ho] at h
        have h2 : (0 : Int) = -1 := h
        exact absurd h2 (by decide)
  have back : (findHandle cfg s.mainStructure fd = none
        ∨ ∃ idx, findHandle cfg s.mainStructure fd = some idx
            ∧ (s.mainStructure.fileTable idx).open_ = false) →
      cart_close cfg s fd = (s, -1) := by
    rintro (h | ⟨idx, hf, ho⟩)
    · exact cart_close_none cfg s fd h
    · exact cart_close_closed cfg s fd idx hf ho
  refine ⟨⟨key, fun h => ?_⟩, fun h => ?_, fun idx hf ho => cart_close_ok cfg s fd idx hf ho⟩
  · rw [back h]
  · rw [back (key h)]

/-- Example: on the open file "a" (handle 0), `cart_close(0)` returns 0 and only clears
the open flag of entry 0, and `cart_close(7)`, a handle that no entry carries, returns -1
and leaves the state as it was. -/
theorem cart_close_search_contract_example :
    cart_close smallConfig fileState2000.1 0 =
      ({ fileState2000.1 with mainStructure := (setFile fileState2000.1.mainStructure 0
          { fileState2000.1.mainStructure.fileTable 0 with open_ := false }) }, 0)
    ∧ (cart_close smallConfig fileState2000.1 7).1 = fileState2000.1 :=
  ⟨(cart_close_search_contract smallConfig fileState2000.1 0).2.2 0 (by decide) (by decide),
   (cart_close_search_contract smallConfig fileState2000.1 7).2.1 (by decide)⟩

/-! ## Failing inputs of the file interface -/

/-- C11 (failing input): on the grid of 2 cartridges of 3 frames, after `cart_poweron`,
`cart_open("a")` and a first `cart_write(0, buf, 4096)`, the handle 0 is known, the file
has cursor = length = 4096, the frames of cartridge 1 are free (owner -1), and a second
`cart_write(0, buf, 10)` does not return 10: the walk to frame index 4 of the chain,
which the first write left 3 frames long, dereferences `NULL`. -/
theorem C11_write_after_stale_flag_fails :
    (runCalls smallConfig poweredState bigWriteCalls).isSome = true
    ∧ findHandle smallConfig bigWriteState.mainStructure 0 = some 0
    ∧ (bigWriteState.mainStructure.fileTable 0).location = 4096
    ∧ (bigWriteState.mainStructure.fileTable 0).length = 4096
    ∧ (bigWriteState.mainStructure.fileTable 0).tablePtr = some (0, 0)
    ∧ (bigWriteState.mainStructure.infoTable 0 0).nextFrame = some (0, 1)
    ∧ (bigWriteState.mainStructure.infoTable 0 1).nextFrame = some (0, 2)
    ∧ (bigWriteState.mainStructure.infoTable 0 2).nextFrame = none
    ∧ (∀ j, j < 3 → (bigWriteState.mainStructure.infoTable 1 j).handle = -1)
    ∧ (cart_write smallConfig bigWriteState 0 allOnes 10 zeroBuf).isNone = true := by
  decide

/-- C14 (failing input): after `cart_poweron` and `cart_open("ab")` (which returns 0),
the only existing File Entry is entry 0, named "ab", so "a" is not the name of an
existing entry and slot 1 is free; yet `cart_open("a")` returns -1 and creates nothing
(slot 1 stays unfilled). -/
theorem C14_prefix_of_existing_name_not_created :
    (cart_open smallConfig poweredState [97, 98]).map (fun r => r.2) = some 0
    ∧ (runCalls smallConfig poweredState [FileCall.open_ [97, 98]]).isSome = true
    ∧ (abState.mainStructure.fileTable 0).filled = true
    ∧ (abState.mainStructure.fileTable 0).fileName 0 = 97
    ∧ (abState.mainStructure.fileTable 0).fileName 1 = 98
    ∧ (abState.mainStructure.fileTable 0).fileName 2 = 0
    ∧ (∀ i, i < 4 → 1 ≤ i → (abState.mainStructure.fileTable i).filled = false)
    ∧ (cart_open smallConfig abState [97]).map
        (fun r => (r.2, (r.1.mainStructure.fileTable 1).filled)) = some (-1, false) := by
  decide

/-- C18 (failing input): right after `cart_poweron` no handle has been returned by
`cart_open`; `cart_read(-1, buf, 5)` returns 0, not -1, and `cart_write(-1, buf, 10)`
returns 10 and changes the file table (entry 0 gets length 10 and the chain head
(0, 0)), the frame grid (frame (0, 0) has 10 bytes used) and the cache (occupancy 1). -/
theorem C18_handle_minus_one_accepted :
    (cart_read smallConfig poweredState (-1) zeroBuf 5).map (fun r => r.2.1) = some 0
    ∧ (cart_write smallConfig poweredState (-1) allOnes 10 zeroBuf).map
        (fun r => (r.2, (r.1.mainStructure.fileTable 0).length,
          (r.1.mainStructure.infoTable 0 0).bytesUsed, r.1.cache.num_occupied))
        = some (10, 10, 10, 1)
    ∧ (cart_write smallConfig poweredState (-1) allOnes 10 zeroBuf).map
        (fun r => (r.1.mainStructure.fileTable 0).tablePtr) = some (some (0, 0))
    ∧ (poweredState.mainStructure.fileTable 0).length = 0
    ∧ (poweredState.mainStructure.fileTable 0).tablePtr = none
    ∧ (poweredState.mainStructure.infoTable 0 0).bytesUsed = 0
    ∧ poweredState.cache.num_occupied = 0 := by
  decide

/-- C19 (failing input): after `cart_poweron`, `cart_open("a")` = 0, a second
`cart_open("a")` = -1, `cart_write(-1, buf, 10)` and `cart_open("b")` = 1, the files "a"
and "b" have the distinct handles 0 and 1 and the chain of "b" is the frame (0, 0), with
owner -1 and 10 bytes used; `cart_write(0, buf, 20)` then returns 20, makes (0, 0) the
chain head of "a" as well and changes that Frame Record on the chain of "b": owner 0,
20 bytes used. -/
theorem C19_write_changes_other_chain :
    (runCalls smallConfig poweredState sharedFrameCalls).isSome = true
    ∧ (sharedFrameState.mainStructure.fileTable 0).filled = true
    ∧ (sharedFrameState.mainStructure.fileTable 1).filled = true
    ∧ (sharedFrameState.mainStructure.fileTable 0).handle = 0
    ∧ (sharedFrameState.mainStructure.fileTable 1).handle = 1
    ∧ (sharedFrameState.mainStructure.fileTable 0).tablePtr = none
    ∧ (sharedFrameState.mainStructure.fileTable 1).tablePtr = some (0, 0)
    ∧ (sharedFrameState.mainStructure.infoTable 0 0).handle = -1
    ∧ (sharedFrameState.mainStructure.infoTable 0 0).bytesUsed = 10
    ∧ (cart_write smallConfig sharedFrameState 0 allOnes 20 zeroBuf).map
        (fun r => (r.2, (r.1.mainStructure.infoTable 0 0).handle,
          (r.1.mainStructure.infoTable 0 0).bytesUsed)) = some (20, 0, 20)
    ∧ (cart_write smallConfig sharedFrameState 0 allOnes 20 zeroBuf).map
        (fun r => (r.1.mainStructure.fileTable 1).tablePtr) = some (some (0, 0)) := by
  decide

/-! ## Strings -/

theorem strlen_cons (c : Nat) (s : List Nat) :
    strlen (c :: s) = if c = 0 then 0 else strlen s + 1 := by
  unfold strlen
  by_cases h : c = 0
  · subst h
    simp [List.takeWhile]
  · have hb : (c != 0) = true := by simp [h]
    simp [List.takeWhile, hb, h]

theorem cstr_cons_zero (c : Nat) (s : List Nat) : cstr (c :: s) 0 = c := rfl

theorem cstr_cons_succ (c : Nat) (s : List Nat) (k : Nat) : cstr (c :: s) (k + 1) = cstr s k :=
  rfl

theorem cstr_ne_zero (s : List Nat) : ∀ k, k < strlen s → cstr s k ≠ 0 := by
  induction s with
  | nil =>
    intro k hk
    exact absurd hk (by simp [strlen])
  | cons c s ih =>
    intro k hk
    rw [strlen_cons] at hk
    by_cases hc : c = 0
    · rw [if_pos hc] at hk
      omega
    · rw [if_neg hc] at hk
      cases k with
      | zero => exact hc
      | succ k => exact ih k (by omega)

theorem cstr_strlen (s : List Nat) : cstr s (strlen s) = 0 := by
  induction s with
  | nil => rfl
  | cons c s ih =>
    rw [strlen_cons]
    by_cases hc : c = 0
    · rw [if_pos hc]
      exact hc
    · rw [if_neg hc]
      exact ih

theorem nulBefore_false (src : Buf) : ∀ k, (∀ j, j < k → src j ≠ 0) → nulBefore src k = false := by
  intro k
  induction k with
  | zero => intro _; rfl
  | succ k ih =>
    intro h
    unfold nulBefore
    rw [ih (fun j hj => h j (by omega))]
    have := h k (by omega)
    simp [this]

theorem strncpy_name (dst : Buf) (s : List Nat) (k : Nat) (hk : k < strlen s) :
    strncpy dst (cstr s) (strlen s) k = cstr s k := by
  unfold strncpy
  rw [if_pos hk, nulBefore_false (cstr s) k (fun j hj => cstr_ne_zero s j (by omega))]
  rfl

theorem strncmp0_true (a b : Buf) : ∀ n k, (∀ j, k ≤ j → j < k + n → a j = b j) →
    strncmp0 a b n k = true := by
  intro n
  induction n with
  | zero => intro k _; rfl
  | succ n ih =>
    intro k h
    unfold strncmp0
    have h0 := h k (by omega) (by omega)
    have hne : (a k != b k) = false := by
      rw [h0]
      simp
    rw [hne]
    simp only [Bool.false_eq_true, if_false]
    by_cases hz : a k = 0
    · have hb : (a k == 0) = true := by simp [hz]
      rw [hb]
      rfl
    · have hb : (a k == 0) = false := by simp [hz]
      rw [hb]
      simp only [Bool.false_eq_true, if_false]
      exact ih (k + 1) (fun j hj1 hj2 => h j (by omega) (by omega))

theorem strncmp0_false_iff (a b : Buf) : ∀ n k, strncmp0 a b n k = false ↔
    ∃ j, k ≤ j ∧ j < k + n ∧ a j ≠ b j ∧ ∀ i, k ≤ i → i < j → a i = b i ∧ a i ≠ 0 := by
  intro n
  induction n with
  | zero =>
    intro k
    constructor
    · intro h
      exact absurd h (by simp [strncmp0])
    · rintro ⟨j, h1, h2, _⟩
      omega
  | succ n ih =>
    intro k
    unfold strncmp0
    by_cases h0 : a k = b k
    · by_cases hz : a k = 0
      · have hbz : b k = 0 := by rw [← h0]; exact hz
        simp only [h0, hbz, bne_self_eq_false, Bool.false_eq_true, if_false, beq_self_eq_true,
          if_true]
        constructor
        · intro h
          exact absurd h (by decide)
        · rintro ⟨j, h1, h2, h3, h4⟩
          by_cases hj : j = k
          · subst hj
            exact absurd h0 h3
          · have := (h4 k (by omega) (by omega)).2
            exact absurd hz this
      · have hbz : ¬ b k = 0 := by rw [← h0]; exact hz
        simp only [h0, bne_self_eq_false, Bool.false_eq_true, if_false, beq_iff_eq, hbz]
        rw [ih (k + 1)]
        constructor
        · rintro ⟨j, h1, h2, h3, h4⟩
          refine ⟨j, by omega, by omega, h3, fun i hi1 hi2 => ?_⟩
          by_cases hik : i = k
          · subst hik
            exact ⟨h0, hz⟩
          · exact h4 i (by omega) hi2
        · rintro ⟨j, h1, h2, h3, h4⟩
          have hjk : j ≠ k := by
            intro hjk
            subst hjk
            exact h3 h0
          exact ⟨j, by omega, by omega, h3, fun i hi1 hi2 => h4 i (by omega) hi2⟩
    · have hne : (a k != b k) = true := by simp [h0]
      simp only [hne, if_true, true_iff]
      exact ⟨k, le_refl _, by omega, h0, fun i hi1 hi2 => by omega⟩

/-! ## The outcomes of `cart_open` -/

theorem cart_open_already_open (cfg : CartConfig) (s : State) (path : List Nat) (i : Nat)
    (hf : firstIndex (nameMatches s.mainStructure path) cfg.CART_MAX_TOTAL_FILES = some i)
    (ho : (s.mainStructure.fileTable i).open_ = true) :
    cart_open cfg s path = some (s, -1) := by
  unfold cart_open
  simp only []
  rw [hf]
  simp only []
  rw [if_pos ho]

theorem cart_open_reopen (cfg : CartConfig) (s : State) (path : List Nat) (i : Nat)
    (hf : firstIndex (nameMatches s.mainStructure path) cfg.CART_MAX_TOTAL_FILES = some i)
    (ho : (s.mainStructure.fileTable i).open_ = false) :
    cart_open cfg s path =
      some ({ s with mainStructure := (setFile s.mainStructure i
          { s.mainStructure.fileTable i with open_ := true, location := 0 }) }, toInt16 i) := by
  unfold cart_open
  simp only []
  rw [hf]
  simp only []
  rw [if_neg (by rw [ho]; exact Bool.false_ne_true)]

theorem cart_open_create (cfg : CartConfig) (s : State) (path : List Nat) (c : Nat)
    (hf : firstIndex (nameMatches s.mainStructure path) cfg.CART_MAX_TOTAL_FILES = none)
    (hc : firstIndex (fun i => !(s.mainStructure.fileTable i).filled)
      cfg.CART_MAX_TOTAL_FILES = some c) :
    cart_open cfg s path =
      some ({ s with mainStructure := (setFile s.mainStructure c
          { s.mainStructure.fileTable c with
            handle := toInt16 c
            fileName := strncpy (s.mainStructure.fileTable c).fileName (cstr path) (strlen path)
            open_ := true
            length := 0
            filled := true
            location := 0 }) }, toInt16 c) := by
  unfold cart_open
  simp only []
  rw [hf]
  simp only []
  rw [hc]

theorem cart_open_full (cfg : CartConfig) (s : State) (path : List Nat)
    (hf : firstIndex (nameMatches s.mainStructure path) cfg.CART_MAX_TOTAL_FILES = none)
    (hc : firstIndex (fun i => !(s.mainStructure.fileTable i).filled)
      cfg.CART_MAX_TOTAL_FILES = none) :
    cart_open cfg s path = none := by
  unfold cart_open
  simp only []
  rw [hf]
  simp only []
  rw [hc]

theorem nameMatches_congr (m m1 : CartStructure) (path : List Nat) (j : Nat)
    (h : (m1.fileTable j).fileName = (m.fileTable j).fileName) :
    nameMatches m1 path j = nameMatches m path j := by
  unfold nameMatches
  rw [h]

theorem nameInv_of_sameNames (cfg : CartConfig) (m m1 : CartStructure) (h : NameInv cfg m)
    (hs : SameNames m m1) : NameInv cfg m1 := by
  intro i hi hfl
  rw [(hs i).2.1] at hfl
  obtain ⟨h1, h2⟩ := h i hi hfl
  refine ⟨by rw [(hs i).2.2]; exact h1, fun j hj => ?_⟩
  obtain ⟨h3, h4⟩ := h2 j hj
  refine ⟨by rw [(hs j).2.1]; exact h3, fun path hp => ?_⟩
  rw [nameMatches_congr m m1 path j (hs j).1]
  rw [(hs i).1] at hp
  exact h4 path hp

theorem sameNames_refl (m : CartStructure) : SameNames m m := fun _ => ⟨rfl, rfl, rfl⟩

theorem sameNames_trans (a b c : CartStructure) (h1 : SameNames a b) (h2 : SameNames b c) :
    SameNames a c := by
  intro j
  obtain ⟨x1, x2, x3⟩ := h1 j
  obtain ⟨y1, y2, y3⟩ := h2 j
  exact ⟨y1.trans x1, y2.trans x2, y3.trans x3⟩

theorem setFile_same (m : CartStructure) (idx : Nat) (f : FileStructure) :
    (setFile m idx f).fileTable idx = f := by
  unfold setFile
  simp

theorem setFile_ne (m : CartStructure) (idx j : Nat) (f : FileStructure) (h : j ≠ idx) :
    (setFile m idx f).fileTable j = m.fileTable j := by
  unfold setFile
  simp [h]

theorem sameNames_setFile (m : CartStructure) (idx : Nat) (f : FileStructure)
    (h1 : f.fileName = (m.fileTable idx).fileName) (h2 : f.filled = (m.fileTable idx).filled)
    (h3 : f.handle = (m.fileTable idx).handle) : SameNames m (setFile m idx f) := by
  intro j
  by_cases hj : j = idx
  · subst hj
    rw [setFile_same]
    exact ⟨h1, h2, h3⟩
  · rw [setFile_ne m idx j f hj]
    exact ⟨rfl, rfl, rfl⟩

theorem sameNames_setInfo (m : CartStructure) (p : Nat × Nat) (t : Table) :
    SameNames m (setInfo m p t) := fun _ => ⟨rfl, rfl, rfl⟩

theorem cursorInv_setFile (cfg : CartConfig) (m : CartStructure) (idx : Nat)
    (f : FileStructure) (h : CursorInv cfg m)
    (hf : f.location ≤ f.length ∧ f.length < 4294967296) :
    CursorInv cfg (setFile m idx f) := by
  intro i hi
  by_cases hj : i = idx
  · subst hj
    rw [setFile_same]
    exact hf
  · rw [setFile_ne m idx i f hj]
    exact h i hi

/-- A name that the new entry holds exactly extends the name it was created with. -/
theorem holdsName_created (dst : Buf) (name path : List Nat)
    (h : holdsName (strncpy dst (cstr name) (strlen name)) path) :
    strlen name ≤ strlen path ∧ ∀ k, k < strlen name → cstr path k = cstr name k := by
  obtain ⟨h1, h2⟩ := h
  have hle : strlen name ≤ strlen path := by
    by_contra hlt
    have hk : strlen path < strlen name := by omega
    rw [strncpy_name dst name _ hk] at h2
    exact cstr_ne_zero name _ hk h2
  refine ⟨hle, fun k hk => ?_⟩
  have := h1 k (by omega)
  rw [strncpy_name dst name k hk] at this
  exact this.symm

theorem strncmp0_extend (a b b1 : Buf) (n n1 : Nat) (hn : n ≤ n1)
    (hb : ∀ k, k < n → b1 k = b k) (h : strncmp0 a b n 0 = false) :
    strncmp0 a b1 n1 0 = false := by
  rw [strncmp0_false_iff] at h ⊢
  obtain ⟨j, h1, h2, h3, h4⟩ := h
  refine ⟨j, h1, by omega, ?_, fun i hi1 hi2 => ?_⟩
  · rw [hb j (by omega)]
    exact h3
  · rw [hb i (by omega)]
    exact h4 i hi1 hi2

/-! ## The file table under `cart_open`, `cart_read` and `cart_write` -/

theorem cart_open_inv (cfg : CartConfig) (s s1 : State) (path : List Nat) (r : Int)
    (h : cart_open cfg s path = some (s1, r))
    (hc : CursorInv cfg s.mainStructure) (hn : NameInv cfg s.mainStructure) :
    CursorInv cfg s1.mainStructure ∧ NameInv cfg s1.mainStructure := by
  cases hf : firstIndex (nameMatches s.mainStructure path) cfg.CART_MAX_TOTAL_FILES with
  | some i =>
    obtain ⟨hi, _, _⟩ := firstIndex_some hf
    cases ho : (s.mainStructure.fileTable i).open_ with
    | true =>
      rw [cart_open_already_open cfg s path i hf ho] at h
      simp only [Option.some.injEq, Prod.mk.injEq] at h
      rw [← h.1]
      exact ⟨hc, hn⟩
    | false =>
      rw [cart_open_reopen cfg s path i hf ho] at h
      simp only [Option.some.injEq, Prod.mk.injEq] at h
      rw [← h.1]
      constructor
      · exact cursorInv_setFile cfg _ i _ hc ⟨Nat.zero_le _, (hc i hi).2⟩
      · exact nameInv_of_sameNames cfg _ _ hn (sameNames_setFile _ i _ rfl rfl rfl)
  | none =>
    cases hu : firstIndex (fun i => !(s.mainStructure.fileTable i).filled)
        cfg.CART_MAX_TOTAL_FILES with
    | none =>
      rw [cart_open_full cfg s path hf hu] at h
      exact Option.noConfusion h
    | some c =>
      obtain ⟨hcl, hcu, hcb⟩ := firstIndex_some hu
      rw [cart_open_create cfg s path c hf hu] at h
      simp only [Option.some.injEq, Prod.mk.injEq] at h
      rw [← h.1]
      constructor
      · exact cursorInv_setFile cfg _ c _ hc ⟨le_refl _, by norm_num⟩
      · intro i hi hfl
        by_cases hic : i = c
        · subst hic
          simp only [] at hfl ⊢
          rw [setFile_same]
          refine ⟨rfl, fun j hj => ?_⟩
          have hjc : j ≠ i := by omega
          rw [setFile_ne _ i j _ hjc]
          have hfj := hcb j hj
          simp only [Bool.not_eq_false'] at hfj
          refine ⟨hfj, fun p hp => ?_⟩
          rw [nameMatches_congr s.mainStructure _ p j (by rw [setFile_ne _ i j _ hjc])]
          obtain ⟨hle, hag⟩ := holdsName_created _ path p hp
          have hno := firstIndex_none hf j (by omega)
          unfold nameMatches at hno ⊢
          exact strncmp0_extend _ _ _ _ _ hle hag hno
        · simp only [] at hfl ⊢
          rw [setFile_ne _ c i _ hic] at hfl ⊢
          obtain ⟨h1, h2⟩ := hn i hi hfl
          refine ⟨h1, fun j hj => ?_⟩
          obtain ⟨h3, h4⟩ := h2 j hj
          have hjc : j ≠ c := by
            intro hjc
            subst hjc
            rw [h3] at hcu
            exact Bool.noConfusion hcu
          rw [setFile_ne _ c j _ hjc]
          refine ⟨h3, fun p hp => ?_⟩
          rw [nameMatches_congr s.mainStructure _ p j (by rw [setFile_ne _ c j _ hjc])]
          exact h4 p hp

theorem cart_read_loop_done (cfg : CartConfig) (idx : Nat) (fuel : Nat) (L : ReadLoop)
    (h : ¬ 0 < L.bytes_left_to_read) : cart_read_loop cfg idx fuel L = some L := by
  cases fuel with
  | zero =>
    unfold cart_read_loop
    rw [if_neg (by omega)]
  | succ n =>
    unfold cart_read_loop
    rw [if_neg (by omega)]

theorem cart_read_loop_induct (cfg : CartConfig) (idx : Nat) (P : ReadLoop → Prop)
    (hstep : ∀ L L1, P L → 0 < L.bytes_left_to_read → cart_read_body cfg idx L = some L1 → P L1) :
    ∀ (fuel : Nat) (L L1 : ReadLoop), P L → cart_read_loop cfg idx fuel L = some L1 →
      P L1 ∧ L1.bytes_left_to_read ≤ 0 := by
  intro fuel
  induction fuel with
  | zero =>
    intro L L1 hP h
    unfold cart_read_loop at h
    by_cases hl : L.bytes_left_to_read > 0
    · rw [if_pos hl] at h
      exact Option.noConfusion h
    · rw [if_neg hl] at h
      simp only [Option.some.injEq] at h
      subst h
      exact ⟨hP, by omega⟩
  | succ n ih =>
    intro L L1 hP h
    unfold cart_read_loop at h
    by_cases hl : L.bytes_left_to_read > 0
    · rw [if_pos hl] at h
      cases hb : cart_read_body cfg idx L with
      | none =>
        rw [hb] at h
        exact Option.noConfusion h
      | some L2 =>
        rw [hb] at h
        exact ih L2 L1 (hstep L L2 hP hl hb) h
    · rw [if_neg hl] at h
      simp only [Option.some.injEq] at h
      subst h
      exact ⟨hP, by omega⟩

theorem cart_write_loop_induct (cfg : CartConfig) (idx : Nat) (buf : Buf) (P : WriteLoop → Prop)
    (hstep : ∀ L L1, P L → 0 < L.bytes_left_to_write →
      cart_write_body cfg idx buf L = some L1 → P L1) :
    ∀ (fuel : Nat) (L L1 : WriteLoop), P L → cart_write_loop cfg idx buf fuel L = some L1 →
      P L1 := by
  intro fuel
  induction fuel with
  | zero =>
    intro L L1 hP h
    unfold cart_write_loop at h
    by_cases hl : L.bytes_left_to_write > 0
    · rw [if_pos hl] at h
      exact Option.noConfusion h
    · rw [if_neg hl] at h
      simp only [Option.some.injEq] at h
      subst h
      exact hP
  | succ n ih =>
    intro L L1 hP h
    unfold cart_write_loop at h
    by_cases hl : L.bytes_left_to_write > 0
    · rw [if_pos hl] at h
      cases hb : cart_write_body cfg idx buf L with
      | none =>
        rw [hb] at h
        exact Option.noConfusion h
      | some L2 =>
        rw [hb] at h
        exact ih L2 L1 (hstep L L2 hP hl hb) h
    · rw [if_neg hl] at h
      simp only [Option.some.injEq] at h
      subst h
      exact hP

theorem cart_read_body_of_some (cfg : CartConfig) (idx : Nat) (L L1 : ReadLoop)
    (h : cart_read_body cfg idx L = some L1) :
    L1.st.mainStructure = setFile L.st.mainStructure idx
        { L.st.mainStructure.fileTable idx with
          location := toU32 (((L.st.mainStructure.fileTable idx).location : Int)
            + chunk L.start_read_bit L.bytes_left_to_read) }
    ∧ L1.bytes_left_to_read
        = L.bytes_left_to_read - chunk L.start_read_bit L.bytes_left_to_read
    ∧ L1.start_read_bit = 0 := by
  cases hp : L.tempPtr with
  | none =>
    unfold cart_read_body at h
    rw [hp] at h
    exact Option.noConfusion h
  | some p =>
    obtain ⟨L2, hb, h1, h2, h3, _⟩ := cart_read_body_some cfg idx L p hp
    rw [hb] at h
    simp only [Option.some.injEq] at h
    subst h
    exact ⟨h1, h2, h3⟩

theorem cart_write_body_of_some (cfg : CartConfig) (idx : Nat) (buf : Buf) (L L1 : WriteLoop)
    (h : cart_write_body cfg idx buf L = some L1) :
    L1.st.mainStructure.fileTable = Function.update L.st.mainStructure.fileTable idx
        { L.st.mainStructure.fileTable idx with
          location := toU32 (((L.st.mainStructure.fileTable idx).location : Int)
            + chunk L.start_write_bit L.bytes_left_to_write)
          length :=
            if toU32 (((L.st.mainStructure.fileTable idx).location : Int)
                + chunk L.start_write_bit L.bytes_left_to_write)
                > (L.st.mainStructure.fileTable idx).length
            then toU32 (((L.st.mainStructure.fileTable idx).location : Int)
                + chunk L.start_write_bit L.bytes_left_to_write)
            else (L.st.mainStructure.fileTable idx).length } := by
  cases hp : L.tempPtr with
  | none =>
    unfold cart_write_body at h
    rw [hp] at h
    exact Option.noConfusion h
  | some p =>
    unfold cart_write_body at h
    rw [hp] at h
    simp only [Option.some.injEq] at h
    subst h
    simp only []
    split
    · split <;> rfl
    · split <;> rfl

theorem cart_read_loop_frame (cfg : CartConfig) (idx : Nat) (s : State) (count : Int)
    (fuel : Nat) (L0 L1 : ReadLoop) (hst0 : L0.st = s)
    (hleft0 : L0.bytes_left_to_read = readCount (s.mainStructure.fileTable idx) count)
    (hsb0 : L0.start_read_bit
      = (((s.mainStructure.fileTable idx).location % 1024 : Nat) : Int))
    (hl : cart_read_loop cfg idx fuel L0 = some L1) :
    ∃ x, L1.st.mainStructure = setFile s.mainStructure idx
          { s.mainStructure.fileTable idx with location := x }
      ∧ ((s.mainStructure.fileTable idx).location ≤ (s.mainStructure.fileTable idx).length
          ∧ (s.mainStructure.fileTable idx).length < 4294967296 →
          x ≤ (s.mainStructure.fileTable idx).length) := by
  by_cases hpos : 0 < L0.bytes_left_to_read
  · have hres := cart_read_loop_induct cfg idx
      (fun L => ∃ x, L.st.mainStructure = setFile s.mainStructure idx
          { s.mainStructure.fileTable idx with location := x }
        ∧ ((s.mainStructure.fileTable idx).location
              ≤ (s.mainStructure.fileTable idx).length
            ∧ (s.mainStructure.fileTable idx).length < 4294967296 →
            x < 4294967296 ∧ 0 ≤ L.start_read_bit ∧ L.start_read_bit < 1024
            ∧ 0 ≤ L.bytes_left_to_read
            ∧ ((x : Int) + L.bytes_left_to_read) % 4294967296
              = (((s.mainStructure.fileTable idx).location : Int)
                  + L0.bytes_left_to_read) % 4294967296))
      (by
        intro L L2 hP hl2 hb
        obtain ⟨x, hx1, hx2⟩ := hP
        obtain ⟨hm, hleft, hsb⟩ := cart_read_body_of_some cfg idx L L2 hb
        have hfile : L.st.mainStructure.fileTable idx
            = { s.mainStructure.fileTable idx with location := x } := by
          rw [hx1, setFile_same]
        refine ⟨toU32 ((x : Int) + chunk L.start_read_bit L.bytes_left_to_read), ?_, ?_⟩
        · rw [hm, hfile, hx1, setFile_setFile]
        · intro hyp
          obtain ⟨a1, a2, a3, a4, a5⟩ := hx2 hyp
          obtain ⟨c1, c2, c3, c4⟩ := chunk_bounds L.start_read_bit L.bytes_left_to_read
            a2 a3 hl2
          rw [hleft, hsb]
          unfold toU32
          refine ⟨by omega, by omega, by omega, by omega, ?_⟩
          rw [← a5]
          omega)
      fuel L0 L1
      ⟨(s.mainStructure.fileTable idx).location, by rw [hst0]; exact (setFile_self _ _).symm,
        fun hyp => ⟨by omega, by rw [hsb0]; omega, by rw [hsb0]; omega, by omega, rfl⟩⟩
      hl
    obtain ⟨⟨x, hx1, hx2⟩, hdone⟩ := hres
    refine ⟨x, hx1, fun hyp => ?_⟩
    obtain ⟨a1, a2, a3, a4, a5⟩ := hx2 hyp
    have hT : (((s.mainStructure.fileTable idx).location : Int)
        + L0.bytes_left_to_read) % 4294967296
        ≤ ((s.mainStructure.fileTable idx).length : Int) := by
      rw [hleft0] at hpos ⊢
      unfold readCount at hpos ⊢
      unfold toU32 toInt32 at *
      split at hpos
      · rw [if_pos (by assumption)]
        split at hpos <;> split <;> omega
      · rw [if_neg (by assumption)]
        omega
    omega
  · rw [cart_read_loop_done cfg idx _ L0 hpos] at hl
    simp only [Option.some.injEq] at hl
    rw [← hl, hst0]
    exact ⟨(s.mainStructure.fileTable idx).location, (setFile_self _ _).symm, fun hyp => hyp.1⟩

theorem cart_read_frame (cfg : CartConfig) (s s1 : State) (fd : Int) (buf b : Buf)
    (count r : Int) (h : cart_read cfg s fd buf count = some (s1, r, b)) :
    (findHandle cfg s.mainStructure fd = none ∧ s1 = s)
    ∨ ∃ idx x, findHandle cfg s.mainStructure fd = some idx
        ∧ s1.mainStructure = setFile s.mainStructure idx
            { s.mainStructure.fileTable idx with location := x }
        ∧ ((s.mainStructure.fileTable idx).location ≤ (s.mainStructure.fileTable idx).length
            ∧ (s.mainStructure.fileTable idx).length < 4294967296 →
            x ≤ (s.mainStructure.fileTable idx).length) := by
  unfold cart_read at h
  cases hf : findHandle cfg s.mainStructure fd with
  | none =>
    rw [hf] at h
    simp only [Option.some.injEq, Prod.mk.injEq] at h
    exact Or.inl ⟨rfl, h.1.symm⟩
  | some idx =>
    right
    rw [hf] at h
    simp only [] at h
    cases hw : walkFrames s.mainStructure ((s.mainStructure.fileTable idx).location / 1024)
        (s.mainStructure.fileTable idx).tablePtr with
    | none =>
      rw [hw] at h
      exact Option.noConfusion h
    | some tp =>
      rw [hw] at h
      simp only [] at h
      split at h
      · exact Option.noConfusion h
      · rename_i L1 hl
        simp only [Option.some.injEq, Prod.mk.injEq] at h
        rw [← h.1]
        obtain ⟨x, hx1, hx2⟩ := cart_read_loop_frame cfg idx s count _ _ L1 rfl rfl rfl hl
        exact ⟨idx, x, rfl, hx1, hx2⟩

theorem setInfo_fileTable (m : CartStructure) (p : Nat × Nat) (t : Table) :
    (setInfo m p t).fileTable = m.fileTable := rfl

/-- What one call of `cart_write` may change in the file table: nothing in the entries
other than `idx`, and in entry `idx` only the cursor, the length and the chain head. -/
theorem cart_write_loop_frame (cfg : CartConfig) (idx : Nat) (buf : Buf) (fuel : Nat)
    (L0 L1 : WriteLoop) (hl : cart_write_loop cfg idx buf fuel L0 = some L1) :
    (∀ j, j ≠ idx → L1.st.mainStructure.fileTable j = L0.st.mainStructure.fileTable j)
    ∧ (L1.st.mainStructure.fileTable idx).fileName = (L0.st.mainStructure.fileTable idx).fileName
    ∧ (L1.st.mainStructure.fileTable idx).filled = (L0.st.mainStructure.fileTable idx).filled
    ∧ (L1.st.mainStructure.fileTable idx).handle = (L0.st.mainStructure.fileTable idx).handle
    ∧ (L1.st.mainStructure.fileTable idx).open_ = (L0.st.mainStructure.fileTable idx).open_
    ∧ (L1.st.mainStructure.fileTable idx).tablePtr
        = (L0.st.mainStructure.fileTable idx).tablePtr
    ∧ (L0.st.mainStructure.fileTable idx).length ≤ (L1.st.mainStructure.fileTable idx).length
    ∧ ((L0.st.mainStructure.fileTable idx).location ≤ (L0.st.mainStructure.fileTable idx).length
        ∧ (L0.st.mainStructure.fileTable idx).length < 4294967296 →
        (L1.st.mainStructure.fileTable idx).location
          ≤ (L1.st.mainStructure.fileTable idx).length
        ∧ (L1.st.mainStructure.fileTable idx).length < 4294967296) := by
  refine cart_write_loop_induct cfg idx buf
    (fun L =>
      (∀ j, j ≠ idx → L.st.mainStructure.fileTable j = L0.st.mainStructure.fileTable j)
      ∧ (L.st.mainStructure.fileTable idx).fileName
          = (L0.st.mainStructure.fileTable idx).fileName
      ∧ (L.st.mainStructure.fileTable idx).filled = (L0.st.mainStructure.fileTable idx).filled
      ∧ (L.st.mainStructure.fileTable idx).handle = (L0.st.mainStructure.fileTable idx).handle
      ∧ (L.st.mainStructure.fileTable idx).open_ = (L0.st.mainStructure.fileTable idx).open_
      ∧ (L.st.mainStructure.fileTable idx).tablePtr
          = (L0.st.mainStructure.fileTable idx).tablePtr
      ∧ (L0.st.mainStructure.fileTable idx).length ≤ (L.st.mainStructure.fileTable idx).length
      ∧ ((L0.st.mainStructure.fileTable idx).location
            ≤ (L0.st.mainStructure.fileTable idx).length
          ∧ (L0.st.mainStructure.fileTable idx).length < 4294967296 →
          (L.st.mainStructure.fileTable idx).location
            ≤ (L.st.mainStructure.fileTable idx).length
          ∧ (L.st.mainStructure.fileTable idx).length < 4294967296))
    ?_ fuel L0 L1 ⟨fun _ _ => rfl, rfl, rfl, rfl, rfl, rfl, le_refl _, fun h => h⟩ hl
  intro L L2 hP _ hb
  obtain ⟨p1, p2, p3, p4, p5, p6, p7, p8⟩ := hP
  have hft := cart_write_body_of_some cfg idx buf L L2 hb
  refine ⟨fun j hj => ?_, ?_, ?_, ?_, ?_, ?_, ?_, ?_⟩
  · rw [hft, Function.update_noteq hj]
    exact p1 j hj
  · rw [hft, Function.update_same]; exact p2
  · rw [hft, Function.update_same]; exact p3
  · rw [hft, Function.update_same]; exact p4
  · rw [hft, Function.update_same]; exact p5
  · rw [hft, Function.update_same]; exact p6
  · rw [hft, Function.update_same]
    simp only []
    split <;> omega
  · intro hyp
    obtain ⟨q1, q2⟩ := p8 hyp
    rw [hft, Function.update_same]
    simp only []
    have hlt : toU32 (((L.st.mainStructure.fileTable idx).location : Int)
        + chunk L.start_write_bit L.bytes_left_to_write) < 4294967296 := by
      unfold toU32
      omega
    split <;> omega

theorem cart_write_frame (cfg : CartConfig) (s s1 : State) (fd : Int) (buf tempbuf0 : Buf)
    (count r : Int) (h : cart_write cfg s fd buf count tempbuf0 = some (s1, r)) :
    (findHandle cfg s.mainStructure fd = none ∧ s1 = s)
    ∨ ∃ idx, findHandle cfg s.mainStructure fd = some idx
        ∧ (∀ j, j ≠ idx → s1.mainStructure.fileTable j = s.mainStructure.fileTable j)
        ∧ (s1.mainStructure.fileTable idx).fileName = (s.mainStructure.fileTable idx).fileName
        ∧ (s1.mainStructure.fileTable idx).filled = (s.mainStructure.fileTable idx).filled
        ∧ (s1.mainStructure.fileTable idx).handle = (s.mainStructure.fileTable idx).handle
        ∧ (s1.mainStructure.fileTable idx).open_ = (s.mainStructure.fileTable idx).open_
        ∧ (s.mainStructure.fileTable idx).length ≤ (s1.mainStructure.fileTable idx).length
        ∧ ((s.mainStructure.fileTable idx).location ≤ (s.mainStructure.fileTable idx).length
            ∧ (s.mainStructure.fileTable idx).length < 4294967296 →
            (s1.mainStructure.fileTable idx).location
              ≤ (s1.mainStructure.fileTable idx).length
            ∧ (s1.mainStructure.fileTable idx).length < 4294967296) := by
  unfold cart_write at h
  cases hf : findHandle cfg s.mainStructure fd with
  | none =>
    rw [hf] at h
    simp only [Option.some.injEq, Prod.mk.injEq] at h
    exact Or.inl ⟨rfl, h.1.symm⟩
  | some idx =>
    right
    rw [hf] at h
    simp only [] at h
    split at h
    · exact Option.noConfusion h
    · split at h
      · exact Option.noConfusion h
      · rename_i tp hw L1 hl
        simp only [Option.some.injEq, Prod.mk.injEq] at h
        rw [← h.1]
        obtain ⟨p1, p2, p3, p4, p5, _, p7, p8⟩ := cart_write_loop_frame cfg idx buf _ _ L1 hl
        simp only [] at p1 p2 p3 p4 p5 p7 p8
        have hm1 : ∀ m1 : CartStructure,
            m1 = (if (s.mainStructure.fileTable idx).tablePtr = none then
              match (freeFrameSearch cfg s.mainStructure cfg.CART_MAX_CARTRIDGES 0 false).1 with
              | some q =>
                setInfo (setFile s.mainStructure idx
                  { s.mainStructure.fileTable idx with tablePtr := some q }) q
                  { s.mainStructure.infoTable q.1 q.2 with handle := fd }
              | none => s.mainStructure
            else s.mainStructure) →
            (∀ j, j ≠ idx → m1.fileTable j = s.mainStructure.fileTable j)
            ∧ (m1.fileTable idx).fileName = (s.mainStructure.fileTable idx).fileName
            ∧ (m1.fileTable idx).filled = (s.mainStructure.fileTable idx).filled
            ∧ (m1.fileTable idx).handle = (s.mainStructure.fileTable idx).handle
            ∧ (m1.fileTable idx).open_ = (s.mainStructure.fileTable idx).open_
            ∧ (m1.fileTable idx).length = (s.mainStructure.fileTable idx).length
            ∧ (m1.fileTable idx).location = (s.mainStructure.fileTable idx).location := by
          intro m1 hm
          split at hm
          · split at hm
            · subst hm
              refine ⟨fun j hj => ?_, ?_, ?_, ?_, ?_, ?_, ?_⟩
              · rw [setInfo_fileTable, setFile_ne _ idx j _ hj]
              all_goals rw [setInfo_fileTable, setFile_same]
            · subst hm
              exact ⟨fun _ _ => rfl, rfl, rfl, rfl, rfl, rfl, rfl⟩
          · subst hm
            exact ⟨fun _ _ => rfl, rfl, rfl, rfl, rfl, rfl, rfl⟩
        obtain ⟨a1, a2, a3, a4, a5, a6, a7⟩ := hm1 _ rfl
        refine ⟨idx, rfl, fun j hj => (p1 j hj).trans (a1 j hj), p2.trans a2, p3.trans a3,
          p4.trans a4, p5.trans a5, ?_, fun hyp => ?_⟩
        · rw [← a6]; exact p7
        · exact p8 (by rw [a6, a7]; exact hyp)

/-! ## Invariants of the reachable states -/

theorem cart_poweron_inv (cfg : CartConfig) (s0 : State) (hon : (cart_poweron cfg s0).2 = 0) :
    CursorInv cfg (cart_poweron cfg s0).1.mainStructure
    ∧ NameInv cfg (cart_poweron cfg s0).1.mainStructure := by
  unfold cart_poweron at hon ⊢
  cases h : s0.mainStructure.cart_is_on with
  | true =>
    rw [h] at hon
    simp only [if_true] at hon
    exact absurd hon (by decide)
  | false =>
    simp only [Bool.false_eq_true, if_false]
    constructor
    · intro i hi
      simp only [clearedTables]
      rw [if_pos hi]
      exact ⟨le_refl _, by norm_num⟩
    · intro i hi hfl
      simp only [clearedTables] at hfl
      rw [if_pos hi] at hfl
      exact Bool.noConfusion hfl

theorem applyCall_inv (cfg : CartConfig) (s s1 : State) (c : FileCall)
    (h : applyCall cfg s c = some s1)
    (hc : CursorInv cfg s.mainStructure) (hn : NameInv cfg s.mainStructure) :
    CursorInv cfg s1.mainStructure ∧ NameInv cfg s1.mainStructure := by
  cases c with
  | open_ path =>
    simp only [applyCall] at h
    cases ho : cart_open cfg s path with
    | none =>
      rw [ho] at h
      exact Option.noConfusion h
    | some r =>
      rw [ho] at h
      simp only [Option.map_some', Option.some.injEq] at h
      rw [← h]
      exact cart_open_inv cfg s r.1 path r.2 ho hc hn
  | close fd =>
    simp only [applyCall] at h
    simp only [Option.some.injEq] at h
    rw [← h]
    cases hf : findHandle cfg s.mainStructure fd with
    | none =>
      rw [cart_close_none cfg s fd hf]
      exact ⟨hc, hn⟩
    | some idx =>
      obtain ⟨hi, _, _⟩ := firstIndex_some hf
      cases hop : (s.mainStructure.fileTable idx).open_ with
      | false =>
        rw [cart_close_closed cfg s fd idx hf hop]
        exact ⟨hc, hn⟩
      | true =>
        rw [cart_close_ok cfg s fd idx hf hop]
        exact ⟨cursorInv_setFile cfg _ idx _ hc (hc idx hi),
          nameInv_of_sameNames cfg _ _ hn (sameNames_setFile _ idx _ rfl rfl rfl)⟩
  | seek fd loc =>
    simp only [applyCall] at h
    simp only [Option.some.injEq] at h
    rw [← h]
    cases hf : findHandle cfg s.mainStructure fd with
    | none =>
      rw [cart_seek_none cfg s fd loc hf]
      exact ⟨hc, hn⟩
    | some idx =>
      obtain ⟨hi, _, _⟩ := firstIndex_some hf
      by_cases hbad : (s.mainStructure.fileTable idx).open_ = false
          ∨ (s.mainStructure.fileTable idx).length < loc
      · rw [cart_seek_fail cfg s fd loc idx hf hbad]
        exact ⟨hc, hn⟩
      · have hop : (s.mainStructure.fileTable idx).open_ = true := by
          cases hop : (s.mainStructure.fileTable idx).open_ with
          | true => rfl
          | false => exact absurd (Or.inl hop) hbad
        have hl : loc ≤ (s.mainStructure.fileTable idx).length := by
          by_cases hl : loc ≤ (s.mainStructure.fileTable idx).length
          · exact hl
          · exact absurd (Or.inr (by omega)) hbad
        rw [cart_seek_ok cfg s fd loc idx hf hop hl]
        exact ⟨cursorInv_setFile cfg _ idx _ hc ⟨hl, (hc idx hi).2⟩,
          nameInv_of_sameNames cfg _ _ hn (sameNames_setFile _ idx _ rfl rfl rfl)⟩
  | read fd buf count =>
    simp only [applyCall] at h
    cases hr : cart_read cfg s fd buf count with
    | none =>
      rw [hr] at h
      exact Option.noConfusion h
    | some r =>
      rw [hr] at h
      simp only [Option.map_some', Option.some.injEq] at h
      rw [← h]
      rcases cart_read_frame cfg s r.1 fd buf r.2.2 count r.2.1 hr with ⟨_, he⟩ | ⟨idx, x, hf, hm, hx⟩
      · rw [he]
        exact ⟨hc, hn⟩
      · obtain ⟨hi, _, _⟩ := firstIndex_some hf
        rw [hm]
        exact ⟨cursorInv_setFile cfg _ idx _ hc ⟨hx (hc idx hi), (hc idx hi).2⟩,
          nameInv_of_sameNames cfg _ _ hn (sameNames_setFile _ idx _ rfl rfl rfl)⟩
  | write fd buf count tempbuf0 =>
    simp only [applyCall] at h
    cases hw : cart_write cfg s fd buf count tempbuf0 with
    | none =>
      rw [hw] at h
      exact Option.noConfusion h
    | some r =>
      rw [hw] at h
      simp only [Option.map_some', Option.some.injEq] at h
      rw [← h]
      rcases cart_write_frame cfg s r.1 fd buf tempbuf0 count r.2 hw with
        ⟨_, he⟩ | ⟨idx, hf, p1, p2, p3, p4, _, _, p8⟩
      · rw [he]
        exact ⟨hc, hn⟩
      · obtain ⟨hi, _, _⟩ := firstIndex_some hf
        constructor
        · intro i hi2
          by_cases hii : i = idx
          · subst hii
            exact p8 (hc i hi)
          · rw [p1 i hii]
            exact hc i hi2
        · apply nameInv_of_sameNames cfg _ _ hn
          intro j
          by_cases hj : j = idx
          · subst hj
            exact ⟨p2, p3, p4⟩
          · rw [p1 j hj]
            exact ⟨rfl, rfl, rfl⟩

theorem runCalls_inv (cfg : CartConfig) (calls : List FileCall) :
    ∀ (s s1 : State), runCalls cfg s calls = some s1 →
      CursorInv cfg s.mainStructure → NameInv cfg s.mainStructure →
      CursorInv cfg s1.mainStructure ∧ NameInv cfg s1.mainStructure := by
  induction calls with
  | nil =>
    intro s s1 h hc hn
    unfold runCalls at h
    simp only [Option.some.injEq] at h
    rw [← h]
    exact ⟨hc, hn⟩
  | cons c cs ih =>
    intro s s1 h hc hn
    unfold runCalls at h
    cases ha : applyCall cfg s c with
    | none =>
      rw [ha] at h
      exact Option.noConfusion h
    | some s2 =>
      rw [ha] at h
      obtain ⟨hc2, hn2⟩ := applyCall_inv cfg s s2 c ha hc hn
      exact ih s2 s1 h hc2 hn2

theorem reachable_inv (cfg : CartConfig) (s0 s : State) (calls : List FileCall)
    (hon : (cart_poweron cfg s0).2 = 0)
    (hrun : runCalls cfg (cart_poweron cfg s0).1 calls = some s) :
    CursorInv cfg s.mainStructure ∧ NameInv cfg s.mainStructure := by
  obtain ⟨hc, hn⟩ := cart_poweron_inv cfg s0 hon
  exact runCalls_inv cfg calls _ s hrun hc hn

theorem eq_some_getD {α : Type} (o : Option α) (d : α) (h : o.isSome = true) :
    o = some (o.getD d) := by
  cases o with
  | none => exact Bool.noConfusion h
  | some a => rfl

/-- C12: in every state reached from a successful `cart_poweron` by any sequence of
`cart_open`, `cart_close`, `cart_seek`, `cart_read` and `cart_write` calls (with any
arguments, every call of the sequence returning), every entry of the file table has
`0 <= cursor <= length`. -/
theorem C12_cursor_invariant (cfg : CartConfig) (s0 s : State) (calls : List FileCall)
    (hon : (cart_poweron cfg s0).2 = 0)
    (hrun : runCalls cfg (cart_poweron cfg s0).1 calls = some s) :
    ∀ i, i < cfg.CART_MAX_TOTAL_FILES →
      0 ≤ (s.mainStructure.fileTable i).location
      ∧ (s.mainStructure.fileTable i).location ≤ (s.mainStructure.fileTable i).length := by
  intro i hi
  exact ⟨Nat.zero_le _, ((reachable_inv cfg s0 s calls hon hrun).1 i hi).1⟩

/-- Witness of C12: the sample session (open "a", write 2000 bytes, seek to 500, read
5000 bytes, close, open "b", write 10 bytes) runs to its end on the small grid, and every
entry of the file table then has `0 <= cursor <= length`. -/
theorem C12_cursor_invariant_witness :
    (cart_poweron smallConfig (bootStateCap 2)).2 = 0
    ∧ runCalls smallConfig (cart_poweron smallConfig (bootStateCap 2)).1 sampleCalls
        = some sampleState
    ∧ ∀ i, i < smallConfig.CART_MAX_TOTAL_FILES →
        0 ≤ (sampleState.mainStructure.fileTable i).location
        ∧ (sampleState.mainStructure.fileTable i).location
            ≤ (sampleState.mainStructure.fileTable i).length :=
  ⟨by decide, eq_some_getD _ bootState (by decide),
   C12_cursor_invariant smallConfig (bootStateCap 2) sampleState sampleCalls (by decide)
     (eq_some_getD _ bootState (by decide))⟩

/-! ## Opening an existing file -/

theorem nameMatches_of_holdsName (m : CartStructure) (path : List Nat) (i : Nat)
    (h : holdsName (m.fileTable i).fileName path) : nameMatches m path i = true := by
  unfold nameMatches
  exact strncmp0_true _ _ _ _ (fun j _ hj => h.1 j (by omega))

/-- In a state that satisfies `NameInv`, the name search of `cart_open` stops at the
filled entry that holds exactly the name searched. -/
theorem nameSearch_exact (cfg : CartConfig) (m : CartStructure) (path : List Nat) (i : Nat)
    (hn : NameInv cfg m) (hi : i < cfg.CART_MAX_TOTAL_FILES)
    (hfl : (m.fileTable i).filled = true) (hname : holdsName (m.fileTable i).fileName path) :
    firstIndex (nameMatches m path) cfg.CART_MAX_TOTAL_FILES = some i
    ∧ (m.fileTable i).handle = toInt16 i :=
  ⟨firstIndex_eq_of_least hi (nameMatches_of_holdsName m path i hname)
      (fun j hj => ((hn i hi hfl).2 j hj).2 path hname),
   (hn i hi hfl).1⟩

/-- C15: in every state reached from a successful `cart_poweron` by any sequence of
`cart_open`, `cart_close`, `cart_seek`, `cart_read` and `cart_write` calls, if a File
Entry (a filled entry of the file table) holds exactly the name `path` and is open,
`cart_open(path)` returns -1 and leaves the whole state, the file table included,
unchanged. -/
theorem C15_open_of_open_file_fails (cfg : CartConfig) (s0 s : State)
    (calls : List FileCall) (path : List Nat) (i : Nat)
    (hon : (cart_poweron cfg s0).2 = 0)
    (hrun : runCalls cfg (cart_poweron cfg s0).1 calls = some s)
    (hi : i < cfg.CART_MAX_TOTAL_FILES)
    (hfl : (s.mainStructure.fileTable i).filled = true)
    (hname : holdsName (s.mainStructure.fileTable i).fileName path)
    (hopen : (s.mainStructure.fileTable i).open_ = true) :
    cart_open cfg s path = some (s, -1) :=
  cart_open_already_open cfg s path i
    (nameSearch_exact cfg s.mainStructure path i (reachable_inv cfg s0 s calls hon hrun).2
      hi hfl hname).1 hopen

/-- Witness of C15: after `cart_poweron` and `cart_open("a")` on the small grid, entry 0
is filled, holds exactly the name "a" and is open, and `cart_open("a")` returns -1 and
leaves the state unchanged. -/
theorem C15_open_of_open_file_fails_witness :
    (cart_poweron smallConfig (bootStateCap 2)).2 = 0
    ∧ runCalls smallConfig (cart_poweron smallConfig (bootStateCap 2)).1 [FileCall.open_ [97]]
        = some openedState
    ∧ (openedState.mainStructure.fileTable 0).filled = true
    ∧ holdsName (openedState.mainStructure.fileTable 0).fileName [97]
    ∧ (openedState.mainStructure.fileTable 0).open_ = true
    ∧ cart_open smallConfig openedState [97] = some (openedState, -1) :=
  ⟨by decide, eq_some_getD _ bootState (by decide), by decide, by unfold holdsName; decide,
   by decide,
   C15_open_of_open_file_fails smallConfig (bootStateCap 2) openedState [FileCall.open_ [97]]
     [97] 0 (by decide) (eq_some_getD _ bootState (by decide)) (by decide) (by decide)
     (by unfold holdsName; decide) (by decide)⟩

/-- C16: in every state reached from a successful `cart_poweron` by any sequence of
`cart_open`, `cart_close`, `cart_seek`, `cart_read` and `cart_write` calls, if a File
Entry (a filled entry of the file table) holds exactly the name `path` and is closed,
`cart_open(path)` returns the handle of that entry, and the new state is the old one with
that entry marked open and its cursor set to 0: its name, handle, length and chain head,
every other entry, and the frame grid (hence every chain) are unchanged. -/
theorem C16_reopen (cfg : CartConfig) (s0 s : State)
    (calls : List FileCall) (path : List Nat) (i : Nat)
    (hon : (cart_poweron cfg s0).2 = 0)
    (hrun : runCalls cfg (cart_poweron cfg s0).1 calls = some s)
    (hi : i < cfg.CART_MAX_TOTAL_FILES)
    (hfl : (s.mainStructure.fileTable i).filled = true)
    (hname : holdsName (s.mainStructure.fileTable i).fileName path)
    (hclosed : (s.mainStructure.fileTable i).open_ = false) :
    cart_open cfg s path =
      some ({ s with mainStructure := (setFile s.mainStructure i
          { s.mainStructure.fileTable i with open_ := true, location := 0 }) },
        (s.mainStructure.fileTable i).handle) := by
  obtain ⟨hf, hh⟩ := nameSearch_exact cfg s.mainStructure path i
    (reachable_inv cfg s0 s calls hon hrun).2 hi hfl hname
  rw [cart_open_reopen cfg s path i hf hclosed, hh]

/-- Witness of C16: after the sample session, entry 0 is filled, holds exactly the name
"a", is closed, and has handle 0, cursor 2000 and length 2000; `cart_open("a")` returns
its handle and only marks it open and sets its cursor to 0. -/
theorem C16_reopen_witness :
    (cart_poweron smallConfig (bootStateCap 2)).2 = 0
    ∧ runCalls smallConfig (cart_poweron smallConfig (bootStateCap 2)).1 sampleCalls
        = some sampleState
    ∧ (sampleState.mainStructure.fileTable 0).filled = true
    ∧ holdsName (sampleState.mainStructure.fileTable 0).fileName [97]
    ∧ (sampleState.mainStructure.fileTable 0).open_ = false
    ∧ (sampleState.mainStructure.fileTable 0).location = 2000
    ∧ cart_open smallConfig sampleState [97] =
        some ({ sampleState with mainStructure := (setFile sampleState.mainStructure 0
            { sampleState.mainStructure.fileTable 0 with open_ := true, location := 0 }) },
          (sampleState.mainStructure.fileTable 0).handle) :=
  ⟨by decide, eq_some_getD _ bootState (by decide), by decide, by unfold holdsName; decide,
   by decide, by decide,
   C16_reopen smallConfig (bootStateCap 2) sampleState sampleCalls
     [97] 0 (by decide) (eq_some_getD _ bootState (by decide)) (by decide) (by decide)
     (by unfold holdsName; decide) (by decide)⟩

/-! ## The requests of the driver as the device sees them -/

theorem extract_cart_opcode_zero (resp : Nat) (old : Fields) :
    (extract_cart_opcode resp old).2 = ⟨0, 0, 0, 0, 0⟩ := by
  have h1 : old.ky1 &&& 255 ≤ 255 := Nat.and_le_right
  have h2 : old.ky2 &&& 255 ≤ 255 := Nat.and_le_right
  have h3 : old.rt1 &&& 255 ≤ 255 := Nat.and_le_right
  have h4 : old.ct1 &&& 255 ≤ 255 := Nat.and_le_right
  have h5 : old.fm1 &&& 255 ≤ 255 := Nat.and_le_right
  unfold extract_cart_opcode shl64
  simp only [Nat.shiftLeft_eq, Nat.shiftRight_eq_div_pow]
  norm_num
  refine ⟨?_, ?_, ?_, ?_, ?_⟩ <;> omega

theorem reg_decode (op c f : Nat) (hop : op < 128) (hc : c < 65536) (hf : f < 65536) :
    extract_reg (create_cart_opcode op 0 0 c f) = (op : Int)
    ∧ regCart (create_cart_opcode op 0 0 c f) = c
    ∧ regFrame (create_cart_opcode op 0 0 c f) = f := by
  have h := create_cart_opcode_layout op 0 0 c f (by norm_num; omega) (by norm_num)
    (by norm_num) (by norm_num; omega) (by norm_num; omega)
  have h0 : ((0 : Nat) : Int) = 0 := rfl
  rw [h0] at h
  have e1 : (create_cart_opcode op 0 0 c f >>> 56) % 256 = op := by
    rw [h, Nat.shiftRight_eq_div_pow]
    norm_num
    omega
  have e2 : (create_cart_opcode op 0 0 c f >>> 31) % 65536 = c := by
    rw [h, Nat.shiftRight_eq_div_pow]
    norm_num
    omega
  have e3 : (create_cart_opcode op 0 0 c f >>> 15) % 65536 = f := by
    rw [h, Nat.shiftRight_eq_div_pow]
    norm_num
    omega
  refine ⟨?_, e2, e3⟩
  unfold extract_reg
  simp only []
  rw [e1, if_pos hop]

theorem opcodes_ne (cfg : CartConfig) (h : OpcodesDistinct cfg) :
    cfg.CART_OP_LDCART ≠ cfg.CART_OP_RDFRME ∧ cfg.CART_OP_LDCART ≠ cfg.CART_OP_WRFRME
    ∧ cfg.CART_OP_LDCART ≠ cfg.CART_OP_POWOFF ∧ cfg.CART_OP_LDCART ≠ cfg.CART_OP_INITMS
    ∧ cfg.CART_OP_LDCART ≠ cfg.CART_OP_BZERO ∧ cfg.CART_OP_WRFRME ≠ cfg.CART_OP_RDFRME := by
  obtain ⟨_, _, _, _, _, _, hn⟩ := h
  simp only [List.nodup_cons, List.mem_cons, List.mem_singleton, not_or, List.not_mem_nil,
    not_false_eq_true, List.nodup_nil, and_true] at hn
  obtain ⟨⟨a1, a2, a3, a4, a5⟩, ⟨b2, b3, b4, b5⟩, ⟨c3, c4, c5⟩, ⟨d4, d5⟩, e5⟩ := hn
  exact ⟨c3, c4, c5, fun h => a2 h.symm, fun h => b2 h.symm, fun h => d4 h.symm⟩

theorem busCall_regs (cfg : CartConfig) (t : Transport) (r : Fields) (buf : Buf) :
    (busCall cfg t r buf).2.2 = ⟨0, 0, 0, 0, 0⟩ := by
  unfold busCall
  exact extract_cart_opcode_zero (create_cart_opcode r.ky1 r.ky2 r.rt1 r.ct1 r.fm1) r

/-- A LOAD-CARTRIDGE request selects the cartridge and leaves the stored frames. -/
theorem busCall_ldcart (cfg : CartConfig) (t : Transport) (r : Fields) (buf : Buf)
    (hd : OpcodesDistinct cfg) (h1 : r.ky1 = cfg.CART_OP_LDCART) (h2 : r.ky2 = 0)
    (h3 : r.rt1 = 0) (h4 : r.ct1 < 65536) (h5 : r.fm1 < 65536) :
    (busCall cfg t r buf).1.loaded = r.ct1 ∧ (busCall cfg t r buf).1.store = t.store := by
  obtain ⟨n1, n2, n3, n4, n5, _⟩ := opcodes_ne cfg hd
  obtain ⟨e1, e2, _⟩ := reg_decode cfg.CART_OP_LDCART r.ct1 r.fm1 hd.2.2.1 h4 h5
  unfold busCall client_cart_bus_request
  simp only [h1, h2, h3, Nat.cast_zero, e1, e2, Nat.cast_inj, n1, n2, n3, n4, n5, if_false,
    if_true]
  exact ⟨trivial, trivial⟩

/-- A READ-FRAME request leaves the selected cartridge and the stored frames. -/
theorem busCall_rdfrme (cfg : CartConfig) (t : Transport) (r : Fields) (buf : Buf)
    (hd : OpcodesDistinct cfg) (h1 : r.ky1 = cfg.CART_OP_RDFRME) (h2 : r.ky2 = 0)
    (h3 : r.rt1 = 0) (h4 : r.ct1 < 65536) (h5 : r.fm1 < 65536) :
    (busCall cfg t r buf).1.loaded = t.loaded ∧ (busCall cfg t r buf).1.store = t.store := by
  obtain ⟨e1, _, _⟩ := reg_decode cfg.CART_OP_RDFRME r.ct1 r.fm1 hd.2.2.2.1 h4 h5
  unfold busCall client_cart_bus_request
  simp only [h1, h2, h3, Nat.cast_zero, e1, if_true]
  exact ⟨trivial, trivial⟩

/-- A WRITE-FRAME request stores the first 1024 bytes of the buffer in the frame
named by the request of the selected cartridge, and nothing else. -/
theorem busCall_wrfrme (cfg : CartConfig) (t : Transport) (r : Fields) (buf : Buf)
    (hd : OpcodesDistinct cfg) (h1 : r.ky1 = cfg.CART_OP_WRFRME) (h2 : r.ky2 = 0)
    (h3 : r.rt1 = 0) (h4 : r.ct1 < 65536) (h5 : r.fm1 < 65536) :
    (busCall cfg t r buf).1.loaded = t.loaded
    ∧ (∀ i, i < 1024 → (busCall cfg t r buf).1.store t.loaded r.fm1 i = buf i)
    ∧ (∀ c f, ¬ (c = t.loaded ∧ f = r.fm1) →
        (busCall cfg t r buf).1.store c f = t.store c f) := by
  obtain ⟨_, _, _, _, _, n6⟩ := opcodes_ne cfg hd
  obtain ⟨e1, _, e3⟩ := reg_decode cfg.CART_OP_WRFRME r.ct1 r.fm1 hd.2.2.2.2.1 h4 h5
  unfold busCall client_cart_bus_request
  simp only [h1, h2, h3, Nat.cast_zero, e1, e3, Nat.cast_inj, n6, if_false, if_true]
  refine ⟨trivial, fun i hi => ?_, fun c f hcf => ?_⟩
  · simp only [and_self, if_true, if_pos hi]
  · simp only [if_neg hcf]

/-! ## The cache in the eviction scenario -/

theorem mod_window (a b C : Nat) (h : a % C = b % C) (h1 : a < b + C) (h2 : b < a + C) :
    a = b := by
  rcases Nat.le_total a b with hab | hab
  · have hd : C ∣ b - a := (Nat.modEq_iff_dvd' hab).1 h
    have hz : b - a = 0 := Nat.eq_zero_of_dvd_of_lt hd (by omega)
    omega
  · have hd : C ∣ a - b := (Nat.modEq_iff_dvd' hab).1 h.symm
    have hz : a - b = 0 := Nat.eq_zero_of_dvd_of_lt hd (by omega)
    omega

theorem sub_mod_cap (j C : Nat) (h : C ≤ j) : (j - C) % C = j % C := by
  have e : j = (j - C) + C := by omega
  conv_rhs => rw [e]
  exact (Nat.add_mod_right _ _).symm

theorem get_cart_cache_of_none (s : CacheState) (c f : Nat)
    (h : firstIndex (slotMatches s (c % 65536) (f % 65536)) s.size.toNat = none) :
    get_cart_cache s c f = ({ s with global_time := tick s.global_time }, none) := by
  unfold get_cart_cache
  rw [h]

theorem delete_cart_cache_of_some (s : CacheState) (c f i : Nat)
    (h : firstIndex (slotMatches s (c % 65536) (f % 65536)) s.size.toNat = some i) :
    (delete_cart_cache s c f).1 =
      { s with
        frames := Function.update s.frames i
          { s.frames i with frame_num := 65535, cart_num := 65535, time := -1 }
        num_occupied := s.num_occupied - 1 } := by
  unfold delete_cart_cache
  rw [h]

theorem put_cart_cache_of_some (s : CacheState) (c f i : Nat) (buf : Buf)
    (h : firstIndex (fun i => (s.frames i).time == -1) s.size.toNat = some i) :
    put_cart_cache s c f buf =
      { s with
        frames := Function.update s.frames i
          { framebuf := strncpy (s.frames i).framebuf buf 1024
            time := toInt32 s.global_time
            cart_num := c % 65536
            frame_num := f % 65536 }
        num_occupied := s.num_occupied + 1
        global_time := tick s.global_time } := by
  unfold put_cart_cache
  rw [h]

/-- A frame that no slot of the window holds is not found by the lookup. -/
theorem cacheScen_lookup_none (fo : Nat → Nat × Nat) (C g0 j : Nat) (c : CacheState)
    (p : Nat × Nat) (h : CacheScen fo C g0 j c)
    (hp : ∀ i, i < j → j ≤ i + C → fo i ≠ p) (hp1 : p.1 < 65535) (hp2 : p.2 < 65536) :
    firstIndex (slotMatches c (p.1 % 65536) (p.2 % 65536)) c.size.toNat = none := by
  obtain ⟨hsz, _, _, hslots⟩ := h
  apply firstIndex_eq_none
  intro t ht
  rw [hsz] at ht
  have ht' : t < C := by omega
  rw [slotMatches_false_iff, Nat.mod_eq_of_lt (by omega : p.1 < 65536), Nat.mod_eq_of_lt hp2]
  rintro ⟨e1, e2⟩
  by_cases htj : t < j
  · obtain ⟨i, hi1, hi2, _, _, hc, hf⟩ := (hslots t ht').1 htj
    exact hp i hi1 hi2 (Prod.ext (by rw [← hc]; exact e1) (by rw [← hf]; exact e2))
  · obtain ⟨_, hc, _⟩ := (hslots t ht').2 (by omega)
    omega

/-- A frame of the window is found by the lookup. -/
theorem cacheScen_lookup_some (fo : Nat → Nat × Nat) (C g0 j : Nat) (c : CacheState)
    (i : Nat) (h : CacheScen fo C g0 j c) (hC : 1 ≤ C) (hi : i < j) (hw : j ≤ i + C)
    (hp1 : (fo i).1 < 65536) (hp2 : (fo i).2 < 65536) :
    (get_cart_cache c (fo i).1 (fo i).2).2.isSome = true := by
  obtain ⟨hsz, _, _, hslots⟩ := h
  rw [get_cart_cache_snd, Nat.mod_eq_of_lt hp1, Nat.mod_eq_of_lt hp2]
  have ht : i % C < C := Nat.mod_lt _ (by omega)
  have htj : i % C < j := lt_of_le_of_lt (Nat.mod_le _ _) hi
  obtain ⟨i1, a1, a2, a3, _, hc, hf⟩ := (hslots (i % C) ht).1 htj
  have e : i1 = i := mod_window i1 i C a3 (by omega) (by omega)
  subst e
  obtain ⟨k, hk⟩ := firstIndex_isSome_of_exists (p := slotMatches c (fo i1).1 (fo i1).2)
    (n := c.size.toNat) (i1 % C) (by rw [hsz]; omega)
    ((slotMatches_iff c _ _ _).2 ⟨hc, hf⟩)
  rw [hk]
  rfl

/-- The first write to the new frame `fo j`, not full: the lookup misses and the frame is
put in slot `j`. -/
theorem cacheScen_step_room (fo : Nat → Nat × Nat) (C g0 j : Nat) (c : CacheState) (buf : Buf)
    (h : CacheScen fo C g0 j c) (hg : g0 + 2 * j + 2 < 2147483647) (hroom : j < C)
    (hp1 : (fo j).1 < 65536) (hp2 : (fo j).2 < 65536) :
    CacheScen fo C g0 (j + 1)
      (put_cart_cache { c with global_time := tick c.global_time } (fo j).1 (fo j).2 buf) := by
  obtain ⟨hsz, hclk, hocc, hslots⟩ := h
  have htick : tick c.global_time = g0 + 2 * j + 1 := by
    rw [hclk, tick_of_lt _ (by omega)]
  have hfirst : firstIndex
      (fun i => (({ c with global_time := tick c.global_time } : CacheState).frames i).time == -1)
      ({ c with global_time := tick c.global_time } : CacheState).size.toNat = some j := by
    apply firstIndex_eq_of_least
    · show j < c.size.toNat
      rw [hsz]
      omega
    · have := ((hslots j hroom).2 (le_refl _)).1
      show ((c.frames j).time == -1) = true
      rw [this]
      rfl
    · intro t ht
      obtain ⟨i, _, _, _, htime, _⟩ := (hslots t (by omega)).1 ht
      show ((c.frames t).time == -1) = false
      rw [htime]
      simp only [beq_eq_false_iff_ne, ne_eq]
      omega
  rw [put_cart_cache_of_some _ _ _ j buf hfirst]
  refine ⟨hsz, ?_, ?_, ?_⟩
  · show tick (tick c.global_time) = _
    rw [htick, tick_of_lt _ (by omega)]
    omega
  · show c.num_occupied + 1 = _
    rw [hocc]
    omega
  · intro t ht
    by_cases htj : t = j
    · subst htj
      constructor
      · intro _
        refine ⟨t, by omega, by omega, Nat.mod_eq_of_lt hroom, ?_, ?_, ?_⟩
        · show (Function.update c.frames t _ t).time = _
          rw [Function.update_same]
          show toInt32 (tick c.global_time) = _
          rw [htick, toInt32_of_lt _ (by omega)]
        · show (Function.update c.frames t _ t).cart_num = _
          rw [Function.update_same]
          exact Nat.mod_eq_of_lt hp1
        · show (Function.update c.frames t _ t).frame_num = _
          rw [Function.update_same]
          exact Nat.mod_eq_of_lt hp2
      · intro hlt
        omega
    · have hfr : ∀ x, (Function.update c.frames j x) t = c.frames t :=
        fun x => Function.update_noteq htj _ _
      constructor
      · intro hlt
        obtain ⟨i, a1, a2, a3, a4, a5, a6⟩ := (hslots t ht).1 (by omega)
        refine ⟨i, by omega, by omega, a3, ?_, ?_, ?_⟩
        · show (Function.update c.frames j _ t).time = _
          rw [hfr]
          exact a4
        · show (Function.update c.frames j _ t).cart_num = _
          rw [hfr]
          exact a5
        · show (Function.update c.frames j _ t).frame_num = _
          rw [hfr]
          exact a6
      · intro hlt
        obtain ⟨a4, a5, a6⟩ := (hslots t ht).2 (by omega)
        refine ⟨?_, ?_, ?_⟩
        · show (Function.update c.frames j _ t).time = _
          rw [hfr]
          exact a4
        · show (Function.update c.frames j _ t).cart_num = _
          rw [hfr]
          exact a5
        · show (Function.update c.frames j _ t).frame_num = _
          rw [hfr]
          exact a6

theorem lowest_time_loop_congr (s s1 : CacheState) (h : s1.frames = s.frames) :
    ∀ n, lowest_time_loop s1 n = lowest_time_loop s n := by
  intro n
  induction n with
  | zero => rfl
  | succ n ih =>
    unfold lowest_time_loop
    rw [ih, h]

theorem lowest_time_index_congr (s s1 : CacheState) (h : s1.frames = s.frames)
    (hs : s1.size = s.size) : lowest_time_index s1 = lowest_time_index s := by
  unfold lowest_time_index
  rw [hs, lowest_time_loop_congr s s1 h]

/-- The slot of lowest time of a full cache of the scenario is slot `j % C`, which
holds the frame `fo (j - C)`. -/
theorem cacheScen_lowest (fo : Nat → Nat × Nat) (C g0 j : Nat) (c : CacheState)
    (h : CacheScen fo C g0 j c) (hC : 1 ≤ C) (hg : g0 + 2 * j + 2 < 2147483647)
    (hfull : C ≤ j) :
    lowest_time_index c = j % C
    ∧ (c.frames (j % C)).cart_num = (fo (j - C)).1
    ∧ (c.frames (j % C)).frame_num = (fo (j - C)).2
    ∧ ∀ t, t < C → t ≠ j % C → ∃ i, i < j ∧ j + 1 ≤ i + C ∧ i % C = t
          ∧ (c.frames t).time = ((g0 + 2 * i + 1 : Nat) : Int)
          ∧ (c.frames t).cart_num = (fo i).1 ∧ (c.frames t).frame_num = (fo i).2 := by
  obtain ⟨hsz, _, _, hslots⟩ := h
  have ht0 : j % C < C := Nat.mod_lt _ (by omega)
  have ht0j : j % C < j := by omega
  obtain ⟨i0, a1, a2, a3, a4, a5, a6⟩ := (hslots (j % C) ht0).1 ht0j
  have e0 : i0 = j - C :=
    mod_window i0 (j - C) C (by rw [a3, sub_mod_cap j C hfull]) (by omega) (by omega)
  subst e0
  have hothers : ∀ t, t < C → t ≠ j % C → ∃ i, i < j ∧ j + 1 ≤ i + C ∧ i % C = t
          ∧ (c.frames t).time = ((g0 + 2 * i + 1 : Nat) : Int)
          ∧ (c.frames t).cart_num = (fo i).1 ∧ (c.frames t).frame_num = (fo i).2 := by
    intro t ht hne
    obtain ⟨i, b1, b2, b3, b4, b5, b6⟩ := (hslots t ht).1 (by omega)
    have hi : i ≠ j - C := by
      intro hi
      rw [hi, a3] at b3
      exact hne b3.symm
    exact ⟨i, b1, by omega, b3, b4, b5, b6⟩
  refine ⟨?_, a5, a6, hothers⟩
  unfold lowest_time_index
  rw [hsz]
  have hloop := (lowest_time_loop_unique c (j % C)
    (by rw [a4]; unfold INT_MAX; omega) C
    (by
      intro t ht hne
      obtain ⟨i, b1, b2, _, b4, _, _⟩ := hothers t ht hne
      rw [a4, b4]
      omega)).1 ht0
  show (lowest_time_loop c C).2 = j % C
  rw [hloop]

/-- The first write to the new frame `fo j`, full cache: the frame `fo (j - C)` of
lowest time is deleted and `fo j` is put in its slot. -/
theorem cacheScen_step_full (fo : Nat → Nat × Nat) (C g0 j : Nat) (c : CacheState) (buf : Buf)
    (h : CacheScen fo C g0 j c) (hC : 1 ≤ C) (hg : g0 + 2 * j + 2 < 2147483647)
    (hfull : C ≤ j) (hinj : ∀ a b, a ≤ j → b ≤ j → fo a = fo b → a = b)
    (hr : ∀ i, i ≤ j → (fo i).1 < 65536 ∧ (fo i).2 < 65536) :
    CacheScen fo C g0 (j + 1)
      (put_cart_cache
        (delete_cart_cache { c with global_time := tick c.global_time }
          (get_lowest_time_cart { c with global_time := tick c.global_time })
          (get_lowest_time_frame { c with global_time := tick c.global_time })).1
        (fo j).1 (fo j).2 buf) := by
  have h1 : CacheScen fo C g0 j c := h
  obtain ⟨hsz, hclk, hocc, hslots⟩ := h
  have htick : tick c.global_time = g0 + 2 * j + 1 := by
    rw [hclk, tick_of_lt _ (by omega)]
  obtain ⟨hlow, hlc, hlf, hothers⟩ := cacheScen_lowest fo C g0 j c h1 hC hg hfull
  have ht0 : j % C < C := Nat.mod_lt _ (by omega)
  have hlow1 : lowest_time_index { c with global_time := tick c.global_time } = j % C := by
    exact (lowest_time_index_congr c { c with global_time := tick c.global_time } rfl rfl).trans
      hlow
  have hcart : get_lowest_time_cart { c with global_time := tick c.global_time }
      = (fo (j - C)).1 := by
    unfold get_lowest_time_cart
    rw [hlow1]
    exact hlc
  have hframe : get_lowest_time_frame { c with global_time := tick c.global_time }
      = (fo (j - C)).2 := by
    unfold get_lowest_time_frame
    rw [hlow1]
    exact hlf
  rw [hcart, hframe]
  obtain ⟨r1, r2⟩ := hr (j - C) (by omega)
  have hdel : firstIndex
      (slotMatches { c with global_time := tick c.global_time } ((fo (j - C)).1 % 65536)
        ((fo (j - C)).2 % 65536))
      ({ c with global_time := tick c.global_time } : CacheState).size.toNat
      = some (j % C) := by
    rw [Nat.mod_eq_of_lt r1, Nat.mod_eq_of_lt r2]
    apply firstIndex_eq_of_least
    · show j % C < c.size.toNat
      rw [hsz]
      omega
    · exact (slotMatches_iff _ _ _ _).2 ⟨hlc, hlf⟩
    · intro t ht
      rw [slotMatches_false_iff]
      rintro ⟨e1, e2⟩
      obtain ⟨i, b1, b2, _, _, b5, b6⟩ := hothers t (by omega) (by omega)
      have e1' : (c.frames t).cart_num = (fo (j - C)).1 := e1
      have e2' : (c.frames t).frame_num = (fo (j - C)).2 := e2
      have := hinj i (j - C) (by omega) (by omega)
        (Prod.ext (by rw [← b5]; exact e1') (by rw [← b6]; exact e2'))
      omega
  rw [delete_cart_cache_of_some _ _ _ (j % C) hdel]
  have hput : firstIndex
      (fun i => ((Function.update c.frames (j % C)
          { c.frames (j % C) with frame_num := 65535, cart_num := 65535, time := -1 }) i).time
        == -1) c.size.toNat = some (j % C) := by
    apply firstIndex_eq_of_least
    · rw [hsz]
      omega
    · rw [Function.update_same]
      rfl
    · intro t ht
      rw [Function.update_noteq (by omega)]
      obtain ⟨i, _, _, _, b4, _, _⟩ := hothers t (by omega) (by omega)
      rw [b4]
      simp only [beq_eq_false_iff_ne, ne_eq]
      omega
  rw [put_cart_cache_of_some _ _ _ (j % C) buf hput]
  obtain ⟨q1, q2⟩ := hr j (le_refl _)
  refine ⟨hsz, ?_, ?_, ?_⟩
  · show tick (tick c.global_time) = _
    rw [htick, tick_of_lt _ (by omega)]
    omega
  · show c.num_occupied - 1 + 1 = _
    rw [hocc]
    omega
  · intro t ht
    by_cases htj : t = j % C
    · subst htj
      constructor
      · intro _
        refine ⟨j, by omega, by omega, rfl, ?_, ?_, ?_⟩
        · show (Function.update (Function.update c.frames (j % C) _) (j % C) _ (j % C)).time = _
          rw [Function.update_same]
          show toInt32 (tick c.global_time) = _
          rw [htick, toInt32_of_lt _ (by omega)]
        · show (Function.update (Function.update c.frames (j % C) _) (j % C) _ (j % C)).cart_num = _
          rw [Function.update_same]
          exact Nat.mod_eq_of_lt q1
        · show (Function.update (Function.update c.frames (j % C) _) (j % C) _ (j % C)).frame_num = _
          rw [Function.update_same]
          exact Nat.mod_eq_of_lt q2
      · intro hlt
        omega
    · have hfr : ∀ x y, (Function.update (Function.update c.frames (j % C) x) (j % C) y) t
          = c.frames t := by
        intro x y
        rw [Function.update_noteq htj, Function.update_noteq htj]
      constructor
      · intro _
        obtain ⟨i, a1, a2, a3, a4, a5, a6⟩ := hothers t ht htj
        refine ⟨i, by omega, by omega, a3, ?_, ?_, ?_⟩
        · show (Function.update (Function.update c.frames (j % C) _) (j % C) _ t).time = _
          rw [hfr]
          exact a4
        · show (Function.update (Function.update c.frames (j % C) _) (j % C) _ t).cart_num = _
          rw [hfr]
          exact a5
        · show (Function.update (Function.update c.frames (j % C) _) (j % C) _ t).frame_num = _
          rw [hfr]
          exact a6
      · intro hlt
        omega

/-! ## One small write to a frame that is not cached -/

theorem chunk_small (n : Int) (h : n < 1024) : chunk 0 n = n := by
  unfold chunk
  rw [if_neg (by omega)]

theorem cart_write_body_small (cfg : CartConfig) (idx : Nat) (buf : Buf) (L : WriteLoop)
    (p : Nat × Nat) (hd : OpcodesDistinct cfg)
    (hp : L.tempPtr = some p) (hsb : L.start_write_bit = 0)
    (hn1 : 1 ≤ L.bytes_left_to_write) (hn2 : L.bytes_left_to_write < 1024)
    (hbsp : L.buf_starting_point = 0) (hregs : L.regs = ⟨0, 0, 0, 0, 0⟩)
    (hcn : (L.st.mainStructure.infoTable p.1 p.2).cart_num < 65536)
    (hfn : (L.st.mainStructure.infoTable p.1 p.2).frame_num < 65536)
    (hmiss : (get_cart_cache L.st.cache (L.st.mainStructure.infoTable p.1 p.2).cart_num
      (L.st.mainStructure.infoTable p.1 p.2).frame_num).2 = none) :
    ∃ L1, cart_write_body cfg idx buf L = some L1
      ∧ L1.bytes_left_to_write = 0
      ∧ L1.st.mainStructure = setInfo (setFile L.st.mainStructure idx
          { L.st.mainStructure.fileTable idx with
            location := toU32 (((L.st.mainStructure.fileTable idx).location : Int)
              + L.bytes_left_to_write)
            length :=
              if toU32 (((L.st.mainStructure.fileTable idx).location : Int)
                  + L.bytes_left_to_write) > (L.st.mainStructure.fileTable idx).length
              then toU32 (((L.st.mainStructure.fileTable idx).location : Int)
                  + L.bytes_left_to_write)
              else (L.st.mainStructure.fileTable idx).length }) p
          { L.st.mainStructure.infoTable p.1 p.2 with
            bytesUsed := toU32 L.bytes_left_to_write }
      ∧ (∃ bufA bufB, L1.st.cache =
          if get_cache_size (get_cart_cache L.st.cache
                (L.st.mainStructure.infoTable p.1 p.2).cart_num
                (L.st.mainStructure.infoTable p.1 p.2).frame_num).1
              = get_cache_num_occupied (get_cart_cache L.st.cache
                (L.st.mainStructure.infoTable p.1 p.2).cart_num
                (L.st.mainStructure.infoTable p.1 p.2).frame_num).1
          then put_cart_cache
            (delete_cart_cache (get_cart_cache L.st.cache
                (L.st.mainStructure.infoTable p.1 p.2).cart_num
                (L.st.mainStructure.infoTable p.1 p.2).frame_num).1
              (get_lowest_time_cart (get_cart_cache L.st.cache
                (L.st.mainStructure.infoTable p.1 p.2).cart_num
                (L.st.mainStructure.infoTable p.1 p.2).frame_num).1)
              (get_lowest_time_frame (get_cart_cache L.st.cache
                (L.st.mainStructure.infoTable p.1 p.2).cart_num
                (L.st.mainStructure.infoTable p.1 p.2).frame_num).1)).1
            (L.st.mainStructure.infoTable p.1 p.2).cart_num
            (L.st.mainStructure.infoTable p.1 p.2).frame_num bufA
          else put_cart_cache (get_cart_cache L.st.cache
                (L.st.mainStructure.infoTable p.1 p.2).cart_num
                (L.st.mainStructure.infoTable p.1 p.2).frame_num).1
            (L.st.mainStructure.infoTable p.1 p.2).cart_num
            (L.st.mainStructure.infoTable p.1 p.2).frame_num bufB)
      ∧ (∀ i, i < L.bytes_left_to_write.toNat →
          L1.st.bus.store (L.st.mainStructure.infoTable p.1 p.2).cart_num
            (L.st.mainStructure.infoTable p.1 p.2).frame_num i = buf i)
      ∧ (∀ c f, ¬ (c = (L.st.mainStructure.infoTable p.1 p.2).cart_num
            ∧ f = (L.st.mainStructure.infoTable p.1 p.2).frame_num) →
          L1.st.bus.store c f = L.st.bus.store c f) := by
  have hch : chunk 0 L.bytes_left_to_write = L.bytes_left_to_write := chunk_small _ hn2
  have hbu : toU32 L.bytes_left_to_write ≠ 1024 := by
    unfold toU32
    omega
  unfold cart_write_body
  rw [hp]
  simp only [hsb, hch, zero_add, hbu, false_and, if_false, hmiss, hbsp, hregs, busCall_regs,
    Int.toNat_zero]
  refine ⟨_, rfl, ?_, ?_, ?_, ?_, ?_⟩
  · simp only [sub_self]
  · rfl
  · by_cases hc : get_cache_size (get_cart_cache L.st.cache
                (L.st.mainStructure.infoTable p.1 p.2).cart_num
                (L.st.mainStructure.infoTable p.1 p.2).frame_num).1
              = get_cache_num_occupied (get_cart_cache L.st.cache
                (L.st.mainStructure.infoTable p.1 p.2).cart_num
                (L.st.mainStructure.infoTable p.1 p.2).frame_num).1
    · simp only [if_pos hc]
      exact ⟨_, buf, rfl⟩
    · simp only [if_neg hc]
      exact ⟨buf, _, rfl⟩
  · intro i hi
    have hi1 : i < 1024 := by omega
    obtain ⟨l11, l12⟩ := busCall_ldcart cfg L.st.bus
      ⟨cfg.CART_OP_LDCART, 0, 0, (L.st.mainStructure.infoTable p.1 p.2).cart_num, 0⟩
      (fun _ => 0) hd rfl rfl rfl hcn (by norm_num)
    generalize busCall cfg L.st.bus
      ⟨cfg.CART_OP_LDCART, 0, 0, (L.st.mainStructure.infoTable p.1 p.2).cart_num, 0⟩
      (fun _ => 0) = b1 at l11 l12 ⊢
    simp only []
    split
    · obtain ⟨l21, l22⟩ := busCall_rdfrme cfg b1.1
        ⟨cfg.CART_OP_RDFRME, 0, 0, 0, (L.st.mainStructure.infoTable p.1 p.2).frame_num⟩
        L.tempbuf hd rfl rfl rfl (by norm_num) hfn
      generalize busCall cfg b1.1
        ⟨cfg.CART_OP_RDFRME, 0, 0, 0, (L.st.mainStructure.infoTable p.1 p.2).frame_num⟩
        L.tempbuf = b2 at l21 l22 ⊢
      obtain ⟨_, l32, _⟩ := busCall_wrfrme cfg b2.1
        ⟨cfg.CART_OP_WRFRME, 0, 0, 0, (L.st.mainStructure.infoTable p.1 p.2).frame_num⟩
        (memcpy b2.2.1 0 buf 0 L.bytes_left_to_write.toNat) hd rfl rfl rfl (by norm_num) hfn
      have h3 := l32 i hi1
      rw [l21, l11] at h3
      simp only [] at h3 ⊢
      rw [h3]
      unfold memcpy
      simp [hi]
    · obtain ⟨l31, l32, _⟩ := busCall_wrfrme cfg b1.1
        ⟨cfg.CART_OP_WRFRME, 0, 0, 0, (L.st.mainStructure.infoTable p.1 p.2).frame_num⟩
        (memcpy L.tempbuf 0 buf 0 L.bytes_left_to_write.toNat) hd rfl rfl rfl (by norm_num) hfn
      have h3 := l32 i hi1
      rw [l11] at h3
      simp only [] at h3 ⊢
      rw [h3]
      unfold memcpy
      simp [hi]
  · intro c f hcf
    obtain ⟨l11, l12⟩ := busCall_ldcart cfg L.st.bus
      ⟨cfg.CART_OP_LDCART, 0, 0, (L.st.mainStructure.infoTable p.1 p.2).cart_num, 0⟩
      (fun _ => 0) hd rfl rfl rfl hcn (by norm_num)
    generalize busCall cfg L.st.bus
      ⟨cfg.CART_OP_LDCART, 0, 0, (L.st.mainStructure.infoTable p.1 p.2).cart_num, 0⟩
      (fun _ => 0) = b1 at l11 l12 ⊢
    simp only []
    split
    · obtain ⟨l21, l22⟩ := busCall_rdfrme cfg b1.1
        ⟨cfg.CART_OP_RDFRME, 0, 0, 0, (L.st.mainStructure.infoTable p.1 p.2).frame_num⟩
        L.tempbuf hd rfl rfl rfl (by norm_num) hfn
      generalize busCall cfg b1.1
        ⟨cfg.CART_OP_RDFRME, 0, 0, 0, (L.st.mainStructure.infoTable p.1 p.2).frame_num⟩
        L.tempbuf = b2 at l21 l22 ⊢
      obtain ⟨_, _, l33⟩ := busCall_wrfrme cfg b2.1
        ⟨cfg.CART_OP_WRFRME, 0, 0, 0, (L.st.mainStructure.infoTable p.1 p.2).frame_num⟩
        (memcpy b2.2.1 0 buf 0 L.bytes_left_to_write.toNat) hd rfl rfl rfl (by norm_num) hfn
      have h3 := l33 c f (by rw [l21, l11]; exact hcf)
      simp only [] at h3 ⊢
      rw [h3, l22, l12]
    · obtain ⟨_, _, l33⟩ := busCall_wrfrme cfg b1.1
        ⟨cfg.CART_OP_WRFRME, 0, 0, 0, (L.st.mainStructure.infoTable p.1 p.2).frame_num⟩
        (memcpy L.tempbuf 0 buf 0 L.bytes_left_to_write.toNat) hd rfl rfl rfl (by norm_num) hfn
      have h3 := l33 c f (by rw [l11]; exact hcf)
      simp only [] at h3 ⊢
      rw [h3, l12]

/-! ## The free-frame search on a grid filled in order -/

theorem frameOf_lt (cfg : CartConfig) (j : Nat)
    (h : j < cfg.CART_MAX_CARTRIDGES * cfg.CART_CARTRIDGE_SIZE) :
    (frameOf cfg j).1 < cfg.CART_MAX_CARTRIDGES ∧ (frameOf cfg j).2 < cfg.CART_CARTRIDGE_SIZE := by
  have hS : 0 < cfg.CART_CARTRIDGE_SIZE := by
    rcases Nat.eq_zero_or_pos cfg.CART_CARTRIDGE_SIZE with h0 | h0
    · rw [h0, Nat.mul_zero] at h
      omega
    · exact h0
  exact ⟨(Nat.div_lt_iff_lt_mul hS).2 h, Nat.mod_lt _ hS⟩

theorem frameOf_index (cfg : CartConfig) (j : Nat) :
    (frameOf cfg j).1 * cfg.CART_CARTRIDGE_SIZE + (frameOf cfg j).2 = j := by
  unfold frameOf
  exact Nat.div_add_mod' j cfg.CART_CARTRIDGE_SIZE

theorem frameOf_inj (cfg : CartConfig) (a b : Nat) (h : frameOf cfg a = frameOf cfg b) :
    a = b := by
  rw [← frameOf_index cfg a, ← frameOf_index cfg b, h]

theorem frameOf_of_index (cfg : CartConfig) (c f j : Nat) (hf : f < cfg.CART_CARTRIDGE_SIZE)
    (h : c * cfg.CART_CARTRIDGE_SIZE + f = j) : frameOf cfg j = (c, f) := by
  unfold frameOf
  subst h
  have hS : 0 < cfg.CART_CARTRIDGE_SIZE := by omega
  refine Prod.ext ?_ ?_
  · show (c * cfg.CART_CARTRIDGE_SIZE + f) / cfg.CART_CARTRIDGE_SIZE = c
    rw [Nat.mul_comm, Nat.mul_add_div hS, Nat.div_eq_of_lt hf, Nat.add_zero]
  · show (c * cfg.CART_CARTRIDGE_SIZE + f) % cfg.CART_CARTRIDGE_SIZE = f
    rw [Nat.mul_comm, Nat.mul_add_mod, Nat.mod_eq_of_lt hf]

theorem index_lt_of_cart_lt (S c f j : Nat) (hc : c < j / S) (hf : f < S) : c * S + f < j := by
  have h1 : (c + 1) * S ≤ j / S * S := Nat.mul_le_mul_right S hc
  have h2 : j / S * S ≤ j := Nat.div_mul_le_self j S
  have h3 : (c + 1) * S = c * S + S := by ring
  omega

theorem freeFrameSearch_found (cfg : CartConfig) (m : CartStructure) (c0 f0 : Nat)
    (hfree : firstIndex (fun j => (m.infoTable c0 j).handle == -1) cfg.CART_CARTRIDGE_SIZE
      = some f0) :
    ∀ n i, i ≤ c0 → c0 < i + n →
      (∀ c, i ≤ c → c < c0 →
        firstIndex (fun j => (m.infoTable c j).handle == -1) cfg.CART_CARTRIDGE_SIZE = none) →
      freeFrameSearch cfg m n i false = (some (c0, f0), true) := by
  intro n
  induction n with
  | zero =>
    intro i h1 h2 _
    omega
  | succ n ih =>
    intro i h1 h2 hnone
    unfold freeFrameSearch
    by_cases hi : i = c0
    · subst hi
      rw [hfree]
    · rw [hnone i (le_refl _) (by omega)]
      simp only [Bool.false_eq_true, if_false]
      exact ih (i + 1) (by omega) (by omega) (fun c hc1 hc2 => hnone c (by omega) hc2)

/-- On a grid whose first `j` frames (in search order) are taken and whose other frames
are free, the search from cartridge 0 finds the frame `frameOf j`. -/
theorem freeFrameSearch_ordered (cfg : CartConfig) (m : CartStructure) (j : Nat)
    (hj : j < cfg.CART_MAX_CARTRIDGES * cfg.CART_CARTRIDGE_SIZE)
    (hgrid : ∀ c f, c < cfg.CART_MAX_CARTRIDGES → f < cfg.CART_CARTRIDGE_SIZE →
      ((m.infoTable c f).handle = -1 ↔ j ≤ c * cfg.CART_CARTRIDGE_SIZE + f)) :
    freeFrameSearch cfg m cfg.CART_MAX_CARTRIDGES 0 false = (some (frameOf cfg j), true) := by
  obtain ⟨hc0, hf0⟩ := frameOf_lt cfg j hj
  have hidx := frameOf_index cfg j
  apply freeFrameSearch_found cfg m (frameOf cfg j).1 (frameOf cfg j).2 ?_
    cfg.CART_MAX_CARTRIDGES 0 (Nat.zero_le _) (by omega)
  · intro c _ hc
    apply firstIndex_eq_none
    intro f hf
    have hlt := index_lt_of_cart_lt cfg.CART_CARTRIDGE_SIZE c f j hc hf
    have hne : ¬ (m.infoTable c f).handle = -1 := by
      rw [hgrid c f (by omega) hf]
      omega
    simp only [beq_eq_false_iff_ne, ne_eq]
    exact hne
  · apply firstIndex_eq_of_least hf0
    · have : (m.infoTable (frameOf cfg j).1 (frameOf cfg j).2).handle = -1 :=
        (hgrid _ _ hc0 hf0).2 (by omega)
      rw [this]
      rfl
    · intro f hf
      have hne : ¬ (m.infoTable (frameOf cfg j).1 f).handle = -1 := by
        rw [hgrid _ f hc0 (by omega)]
        omega
      simp only [beq_eq_false_iff_ne, ne_eq]
      exact hne

theorem cart_write_loop_one (cfg : CartConfig) (idx : Nat) (buf : Buf) (fuel : Nat)
    (L L1 : WriteLoop) (hb : cart_write_body cfg idx buf L = some L1)
    (h0 : 0 < L.bytes_left_to_write) (h1 : L1.bytes_left_to_write = 0) (hfuel : 1 ≤ fuel) :
    cart_write_loop cfg idx buf fuel L = some L1 := by
  cases fuel with
  | zero => omega
  | succ n =>
    unfold cart_write_loop
    rw [if_pos h0, hb]
    cases n with
    | zero =>
      unfold cart_write_loop
      rw [if_neg (by omega)]
    | succ k =>
      unfold cart_write_loop
      rw [if_neg (by omega)]

/-! ## The first small write to a new file -/

theorem cart_write_eq (cfg : CartConfig) (s : State) (fd : Int) (buf tempbuf0 : Buf)
    (count : Int) (idx : Nat) (m1 : CartStructure) (tp : FramePtr)
    (hfd : findHandle cfg s.mainStructure fd = some idx)
    (hm1 : m1 = (if (s.mainStructure.fileTable idx).tablePtr = none then
        match (freeFrameSearch cfg s.mainStructure cfg.CART_MAX_CARTRIDGES 0 false).1 with
        | some q =>
          setInfo (setFile s.mainStructure idx
            { s.mainStructure.fileTable idx with tablePtr := some q }) q
            { s.mainStructure.infoTable q.1 q.2 with handle := fd }
        | none => s.mainStructure
      else s.mainStructure))
    (hw : walkFrames m1 ((m1.fileTable idx).location / 1024) (m1.fileTable idx).tablePtr
      = some tp) :
    cart_write cfg s fd buf count tempbuf0 =
      (cart_write_loop cfg idx buf count.toNat
        { st := { s with mainStructure := m1 }, regs := ⟨0, 0, 0, 0, 0⟩
          start_write_bit := (((m1.fileTable idx).location % 1024 : Nat) : Int)
          bytes_left_to_write := count
          buf_starting_point := 0, tempbuf := tempbuf0, tempPtr := tp
          done2 := false }).map (fun L => (L.st, count)) := by
  subst hm1
  unfold cart_write
  rw [hfd]
  simp only []
  rw [hw]
  simp only []
  generalize cart_write_loop cfg idx buf count.toNat _ = o
  cases o <;> rfl

theorem cart_write_first_small (cfg : CartConfig) (s : State) (fd : Int) (buf tempbuf0 : Buf)
    (n idx : Nat) (q : Nat × Nat) (hd : OpcodesDistinct cfg)
    (hfd : findHandle cfg s.mainStructure fd = some idx)
    (htp : (s.mainStructure.fileTable idx).tablePtr = none)
    (hloc : (s.mainStructure.fileTable idx).location = 0)
    (hsearch : (freeFrameSearch cfg s.mainStructure cfg.CART_MAX_CARTRIDGES 0 false).1 = some q)
    (hcn : (s.mainStructure.infoTable q.1 q.2).cart_num = q.1)
    (hfn : (s.mainStructure.infoTable q.1 q.2).frame_num = q.2)
    (hq1 : q.1 < 65536) (hq2 : q.2 < 65536)
    (hmiss : (get_cart_cache s.cache q.1 q.2).2 = none)
    (hn1 : 1 ≤ n) (hn2 : n < 1024) :
    ∃ s3, cart_write cfg s fd buf n tempbuf0 = some (s3, (n : Int))
      ∧ (∀ i, i ≠ idx → s3.mainStructure.fileTable i = s.mainStructure.fileTable i)
      ∧ (s3.mainStructure.fileTable idx).fileName = (s.mainStructure.fileTable idx).fileName
      ∧ (s3.mainStructure.fileTable idx).filled = (s.mainStructure.fileTable idx).filled
      ∧ (s3.mainStructure.fileTable idx).handle = (s.mainStructure.fileTable idx).handle
      ∧ (s3.mainStructure.fileTable idx).tablePtr = some q
      ∧ (∀ c f, ¬ (c = q.1 ∧ f = q.2) →
          s3.mainStructure.infoTable c f = s.mainStructure.infoTable c f)
      ∧ (s3.mainStructure.infoTable q.1 q.2).handle = fd
      ∧ (s3.mainStructure.infoTable q.1 q.2).cart_num = q.1
      ∧ (s3.mainStructure.infoTable q.1 q.2).frame_num = q.2
      ∧ (∃ bufA bufB, s3.cache =
          if get_cache_size (get_cart_cache s.cache q.1 q.2).1
              = get_cache_num_occupied (get_cart_cache s.cache q.1 q.2).1
          then put_cart_cache
            (delete_cart_cache (get_cart_cache s.cache q.1 q.2).1
              (get_lowest_time_cart (get_cart_cache s.cache q.1 q.2).1)
              (get_lowest_time_frame (get_cart_cache s.cache q.1 q.2).1)).1 q.1 q.2 bufA
          else put_cart_cache (get_cart_cache s.cache q.1 q.2).1 q.1 q.2 bufB)
      ∧ (∀ i, i < n → s3.bus.store q.1 q.2 i = buf i)
      ∧ (∀ c f, ¬ (c = q.1 ∧ f = q.2) → s3.bus.store c f = s.bus.store c f) := by
  have hm1 : setInfo (setFile s.mainStructure idx
        { s.mainStructure.fileTable idx with tablePtr := some q }) q
        { s.mainStructure.infoTable q.1 q.2 with handle := fd }
      = (if (s.mainStructure.fileTable idx).tablePtr = none then
        match (freeFrameSearch cfg s.mainStructure cfg.CART_MAX_CARTRIDGES 0 false).1 with
        | some q =>
          setInfo (setFile s.mainStructure idx
            { s.mainStructure.fileTable idx with tablePtr := some q }) q
            { s.mainStructure.infoTable q.1 q.2 with handle := fd }
        | none => s.mainStructure
      else s.mainStructure) := by
    rw [if_pos htp, hsearch]
  have hf1 : (setInfo (setFile s.mainStructure idx
        { s.mainStructure.fileTable idx with tablePtr := some q }) q
        { s.mainStructure.infoTable q.1 q.2 with handle := fd }).fileTable idx
      = { s.mainStructure.fileTable idx with tablePtr := some q } := by
    rw [setInfo_fileTable, setFile_same]
  have hi1 : (setInfo (setFile s.mainStructure idx
        { s.mainStructure.fileTable idx with tablePtr := some q }) q
        { s.mainStructure.infoTable q.1 q.2 with handle := fd }).infoTable q.1 q.2
      = { s.mainStructure.infoTable q.1 q.2 with handle := fd } := by
    unfold setInfo
    simp
  have hfo : ∀ i, i ≠ idx → (setInfo (setFile s.mainStructure idx
        { s.mainStructure.fileTable idx with tablePtr := some q }) q
        { s.mainStructure.infoTable q.1 q.2 with handle := fd }).fileTable i
      = s.mainStructure.fileTable i := by
    intro i hi
    rw [setInfo_fileTable, setFile_ne _ idx i _ hi]
  have hio : ∀ c f, ¬ (c = q.1 ∧ f = q.2) → (setInfo (setFile s.mainStructure idx
        { s.mainStructure.fileTable idx with tablePtr := some q }) q
        { s.mainStructure.infoTable q.1 q.2 with handle := fd }).infoTable c f
      = s.mainStructure.infoTable c f := by
    intro c f hcf
    unfold setInfo setFile
    simp only [if_neg hcf]
  generalize setInfo (setFile s.mainStructure idx
        { s.mainStructure.fileTable idx with tablePtr := some q }) q
        { s.mainStructure.infoTable q.1 q.2 with handle := fd } = m1 at hm1 hf1 hi1 hfo hio
  have hweq := cart_write_eq cfg s fd buf tempbuf0 (n : Int) idx m1 (some q) hfd hm1
    (by rw [hf1]; simp only []; rw [hloc]; rfl)
  rw [hf1] at hweq
  simp only [] at hweq
  rw [hloc] at hweq
  obtain ⟨L1, hb, hleft, hms, hcache, hbus1, hbus2⟩ := cart_write_body_small cfg idx buf
    { st := { s with mainStructure := m1 },
      regs := ⟨0, 0, 0, 0, 0⟩, start_write_bit := ((0 % 1024 : Nat) : Int),
      bytes_left_to_write := (n : Int), buf_starting_point := 0, tempbuf := tempbuf0,
      tempPtr := some q, done2 := false }
    q hd rfl rfl (by simp only []; omega) (by simp only []; omega) rfl rfl
    (by simp only []; rw [hi1]; simp only []; rw [hcn]; exact hq1)
    (by simp only []; rw [hi1]; simp only []; rw [hfn]; exact hq2)
    (by simp only []; rw [hi1]; simp only []; rw [hcn, hfn]; exact hmiss)
  have hloop := cart_write_loop_one cfg idx buf (n : Int).toNat _ L1 hb
    (by simp only []; omega) hleft (by omega)
  rw [hloop] at hweq
  simp only [Option.map_some'] at hweq
  simp only [] at hms hcache hbus1 hbus2
  rw [hi1] at hms hcache hbus1 hbus2
  simp only [] at hms hcache hbus1 hbus2
  rw [hcn, hfn] at hcache hbus1 hbus2
  refine ⟨L1.st, hweq, ?_, ?_, ?_, ?_, ?_, ?_, ?_, ?_, ?_, hcache, ?_, hbus2⟩
  · intro i hi
    rw [hms, setInfo_fileTable, setFile_ne _ idx i _ hi]
    exact hfo i hi
  · rw [hms, setInfo_fileTable, setFile_same, hf1]
  · rw [hms, setInfo_fileTable, setFile_same, hf1]
  · rw [hms, setInfo_fileTable, setFile_same, hf1]
  · rw [hms, setInfo_fileTable, setFile_same, hf1]
  · intro c f hcf
    rw [hms]
    have : (setInfo (setFile m1 idx
        { m1.fileTable idx with
          location := toU32 (((m1.fileTable idx).location : Int) + (n : Int))
          length :=
            if toU32 (((m1.fileTable idx).location : Int) + (n : Int)) > (m1.fileTable idx).length
            then toU32 (((m1.fileTable idx).location : Int) + (n : Int))
            else (m1.fileTable idx).length }) q
        { handle := fd, bytesUsed := toU32 (n : Int),
          frame_num := (s.mainStructure.infoTable q.1 q.2).frame_num,
          cart_num := (s.mainStructure.infoTable q.1 q.2).cart_num,
          nextFrame := (s.mainStructure.infoTable q.1 q.2).nextFrame }).infoTable c f
        = m1.infoTable c f := by
      unfold setInfo setFile
      simp only [if_neg hcf]
    exact this.trans (hio c f hcf)
  · rw [hms]
    unfold setInfo
    simp
  · rw [hms]
    unfold setInfo
    simp [hcn]
  · rw [hms]
    unfold setInfo
    simp [hfn]
  · intro i hi
    exact hbus1 i (by omega)

/-! ## One step of the eviction scenario -/

theorem mem_of_getElem_some {α : Type} (l : List α) (i : Nat) (a : α) (h : l[i]? = some a) :
    a ∈ l := by
  obtain ⟨hi, ha⟩ := List.getElem?_eq_some_iff.1 h
  rw [← ha]
  exact List.getElem_mem hi

theorem toInt16_of_lt (x : Nat) (h : x < 32768) : toInt16 x = (x : Int) := by
  unfold toInt16
  rw [Nat.mod_eq_of_lt (by omega), if_pos h]

/-- The comparison of `cart_open` sees a stored name as the C string it holds. -/
theorem strncmp0_of_holdsName (b : Buf) (name : List Nat) (x : Buf) (n : Nat)
    (h : holdsName b name) (hne : strncmp0 (cstr name) x n 0 = false) :
    strncmp0 b x n 0 = false := by
  rw [strncmp0_false_iff] at hne ⊢
  obtain ⟨p, _, hp2, hp3, hp4⟩ := hne
  have hple : p ≤ strlen name := by
    by_contra hlt
    have := (hp4 (strlen name) (Nat.zero_le _) (by omega)).2
    exact this (cstr_strlen name)
  refine ⟨p, Nat.zero_le _, hp2, ?_, fun i _ hi => ?_⟩
  · by_cases hp : p < strlen name
    · rw [h.1 p hp]
      exact hp3
    · have e : p = strlen name := by omega
      rw [e, h.2]
      rw [e, cstr_strlen] at hp3
      exact hp3
  · have hi1 : i < strlen name := by omega
    rw [h.1 i hi1]
    exact hp4 i (Nat.zero_le _) hi

theorem scen_open (cfg : CartConfig) (C g0 : Nat) (done : List NewFileWrite)
    (w : NewFileWrite) (s : State) (hinv : ScenInv cfg C g0 done s)
    (hfiles : done.length < cfg.CART_MAX_TOTAL_FILES) (hh : done.length < 32768)
    (hpath : 2 ≤ cfg.CART_MAX_PATH_LENGTH)
    (hlen : strlen w.name < cfg.CART_MAX_PATH_LENGTH)
    (hpl : strncmp0 (cstr [32]) (cstr w.name) (strlen w.name) 0 = false)
    (hnm : ∀ d, d ∈ done → strncmp0 (cstr d.name) (cstr w.name) (strlen w.name) 0 = false) :
    ∃ s2, cart_open cfg s w.name = some (s2, (done.length : Int))
      ∧ s2.cache = s.cache ∧ s2.bus = s.bus
      ∧ s2.mainStructure.infoTable = s.mainStructure.infoTable
      ∧ (∀ i, i ≠ done.length → s2.mainStructure.fileTable i = s.mainStructure.fileTable i)
      ∧ (s2.mainStructure.fileTable done.length).handle = (done.length : Int)
      ∧ (s2.mainStructure.fileTable done.length).filled = true
      ∧ (s2.mainStructure.fileTable done.length).tablePtr = none
      ∧ (s2.mainStructure.fileTable done.length).location = 0
      ∧ holdsName (s2.mainStructure.fileTable done.length).fileName w.name := by
  obtain ⟨hfilesInv, _, _, _⟩ := hinv
  have hs32 : strlen [32] = 1 := by decide
  have hf : firstIndex (nameMatches s.mainStructure w.name) cfg.CART_MAX_TOTAL_FILES = none := by
    apply firstIndex_eq_none
    intro i hi
    unfold nameMatches
    by_cases hij : i < done.length
    · obtain ⟨_, _, _, d, hd1, hd2⟩ := (hfilesInv i hi).1 hij
      exact strncmp0_of_holdsName _ d.name _ _ hd2 (hnm d (mem_of_getElem_some _ _ _ hd1))
    · obtain ⟨_, _, _, h0, hk⟩ := (hfilesInv i hi).2 (by omega)
      have hhold : holdsName (s.mainStructure.fileTable i).fileName [32] := by
        constructor
        · intro k hk1
          rw [hs32] at hk1
          have : k = 0 := by omega
          subst this
          rw [h0]
          rfl
        · rw [hs32]
          exact hk 1 (le_refl _) (by omega)
      exact strncmp0_of_holdsName _ [32] _ _ hhold hpl
  have hu : firstIndex (fun i => !(s.mainStructure.fileTable i).filled)
      cfg.CART_MAX_TOTAL_FILES = some done.length := by
    apply firstIndex_eq_of_least hfiles
    · rw [((hfilesInv done.length hfiles).2 (le_refl _)).1]
      rfl
    · intro i hi
      rw [((hfilesInv i (by omega)).1 hi).1]
      rfl
  have hlen1 : 1 ≤ strlen w.name := by
    by_contra hc
    have h0 : strlen w.name = 0 := by omega
    rw [h0] at hpl
    simp [strncmp0] at hpl
  obtain ⟨_, _, hptr, _, hk⟩ := (hfilesInv done.length hfiles).2 (le_refl _)
  have hopen := cart_open_create cfg s w.name done.length hf hu
  rw [toInt16_of_lt _ hh] at hopen
  refine ⟨_, hopen, rfl, rfl, rfl, fun i hi => setFile_ne _ _ _ _ hi, ?_, ?_, ?_, ?_, ?_⟩
  · simp only []
    rw [setFile_same]
  · simp only []
    rw [setFile_same]
  · simp only []
    rw [setFile_same]
    exact hptr
  · simp only []
    rw [setFile_same]
  · simp only []
    rw [setFile_same]
    constructor
    · intro k hk1
      exact strncpy_name _ _ k hk1
    · show strncpy _ _ _ _ = 0
      unfold strncpy
      rw [if_neg (by omega)]
      exact hk _ hlen1 hlen

theorem openWrite_scen (cfg : CartConfig) (C g0 : Nat) (done : List NewFileWrite)
    (w : NewFileWrite) (s : State) (hinv : ScenInv cfg C g0 done s)
    (hd : OpcodesDistinct cfg) (hC : 1 ≤ C)
    (hfiles : done.length < cfg.CART_MAX_TOTAL_FILES) (hh : done.length < 32768)
    (hgrid : done.length < cfg.CART_MAX_CARTRIDGES * cfg.CART_CARTRIDGE_SIZE)
    (hdim1 : cfg.CART_MAX_CARTRIDGES ≤ 65535) (hdim2 : cfg.CART_CARTRIDGE_SIZE ≤ 65536)
    (hclock : g0 + 2 * done.length + 2 < 2147483647)
    (hpath : 2 ≤ cfg.CART_MAX_PATH_LENGTH)
    (hn1 : 1 ≤ w.count) (hn2 : w.count < 1024)
    (hlen : strlen w.name < cfg.CART_MAX_PATH_LENGTH)
    (hpl : strncmp0 (cstr [32]) (cstr w.name) (strlen w.name) 0 = false)
    (hnm : ∀ d, d ∈ done → strncmp0 (cstr d.name) (cstr w.name) (strlen w.name) 0 = false) :
    ∃ s1, openWrite cfg s w = some s1 ∧ ScenInv cfg C g0 (done ++ [w]) s1 := by
  obtain ⟨s2, hopen, e_cache, e_bus, e_info, e_ne, e_handle, e_filled, e_ptr, e_loc, e_name⟩ :=
    scen_open cfg C g0 done w s hinv hfiles hh hpath hlen hpl hnm
  obtain ⟨hfilesInv, hgridInv, hcacheInv, hbusInv⟩ := hinv
  obtain ⟨hq1, hq2⟩ := frameOf_lt cfg done.length hgrid
  have hfd : findHandle cfg s2.mainStructure (done.length : Int) = some done.length := by
    unfold findHandle
    apply firstIndex_eq_of_least hfiles
    · rw [e_handle]
      simp
    · intro i hi
      rw [e_ne i (by omega), ((hfilesInv i (by omega)).1 hi).2.1]
      simp only [beq_eq_false_iff_ne, ne_eq]
      omega
  have hsearch : (freeFrameSearch cfg s2.mainStructure cfg.CART_MAX_CARTRIDGES 0 false).1
      = some (frameOf cfg done.length) := by
    rw [freeFrameSearch_ordered cfg s2.mainStructure done.length hgrid
      (fun c f hc hf => by rw [e_info]; exact (hgridInv c f hc hf).2.2)]
  have hmiss0 : firstIndex (slotMatches s.cache ((frameOf cfg done.length).1 % 65536)
      ((frameOf cfg done.length).2 % 65536)) s.cache.size.toNat = none :=
    cacheScen_lookup_none (frameOf cfg) C g0 done.length s.cache (frameOf cfg done.length)
      hcacheInv (fun i hi _ he => by have := frameOf_inj cfg _ _ he; omega)
      (by omega) (by omega)
  obtain ⟨s3, hwrite, w1, w2, w3, w4, w5, w6, w7, w8, w9, ⟨bufA, bufB, hcache⟩, hb1, hb2⟩ :=
    cart_write_first_small cfg s2 (done.length : Int) w.buf w.tempbuf0 w.count done.length
      (frameOf cfg done.length) hd hfd e_ptr e_loc hsearch
      (by rw [e_info]; exact (hgridInv _ _ hq1 hq2).1)
      (by rw [e_info]; exact (hgridInv _ _ hq1 hq2).2.1)
      (by omega) (by omega)
      (by rw [e_cache, get_cart_cache_snd]; exact hmiss0) hn1 hn2
  refine ⟨s3, ?_, ?_, ?_, ?_, ?_⟩
  · unfold openWrite
    rw [hopen]
    simp only []
    rw [hwrite]
    rfl
  · intro i hi
    rw [List.length_append, List.length_singleton]
    constructor
    · intro hlt
      by_cases hij : i = done.length
      · subst hij
        rw [w2, w3, w4, w5]
        exact ⟨e_filled, e_handle, rfl, w, by simp, e_name⟩
      · rw [w1 i hij, e_ne i hij]
        obtain ⟨a1, a2, a3, d, a4, a5⟩ := (hfilesInv i hi).1 (by omega)
        exact ⟨a1, a2, a3, d, by rw [List.getElem?_append_left (by omega)]; exact a4, a5⟩
    · intro hge
      rw [w1 i (by omega), e_ne i (by omega)]
      exact (hfilesInv i hi).2 (by omega)
  · intro c f hc hf
    rw [List.length_append, List.length_singleton]
    by_cases hcf : c = (frameOf cfg done.length).1 ∧ f = (frameOf cfg done.length).2
    · obtain ⟨e1, e2⟩ := hcf
      subst e1
      subst e2
      refine ⟨w8, w9, ?_⟩
      rw [w7]
      have := frameOf_index cfg done.length
      constructor
      · intro hneg
        omega
      · intro hle
        omega
    · rw [w6 c f hcf, e_info]
      obtain ⟨a1, a2, a3⟩ := hgridInv c f hc hf
      refine ⟨a1, a2, ?_⟩
      rw [a3]
      have hne : c * cfg.CART_CARTRIDGE_SIZE + f ≠ done.length := by
        intro he
        have := frameOf_of_index cfg c f done.length hf he
        rw [this] at hcf
        exact hcf ⟨rfl, rfl⟩
      omega
  · rw [List.length_append, List.length_singleton, hcache, e_cache,
      get_cart_cache_of_none s.cache _ _ hmiss0]
    have hsz := hcacheInv.1
    have hocc := hcacheInv.2.2.1
    by_cases hfull : C ≤ done.length
    · rw [if_pos (by
        show s.cache.size = s.cache.num_occupied
        rw [hsz, hocc, Nat.min_eq_right hfull])]
      exact cacheScen_step_full (frameOf cfg) C g0 done.length s.cache bufA hcacheInv hC hclock
        hfull (fun a b _ _ he => frameOf_inj cfg a b he)
        (fun i hi => by
          obtain ⟨b1, b2⟩ := frameOf_lt cfg i (by omega)
          omega)
    · rw [if_neg (by
        show ¬ s.cache.size = s.cache.num_occupied
        rw [hsz, hocc, Nat.min_eq_left (by omega)]
        omega)]
      exact cacheScen_step_room (frameOf cfg) C g0 done.length s.cache bufB hcacheInv hclock
        (by omega) (by omega) (by omega)
  · intro i w1 hw1 b hb
    by_cases hi : i < done.length
    · rw [List.getElem?_append_left hi] at hw1
      have hne : ¬ ((frameOf cfg i).1 = (frameOf cfg done.length).1
          ∧ (frameOf cfg i).2 = (frameOf cfg done.length).2) := by
        rintro ⟨e1, e2⟩
        have := frameOf_inj cfg i done.length (Prod.ext e1 e2)
        omega
      rw [hb2 _ _ hne, e_bus]
      exact hbusInv i w1 hw1 b hb
    · have hlen2 := (List.getElem?_eq_some_iff.1 hw1).1
      rw [List.length_append, List.length_singleton] at hlen2
      have hi2 : i = done.length := by omega
      subst hi2
      have hw : w1 = w := by
        rw [List.getElem?_append_right (le_refl _)] at hw1
        simpa using hw1.symm
      subst hw
      exact hb1 b hb

/-! ## The eviction scenario -/

theorem poweron_scen (cfg : CartConfig) (s0 : State) (C : Nat)
    (hon : s0.mainStructure.cart_is_on = false) (hC : C ≤ DEFAULT_CART_FRAME_CACHE_SIZE)
    (hpath : 2 ≤ cfg.CART_MAX_PATH_LENGTH) :
    ScenInv cfg C s0.cache.global_time []
      (cart_poweron cfg { s0 with cache := set_cart_cache_size s0.cache C }).1 := by
  have hsz : toInt32 C = (C : Int) := toInt32_of_lt C (by unfold DEFAULT_CART_FRAME_CACHE_SIZE at hC; omega)
  unfold cart_poweron
  simp only [hon, Bool.false_eq_true, if_false]
  refine ⟨?_, ?_, ?_, ?_⟩
  · intro i hi
    constructor
    · intro hlt
      exact absurd hlt (by simp)
    · intro _
      simp only [clearedTables]
      rw [if_pos hi]
      refine ⟨rfl, rfl, rfl, ?_, ?_⟩
      · show strncpy _ (cstr [32]) cfg.CART_MAX_PATH_LENGTH 0 = 32
        unfold strncpy
        rw [if_pos (by omega)]
        rfl
      · intro k hk1 hk2
        show strncpy _ (cstr [32]) cfg.CART_MAX_PATH_LENGTH k = 0
        unfold strncpy
        rw [if_pos hk2]
        have hz : cstr [32] k = 0 := by
          unfold cstr
          cases k with
          | zero => omega
          | succ k => rfl
        rw [hz]
        simp
  · intro c f hc hf
    simp only [clearedTables]
    rw [if_pos ⟨hc, hf⟩]
    exact ⟨rfl, rfl, by simp⟩
  · refine ⟨hsz, rfl, by simp [init_cart_cache], ?_⟩
    intro t ht
    constructor
    · intro hlt
      exact absurd hlt (by simp)
    · intro _
      have hlt : t < (set_cart_cache_size s0.cache C).size.toNat := by
        show t < (toInt32 C).toNat
        rw [hsz]
        omega
      simp only [init_cart_cache]
      rw [if_pos hlt]
      exact ⟨rfl, rfl, rfl⟩
  · intro i w hw
    simp at hw

theorem openWrites_scen (cfg : CartConfig) (C g0 : Nat) (hd : OpcodesDistinct cfg)
    (hC : 1 ≤ C) (hdim1 : cfg.CART_MAX_CARTRIDGES ≤ 65535)
    (hdim2 : cfg.CART_CARTRIDGE_SIZE ≤ 65536) (hpath : 2 ≤ cfg.CART_MAX_PATH_LENGTH) :
    ∀ (ws done : List NewFileWrite) (s : State), ScenInv cfg C g0 done s →
      (done ++ ws).length ≤ cfg.CART_MAX_TOTAL_FILES →
      (done ++ ws).length ≤ 32768 →
      (done ++ ws).length ≤ cfg.CART_MAX_CARTRIDGES * cfg.CART_CARTRIDGE_SIZE →
      g0 + 2 * (done ++ ws).length < 2147483647 →
      (∀ w, w ∈ ws → 1 ≤ w.count ∧ w.count < 1024
        ∧ strlen w.name < cfg.CART_MAX_PATH_LENGTH
        ∧ strncmp0 (cstr [32]) (cstr w.name) (strlen w.name) 0 = false) →
      (done ++ ws).Pairwise
        (fun d w => strncmp0 (cstr d.name) (cstr w.name) (strlen w.name) 0 = false) →
      ∃ s1, openWrites cfg s ws = some s1 ∧ ScenInv cfg C g0 (done ++ ws) s1 := by
  intro ws
  induction ws with
  | nil =>
    intro done s hinv _ _ _ _ _ _
    rw [List.append_nil]
    exact ⟨s, rfl, hinv⟩
  | cons w ws ih =>
    intro done s hinv h1 h2 h3 h4 h5 h6
    have e : (done ++ [w]) ++ ws = done ++ w :: ws := by simp
    have hl : (done ++ w :: ws).length = done.length + ws.length + 1 := by
      simp only [List.length_append, List.length_cons]
      omega
    rw [hl] at h1 h2 h3 h4
    obtain ⟨c1, c2, c3, c4⟩ := h5 w (List.mem_cons_self _ _)
    obtain ⟨s1, hs1, hinv1⟩ := openWrite_scen cfg C g0 done w s hinv hd hC (by omega) (by omega)
      (by omega) hdim1 hdim2 (by omega) hpath c1 c2 c3 c4
      (fun d hdm => (List.pairwise_append.1 h6).2.2 d hdm w (List.mem_cons_self _ _))
    have hl2 : ((done ++ [w]) ++ ws).length = done.length + ws.length + 1 := by
      rw [e, hl]
    obtain ⟨s2, hs2, hinv2⟩ := ih (done ++ [w]) s1 hinv1 (by rw [hl2]; exact h1)
      (by rw [hl2]; exact h2) (by rw [hl2]; exact h3) (by rw [hl2]; exact h4)
      (fun x hx => h5 x (List.mem_cons_of_mem _ hx)) (by rw [e]; exact h6)
    rw [e] at hinv2
    refine ⟨s2, ?_, hinv2⟩
    unfold openWrites
    rw [hs1]
    exact hs2

/-- C20 (amended): with a cache capacity `1 <= C <= 1024`, a power-on that succeeds, six
distinct opcodes below 128, a grid of at most 65535 cartridges of at most 65536 frames
and names of at least 2 bytes of storage, after `set_cart_cache_size(C)`, `cart_poweron`
and `k > C` writes of 1 to 1023 bytes each to `k` new files (`k` within the file table,
the grid and the range of the handles; each name shorter than the name array, not
matched by the placeholder name " " nor by the name of an earlier file in the
comparison of `cart_open`), started with the logical clock below `2^31 - 1 - 2k`: the
scenario runs to its end, `get_cache_num_occupied() == C`, file `i` has the chain head
`frameOf i`, the frames of the last `C` writes are cache hits, and the frames of the
first `k - C` writes are cache misses whose bytes are held by the device. -/
theorem C20_eviction_scenario (cfg : CartConfig) (s0 : State) (C : Nat)
    (ws : List NewFileWrite)
    (hC1 : 1 ≤ C) (hC2 : C ≤ DEFAULT_CART_FRAME_CACHE_SIZE) (hk : C < ws.length)
    (hon : s0.mainStructure.cart_is_on = false)
    (hclock : s0.cache.global_time + 2 * ws.length < 2147483647)
    (hops : OpcodesDistinct cfg)
    (hfiles : ws.length ≤ cfg.CART_MAX_TOTAL_FILES) (hhandles : ws.length ≤ 32768)
    (hgrid : ws.length ≤ cfg.CART_MAX_CARTRIDGES * cfg.CART_CARTRIDGE_SIZE)
    (hdim1 : cfg.CART_MAX_CARTRIDGES ≤ 65535) (hdim2 : cfg.CART_CARTRIDGE_SIZE ≤ 65536)
    (hpath : 2 ≤ cfg.CART_MAX_PATH_LENGTH)
    (hw : ∀ w, w ∈ ws → 1 ≤ w.count ∧ w.count < 1024
      ∧ strlen w.name < cfg.CART_MAX_PATH_LENGTH
      ∧ strncmp0 (cstr [32]) (cstr w.name) (strlen w.name) 0 = false)
    (hnames : ws.Pairwise
      (fun d w => strncmp0 (cstr d.name) (cstr w.name) (strlen w.name) 0 = false)) :
    ∃ s, evictionScenario cfg s0 C ws = some s
      ∧ get_cache_num_occupied s.cache = (C : Int)
      ∧ ∀ i, i < ws.length →
          (s.mainStructure.fileTable i).tablePtr = some (frameOf cfg i)
          ∧ (ws.length ≤ i + C →
              (get_cart_cache s.cache (frameOf cfg i).1 (frameOf cfg i).2).2.isSome = true)
          ∧ (i + C < ws.length →
              (get_cart_cache s.cache (frameOf cfg i).1 (frameOf cfg i).2).2 = none
              ∧ ∀ w, ws[i]? = some w → ∀ b, b < w.count →
                  s.bus.store (frameOf cfg i).1 (frameOf cfg i).2 b = w.buf b) := by
  obtain ⟨s, hrun, hinv⟩ := openWrites_scen cfg C s0.cache.global_time hops hC1 hdim1 hdim2
    hpath ws [] _ (poweron_scen cfg s0 C hon hC2 hpath)
    (by rw [List.nil_append]; exact hfiles) (by rw [List.nil_append]; exact hhandles)
    (by rw [List.nil_append]; exact hgrid) (by rw [List.nil_append]; exact hclock) hw
    (by rw [List.nil_append]; exact hnames)
  rw [List.nil_append] at hinv
  obtain ⟨hfilesInv, _, hcacheInv, hbusInv⟩ := hinv
  refine ⟨s, hrun, ?_, ?_⟩
  · unfold get_cache_num_occupied
    rw [hcacheInv.2.2.1, Nat.min_eq_right (by omega)]
  · intro i hi
    obtain ⟨b1, b2⟩ := frameOf_lt cfg i (by omega)
    refine ⟨((hfilesInv i (by omega)).1 hi).2.2.1, fun hlast => ?_, fun hfirst => ⟨?_, ?_⟩⟩
    · exact cacheScen_lookup_some (frameOf cfg) C s0.cache.global_time ws.length s.cache i
        hcacheInv hC1 hi hlast (by omega) (by omega)
    · rw [get_cart_cache_snd]
      exact cacheScen_lookup_none (frameOf cfg) C s0.cache.global_time ws.length s.cache
        (frameOf cfg i) hcacheInv
        (fun i1 _ hwin he => by have := frameOf_inj cfg _ _ he; omega) (by omega) (by omega)
    · intro w hwi b hb
      exact hbusInv i w hwi b hb

/-- Witness of C20: capacity 2 and the three writes of 10, 20 and 30 bytes to the new
files "a", "b" and "c" on the small grid, from the start-up state. -/
theorem C20_eviction_scenario_witness :
    ∃ s, evictionScenario smallConfig bootState 2 sampleWrites = some s
      ∧ get_cache_num_occupied s.cache = ((2 : Nat) : Int)
      ∧ ∀ i, i < sampleWrites.length →
          (s.mainStructure.fileTable i).tablePtr = some (frameOf smallConfig i)
          ∧ (sampleWrites.length ≤ i + 2 →
              (get_cart_cache s.cache (frameOf smallConfig i).1
                (frameOf smallConfig i).2).2.isSome = true)
          ∧ (i + 2 < sampleWrites.length →
              (get_cart_cache s.cache (frameOf smallConfig i).1
                (frameOf smallConfig i).2).2 = none
              ∧ ∀ w, sampleWrites[i]? = some w → ∀ b, b < w.count →
                  s.bus.store (frameOf smallConfig i).1 (frameOf smallConfig i).2 b = w.buf b) :=
  C20_eviction_scenario smallConfig bootState 2 sampleWrites (by decide) (by decide)
    (by decide) (by decide) (by decide) (by unfold OpcodesDistinct; decide) (by decide)
    (by decide) (by decide) (by decide) (by decide) (by decide) (by decide) (by decide)

/-- C20 (counterexample to the unrestricted claim): capacity 2, three writes of 10, 20
and 30 bytes to the new files "a", "b" and "c", with the logical clock at 2147483645
when the scenario starts.  The second insertion is stamped 2147483648 stored in an `int`,
that is -2147483648, the lowest time of the cache, so the third write evicts the frame
of the second write: the occupancy is 2, but the frame (0, 1) of the second write, one
of the last 2 writes, is a miss and the frame (0, 0) of the first write is a hit. -/
theorem C20_counterexample :
    (evictionScenario smallConfig lateClockState 2 sampleWrites).isSome = true
    ∧ get_cache_num_occupied lateScenarioState.cache = 2
    ∧ (lateScenarioState.mainStructure.fileTable 0).tablePtr = some (0, 0)
    ∧ (lateScenarioState.mainStructure.fileTable 1).tablePtr = some (0, 1)
    ∧ (lateScenarioState.mainStructure.fileTable 2).tablePtr = some (0, 2)
    ∧ (get_cart_cache lateScenarioState.cache 0 0).2.isSome = true
    ∧ (get_cart_cache lateScenarioState.cache 0 1).2 = none
    ∧ (get_cart_cache lateScenarioState.cache 0 2).2.isSome = true := by
  decide

/-! ## Failing inputs: closing the cache, closed files, chains, cached copies -/

/-- C22 (failing input): on the cache of capacity 2 that holds the pairs (1, 1) and
(2, 2), `close_cart_cache()` empties the slots and clears the open flag but leaves the
occupancy at 2, where `init_cart_cache()` sets it to 0. -/
theorem C22_close_keeps_occupancy :
    get_cache_num_occupied fullCache2 = 2
    ∧ get_cache_num_occupied (close_cart_cache fullCache2) = 2
    ∧ ((close_cart_cache fullCache2).frames 0).time = -1
    ∧ ((close_cart_cache fullCache2).frames 1).time = -1
    ∧ (close_cart_cache fullCache2).open_ = false
    ∧ get_cache_num_occupied (init_cart_cache fullCache2) = 0 := by
  decide

/-- C23 (failing input): the file "a" (handle 0) is closed, with length 10, cursor 0
and the chain head (0, 0); `cart_seek(0, 3)` returns -1, but `cart_read(0, buf, 5)`
returns 5 and moves the cursor to 5, and `cart_write(0, buf, 20)` returns 20 and sets
the cursor and the length to 20. -/
theorem C23_closed_file_read_and_written :
    findHandle smallConfig closedFileState.mainStructure 0 = some 0
    ∧ (closedFileState.mainStructure.fileTable 0).open_ = false
    ∧ (closedFileState.mainStructure.fileTable 0).location = 0
    ∧ (closedFileState.mainStructure.fileTable 0).length = 10
    ∧ (cart_seek smallConfig closedFileState 0 3).2 = -1
    ∧ (cart_read smallConfig closedFileState 0 zeroBuf 5).map
        (fun r => (r.2.1, (r.1.mainStructure.fileTable 0).location)) = some (5, 5)
    ∧ (cart_write smallConfig closedFileState 0 allOnes 20 zeroBuf).map
        (fun r => (r.2, (r.1.mainStructure.fileTable 0).location,
          (r.1.mainStructure.fileTable 0).length)) = some (20, 20, 20) := by
  decide

/-- C24 (failing input): after `cart_poweron`, `cart_open("a")` and
`cart_write(0, buf, 4096)` on the grid of 2 cartridges of 3 frames, the file has length
4096 and a chain, the frames of cartridge 1 are free, but only 3 Frame Records are linked
from the head, not `4096 / 1024 + 1 = 5`: the walk to the frame index 3 ends on a `NULL`
link, and the walk to the frame `cursor / 1024 = 4` dereferences it. -/
theorem C24_chain_shorter_than_length :
    (runCalls smallConfig poweredState bigWriteCalls).isSome = true
    ∧ (bigWriteState.mainStructure.fileTable 0).length = 4096
    ∧ (bigWriteState.mainStructure.fileTable 0).location = 4096
    ∧ (bigWriteState.mainStructure.fileTable 0).tablePtr = some (0, 0)
    ∧ (∀ j, j < 3 → (bigWriteState.mainStructure.infoTable 1 j).handle = -1)
    ∧ walkFrames bigWriteState.mainStructure 2 (bigWriteState.mainStructure.fileTable 0).tablePtr
        = some (some (0, 2))
    ∧ walkFrames bigWriteState.mainStructure 3 (bigWriteState.mainStructure.fileTable 0).tablePtr
        = some none
    ∧ walkFrames bigWriteState.mainStructure 4 (bigWriteState.mainStructure.fileTable 0).tablePtr
        = none := by
  decide

/-- C25 (failing input): `cart_write(0, buf, 3072)` on the new file "a", on the grid of
2 cartridges of 3 frames.  Its third iteration leaves the Frame Record (0, 2) with 1024
bytes used and no next link while the frame (1, 0) is free, and links nothing: after the
call the record (0, 2) still has no next link and (1, 0) is still free. -/
theorem C25_full_frame_not_linked :
    (runCalls smallConfig poweredState
      [FileCall.open_ [97], FileCall.write 0 allOnes 3072 zeroBuf]).isSome = true
    ∧ (threeFrameState.mainStructure.fileTable 0).tablePtr = some (0, 0)
    ∧ (threeFrameState.mainStructure.infoTable 0 0).nextFrame = some (0, 1)
    ∧ (threeFrameState.mainStructure.infoTable 0 1).nextFrame = some (0, 2)
    ∧ (threeFrameState.mainStructure.infoTable 0 2).handle = 0
    ∧ (threeFrameState.mainStructure.infoTable 0 2).bytesUsed = 1024
    ∧ (threeFrameState.mainStructure.infoTable 0 2).nextFrame = none
    ∧ (threeFrameState.mainStructure.infoTable 1 0).handle = -1 := by
  decide

/-- C27 (failing input): after `cart_poweron`, `cart_open("a")` and
`cart_write(0, P, 10)` with `P[0] = 0`, `P[1] = 1`, the pair (0, 0) is held in the cache
and the payload that the WRITE-FRAME for the frame (0, 0) sent to the device has byte 1
equal to 1, but the cached buffer has byte 1 equal to 0. -/
theorem C27_cached_copy_differs_from_payload :
    (runCalls smallConfig poweredState
      [FileCall.open_ [97], FileCall.write 0 nulThenOne 10 zeroBuf]).isSome = true
    ∧ (nulWriteState.mainStructure.fileTable 0).tablePtr = some (0, 0)
    ∧ nulWriteState.bus.store 0 0 1 = 1
    ∧ (cachedBuf (get_cart_cache nulWriteState.cache 0 0)).map (fun b => b 1) = some 0 := by
  decide

/-! ## The occupancy counter and the non-empty slots -/

theorem occExact_matched (s : CacheState) (h : OccExact s) (c f i : Nat)
    (hc : c < 65536) (hf : f < 65536) (hne : ¬ (c = 65535 ∧ f = 65535))
    (hfi : firstIndex (slotMatches s (c % 65536) (f % 65536)) s.size.toNat = some i) :
    i < s.size.toNat ∧ (s.frames i).time ≠ -1 := by
  obtain ⟨hi, hp, _⟩ := firstIndex_some hfi
  rw [Nat.mod_eq_of_lt hc, Nat.mod_eq_of_lt hf] at hp
  have hm := (slotMatches_iff s c f i).1 hp
  refine ⟨hi, fun ht => ?_⟩
  have := h.2 i hi ht
  exact hne ⟨by omega, by omega⟩

theorem applyOp_occExact (s : CacheState) (op : CacheOp) (h : OccExact s)
    (hop : opInDomain op = true) (hg : s.global_time < 2147483648) :
    OccExact (applyOp s op) := by
  have hne := toInt32_ne_neg_one s.global_time hg
  cases op with
  | put c f b =>
    simp only [applyOp, put_cart_cache]
    cases hfi : firstIndex (fun i => (s.frames i).time == -1) s.size.toNat with
    | none => exact h
    | some i =>
      obtain ⟨hi, hp, _⟩ := firstIndex_some hfi
      have hti : (s.frames i).time = -1 := by simpa using hp
      have hc := countNonEmpty_update s.frames s.size.toNat i
        { framebuf := strncpy (s.frames i).framebuf b 1024, time := toInt32 s.global_time,
          cart_num := c % 65536, frame_num := f % 65536 } hi
      simp only [hti, if_true, hne, if_false] at hc
      refine ⟨?_, ?_⟩
      · have h1 := h.1
        simp only
        omega
      · intro j hj ht
        simp only at hj ht ⊢
        by_cases hji : j = i
        · subst hji
          rw [Function.update_same] at ht
          exact absurd ht hne
        · rw [Function.update_noteq hji] at ht ⊢
          exact h.2 j hj ht
  | get c f =>
    simp only [opInDomain, decide_eq_true_eq] at hop
    simp only [applyOp, get_cart_cache]
    cases hfi : firstIndex (slotMatches s (c % 65536) (f % 65536)) s.size.toNat with
    | none => exact h
    | some i =>
      obtain ⟨hi, hti⟩ := occExact_matched s h c f i hop.1 hop.2.1 hop.2.2 hfi
      have hc := countNonEmpty_update s.frames s.size.toNat i
        { s.frames i with time := toInt32 s.global_time } hi
      simp only [hti, hne, if_false] at hc
      refine ⟨?_, ?_⟩
      · have h1 := h.1
        simp only
        omega
      · intro j hj ht
        simp only at hj ht ⊢
        by_cases hji : j = i
        · subst hji
          rw [Function.update_same] at ht
          exact absurd ht hne
        · rw [Function.update_noteq hji] at ht ⊢
          exact h.2 j hj ht
  | update c f b =>
    simp only [opInDomain, decide_eq_true_eq] at hop
    simp only [applyOp, update_cache]
    cases hfi : firstIndex (slotMatches s (c % 65536) (f % 65536)) s.size.toNat with
    | none => exact h
    | some i =>
      obtain ⟨hi, hti⟩ := occExact_matched s h c f i hop.1 hop.2.1 hop.2.2 hfi
      have hc := countNonEmpty_update s.frames s.size.toNat i
        { s.frames i with time := toInt32 s.global_time,
                          framebuf := strncpy (s.frames i).framebuf b 1024 } hi
      simp only [hti, hne, if_false] at hc
      refine ⟨?_, ?_⟩
      · have h1 := h.1
        simp only
        omega
      · intro j hj ht
        simp only at hj ht ⊢
        by_cases hji : j = i
        · subst hji
          rw [Function.update_same] at ht
          exact absurd ht hne
        · rw [Function.update_noteq hji] at ht ⊢
          exact h.2 j hj ht
  | delete c f =>
    simp only [opInDomain, decide_eq_true_eq] at hop
    simp only [applyOp, delete_cart_cache]
    cases hfi : firstIndex (slotMatches s (c % 65536) (f % 65536)) s.size.toNat with
    | none => exact h
    | some i =>
      obtain ⟨hi, hti⟩ := occExact_matched s h c f i hop.1 hop.2.1 hop.2.2 hfi
      have hc := countNonEmpty_update s.frames s.size.toNat i
        { s.frames i with frame_num := 65535, cart_num := 65535, time := -1 } hi
      simp only [hti, if_true, if_false] at hc
      refine ⟨?_, ?_⟩
      · have h1 := h.1
        simp only
        omega
      · intro j hj ht
        simp only at hj ht ⊢
        by_cases hji : j = i
        · subst hji
          rw [Function.update_same]
          exact ⟨rfl, rfl⟩
        · rw [Function.update_noteq hji] at ht ⊢
          exact h.2 j hj ht

theorem runOps_occExact (ops : List CacheOp) (s : CacheState) (h : OccExact s)
    (hops : ∀ op, op ∈ ops → opInDomain op = true)
    (hg : s.global_time + ops.length < 2147483648) : OccExact (runOps s ops) := by
  induction ops generalizing s with
  | nil => exact h
  | cons op ops ih =>
    simp only [List.length_cons] at hg
    have hc := applyOp_clock s op (by omega)
    exact ih (applyOp s op)
      (applyOp_occExact s op h (hops op (List.mem_cons_self _ _)) (by omega))
      (fun o ho => hops o (List.mem_cons_of_mem _ ho)) (by omega)

theorem init_occExact (s : CacheState) : OccExact (init_cart_cache s) := by
  refine ⟨?_, ?_⟩
  · simp only [init_cart_cache]
    rw [countNonEmpty_of_none]
    · rfl
    · intro i hi
      simp only [if_pos hi, resetSlot]
  · intro i hi _
    simp only [init_cart_cache] at hi ⊢
    simp only [if_pos hi, resetSlot, and_self]

/-- C30 (amended): from any cache state whose capacity lies within the slot array, after
`init_cart_cache()` and any sequence of `put_cart_cache`, `get_cart_cache`,
`update_cache` and `delete_cart_cache` calls whose arguments are 16-bit pairs other than
(65535, 65535), during which the logical clock stays below 2^31, the capacity is still
within the slot array, `get_cache_num_occupied()` equals the number of slots among the
first `capacity` whose timestamp is not -1, and is not negative. -/
theorem C30_occupancy_counts_nonempty (s : CacheState) (ops : List CacheOp)
    (hcap : s.size ≤ DEFAULT_CART_FRAME_CACHE_SIZE)
    (hops : ∀ op, op ∈ ops → opInDomain op = true)
    (hclock : s.global_time + ops.length < 2147483648) :
    (runOps (init_cart_cache s) ops).size ≤ DEFAULT_CART_FRAME_CACHE_SIZE
    ∧ get_cache_num_occupied (runOps (init_cart_cache s) ops)
        = (countNonEmpty (runOps (init_cart_cache s) ops).frames
            (get_cache_size (runOps (init_cart_cache s) ops)).toNat : Int)
    ∧ 0 ≤ get_cache_num_occupied (runOps (init_cart_cache s) ops) := by
  have h := runOps_occExact ops (init_cart_cache s) (init_occExact s) hops hclock
  refine ⟨by rw [runOps_size]; exact hcap, h.1, ?_⟩
  simp only [get_cache_num_occupied]
  rw [h.1]
  exact Int.natCast_nonneg _

/-- Witness of C30: capacity 2 from the start-up globals, then three puts (one of a pair
already held), a lookup, two deletes and an update. -/
theorem C30_occupancy_counts_nonempty_witness :
    get_cache_num_occupied (runOps (init_cart_cache (set_cart_cache_size bootCache 2))
        [CacheOp.put 1 1 zeroBuf, CacheOp.put 1 1 zeroBuf, CacheOp.put 3 3 zeroBuf,
         CacheOp.get 1 1, CacheOp.delete 1 1, CacheOp.delete 7 7,
         CacheOp.update 1 1 zeroBuf]) = 1
    ∧ ((runOps (init_cart_cache (set_cart_cache_size bootCache 2)) [CacheOp.put 1 1 zeroBuf,
          CacheOp.put 1 1 zeroBuf, CacheOp.put 3 3 zeroBuf, CacheOp.get 1 1,
          CacheOp.delete 1 1, CacheOp.delete 7 7, CacheOp.update 1 1 zeroBuf]).size
        ≤ DEFAULT_CART_FRAME_CACHE_SIZE
      ∧ get_cache_num_occupied (runOps (init_cart_cache (set_cart_cache_size bootCache 2))
          [CacheOp.put 1 1 zeroBuf, CacheOp.put 1 1 zeroBuf, CacheOp.put 3 3 zeroBuf,
           CacheOp.get 1 1, CacheOp.delete 1 1, CacheOp.delete 7 7,
           CacheOp.update 1 1 zeroBuf])
        = (countNonEmpty (runOps (init_cart_cache (set_cart_cache_size bootCache 2))
            [CacheOp.put 1 1 zeroBuf, CacheOp.put 1 1 zeroBuf, CacheOp.put 3 3 zeroBuf,
             CacheOp.get 1 1, CacheOp.delete 1 1, CacheOp.delete 7 7,
             CacheOp.update 1 1 zeroBuf]).frames
            (get_cache_size (runOps (init_cart_cache (set_cart_cache_size bootCache 2))
              [CacheOp.put 1 1 zeroBuf, CacheOp.put 1 1 zeroBuf, CacheOp.put 3 3 zeroBuf,
               CacheOp.get 1 1, CacheOp.delete 1 1, CacheOp.delete 7 7,
               CacheOp.update 1 1 zeroBuf])).toNat : Int)
      ∧ 0 ≤ get_cache_num_occupied (runOps (init_cart_cache (set_cart_cache_size bootCache 2))
          [CacheOp.put 1 1 zeroBuf, CacheOp.put 1 1 zeroBuf, CacheOp.put 3 3 zeroBuf,
           CacheOp.get 1 1, CacheOp.delete 1 1, CacheOp.delete 7 7,
           CacheOp.update 1 1 zeroBuf])) :=
  ⟨by decide, C30_occupancy_counts_nonempty (set_cart_cache_size bootCache 2) _ (by decide)
    (by decide) (by decide)⟩

/-- C30 (counterexamples to the unrestricted claim), on a cache of capacity 2 after
`init_cart_cache()`: `delete_cart_cache(65535, 65535)` matches an empty slot and leaves
the occupancy at -1, and `get_cart_cache(65535, 65535)` stamps an empty slot, which
leaves one slot with a timestamp other than -1 and the occupancy at 0. -/
theorem C30_counterexample :
    get_cache_num_occupied (runOps (init_cart_cache (set_cart_cache_size bootCache 2))
        [CacheOp.delete 65535 65535]) = -1
    ∧ countNonEmpty (runOps (init_cart_cache (set_cart_cache_size bootCache 2))
        [CacheOp.delete 65535 65535]).frames 2 = 0
    ∧ get_cache_num_occupied (runOps (init_cart_cache (set_cart_cache_size bootCache 2))
        [CacheOp.get 65535 65535]) = 0
    ∧ countNonEmpty (runOps (init_cart_cache (set_cart_cache_size bootCache 2))
        [CacheOp.get 65535 65535]).frames 2 = 1 := by
  decide

/-! ## Reads and the cache -/

theorem sameResidents_refl (a : CacheState) : SameResidents a a :=
  ⟨rfl, rfl, rfl, fun _ => ⟨rfl, rfl, rfl⟩⟩

theorem sameResidents_trans {a b c : CacheState} (h1 : SameResidents a b)
    (h2 : SameResidents b c) : SameResidents a c := by
  refine ⟨h2.1.trans h1.1, h2.2.1.trans h1.2.1, h2.2.2.1.trans h1.2.2.1, fun i => ?_⟩
  have hb := h1.2.2.2 i
  have hc := h2.2.2.2 i
  exact ⟨hc.1.trans hb.1, hc.2.1.trans hb.2.1, hc.2.2.trans hb.2.2⟩

theorem get_cart_cache_sameResidents (a : CacheState) (c f : Nat) :
    SameResidents a (get_cart_cache a c f).1 := by
  unfold get_cart_cache
  cases hfi : firstIndex (slotMatches a (c % 65536) (f % 65536)) a.size.toNat with
  | none => exact ⟨rfl, rfl, rfl, fun _ => ⟨rfl, rfl, rfl⟩⟩
  | some i =>
    refine ⟨rfl, rfl, rfl, fun j => ?_⟩
    simp only
    by_cases hji : j = i
    · subst hji
      rw [Function.update_same]
      exact ⟨rfl, rfl, rfl⟩
    · rw [Function.update_noteq hji]
      exact ⟨rfl, rfl, rfl⟩

theorem sameResidents_lookup {a b : CacheState} (h : SameResidents a b) (c f : Nat) :
    (get_cart_cache b c f).2 = (get_cart_cache a c f).2
    ∧ cachedBuf (get_cart_cache b c f) = cachedBuf (get_cart_cache a c f) := by
  have hfi : firstIndex (slotMatches b (c % 65536) (f % 65536)) b.size.toNat
      = firstIndex (slotMatches a (c % 65536) (f % 65536)) a.size.toNat := by
    rw [h.1]
    apply firstIndex_congr
    intro j _
    unfold slotMatches
    rw [(h.2.2.2 j).1, (h.2.2.2 j).2.1]
  have h2 : (get_cart_cache b c f).2 = (get_cart_cache a c f).2 := by
    rw [get_cart_cache_snd, get_cart_cache_snd, hfi]
  refine ⟨h2, ?_⟩
  unfold cachedBuf
  rw [h2]
  cases (get_cart_cache a c f).2 with
  | none => rfl
  | some i =>
    simp only [Option.map_some']
    rw [((get_cart_cache_sameResidents b c f).2.2.2 i).2.2,
      ((get_cart_cache_sameResidents a c f).2.2.2 i).2.2, (h.2.2.2 i).2.2]

theorem cart_read_body_cache (cfg : CartConfig) (idx : Nat) (L L1 : ReadLoop)
    (h : cart_read_body cfg idx L = some L1) :
    ∃ c f, L1.st.cache = (get_cart_cache L.st.cache c f).1 := by
  cases hp : L.tempPtr with
  | none =>
    unfold cart_read_body at h
    rw [hp] at h
    exact Option.noConfusion h
  | some p =>
    unfold cart_read_body at h
    rw [hp] at h
    simp only [Option.some.injEq] at h
    subst h
    exact ⟨_, _, rfl⟩

theorem cart_read_sameResidents (cfg : CartConfig) (s : State) (fd : Int) (buf : Buf)
    (count : Int) (r : State × Int × Buf) (h : cart_read cfg s fd buf count = some r) :
    SameResidents s.cache r.1.cache := by
  unfold cart_read at h
  cases hf : findHandle cfg s.mainStructure fd with
  | none =>
    rw [hf] at h
    simp only [Option.some.injEq] at h
    subst h
    exact sameResidents_refl _
  | some idx =>
    rw [hf] at h
    simp only [] at h
    cases hw : walkFrames s.mainStructure ((s.mainStructure.fileTable idx).location / 1024)
        (s.mainStructure.fileTable idx).tablePtr with
    | none =>
      rw [hw] at h
      exact Option.noConfusion h
    | some tp =>
      rw [hw] at h
      simp only [] at h
      split at h
      · exact Option.noConfusion h
      · rename_i L1 hl
        simp only [Option.some.injEq] at h
        subst h
        exact (cart_read_loop_induct cfg idx (fun L => SameResidents s.cache L.st.cache)
          (fun L L2 hP _ hb => by
            obtain ⟨c, f, hc⟩ := cart_read_body_cache cfg idx L L2 hb
            have := get_cart_cache_sameResidents L.st.cache c f
            rw [← hc] at this
            exact sameResidents_trans hP this)
          _ _ L1 (sameResidents_refl _) hl).1

/-- C28: a `cart_read` call that returns, from any state and with any arguments, leaves
in every slot of the cache the pair and the buffer that the slot held, and leaves the
capacity and `get_cache_num_occupied()`; so a lookup of any pair finds the same slot
and the same buffer after the call as before it.  (Slot timestamps and the clock are
not constrained.) -/
theorem C28_read_keeps_residents (cfg : CartConfig) (s : State) (fd : Int) (buf : Buf)
    (count : Int) (r : State × Int × Buf)
    (h : cart_read cfg s fd buf count = some r) :
    get_cache_num_occupied r.1.cache = get_cache_num_occupied s.cache
    ∧ get_cache_size r.1.cache = get_cache_size s.cache
    ∧ (∀ i, (r.1.cache.frames i).cart_num = (s.cache.frames i).cart_num
        ∧ (r.1.cache.frames i).frame_num = (s.cache.frames i).frame_num
        ∧ (r.1.cache.frames i).framebuf = (s.cache.frames i).framebuf)
    ∧ (∀ c f, (get_cart_cache r.1.cache c f).2 = (get_cart_cache s.cache c f).2
        ∧ cachedBuf (get_cart_cache r.1.cache c f) = cachedBuf (get_cart_cache s.cache c f)) := by
  have hs := cart_read_sameResidents cfg s fd buf count r h
  exact ⟨hs.2.1, hs.1, hs.2.2.2, fun c f => sameResidents_lookup hs c f⟩

/-- Witness of C28: the file "a" has the frames (0, 0), (0, 1), (0, 2), of which the
cache of capacity 2 holds the last two; `cart_read(0, buf, 3072)` from the cursor 0
returns 3072, sends two requests to the device for the frame (0, 0), which is a miss,
and leaves the pairs and buffers of the cache. -/
theorem C28_read_keeps_residents_witness :
    ((cart_read smallConfig rewoundState 0 zeroBuf 3072).map
        (fun r => (r.2.1, r.1.bus.log.length, (get_cart_cache r.1.cache 0 0).2)))
      = some (3072, rewoundState.bus.log.length + 2, none)
    ∧ (get_cache_num_occupied
          ((cart_read smallConfig rewoundState 0 zeroBuf 3072).getD
            (bootState, 0, zeroBuf)).1.cache
        = get_cache_num_occupied rewoundState.cache
      ∧ get_cache_size
          ((cart_read smallConfig rewoundState 0 zeroBuf 3072).getD
            (bootState, 0, zeroBuf)).1.cache
        = get_cache_size rewoundState.cache
      ∧ (∀ i, (((cart_read smallConfig rewoundState 0 zeroBuf 3072).getD
              (bootState, 0, zeroBuf)).1.cache.frames i).cart_num
            = (rewoundState.cache.frames i).cart_num
          ∧ (((cart_read smallConfig rewoundState 0 zeroBuf 3072).getD
              (bootState, 0, zeroBuf)).1.cache.frames i).frame_num
            = (rewoundState.cache.frames i).frame_num
          ∧ (((cart_read smallConfig rewoundState 0 zeroBuf 3072).getD
              (bootState, 0, zeroBuf)).1.cache.frames i).framebuf
            = (rewoundState.cache.frames i).framebuf)
      ∧ (∀ c f, (get_cart_cache ((cart_read smallConfig rewoundState 0 zeroBuf 3072).getD
              (bootState, 0, zeroBuf)).1.cache c f).2
            = (get_cart_cache rewoundState.cache c f).2
          ∧ cachedBuf (get_cart_cache ((cart_read smallConfig rewoundState 0 zeroBuf 3072).getD
              (bootState, 0, zeroBuf)).1.cache c f)
            = cachedBuf (get_cart_cache rewoundState.cache c f))) :=
  ⟨by decide, C28_read_keeps_residents smallConfig rewoundState 0 zeroBuf 3072 _
    (eq_some_getD _ (bootState, 0, zeroBuf) (by decide))⟩

/-! ## Frame Records under `cart_write` -/

theorem freeFrameSearch_free (cfg : CartConfig) (m : CartStructure) :
    ∀ (n i : Nat) (done : Bool) (q : Nat × Nat),
      (freeFrameSearch cfg m n i done).1 = some q → (m.infoTable q.1 q.2).handle = -1 := by
  intro n
  induction n with
  | zero =>
    intro i done q h
    unfold freeFrameSearch at h
    exact Option.noConfusion h
  | succ n ih =>
    intro i done q h
    unfold freeFrameSearch at h
    cases hfi : firstIndex (fun j => (m.infoTable i j).handle == -1) cfg.CART_CARTRIDGE_SIZE with
    | some j =>
      rw [hfi] at h
      simp only [Option.some.injEq] at h
      obtain ⟨_, hp, _⟩ := firstIndex_some hfi
      rw [← h]
      simpa using hp
    | none =>
      rw [hfi] at h
      simp only [] at h
      cases done with
      | true =>
        simp only [if_true] at h
        exact Option.noConfusion h
      | false =>
        simp only [Bool.false_eq_true, if_false] at h
        exact ih (i + 1) false q h

theorem setInfo_apply (m : CartStructure) (p : Nat × Nat) (t : Table) (a b : Nat) :
    (setInfo m p t).infoTable a b = if a = p.1 ∧ b = p.2 then t else m.infoTable a b := rfl

/-- The assignment `tempPtr->bytesUsed = ..` keeps the owner and the indices of every
record. -/
theorem setInfo_bytesUsed (m : CartStructure) (p : Nat × Nat) (x : Nat) (a b : Nat) :
    ((setInfo m p { m.infoTable p.1 p.2 with bytesUsed := x }).infoTable a b).handle
        = (m.infoTable a b).handle
    ∧ ((setInfo m p { m.infoTable p.1 p.2 with bytesUsed := x }).infoTable a b).cart_num
        = (m.infoTable a b).cart_num
    ∧ ((setInfo m p { m.infoTable p.1 p.2 with bytesUsed := x }).infoTable a b).frame_num
        = (m.infoTable a b).frame_num := by
  rw [setInfo_apply]
  by_cases hab : a = p.1 ∧ b = p.2
  · rw [if_pos hab, hab.1, hab.2]
    exact ⟨rfl, rfl, rfl⟩
  · rw [if_neg hab]
    exact ⟨rfl, rfl, rfl⟩

/-- The link step `tempPtr->nextFrame = &infoTable[q]; infoTable[q].handle = h` keeps the
indices of every record and the owner of every record other than `q`. -/
theorem setInfo_link (m : CartStructure) (p q : Nat × Nat) (hdl : Int) (a b : Nat) :
    (¬ (a = q.1 ∧ b = q.2) →
      ((setInfo (setInfo m p { m.infoTable p.1 p.2 with nextFrame := some q }) q
        { (setInfo m p { m.infoTable p.1 p.2 with nextFrame := some q }).infoTable q.1 q.2
          with handle := hdl }).infoTable a b).handle = (m.infoTable a b).handle)
    ∧ ((setInfo (setInfo m p { m.infoTable p.1 p.2 with nextFrame := some q }) q
        { (setInfo m p { m.infoTable p.1 p.2 with nextFrame := some q }).infoTable q.1 q.2
          with handle := hdl }).infoTable a b).cart_num = (m.infoTable a b).cart_num
    ∧ ((setInfo (setInfo m p { m.infoTable p.1 p.2 with nextFrame := some q }) q
        { (setInfo m p { m.infoTable p.1 p.2 with nextFrame := some q }).infoTable q.1 q.2
          with handle := hdl }).infoTable a b).frame_num = (m.infoTable a b).frame_num := by
  have hmid : ∀ x y,
      ((setInfo m p { m.infoTable p.1 p.2 with nextFrame := some q }).infoTable x y).handle
          = (m.infoTable x y).handle
      ∧ ((setInfo m p { m.infoTable p.1 p.2 with nextFrame := some q }).infoTable x y).cart_num
          = (m.infoTable x y).cart_num
      ∧ ((setInfo m p { m.infoTable p.1 p.2 with nextFrame := some q }).infoTable x y).frame_num
          = (m.infoTable x y).frame_num := by
    intro x y
    rw [setInfo_apply]
    by_cases hxy : x = p.1 ∧ y = p.2
    · rw [if_pos hxy, hxy.1, hxy.2]
      exact ⟨rfl, rfl, rfl⟩
    · rw [if_neg hxy]
      exact ⟨rfl, rfl, rfl⟩
  rw [setInfo_apply]
  by_cases hab : a = q.1 ∧ b = q.2
  · rw [if_pos hab, hab.1, hab.2]
    exact ⟨fun hn => absurd ⟨rfl, rfl⟩ hn, (hmid q.1 q.2).2.1, (hmid q.1 q.2).2.2⟩
  · rw [if_neg hab]
    exact ⟨fun _ => (hmid a b).1, (hmid a b).2.1, (hmid a b).2.2⟩

theorem cart_write_body_records (cfg : CartConfig) (idx : Nat) (buf : Buf) (L L1 : WriteLoop)
    (h : cart_write_body cfg idx buf L = some L1) :
    (∀ a b, (L.st.mainStructure.infoTable a b).handle ≠ -1 →
      (L1.st.mainStructure.infoTable a b).handle = (L.st.mainStructure.infoTable a b).handle)
    ∧ (toU32 (L.start_write_bit + chunk L.start_write_bit L.bytes_left_to_write) ≠ 1024 →
      ∀ a b, (L1.st.mainStructure.infoTable a b).handle
        = (L.st.mainStructure.infoTable a b).handle)
    ∧ (∀ a b, (L1.st.mainStructure.infoTable a b).cart_num
          = (L.st.mainStructure.infoTable a b).cart_num
        ∧ (L1.st.mainStructure.infoTable a b).frame_num
          = (L.st.mainStructure.infoTable a b).frame_num)
    ∧ L1.st.mainStructure.cart_is_on = L.st.mainStructure.cart_is_on := by
  cases hp : L.tempPtr with
  | none =>
    unfold cart_write_body at h
    rw [hp] at h
    exact Option.noConfusion h
  | some p =>
    unfold cart_write_body at h
    rw [hp] at h
    simp only [Option.some.injEq] at h
    subst h
    simp only []
    have hm2 := fun x => setInfo_bytesUsed (setFile L.st.mainStructure idx
      { L.st.mainStructure.fileTable idx with
        location := toU32 (((L.st.mainStructure.fileTable idx).location : Int)
          + chunk L.start_write_bit L.bytes_left_to_write)
        length :=
          if toU32 (((L.st.mainStructure.fileTable idx).location : Int)
              + chunk L.start_write_bit L.bytes_left_to_write)
              > (L.st.mainStructure.fileTable idx).length
          then toU32 (((L.st.mainStructure.fileTable idx).location : Int)
              + chunk L.start_write_bit L.bytes_left_to_write)
          else (L.st.mainStructure.fileTable idx).length }) p x
    split
    · rename_i hc1
      split
      · rename_i q hq
        have hfree0 := freeFrameSearch_free cfg _ _ _ _ q hq
        have hfree : (L.st.mainStructure.infoTable q.1 q.2).handle = -1 :=
          (hm2 _ q.1 q.2).1.symm.trans hfree0
        have hl := setInfo_link (setInfo (setFile L.st.mainStructure idx
          { L.st.mainStructure.fileTable idx with
            location := toU32 (((L.st.mainStructure.fileTable idx).location : Int)
              + chunk L.start_write_bit L.bytes_left_to_write)
            length :=
              if toU32 (((L.st.mainStructure.fileTable idx).location : Int)
                  + chunk L.start_write_bit L.bytes_left_to_write)
                  > (L.st.mainStructure.fileTable idx).length
              then toU32 (((L.st.mainStructure.fileTable idx).location : Int)
                  + chunk L.start_write_bit L.bytes_left_to_write)
              else (L.st.mainStructure.fileTable idx).length }) p
          { L.st.mainStructure.infoTable p.1 p.2 with
            bytesUsed := toU32 (L.start_write_bit
              + chunk L.start_write_bit L.bytes_left_to_write) }) p q
          (L.st.mainStructure.infoTable p.1 p.2).handle
        refine ⟨fun a b hab => ?_, fun hne => absurd hc1.1 hne, fun a b => ?_, rfl⟩
        · have hne : ¬ (a = q.1 ∧ b = q.2) := by
            intro hq2
            rw [hq2.1, hq2.2] at hab
            exact hab hfree
          exact ((hl a b).1 hne).trans (hm2 _ a b).1
        · exact ⟨(hl a b).2.1.trans (hm2 _ a b).2.1, (hl a b).2.2.trans (hm2 _ a b).2.2⟩
      · exact ⟨fun a b _ => (hm2 _ a b).1, fun _ a b => (hm2 _ a b).1,
          fun a b => (hm2 _ a b).2, rfl⟩
    · split
      · exact ⟨fun a b _ => (hm2 _ a b).1, fun _ a b => (hm2 _ a b).1,
          fun a b => (hm2 _ a b).2, rfl⟩
      · exact ⟨fun a b _ => (hm2 _ a b).1, fun _ a b => (hm2 _ a b).1,
          fun a b => (hm2 _ a b).2, rfl⟩
theorem freeFrameSearch_firstFree (cfg : CartConfig) (m : CartStructure) (q : Nat × Nat)
    (h : FirstFree cfg m q) :
    freeFrameSearch cfg m cfg.CART_MAX_CARTRIDGES 0 false = (some q, true) := by
  obtain ⟨h1, h2, h3, h4⟩ := h
  have hfi : firstIndex (fun j => (m.infoTable q.1 j).handle == -1) cfg.CART_CARTRIDGE_SIZE
      = some q.2 := by
    apply firstIndex_eq_of_least h2
    · simp only [beq_iff_eq]
      exact h3
    · intro j hj
      simp only [beq_eq_false_iff_ne, ne_eq]
      exact h4 q.1 h1 j (by omega) (Or.inr ⟨rfl, hj⟩)
  have := freeFrameSearch_found cfg m q.1 q.2 hfi cfg.CART_MAX_CARTRIDGES 0 (Nat.zero_le _)
    (by omega) (fun c _ hc => by
      apply firstIndex_eq_none
      intro f hf
      simp only [beq_eq_false_iff_ne, ne_eq]
      exact h4 c (by omega) f hf (Or.inl hc))
  exact this

theorem cart_write_body_left (cfg : CartConfig) (idx : Nat) (buf : Buf) (L L1 : WriteLoop)
    (h : cart_write_body cfg idx buf L = some L1) :
    L1.bytes_left_to_write
      = L.bytes_left_to_write - chunk L.start_write_bit L.bytes_left_to_write := by
  cases hp : L.tempPtr with
  | none =>
    unfold cart_write_body at h
    rw [hp] at h
    exact Option.noConfusion h
  | some p =>
    unfold cart_write_body at h
    rw [hp] at h
    simp only [Option.some.injEq] at h
    subst h
    rfl

theorem cart_write_loop_records (cfg : CartConfig) (idx : Nat) (buf : Buf) (fuel : Nat)
    (L0 L1 : WriteLoop) (hl : cart_write_loop cfg idx buf fuel L0 = some L1) :
    (∀ a b, (L0.st.mainStructure.infoTable a b).handle ≠ -1 →
      (L1.st.mainStructure.infoTable a b).handle = (L0.st.mainStructure.infoTable a b).handle)
    ∧ (∀ a b, (L1.st.mainStructure.infoTable a b).cart_num
          = (L0.st.mainStructure.infoTable a b).cart_num
        ∧ (L1.st.mainStructure.infoTable a b).frame_num
          = (L0.st.mainStructure.infoTable a b).frame_num)
    ∧ L1.st.mainStructure.cart_is_on = L0.st.mainStructure.cart_is_on := by
  refine cart_write_loop_induct cfg idx buf
    (fun L =>
      (∀ a b, (L0.st.mainStructure.infoTable a b).handle ≠ -1 →
        (L.st.mainStructure.infoTable a b).handle = (L0.st.mainStructure.infoTable a b).handle)
      ∧ (∀ a b, (L.st.mainStructure.infoTable a b).cart_num
            = (L0.st.mainStructure.infoTable a b).cart_num
          ∧ (L.st.mainStructure.infoTable a b).frame_num
            = (L0.st.mainStructure.infoTable a b).frame_num)
      ∧ L.st.mainStructure.cart_is_on = L0.st.mainStructure.cart_is_on)
    ?_ fuel L0 L1 ⟨fun _ _ _ => rfl, fun _ _ => ⟨rfl, rfl⟩, rfl⟩ hl
  intro L L2 hP _ hb
  obtain ⟨p1, p2, p3⟩ := hP
  obtain ⟨b1, _, b3, b4⟩ := cart_write_body_records cfg idx buf L L2 hb
  refine ⟨fun a b hab => ?_, fun a b => ?_, b4.trans p3⟩
  · have h1 := p1 a b hab
    rw [b1 a b (by rw [h1]; exact hab), h1]
  · exact ⟨(b3 a b).1.trans (p2 a b).1, (b3 a b).2.trans (p2 a b).2⟩

/-- A write that does not reach the end of its frame changes no owner. -/
theorem cart_write_loop_nofill (cfg : CartConfig) (idx : Nat) (buf : Buf) (fuel : Nat)
    (L0 L1 : WriteLoop) (hl : cart_write_loop cfg idx buf fuel L0 = some L1)
    (hsb : 0 ≤ L0.start_write_bit)
    (hfit : L0.start_write_bit + L0.bytes_left_to_write < 1024) :
    ∀ a b, (L1.st.mainStructure.infoTable a b).handle
      = (L0.st.mainStructure.infoTable a b).handle := by
  refine (cart_write_loop_induct cfg idx buf
    (fun L =>
      (∀ a b, (L.st.mainStructure.infoTable a b).handle
        = (L0.st.mainStructure.infoTable a b).handle)
      ∧ (L = L0 ∨ L.bytes_left_to_write ≤ 0))
    ?_ fuel L0 L1 ⟨fun _ _ => rfl, Or.inl rfl⟩ hl).1
  intro L L2 hP hpos hb
  obtain ⟨p1, p2⟩ := hP
  rcases p2 with p2 | p2
  · subst p2
    have hch : chunk L.start_write_bit L.bytes_left_to_write = L.bytes_left_to_write := by
      unfold chunk
      rw [if_neg (by omega)]
    obtain ⟨_, b2, _, _⟩ := cart_write_body_records cfg idx buf L L2 hb
    have hleft := cart_write_body_left cfg idx buf L L2 hb
    rw [hch] at b2 hleft
    have hu : toU32 (L.start_write_bit + L.bytes_left_to_write) ≠ 1024 := by
      unfold toU32
      omega
    exact ⟨b2 hu, Or.inr (by omega)⟩
  · omega
/-- C26 (amended): `cart_write` is called with a known handle `fd` of a file with no
chain, and `q` is the first free Frame Record of the grid in ascending (cartridge, frame)
order.  When the call returns, `q` is the chain head of the file; `q` is owned by `fd`
(for `fd` other than the free marker -1); no record that had an owner changes owner;
and when the call does not reach the end of the head frame
(`cursor % 1024 + count < 1024`), `q` is owned by `fd` and no other Frame Record changes
owner. -/
theorem C26_chain_head_allocation (cfg : CartConfig) (s : State) (fd : Int)
    (buf tempbuf0 : Buf) (count : Int) (idx : Nat) (q : Nat × Nat) (r : State × Int)
    (hfd : findHandle cfg s.mainStructure fd = some idx)
    (hnone : (s.mainStructure.fileTable idx).tablePtr = none)
    (hq : FirstFree cfg s.mainStructure q)
    (hret : cart_write cfg s fd buf count tempbuf0 = some r) :
    (r.1.mainStructure.fileTable idx).tablePtr = some q
    ∧ (fd ≠ -1 → (r.1.mainStructure.infoTable q.1 q.2).handle = fd)
    ∧ (∀ a b, (s.mainStructure.infoTable a b).handle ≠ -1 →
        (r.1.mainStructure.infoTable a b).handle = (s.mainStructure.infoTable a b).handle)
    ∧ ((((s.mainStructure.fileTable idx).location % 1024 : Nat) : Int) + count < 1024 →
        (r.1.mainStructure.infoTable q.1 q.2).handle = fd
        ∧ ∀ a b, ¬ (a = q.1 ∧ b = q.2) →
          (r.1.mainStructure.infoTable a b).handle = (s.mainStructure.infoTable a b).handle) := by
  have hsearch := freeFrameSearch_firstFree cfg s.mainStructure q hq
  unfold cart_write at hret
  rw [hfd] at hret
  simp only [hnone, if_true, hsearch] at hret
  split at hret
  · exact Option.noConfusion hret
  · split at hret
    · exact Option.noConfusion hret
    · rename_i tp hw L1 hl
      simp only [Option.some.injEq] at hret
      subst hret
      simp only []
      have hfr := cart_write_loop_frame cfg idx buf _ _ L1 hl
      have hrec := cart_write_loop_records cfg idx buf _ _ L1 hl
      have hq0 : ∀ a b, ((setInfo (setFile s.mainStructure idx
          { s.mainStructure.fileTable idx with tablePtr := some q }) q
          { s.mainStructure.infoTable q.1 q.2 with handle := fd }).infoTable a b).handle
          = if a = q.1 ∧ b = q.2 then fd else (s.mainStructure.infoTable a b).handle := by
        intro a b
        rw [setInfo_apply]
        split <;> rfl
      refine ⟨?_, ?_, ?_, ?_⟩
      · rw [hfr.2.2.2.2.2.1]
        simp only [setInfo_fileTable, setFile_same]
      · intro hne
        have h1 := hq0 q.1 q.2
        rw [if_pos ⟨rfl, rfl⟩] at h1
        have h2 := hrec.1 q.1 q.2 (by rw [h1]; exact hne)
        exact h2.trans h1
      · intro a b hab
        have hne : ¬ (a = q.1 ∧ b = q.2) := by
          intro hab2
          rw [hab2.1, hab2.2] at hab
          exact hab hq.2.2.1
        have h1 := hq0 a b
        rw [if_neg hne] at h1
        have h2 := hrec.1 a b (by rw [h1]; exact hab)
        exact h2.trans h1
      · intro hfit
        have hno := cart_write_loop_nofill cfg idx buf _ _ L1 hl (Int.natCast_nonneg _)
          (by simp only [setInfo_fileTable, setFile_same]; exact hfit)
        refine ⟨?_, fun a b hne => ?_⟩
        · have h1 := hq0 q.1 q.2
          rw [if_pos ⟨rfl, rfl⟩] at h1
          exact (hno q.1 q.2).trans h1
        · have h1 := hq0 a b
          rw [if_neg hne] at h1
          exact (hno a b).trans h1

/-- Witness of C26: after `cart_poweron` and `cart_open("a")` the file has no chain and
the first free record is (0, 0); `cart_write(0, buf, 2048)` returns, makes (0, 0) the
chain head owned by the handle 0, and no owned record changes owner. -/
theorem C26_chain_head_allocation_witness :
    (cart_write smallConfig openedState 0 allOnes 2048 zeroBuf).isSome = true
    ∧ (((cart_write smallConfig openedState 0 allOnes 2048 zeroBuf).getD
          (bootState, 0)).1.mainStructure.fileTable 0).tablePtr = some ((0, 0) : Nat × Nat)
    ∧ ((0 : Int) ≠ -1 →
        (((cart_write smallConfig openedState 0 allOnes 2048 zeroBuf).getD
          (bootState, 0)).1.mainStructure.infoTable 0 0).handle = 0)
    ∧ (∀ a b, (openedState.mainStructure.infoTable a b).handle ≠ -1 →
        (((cart_write smallConfig openedState 0 allOnes 2048 zeroBuf).getD
          (bootState, 0)).1.mainStructure.infoTable a b).handle
          = (openedState.mainStructure.infoTable a b).handle)
    ∧ ((((openedState.mainStructure.fileTable 0).location % 1024 : Nat) : Int) + 2048 < 1024 →
        (((cart_write smallConfig openedState 0 allOnes 2048 zeroBuf).getD
          (bootState, 0)).1.mainStructure.infoTable 0 0).handle = 0
        ∧ ∀ a b, ¬ (a = 0 ∧ b = 0) →
          (((cart_write smallConfig openedState 0 allOnes 2048 zeroBuf).getD
            (bootState, 0)).1.mainStructure.infoTable a b).handle
            = (openedState.mainStructure.infoTable a b).handle) :=
  ⟨by decide, C26_chain_head_allocation smallConfig openedState 0 allOnes zeroBuf 2048 0 (0, 0) _
    (by decide) (by decide) (by unfold FirstFree; decide)
    (eq_some_getD _ (bootState, 0) (by decide))⟩

/-- C26 (counterexample to the unrestricted claim): after `cart_poweron` and
`cart_open("a")` the file (handle 0) has no chain and the records (0, 0) and (0, 1) are
free; `cart_write(0, buf, 1024)` makes (0, 0) the chain head owned by 0, and also changes
the owner of the record (0, 1) from -1 to 0. -/
theorem C26_counterexample :
    findHandle smallConfig openedState.mainStructure 0 = some 0
    ∧ (openedState.mainStructure.fileTable 0).tablePtr = none
    ∧ (openedState.mainStructure.infoTable 0 0).handle = -1
    ∧ (openedState.mainStructure.infoTable 0 1).handle = -1
    ∧ (cart_write smallConfig openedState 0 allOnes 1024 zeroBuf).map
        (fun r => ((r.1.mainStructure.fileTable 0).tablePtr,
          (r.1.mainStructure.infoTable 0 0).handle,
          (r.1.mainStructure.infoTable 0 1).handle))
        = some (some (0, 0), 0, 0) := by
  decide

/-! ## The requests of `cart_read` and `cart_write` -/

theorem maskShift_mod16 (n sh : Nat) :
    maskShift (n : Int) 0xffff sh = maskShift ((n % 65536 : Nat) : Int) 0xffff sh := by
  have hb : ∀ k : Nat, bits64 (k : Int) &&& 0xffff = k % 65536 := by
    intro k
    have h1 : bits64 (k : Int) = k % 18446744073709551616 := by
      unfold bits64
      omega
    have h2 : (0xffff : Nat) = 2 ^ 16 - 1 := by norm_num
    rw [h1, h2, Nat.and_pow_two_sub_one_eq_mod]
    norm_num
  unfold maskShift
  rw [hb n, hb (n % 65536)]
  simp

/-- The fields of a register built by `create_cart_opcode`: the opcode, and the
cartridge and frame arguments modulo 2^16. -/
theorem reg_decode_mod (op c f : Nat) (hop : op < 128) :
    extract_reg (create_cart_opcode op 0 0 c f) = (op : Int)
    ∧ regCart (create_cart_opcode op 0 0 c f) = c % 65536
    ∧ regFrame (create_cart_opcode op 0 0 c f) = f % 65536 := by
  have he : create_cart_opcode op 0 0 c f
      = create_cart_opcode op 0 0 ((c % 65536 : Nat) : Int) ((f % 65536 : Nat) : Int) := by
    unfold create_cart_opcode
    simp only []
    rw [maskShift_mod16 c 31, maskShift_mod16 f 15]
  rw [he]
  exact reg_decode op (c % 65536) (f % 65536) hop (Nat.mod_lt _ (by norm_num))
    (Nat.mod_lt _ (by norm_num))

theorem busCall_log (cfg : CartConfig) (t : Transport) (r : Fields) (buf : Buf) :
    (busCall cfg t r buf).1.log
      = t.log ++ [create_cart_opcode r.ky1 r.ky2 r.rt1 r.ct1 r.fm1] := by
  unfold busCall client_cart_bus_request
  simp only []
  split_ifs <;> rfl

theorem frameGroup_two (cfg : CartConfig) (hd : OpcodesDistinct cfg) (c f : Nat) (op : Nat)
    (hop : op = cfg.CART_OP_RDFRME ∨ op = cfg.CART_OP_WRFRME) :
    FrameGroup cfg c f
      [create_cart_opcode cfg.CART_OP_LDCART 0 0 c 0, create_cart_opcode op 0 0 0 f] := by
  have hl := reg_decode_mod cfg.CART_OP_LDCART c 0 hd.2.2.1
  have ho : op < 128 := by
    rcases hop with h | h
    · rw [h]; exact hd.2.2.2.1
    · rw [h]; exact hd.2.2.2.2.1
  have hr := reg_decode_mod op 0 f ho
  simp only [Nat.cast_zero] at hl hr
  refine ⟨_, _, rfl, by simp, hl.1, hl.2.1, fun r hr2 => ?_⟩
  simp only [List.mem_singleton] at hr2
  subst hr2
  refine ⟨?_, hr.2.2⟩
  rcases hop with h | h
  · left; rw [hr.1, h]
  · right; rw [hr.1, h]

theorem frameGroup_three (cfg : CartConfig) (hd : OpcodesDistinct cfg) (c f : Nat) :
    FrameGroup cfg c f
      [create_cart_opcode cfg.CART_OP_LDCART 0 0 c 0,
       create_cart_opcode cfg.CART_OP_RDFRME 0 0 0 f,
       create_cart_opcode cfg.CART_OP_WRFRME 0 0 0 f] := by
  have hl := reg_decode_mod cfg.CART_OP_LDCART c 0 hd.2.2.1
  have hr := reg_decode_mod cfg.CART_OP_RDFRME 0 f hd.2.2.2.1
  have hw := reg_decode_mod cfg.CART_OP_WRFRME 0 f hd.2.2.2.2.1
  simp only [Nat.cast_zero] at hl hr hw
  refine ⟨_, _, rfl, by simp, hl.1, hl.2.1, fun r hr2 => ?_⟩
  simp only [List.mem_cons, List.mem_singleton, List.not_mem_nil, or_false] at hr2
  rcases hr2 with h | h
  · subst h
    exact ⟨Or.inl hr.1, hr.2.2⟩
  · subst h
    exact ⟨Or.inr hw.1, hw.2.2⟩

/-! ## The power cycle -/

theorem clearedTables_file (cfg : CartConfig) (m : CartStructure) (i : Nat)
    (hi : i < cfg.CART_MAX_TOTAL_FILES) :
    (clearedTables cfg m).fileTable i =
      { fileName := strncpy (m.fileTable i).fileName (cstr [32]) cfg.CART_MAX_PATH_LENGTH
        open_ := false, filled := false, handle := -1, length := 0
        tablePtr := none, location := 0 } := by
  simp only [clearedTables]
  rw [if_pos hi]

theorem clearedTables_info (cfg : CartConfig) (m : CartStructure) (c f : Nat)
    (hc : c < cfg.CART_MAX_CARTRIDGES) (hf : f < cfg.CART_CARTRIDGE_SIZE) :
    (clearedTables cfg m).infoTable c f =
      { handle := -1, bytesUsed := 0, cart_num := c, frame_num := f, nextFrame := none } := by
  simp only [clearedTables]
  rw [if_pos ⟨hc, hf⟩]

theorem placeholder_name (dst : Buf) (n : Nat) (hn : 2 ≤ n) :
    strncpy dst (cstr [32]) n 0 = 32 ∧ strncpy dst (cstr [32]) n 1 = 0 := by
  unfold strncpy
  constructor
  · rw [if_pos (by omega : 0 < n)]
    rfl
  · rw [if_pos (by omega : 1 < n)]
    rfl

theorem cart_poweron_on (cfg : CartConfig) (s0 : State) (hon : (cart_poweron cfg s0).2 = 0) :
    s0.mainStructure.cart_is_on = false
    ∧ (cart_poweron cfg s0).1.mainStructure
        = { clearedTables cfg s0.mainStructure with cart_is_on := true }
    ∧ (cart_poweron cfg s0).1.cache = init_cart_cache s0.cache := by
  unfold cart_poweron at hon ⊢
  cases h : s0.mainStructure.cart_is_on with
  | true =>
    rw [h] at hon
    simp only [if_true] at hon
    have h2 : (-1 : Int) = 0 := hon
    exact absurd h2 (by decide)
  | false =>
    simp only [Bool.false_eq_true, if_false]
    exact ⟨trivial, trivial, trivial⟩

theorem cart_poweron_off (cfg : CartConfig) (s : State)
    (h : s.mainStructure.cart_is_on = false) :
    (cart_poweron cfg s).2 = 0
    ∧ (cart_poweron cfg s).1.mainStructure
        = { clearedTables cfg s.mainStructure with cart_is_on := true }
    ∧ (cart_poweron cfg s).1.cache = init_cart_cache s.cache := by
  unfold cart_poweron
  rw [h]
  simp only [Bool.false_eq_true, if_false]
  exact ⟨trivial, trivial, trivial⟩

theorem cart_poweroff_on (cfg : CartConfig) (s : State)
    (h : s.mainStructure.cart_is_on = true) :
    (cart_poweroff cfg s).2 = 0
    ∧ (cart_poweroff cfg s).1.mainStructure
        = clearedTables cfg { s.mainStructure with cart_is_on := false }
    ∧ (cart_poweroff cfg s).1.cache = close_cart_cache s.cache := by
  unfold cart_poweroff
  rw [h]
  simp only [Bool.not_true, Bool.false_eq_true, if_false]
  exact ⟨trivial, trivial, trivial⟩

theorem cart_poweron_placeholder (cfg : CartConfig) (s0 : State)
    (hpath : 2 ≤ cfg.CART_MAX_PATH_LENGTH) (hon : (cart_poweron cfg s0).2 = 0) :
    PlaceholderInv cfg (cart_poweron cfg s0).1.mainStructure := by
  obtain ⟨_, hm, _⟩ := cart_poweron_on cfg s0 hon
  rw [hm]
  intro i hi
  have hf : ({ clearedTables cfg s0.mainStructure with cart_is_on := true } : CartStructure).fileTable i
      = (clearedTables cfg s0.mainStructure).fileTable i := rfl
  rw [hf, clearedTables_file cfg _ i hi]
  exact ⟨fun _ => placeholder_name _ _ hpath, fun h => Bool.noConfusion h⟩

theorem placeholderInv_of_sameNames (cfg : CartConfig) (m m1 : CartStructure)
    (h : PlaceholderInv cfg m) (hs : SameNames m m1) : PlaceholderInv cfg m1 := by
  intro i hi
  obtain ⟨h1, h2, _⟩ := hs i
  rw [h1, h2]
  exact h i hi

/-- A name that does not match the placeholder " " is not empty and is not " ". -/
theorem not_placeholder_of_no_match (b : Buf) (path : List Nat)
    (hb : b 0 = 32 ∧ b 1 = 0) (h : strncmp0 b (cstr path) (strlen path) 0 = false) :
    1 ≤ strlen path ∧ ¬ (cstr path 0 = 32 ∧ (1 < strlen path → cstr path 1 = 0)) := by
  rw [strncmp0_false_iff] at h
  obtain ⟨j, _, hj, hne, hall⟩ := h
  refine ⟨by omega, fun hp => ?_⟩
  by_cases hj0 : j = 0
  · subst hj0
    rw [hb.1, hp.1] at hne
    exact hne rfl
  · have h1 := (hall 1 (by omega))
    by_cases hj1 : j = 1
    · subst hj1
      have := cstr_ne_zero path 1 (by omega)
      exact this (hp.2 (by omega))
    · exact (h1 (by omega)).2 hb.2

theorem cart_open_placeholder (cfg : CartConfig) (s s1 : State) (path : List Nat) (r : Int)
    (h : cart_open cfg s path = some (s1, r)) (hinv : PlaceholderInv cfg s.mainStructure) :
    PlaceholderInv cfg s1.mainStructure
    ∧ s1.mainStructure.cart_is_on = s.mainStructure.cart_is_on := by
  cases hf : firstIndex (nameMatches s.mainStructure path) cfg.CART_MAX_TOTAL_FILES with
  | some i =>
    cases ho : (s.mainStructure.fileTable i).open_ with
    | true =>
      rw [cart_open_already_open cfg s path i hf ho] at h
      simp only [Option.some.injEq, Prod.mk.injEq] at h
      rw [← h.1]
      exact ⟨hinv, rfl⟩
    | false =>
      rw [cart_open_reopen cfg s path i hf ho] at h
      simp only [Option.some.injEq, Prod.mk.injEq] at h
      rw [← h.1]
      exact ⟨placeholderInv_of_sameNames cfg _ _ hinv (sameNames_setFile _ i _ rfl rfl rfl), rfl⟩
  | none =>
    cases hu : firstIndex (fun i => !(s.mainStructure.fileTable i).filled)
        cfg.CART_MAX_TOTAL_FILES with
    | none =>
      rw [cart_open_full cfg s path hf hu] at h
      exact Option.noConfusion h
    | some c =>
      obtain ⟨hcl, hcu, _⟩ := firstIndex_some hu
      rw [cart_open_create cfg s path c hf hu] at h
      simp only [Option.some.injEq, Prod.mk.injEq] at h
      rw [← h.1]
      refine ⟨fun i hi => ?_, rfl⟩
      by_cases hic : i = c
      · subst hic
        simp only []
        rw [setFile_same]
        simp only []
        have hunf : (s.mainStructure.fileTable i).filled = false := by simpa using hcu
        have hph := (hinv i hi).1 hunf
        have hno := firstIndex_none hf i hi
        unfold nameMatches at hno
        obtain ⟨hlen, hnot⟩ := not_placeholder_of_no_match _ path hph hno
        refine ⟨fun hx => Bool.noConfusion hx, fun _ => ?_⟩
        have h0 : strncpy (s.mainStructure.fileTable i).fileName (cstr path) (strlen path) 0
            = cstr path 0 := strncpy_name _ path 0 (by omega)
        rw [h0]
        refine ⟨cstr_ne_zero path 0 (by omega), fun hc => ?_⟩
        apply hnot
        refine ⟨hc.1, fun h1 => ?_⟩
        rw [← strncpy_name (s.mainStructure.fileTable i).fileName path 1 h1]
        exact hc.2
      · simp only []
        rw [setFile_ne _ c i _ hic]
        exact hinv i hi

theorem cart_write_on (cfg : CartConfig) (s : State) (fd : Int) (buf tempbuf0 : Buf)
    (count : Int) (r : State × Int) (h : cart_write cfg s fd buf count tempbuf0 = some r) :
    r.1.mainStructure.cart_is_on = s.mainStructure.cart_is_on := by
  unfold cart_write at h
  cases hf : findHandle cfg s.mainStructure fd with
  | none =>
    rw [hf] at h
    simp only [Option.some.injEq] at h
    subst h
    rfl
  | some idx =>
    rw [hf] at h
    simp only [] at h
    split at h
    · exact Option.noConfusion h
    · split at h
      · exact Option.noConfusion h
      · rename_i tp hw L1 hl
        simp only [Option.some.injEq] at h
        subst h
        have hrec := (cart_write_loop_records cfg idx buf _ _ L1 hl).2.2
        rw [hrec]
        simp only []
        split
        · split <;> rfl
        · rfl

theorem applyCall_placeholder (cfg : CartConfig) (s s1 : State) (c : FileCall)
    (h : applyCall cfg s c = some s1) (hinv : PlaceholderInv cfg s.mainStructure) :
    PlaceholderInv cfg s1.mainStructure
    ∧ s1.mainStructure.cart_is_on = s.mainStructure.cart_is_on := by
  cases c with
  | open_ path =>
    simp only [applyCall] at h
    cases ho : cart_open cfg s path with
    | none =>
      rw [ho] at h
      exact Option.noConfusion h
    | some r =>
      rw [ho] at h
      simp only [Option.map_some', Option.some.injEq] at h
      rw [← h]
      exact cart_open_placeholder cfg s r.1 path r.2 ho hinv
  | close fd =>
    simp only [applyCall] at h
    simp only [Option.some.injEq] at h
    rw [← h]
    cases hf : findHandle cfg s.mainStructure fd with
    | none =>
      rw [cart_close_none cfg s fd hf]
      exact ⟨hinv, rfl⟩
    | some idx =>
      cases hop : (s.mainStructure.fileTable idx).open_ with
      | false =>
        rw [cart_close_closed cfg s fd idx hf hop]
        exact ⟨hinv, rfl⟩
      | true =>
        rw [cart_close_ok cfg s fd idx hf hop]
        exact ⟨placeholderInv_of_sameNames cfg _ _ hinv (sameNames_setFile _ idx _ rfl rfl rfl),
          rfl⟩
  | seek fd loc =>
    simp only [applyCall] at h
    simp only [Option.some.injEq] at h
    rw [← h]
    cases hf : findHandle cfg s.mainStructure fd with
    | none =>
      rw [cart_seek_none cfg s fd loc hf]
      exact ⟨hinv, rfl⟩
    | some idx =>
      by_cases hbad : (s.mainStructure.fileTable idx).open_ = false
          ∨ (s.mainStructure.fileTable idx).length < loc
      · rw [cart_seek_fail cfg s fd loc idx hf hbad]
        exact ⟨hinv, rfl⟩
      · have hop : (s.mainStructure.fileTable idx).open_ = true := by
          cases hop : (s.mainStructure.fileTable idx).open_ with
          | true => rfl
          | false => exact absurd (Or.inl hop) hbad
        have hl : loc ≤ (s.mainStructure.fileTable idx).length := by
          by_cases hl : loc ≤ (s.mainStructure.fileTable idx).length
          · exact hl
          · exact absurd (Or.inr (by omega)) hbad
        rw [cart_seek_ok cfg s fd loc idx hf hop hl]
        exact ⟨placeholderInv_of_sameNames cfg _ _ hinv (sameNames_setFile _ idx _ rfl rfl rfl),
          rfl⟩
  | read fd buf count =>
    simp only [applyCall] at h
    cases hr : cart_read cfg s fd buf count with
    | none =>
      rw [hr] at h
      exact Option.noConfusion h
    | some r =>
      rw [hr] at h
      simp only [Option.map_some', Option.some.injEq] at h
      rw [← h]
      rcases cart_read_frame cfg s r.1 fd buf r.2.2 count r.2.1 hr with
        ⟨_, he⟩ | ⟨idx, x, _, hm, _⟩
      · rw [he]
        exact ⟨hinv, rfl⟩
      · rw [hm]
        exact ⟨placeholderInv_of_sameNames cfg _ _ hinv (sameNames_setFile _ idx _ rfl rfl rfl),
          rfl⟩
  | write fd buf count tempbuf0 =>
    simp only [applyCall] at h
    cases hw : cart_write cfg s fd buf count tempbuf0 with
    | none =>
      rw [hw] at h
      exact Option.noConfusion h
    | some r =>
      rw [hw] at h
      simp only [Option.map_some', Option.some.injEq] at h
      rw [← h]
      refine ⟨?_, cart_write_on cfg s fd buf tempbuf0 count r hw⟩
      rcases cart_write_frame cfg s r.1 fd buf tempbuf0 count r.2 hw with
        ⟨_, he⟩ | ⟨idx, _, p1, p2, p3, p4, _, _, _⟩
      · rw [he]
        exact hinv
      · apply placeholderInv_of_sameNames cfg _ _ hinv
        intro j
        by_cases hj : j = idx
        · subst hj
          exact ⟨p2, p3, p4⟩
        · rw [p1 j hj]
          exact ⟨rfl, rfl, rfl⟩

theorem runCalls_placeholder (cfg : CartConfig) (calls : List FileCall) :
    ∀ (s s1 : State), runCalls cfg s calls = some s1 →
      PlaceholderInv cfg s.mainStructure →
      PlaceholderInv cfg s1.mainStructure
      ∧ s1.mainStructure.cart_is_on = s.mainStructure.cart_is_on := by
  induction calls with
  | nil =>
    intro s s1 h hinv
    simp only [runCalls, Option.some.injEq] at h
    rw [← h]
    exact ⟨hinv, rfl⟩
  | cons c cs ih =>
    intro s s1 h hinv
    simp only [runCalls] at h
    cases ha : applyCall cfg s c with
    | none =>
      rw [ha] at h
      exact Option.noConfusion h
    | some s2 =>
      rw [ha] at h
      simp only [] at h
      obtain ⟨h1, h2⟩ := applyCall_placeholder cfg s s2 c ha hinv
      obtain ⟨h3, h4⟩ := ih s2 s1 h h1
      exact ⟨h3, h4.trans h2⟩

theorem powerCycle_eq (cfg : CartConfig) (s : State)
    (h : s.mainStructure.cart_is_on = true) :
    (cart_poweroff cfg s).2 = 0
    ∧ (cart_poweron cfg (cart_poweroff cfg s).1).2 = 0
    ∧ (∃ m, (powerCycle cfg s).mainStructure = { clearedTables cfg m with cart_is_on := true })
    ∧ (powerCycle cfg s).cache = init_cart_cache (close_cart_cache s.cache) := by
  obtain ⟨h1, h2, h3⟩ := cart_poweroff_on cfg s h
  have hoff : (cart_poweroff cfg s).1.mainStructure.cart_is_on = false := by
    rw [h2]
    rfl
  obtain ⟨h4, h5, h6⟩ := cart_poweron_off cfg (cart_poweroff cfg s).1 hoff
  refine ⟨h1, h4, ⟨_, h5⟩, ?_⟩
  unfold powerCycle
  rw [h6, h3]

/-- A name held by a filled entry does not match the placeholder name of an unfilled
entry. -/
theorem no_match_of_filled (b ph : Buf) (path : List Nat)
    (hb : b 0 ≠ 0 ∧ ¬ (b 0 = 32 ∧ b 1 = 0)) (hn : holdsName b path)
    (hph : ph 0 = 32 ∧ ph 1 = 0) :
    strncmp0 ph (cstr path) (strlen path) 0 = false := by
  obtain ⟨hn1, hn2⟩ := hn
  have hlen : 1 ≤ strlen path := by
    by_contra hlt
    have h0 : strlen path = 0 := by omega
    rw [h0] at hn2
    exact hb.1 hn2
  have hc0 : cstr path 0 = b 0 := (hn1 0 (by omega)).symm
  rw [strncmp0_false_iff]
  by_cases h32 : b 0 = 32
  · have hb1 : b 1 ≠ 0 := fun h => hb.2 ⟨h32, h⟩
    have hlen2 : 2 ≤ strlen path := by
      by_contra hlt
      have h1 : strlen path = 1 := by omega
      rw [h1] at hn2
      exact hb1 hn2
    have hc1 : cstr path 1 = b 1 := (hn1 1 (by omega)).symm
    refine ⟨1, by omega, by omega, ?_, fun i _ hi => ?_⟩
    · rw [hph.2, hc1]
      exact fun h => hb1 h.symm
    · have hi0 : i = 0 := by omega
      subst hi0
      rw [hph.1, hc0, h32]
      exact ⟨rfl, by decide⟩
  · refine ⟨0, le_refl _, by omega, ?_, fun i _ hi => by omega⟩
    rw [hph.1, hc0]
    exact fun h => h32 h.symm

/-- C21: in every state reached from a successful `cart_poweron` by calls of the file
interface (with a name array of at least 2 bytes), `cart_poweroff()` returns 0 and the
following `cart_poweron()` returns 0; afterwards every entry of the file table is
unfilled and closed with length 0, cursor 0 and no chain, every Frame Record of the grid
is free with 0 bytes used and no link, every slot of the cache is empty and the
occupancy is 0; and for every name that a filled, open entry held exactly before the
power-off, `cart_open` of that name creates a new file: it returns the handle 0 of the
entry 0, which is then filled and open with length 0, cursor 0 and no chain and carries
the characters of the name. -/
theorem C21_power_cycle (cfg : CartConfig) (s0 s : State) (calls : List FileCall)
    (hpath : 2 ≤ cfg.CART_MAX_PATH_LENGTH)
    (hon : (cart_poweron cfg s0).2 = 0)
    (hrun : runCalls cfg (cart_poweron cfg s0).1 calls = some s) :
    (cart_poweroff cfg s).2 = 0
    ∧ (cart_poweron cfg (cart_poweroff cfg s).1).2 = 0
    ∧ (∀ i, i < cfg.CART_MAX_TOTAL_FILES →
        ((powerCycle cfg s).mainStructure.fileTable i).filled = false
        ∧ ((powerCycle cfg s).mainStructure.fileTable i).open_ = false
        ∧ ((powerCycle cfg s).mainStructure.fileTable i).length = 0
        ∧ ((powerCycle cfg s).mainStructure.fileTable i).location = 0
        ∧ ((powerCycle cfg s).mainStructure.fileTable i).tablePtr = none)
    ∧ (∀ c f, c < cfg.CART_MAX_CARTRIDGES → f < cfg.CART_CARTRIDGE_SIZE →
        ((powerCycle cfg s).mainStructure.infoTable c f).handle = -1
        ∧ ((powerCycle cfg s).mainStructure.infoTable c f).bytesUsed = 0
        ∧ ((powerCycle cfg s).mainStructure.infoTable c f).nextFrame = none)
    ∧ (∀ i, i < DEFAULT_CART_FRAME_CACHE_SIZE →
        ((powerCycle cfg s).cache.frames i).time = -1
        ∧ ((powerCycle cfg s).cache.frames i).cart_num = 65535
        ∧ ((powerCycle cfg s).cache.frames i).frame_num = 65535)
    ∧ get_cache_num_occupied (powerCycle cfg s).cache = 0
    ∧ (∀ i path, i < cfg.CART_MAX_TOTAL_FILES →
        (s.mainStructure.fileTable i).filled = true →
        (s.mainStructure.fileTable i).open_ = true →
        holdsName (s.mainStructure.fileTable i).fileName path →
        ∃ s3, cart_open cfg (powerCycle cfg s) path = some (s3, 0)
          ∧ findHandle cfg s3.mainStructure 0 = some 0
          ∧ (s3.mainStructure.fileTable 0).filled = true
          ∧ (s3.mainStructure.fileTable 0).open_ = true
          ∧ (s3.mainStructure.fileTable 0).length = 0
          ∧ (s3.mainStructure.fileTable 0).location = 0
          ∧ (s3.mainStructure.fileTable 0).tablePtr = none
          ∧ ∀ k, k < strlen path → (s3.mainStructure.fileTable 0).fileName k = cstr path k) := by
  have hinv0 := cart_poweron_placeholder cfg s0 hpath hon
  obtain ⟨hinv, hison⟩ := runCalls_placeholder cfg calls _ s hrun hinv0
  have hon1 : s.mainStructure.cart_is_on = true := by
    rw [hison, (cart_poweron_on cfg s0 hon).2.1]
  obtain ⟨h1, h2, ⟨m, hm⟩, hc⟩ := powerCycle_eq cfg s hon1
  have hfile : ∀ i, i < cfg.CART_MAX_TOTAL_FILES →
      (powerCycle cfg s).mainStructure.fileTable i =
        { fileName := strncpy (m.fileTable i).fileName (cstr [32]) cfg.CART_MAX_PATH_LENGTH
          open_ := false, filled := false, handle := -1, length := 0
          tablePtr := none, location := 0 } := by
    intro i hi
    rw [hm]
    exact clearedTables_file cfg m i hi
  have hinfo : ∀ c f, c < cfg.CART_MAX_CARTRIDGES → f < cfg.CART_CARTRIDGE_SIZE →
      (powerCycle cfg s).mainStructure.infoTable c f =
        { handle := -1, bytesUsed := 0, cart_num := c, frame_num := f, nextFrame := none } := by
    intro c f hc1 hf1
    rw [hm]
    exact clearedTables_info cfg m c f hc1 hf1
  refine ⟨h1, h2, fun i hi => ?_, fun c f hc1 hf1 => ?_, fun i hi => ?_, ?_, ?_⟩
  · rw [hfile i hi]
    exact ⟨rfl, rfl, rfl, rfl, rfl⟩
  · rw [hinfo c f hc1 hf1]
    exact ⟨rfl, rfl, rfl⟩
  · rw [hc]
    simp only [init_cart_cache, close_cart_cache]
    rw [if_pos hi]
    split <;> exact ⟨rfl, rfl, rfl⟩
  · rw [hc]
    rfl
  · intro i path hi hfl _ hname
    have hfilled := (hinv i hi).2 hfl
    have hnone : firstIndex (nameMatches (powerCycle cfg s).mainStructure path)
        cfg.CART_MAX_TOTAL_FILES = none := by
      apply firstIndex_eq_none
      intro j hj
      unfold nameMatches
      rw [hfile j hj]
      exact no_match_of_filled _ _ path hfilled hname (placeholder_name _ _ hpath)
    have h0 : 0 < cfg.CART_MAX_TOTAL_FILES := by omega
    have hfree : firstIndex (fun i => !((powerCycle cfg s).mainStructure.fileTable i).filled)
        cfg.CART_MAX_TOTAL_FILES = some 0 := by
      apply firstIndex_eq_of_least h0
      · simp only [hfile 0 h0, Bool.not_false]
      · intro j hj
        omega
    have hopen := cart_open_create cfg (powerCycle cfg s) path 0 hnone hfree
    have ht : toInt16 0 = 0 := by decide
    rw [ht] at hopen
    refine ⟨_, hopen, ?_, ?_⟩
    · unfold findHandle
      apply firstIndex_eq_of_least h0
      · simp only []
        rw [setFile_same]
        rfl
      · intro j hj
        omega
    · simp only []
      rw [setFile_same]
      refine ⟨rfl, rfl, rfl, rfl, ?_, fun k hk => ?_⟩
      · simp only []
        rw [hfile 0 h0]
      · simp only []
        exact strncpy_name _ path k hk

/-- Witness of C21: on the small grid the file "a" is open with 2000 bytes;
`cart_poweroff()` and `cart_poweron()` return 0, and `cart_open("a")` then returns the
handle 0 of a new file of length 0 with no chain. -/
theorem C21_power_cycle_witness :
    (cart_poweron smallConfig (bootStateCap 2)).2 = 0
    ∧ runCalls smallConfig (cart_poweron smallConfig (bootStateCap 2)).1
        [FileCall.open_ [97], FileCall.write 0 allOnes 2000 zeroBuf] = some openFileState
    ∧ (openFileState.mainStructure.fileTable 0).length = 2000
    ∧ (cart_open smallConfig (powerCycle smallConfig openFileState) [97]).map
        (fun r => (r.2, (r.1.mainStructure.fileTable 0).length,
          (r.1.mainStructure.fileTable 0).tablePtr)) = some (0, 0, none)
    ∧ (cart_poweroff smallConfig openFileState).2 = 0
    ∧ (cart_poweron smallConfig (cart_poweroff smallConfig openFileState).1).2 = 0
    ∧ get_cache_num_occupied (powerCycle smallConfig openFileState).cache = 0
    ∧ (∃ s3, cart_open smallConfig (powerCycle smallConfig openFileState) [97] = some (s3, 0)
        ∧ findHandle smallConfig s3.mainStructure 0 = some 0
        ∧ (s3.mainStructure.fileTable 0).filled = true
        ∧ (s3.mainStructure.fileTable 0).open_ = true
        ∧ (s3.mainStructure.fileTable 0).length = 0
        ∧ (s3.mainStructure.fileTable 0).location = 0
        ∧ (s3.mainStructure.fileTable 0).tablePtr = none
        ∧ ∀ k, k < strlen [97] → (s3.mainStructure.fileTable 0).fileName k = cstr [97] k) :=
  ⟨by decide, eq_some_getD _ bootState (by decide), by decide, by decide,
    (C21_power_cycle smallConfig (bootStateCap 2) openFileState _ (by decide) (by decide)
      (eq_some_getD _ bootState (by decide))).1,
    (C21_power_cycle smallConfig (bootStateCap 2) openFileState _ (by decide) (by decide)
      (eq_some_getD _ bootState (by decide))).2.1,
    (C21_power_cycle smallConfig (bootStateCap 2) openFileState _ (by decide) (by decide)
      (eq_some_getD _ bootState (by decide))).2.2.2.2.2.1,
    (C21_power_cycle smallConfig (bootStateCap 2) openFileState _ (by decide) (by decide)
      (eq_some_getD _ bootState (by decide))).2.2.2.2.2.2 0 [97] (by decide) (by decide)
      (by decide) (by unfold holdsName; decide)⟩

/-! ## The decoder and the failing power calls -/

theorem extract_cache_opcode_zero (resp : Nat) (old : Fields) :
    (extract_cache_opcode resp old).2 = ⟨0, 0, 0, 0, 0⟩ := by
  have h1 : old.ky1 &&& 255 ≤ 255 := Nat.and_le_right
  have h2 : old.ky2 &&& 255 ≤ 255 := Nat.and_le_right
  have h3 : old.rt1 &&& 255 ≤ 255 := Nat.and_le_right
  have h4 : old.ct1 &&& 255 ≤ 255 := Nat.and_le_right
  have h5 : old.fm1 &&& 255 ≤ 255 := Nat.and_le_right
  unfold extract_cache_opcode shl64
  simp only [Nat.shiftLeft_eq, Nat.shiftRight_eq_div_pow]
  norm_num
  refine ⟨?_, ?_, ?_, ?_, ?_⟩ <;> omega

/-- C33: for every register value `resp` and every prior content of the five output
variables, `extract_cart_opcode` and `extract_cache_opcode` return 0 and leave 0 in all
five outputs (opcode, key 2, status, cartridge, frame). -/
theorem C33_decoder_outputs_zero (resp : Nat) (old : Fields) :
    extract_cart_opcode resp old = (0, ⟨0, 0, 0, 0, 0⟩)
    ∧ extract_cache_opcode resp old = (0, ⟨0, 0, 0, 0, 0⟩) := by
  constructor
  · exact Prod.ext rfl (extract_cart_opcode_zero resp old)
  · exact Prod.ext rfl (extract_cache_opcode_zero resp old)

/-- A `cart_poweron` on a device that is on returns -1 and leaves the two tables and the
device, and has reset the cache with `init_cart_cache`. -/
theorem cart_poweron_fail (cfg : CartConfig) (s : State)
    (h : s.mainStructure.cart_is_on = true) :
    (cart_poweron cfg s).2 = -1
    ∧ (cart_poweron cfg s).1.mainStructure = s.mainStructure
    ∧ (cart_poweron cfg s).1.bus = s.bus
    ∧ (cart_poweron cfg s).1.cache = init_cart_cache s.cache := by
  unfold cart_poweron
  rw [h]
  simp only [if_true]
  exact ⟨trivial, trivial, trivial, trivial⟩

/-- A `cart_poweroff` on a device that is off returns -1 and leaves the two tables and
the device, and has reset the cache with `close_cart_cache`. -/
theorem cart_poweroff_fail (cfg : CartConfig) (s : State)
    (h : s.mainStructure.cart_is_on = false) :
    (cart_poweroff cfg s).2 = -1
    ∧ (cart_poweroff cfg s).1.mainStructure = s.mainStructure
    ∧ (cart_poweroff cfg s).1.bus = s.bus
    ∧ (cart_poweroff cfg s).1.cache = close_cart_cache s.cache := by
  unfold cart_poweroff
  rw [h]
  simp only [Bool.not_false, if_true]
  exact ⟨trivial, trivial, trivial, trivial⟩

/-- C32 (failing inputs): with the file "a" open and two of its frames cached
(occupancy 2), `cart_poweron()` on the powered device returns -1 and leaves the cache
with occupancy 0 and the pair (0, 1) no longer held; with the device off and the pairs
(1, 1) and (2, 2) cached, `cart_poweroff()` returns -1 and leaves the pair (1, 1) no
longer held, slot 0 with timestamp -1 and the cache closed. -/
theorem C32_failed_power_call_resets_cache :
    openFileState.mainStructure.cart_is_on = true
    ∧ get_cache_num_occupied openFileState.cache = 2
    ∧ (get_cart_cache openFileState.cache 0 1).2.isSome = true
    ∧ (cart_poweron smallConfig openFileState).2 = -1
    ∧ get_cache_num_occupied (cart_poweron smallConfig openFileState).1.cache = 0
    ∧ (get_cart_cache (cart_poweron smallConfig openFileState).1.cache 0 1).2 = none
    ∧ offStateWithCache.mainStructure.cart_is_on = false
    ∧ (get_cart_cache offStateWithCache.cache 1 1).2 = some 0
    ∧ (offStateWithCache.cache.frames 0).time = 0
    ∧ (cart_poweroff smallConfig offStateWithCache).2 = -1
    ∧ (get_cart_cache (cart_poweroff smallConfig offStateWithCache).1.cache 1 1).2 = none
    ∧ ((cart_poweroff smallConfig offStateWithCache).1.cache.frames 0).time = -1
    ∧ (cart_poweroff smallConfig offStateWithCache).1.cache.open_ = false := by
  decide

/-! ## Chains of Frame Records -/

theorem isChain_none (m : CartStructure) (l : List (Nat × Nat)) (h : IsChain m none l) :
    l = [] := by
  cases l with
  | nil => rfl
  | cons q l =>
    unfold IsChain at h
    exact Option.noConfusion h.1

theorem isChain_congr (m m1 : CartStructure) :
    ∀ (l : List (Nat × Nat)) (p : FramePtr),
      (∀ q, q ∈ l → (m1.infoTable q.1 q.2).nextFrame = (m.infoTable q.1 q.2).nextFrame) →
      IsChain m p l → IsChain m1 p l := by
  intro l
  induction l with
  | nil =>
    intro p _ h
    exact h
  | cons q l ih =>
    intro p hq h
    unfold IsChain at h ⊢
    refine ⟨h.1, ?_⟩
    rw [hq q (List.mem_cons_self _ _)]
    exact ih _ (fun r hr => hq r (List.mem_cons_of_mem _ hr)) h.2

theorem isChain_next_mem (m : CartStructure) :
    ∀ (l : List (Nat × Nat)) (p : FramePtr) (q q1 : Nat × Nat),
      IsChain m p l → q ∈ l → (m.infoTable q.1 q.2).nextFrame = some q1 → q1 ∈ l := by
  intro l
  induction l with
  | nil =>
    intro p q q1 _ hq _
    exact absurd hq (List.not_mem_nil q)
  | cons r l ih =>
    intro p q q1 h hq hn
    unfold IsChain at h
    rcases List.mem_cons.1 hq with hqr | hql
    · subst hqr
      rw [hn] at h
      cases l with
      | nil =>
        unfold IsChain at h
        exact Option.noConfusion h.2
      | cons r1 l1 =>
        unfold IsChain at h
        have h1 : q1 = r1 := Option.some.inj h.2.1
        rw [h1]
        exact List.mem_cons_of_mem _ (List.mem_cons_self _ _)
    · exact List.mem_cons_of_mem _ (ih _ q q1 h.2 hql hn)

theorem isChain_walk_mem (m : CartStructure) :
    ∀ (k : Nat) (l : List (Nat × Nat)) (p : FramePtr) (q : Nat × Nat),
      IsChain m p l → walkFrames m k p = some (some q) → q ∈ l := by
  intro k
  induction k with
  | zero =>
    intro l p q h hw
    unfold walkFrames at hw
    simp only [Option.some.injEq] at hw
    subst hw
    cases l with
    | nil =>
      unfold IsChain at h
      exact Option.noConfusion h
    | cons r l =>
      unfold IsChain at h
      have h1 : q = r := Option.some.inj h.1
      rw [h1]
      exact List.mem_cons_self _ _
  | succ k ih =>
    intro l p q h hw
    cases l with
    | nil =>
      unfold IsChain at h
      subst h
      unfold walkFrames at hw
      exact Option.noConfusion hw
    | cons r l =>
      unfold IsChain at h
      rw [h.1] at hw
      unfold walkFrames at hw
      simp only [] at hw
      exact List.mem_cons_of_mem _ (ih l _ q h.2 hw)

/-- Linking a new record `q` after the last record `a` of a chain. -/
theorem isChain_append (m m1 : CartStructure) (a q : Nat × Nat)
    (ha : (m.infoTable a.1 a.2).nextFrame = none)
    (ha1 : (m1.infoTable a.1 a.2).nextFrame = some q)
    (hq1 : (m1.infoTable q.1 q.2).nextFrame = none) :
    ∀ (l : List (Nat × Nat)) (p : FramePtr),
      (∀ r, r ∈ l → r ≠ a →
        (m1.infoTable r.1 r.2).nextFrame = (m.infoTable r.1 r.2).nextFrame) →
      a ∈ l → IsChain m p l → IsChain m1 p (l ++ [q]) := by
  intro l
  induction l with
  | nil =>
    intro p _ hmem _
    exact absurd hmem (List.not_mem_nil a)
  | cons r l ih =>
    intro p hsame hmem h
    unfold IsChain at h
    by_cases hra : r = a
    · subst hra
      rw [ha] at h
      have hl := isChain_none m l h.2
      subst hl
      simp only [List.cons_append, List.nil_append]
      unfold IsChain
      refine ⟨h.1, ?_⟩
      rw [ha1]
      unfold IsChain
      refine ⟨rfl, ?_⟩
      rw [hq1]
      unfold IsChain
      rfl
    · have hal : a ∈ l := by
        rcases List.mem_cons.1 hmem with h1 | h1
        · exact absurd h1.symm hra
        · exact h1
      simp only [List.cons_append]
      unfold IsChain
      refine ⟨h.1, ?_⟩
      rw [hsame r (List.mem_cons_self _ _) hra]
      exact ih _ (fun x hx hxa => hsame x (List.mem_cons_of_mem _ hx) hxa) hal h.2

theorem freeFrameSearch_grid (cfg : CartConfig) (m : CartStructure) :
    ∀ (n i : Nat) (done : Bool) (q : Nat × Nat),
      (freeFrameSearch cfg m n i done).1 = some q →
      i ≤ q.1 ∧ q.1 < i + n ∧ q.2 < cfg.CART_CARTRIDGE_SIZE := by
  intro n
  induction n with
  | zero =>
    intro i done q h
    unfold freeFrameSearch at h
    exact Option.noConfusion h
  | succ n ih =>
    intro i done q h
    unfold freeFrameSearch at h
    cases hfi : firstIndex (fun j => (m.infoTable i j).handle == -1) cfg.CART_CARTRIDGE_SIZE with
    | some j =>
      rw [hfi] at h
      simp only [Option.some.injEq] at h
      obtain ⟨hj, _, _⟩ := firstIndex_some hfi
      rw [← h]
      exact ⟨le_refl _, by omega, hj⟩
    | none =>
      rw [hfi] at h
      simp only [] at h
      cases done with
      | true =>
        simp only [if_true] at h
        exact Option.noConfusion h
      | false =>
        simp only [Bool.false_eq_true, if_false] at h
        obtain ⟨h1, h2, h3⟩ := ih (i + 1) false q h
        exact ⟨by omega, by omega, h3⟩

/-- The assignment `tempPtr->bytesUsed = ..` keeps the link of every record. -/
theorem setInfo_bytesUsed_next (m : CartStructure) (p : Nat × Nat) (x : Nat) (a b : Nat) :
    ((setInfo m p { m.infoTable p.1 p.2 with bytesUsed := x }).infoTable a b).nextFrame
      = (m.infoTable a b).nextFrame := by
  rw [setInfo_apply]
  by_cases hab : a = p.1 ∧ b = p.2
  · rw [if_pos hab, hab.1, hab.2]
  · rw [if_neg hab]

/-- The link step `tempPtr->nextFrame = &infoTable[q]; infoTable[q].handle = h`: the new
record has the owner `h`, the old record links to it, and the links of the other
records are kept. -/
theorem setInfo_link_next (m : CartStructure) (p q : Nat × Nat) (hdl : Int) :
    ((setInfo (setInfo m p { m.infoTable p.1 p.2 with nextFrame := some q }) q
        { (setInfo m p { m.infoTable p.1 p.2 with nextFrame := some q }).infoTable q.1 q.2
          with handle := hdl }).infoTable q.1 q.2).handle = hdl
    ∧ ((setInfo (setInfo m p { m.infoTable p.1 p.2 with nextFrame := some q }) q
        { (setInfo m p { m.infoTable p.1 p.2 with nextFrame := some q }).infoTable q.1 q.2
          with handle := hdl }).infoTable p.1 p.2).nextFrame = some q
    ∧ ∀ a b, ¬ (a = p.1 ∧ b = p.2) →
      ((setInfo (setInfo m p { m.infoTable p.1 p.2 with nextFrame := some q }) q
        { (setInfo m p { m.infoTable p.1 p.2 with nextFrame := some q }).infoTable q.1 q.2
          with handle := hdl }).infoTable a b).nextFrame = (m.infoTable a b).nextFrame := by
  have hmid : ∀ x y,
      ((setInfo (setInfo m p { m.infoTable p.1 p.2 with nextFrame := some q }) q
        { (setInfo m p { m.infoTable p.1 p.2 with nextFrame := some q }).infoTable q.1 q.2
          with handle := hdl }).infoTable x y).nextFrame
      = ((setInfo m p { m.infoTable p.1 p.2 with nextFrame := some q }).infoTable x y).nextFrame := by
    intro x y
    rw [setInfo_apply]
    by_cases hxy : x = q.1 ∧ y = q.2
    · rw [if_pos hxy, hxy.1, hxy.2]
    · rw [if_neg hxy]
  refine ⟨?_, ?_, fun a b hab => ?_⟩
  · rw [setInfo_apply, if_pos ⟨rfl, rfl⟩]
  · rw [hmid, setInfo_apply, if_pos ⟨rfl, rfl⟩]
  · rw [hmid, setInfo_apply, if_neg hab]

theorem cart_write_body_chain (cfg : CartConfig) (idx : Nat) (buf : Buf) (L L1 : WriteLoop)
    (p : Nat × Nat) (hp : L.tempPtr = some p)
    (h : cart_write_body cfg idx buf L = some L1) :
    ((∀ a b, (L1.st.mainStructure.infoTable a b).handle
          = (L.st.mainStructure.infoTable a b).handle
        ∧ (L1.st.mainStructure.infoTable a b).nextFrame
          = (L.st.mainStructure.infoTable a b).nextFrame)
      ∧ (L1.tempPtr = some p
        ∨ (L1.tempPtr = (L.st.mainStructure.infoTable p.1 p.2).nextFrame
          ∧ (L.st.mainStructure.infoTable p.1 p.2).nextFrame ≠ none)))
    ∨ ∃ q : Nat × Nat, q.1 < cfg.CART_MAX_CARTRIDGES ∧ q.2 < cfg.CART_CARTRIDGE_SIZE
        ∧ (L.st.mainStructure.infoTable q.1 q.2).handle = -1
        ∧ (L.st.mainStructure.infoTable p.1 p.2).nextFrame = none
        ∧ L1.tempPtr = some q
        ∧ (L1.st.mainStructure.infoTable q.1 q.2).handle
            = (L.st.mainStructure.infoTable p.1 p.2).handle
        ∧ (L1.st.mainStructure.infoTable p.1 p.2).nextFrame = some q
        ∧ (∀ a b, ¬ (a = q.1 ∧ b = q.2) →
            (L1.st.mainStructure.infoTable a b).handle
              = (L.st.mainStructure.infoTable a b).handle)
        ∧ (∀ a b, ¬ (a = p.1 ∧ b = p.2) →
            (L1.st.mainStructure.infoTable a b).nextFrame
              = (L.st.mainStructure.infoTable a b).nextFrame) := by
  unfold cart_write_body at h
  rw [hp] at h
  simp only [Option.some.injEq] at h
  subst h
  simp only []
  have hm2 := fun x => setInfo_bytesUsed (setFile L.st.mainStructure idx
    { L.st.mainStructure.fileTable idx with
      location := toU32 (((L.st.mainStructure.fileTable idx).location : Int)
        + chunk L.start_write_bit L.bytes_left_to_write)
      length :=
        if toU32 (((L.st.mainStructure.fileTable idx).location : Int)
            + chunk L.start_write_bit L.bytes_left_to_write)
            > (L.st.mainStructure.fileTable idx).length
        then toU32 (((L.st.mainStructure.fileTable idx).location : Int)
            + chunk L.start_write_bit L.bytes_left_to_write)
        else (L.st.mainStructure.fileTable idx).length }) p x
  have hn2 := fun x => setInfo_bytesUsed_next (setFile L.st.mainStructure idx
    { L.st.mainStructure.fileTable idx with
      location := toU32 (((L.st.mainStructure.fileTable idx).location : Int)
        + chunk L.start_write_bit L.bytes_left_to_write)
      length :=
        if toU32 (((L.st.mainStructure.fileTable idx).location : Int)
            + chunk L.start_write_bit L.bytes_left_to_write)
            > (L.st.mainStructure.fileTable idx).length
        then toU32 (((L.st.mainStructure.fileTable idx).location : Int)
            + chunk L.start_write_bit L.bytes_left_to_write)
        else (L.st.mainStructure.fileTable idx).length }) p x
  split
  · rename_i hc1
    split
    · rename_i q hq
      right
      have hfree0 := freeFrameSearch_free cfg _ _ _ _ q hq
      have hfree : (L.st.mainStructure.infoTable q.1 q.2).handle = -1 :=
        (hm2 _ q.1 q.2).1.symm.trans hfree0
      obtain ⟨g1, g2, g3⟩ := freeFrameSearch_grid cfg _ _ _ _ q hq
      have hl := setInfo_link (setInfo (setFile L.st.mainStructure idx
        { L.st.mainStructure.fileTable idx with
          location := toU32 (((L.st.mainStructure.fileTable idx).location : Int)
            + chunk L.start_write_bit L.bytes_left_to_write)
          length :=
            if toU32 (((L.st.mainStructure.fileTable idx).location : Int)
                + chunk L.start_write_bit L.bytes_left_to_write)
                > (L.st.mainStructure.fileTable idx).length
            then toU32 (((L.st.mainStructure.fileTable idx).location : Int)
                + chunk L.start_write_bit L.bytes_left_to_write)
            else (L.st.mainStructure.fileTable idx).length }) p
        { L.st.mainStructure.infoTable p.1 p.2 with
          bytesUsed := toU32 (L.start_write_bit
            + chunk L.start_write_bit L.bytes_left_to_write) }) p q
        (L.st.mainStructure.infoTable p.1 p.2).handle
      have hln := setInfo_link_next (setInfo (setFile L.st.mainStructure idx
        { L.st.mainStructure.fileTable idx with
          location := toU32 (((L.st.mainStructure.fileTable idx).location : Int)
            + chunk L.start_write_bit L.bytes_left_to_write)
          length :=
            if toU32 (((L.st.mainStructure.fileTable idx).location : Int)
                + chunk L.start_write_bit L.bytes_left_to_write)
                > (L.st.mainStructure.fileTable idx).length
            then toU32 (((L.st.mainStructure.fileTable idx).location : Int)
                + chunk L.start_write_bit L.bytes_left_to_write)
            else (L.st.mainStructure.fileTable idx).length }) p
        { L.st.mainStructure.infoTable p.1 p.2 with
          bytesUsed := toU32 (L.start_write_bit
            + chunk L.start_write_bit L.bytes_left_to_write) }) p q
        (L.st.mainStructure.infoTable p.1 p.2).handle
      refine ⟨q, by omega, g3, hfree, hc1.2, rfl, hln.1, hln.2.1, fun a b hab => ?_,
        fun a b hab => ?_⟩
      · exact ((hl a b).1 hab).trans (hm2 _ a b).1
      · exact (hln.2.2 a b hab).trans (hn2 _ a b)
    · left
      exact ⟨fun a b => ⟨(hm2 _ a b).1, hn2 _ a b⟩, Or.inl rfl⟩
  · split
    · rename_i hc2
      left
      exact ⟨fun a b => ⟨(hm2 _ a b).1, hn2 _ a b⟩, Or.inr ⟨rfl, hc2.2⟩⟩
    · left
      exact ⟨fun a b => ⟨(hm2 _ a b).1, hn2 _ a b⟩, Or.inl rfl⟩

theorem chainInv_congr (cfg : CartConfig) (m m1 : CartStructure)
    (ch : Nat → List (Nat × Nat))
    (hinfo : ∀ a b, (m1.infoTable a b).handle = (m.infoTable a b).handle
      ∧ (m1.infoTable a b).nextFrame = (m.infoTable a b).nextFrame)
    (hfile : ∀ i, (m1.fileTable i).tablePtr = (m.fileTable i).tablePtr
      ∧ (m1.fileTable i).handle = (m.fileTable i).handle
      ∧ (m1.fileTable i).filled = (m.fileTable i).filled)
    (h : ChainInv cfg m ch) : ChainInv cfg m1 ch := by
  obtain ⟨hA, hB, hC, hE⟩ := h
  refine ⟨fun i hi => ?_, hB, fun c f hc hf hno => ?_, fun c f hc hf hfree => ?_⟩
  · obtain ⟨a1, a2, a3, a4⟩ := hA i hi
    rw [(hfile i).1, (hfile i).2.1, (hfile i).2.2]
    refine ⟨isChain_congr m m1 _ _ (fun q _ => (hinfo q.1 q.2).2) a1, a2, fun q hq => ?_, a4⟩
    rw [(hinfo q.1 q.2).1]
    exact a3 q hq
  · rw [(hinfo c f).1]
    exact hC c f hc hf hno
  · rw [(hinfo c f).1] at hfree
    rw [(hinfo c f).2]
    exact hE c f hc hf hfree

/-- The invariant when `cart_open` fills an unfilled entry: its chain is empty. -/
theorem chainInv_create (cfg : CartConfig) (m m1 : CartStructure)
    (ch : Nat → List (Nat × Nat)) (c : Nat)
    (hunf : (m.fileTable c).filled = false)
    (hinfo : m1.infoTable = m.infoTable)
    (hc1 : (m1.fileTable c).tablePtr = (m.fileTable c).tablePtr)
    (hc2 : (m1.fileTable c).filled = true)
    (hfile : ∀ i, i ≠ c → m1.fileTable i = m.fileTable i)
    (h : ChainInv cfg m ch) : ChainInv cfg m1 ch := by
  obtain ⟨hA, hB, hC, hE⟩ := h
  refine ⟨fun i hi => ?_, hB, fun a b ha hb hno => ?_, fun a b ha hb hfree => ?_⟩
  · obtain ⟨a1, a2, a3, a4⟩ := hA i hi
    by_cases hic : i = c
    · subst hic
      rw [hc1, hc2]
      refine ⟨isChain_congr m m1 _ _ (fun q _ => by rw [hinfo]) a1, a2, fun q hq => ?_,
        fun hx => Bool.noConfusion hx⟩
      exact absurd (a4 hunf) (a3 q hq).2
    · rw [hfile i hic]
      refine ⟨isChain_congr m m1 _ _ (fun q _ => by rw [hinfo]) a1, a2, fun q hq => ?_, a4⟩
      rw [hinfo]
      exact a3 q hq
  · rw [hinfo]
    exact hC a b ha hb hno
  · rw [hinfo] at hfree ⊢
    exact hE a b ha hb hfree

/-- The invariant when a free record `q` of the grid is put at the end of the chain of
the entry `idx`. -/
theorem chainInv_extend (cfg : CartConfig) (m m1 : CartStructure)
    (ch : Nat → List (Nat × Nat)) (idx : Nat) (q : Nat × Nat)
    (hidx : idx < cfg.CART_MAX_TOTAL_FILES)
    (hq1 : q.1 < cfg.CART_MAX_CARTRIDGES) (hq2 : q.2 < cfg.CART_CARTRIDGE_SIZE)
    (hfree : (m.infoTable q.1 q.2).handle = -1)
    (hh : (m.fileTable idx).handle ≠ -1)
    (hchain : IsChain m1 (m1.fileTable idx).tablePtr (ch idx ++ [q]))
    (hfile : ∀ i, (m1.fileTable i).handle = (m.fileTable i).handle
      ∧ (m1.fileTable i).filled = (m.fileTable i).filled
      ∧ (i ≠ idx → (m1.fileTable i).tablePtr = (m.fileTable i).tablePtr))
    (hown : (m1.infoTable q.1 q.2).handle = (m.fileTable idx).handle)
    (hhandle : ∀ a b, ¬ (a = q.1 ∧ b = q.2) →
      (m1.infoTable a b).handle = (m.infoTable a b).handle)
    (hnext : ∀ r : Nat × Nat, r ∉ ch idx →
      (m1.infoTable r.1 r.2).nextFrame = (m.infoTable r.1 r.2).nextFrame)
    (h : ChainInv cfg m ch) :
    ChainInv cfg m1 (Function.update ch idx (ch idx ++ [q])) := by
  obtain ⟨hA, hB, hC, hE⟩ := h
  have hqno : ∀ i, i < cfg.CART_MAX_TOTAL_FILES → q ∉ ch i := by
    intro i hi hmem
    have := (hA i hi).2.2.1 q hmem
    rw [hfree] at this
    exact this.2 this.1.symm
  have hne : ∀ r : Nat × Nat, r ≠ q → ¬ (r.1 = q.1 ∧ r.2 = q.2) := by
    intro r hr hx
    exact hr (Prod.ext hx.1 hx.2)
  refine ⟨fun i hi => ?_, fun i j hi hj hij r hr => ?_, fun a b ha hb hno => ?_,
    fun a b ha hb hfr => ?_⟩
  · obtain ⟨a1, a2, a3, a4⟩ := hA i hi
    rw [(hfile i).1, (hfile i).2.1]
    by_cases hii : i = idx
    · subst hii
      rw [Function.update_same]
      refine ⟨hchain, ?_, fun r hr => ?_, a4⟩
      · rw [List.nodup_append]
        refine ⟨a2, List.nodup_singleton q, fun x hx hxq => ?_⟩
        rw [List.mem_singleton] at hxq
        subst hxq
        exact hqno i hi hx
      · rcases List.mem_append.1 hr with h1 | h1
        · have hrq : r ≠ q := fun hx => hqno i hi (hx ▸ h1)
          rw [hhandle r.1 r.2 (hne r hrq)]
          exact a3 r h1
        · rw [List.mem_singleton] at h1
          subst h1
          exact ⟨hown, hh⟩
    · rw [Function.update_noteq hii, (hfile i).2.2 hii]
      refine ⟨isChain_congr m m1 _ _ (fun r hr => hnext r (hB i idx hi hidx hii r hr)) a1, a2,
        fun r hr => ?_, a4⟩
      have hrq : r ≠ q := fun hx => hqno i hi (hx ▸ hr)
      rw [hhandle r.1 r.2 (hne r hrq)]
      exact a3 r hr
  · by_cases hii : i = idx
    · subst hii
      rw [Function.update_same] at hr
      rw [Function.update_noteq (Ne.symm hij)]
      rcases List.mem_append.1 hr with h1 | h1
      · exact hB i j hi hj hij r h1
      · rw [List.mem_singleton] at h1
        subst h1
        exact hqno j hj
    · rw [Function.update_noteq hii] at hr
      by_cases hjj : j = idx
      · subst hjj
        rw [Function.update_same]
        intro hmem
        rcases List.mem_append.1 hmem with h1 | h1
        · exact hB i j hi hj hij r hr h1
        · rw [List.mem_singleton] at h1
          subst h1
          exact hqno i hi hr
      · rw [Function.update_noteq hjj]
        exact hB i j hi hj hij r hr
  · have hnq : ¬ (a = q.1 ∧ b = q.2) := by
      intro hx
      have h1 := hno idx hidx
      rw [Function.update_same] at h1
      apply h1
      rw [hx.1, hx.2]
      exact List.mem_append_right _ (List.mem_singleton_self q)
    rw [hhandle a b hnq]
    apply hC a b ha hb
    intro i hi hmem
    have h1 := hno i hi
    by_cases hii : i = idx
    · subst hii
      rw [Function.update_same] at h1
      exact h1 (List.mem_append_left _ hmem)
    · rw [Function.update_noteq hii] at h1
      exact h1 hmem
  · have hnq : ¬ (a = q.1 ∧ b = q.2) := by
      intro hx
      rw [hx.1, hx.2, hown] at hfr
      exact hh hfr
    rw [hhandle a b hnq] at hfr
    have hnot : ((a, b) : Nat × Nat) ∉ ch idx := by
      intro hmem
      have := (hA idx hidx).2.2.1 (a, b) hmem
      rw [hfr] at this
      exact this.2 this.1.symm
    rw [hnext (a, b) hnot]
    exact hE a b ha hb hfr

theorem cart_write_body_file (cfg : CartConfig) (idx : Nat) (buf : Buf) (L L1 : WriteLoop)
    (h : cart_write_body cfg idx buf L = some L1) :
    ∀ i, (L1.st.mainStructure.fileTable i).tablePtr = (L.st.mainStructure.fileTable i).tablePtr
      ∧ (L1.st.mainStructure.fileTable i).handle = (L.st.mainStructure.fileTable i).handle
      ∧ (L1.st.mainStructure.fileTable i).filled = (L.st.mainStructure.fileTable i).filled := by
  intro i
  rw [cart_write_body_of_some cfg idx buf L L1 h]
  by_cases hi : i = idx
  · subst hi
    rw [Function.update_same]
    exact ⟨rfl, rfl, rfl⟩
  · rw [Function.update_noteq hi]
    exact ⟨rfl, rfl, rfl⟩

/-- One iteration of the write loop keeps the chain invariant, and the walk pointer stays
on the chain of the file. -/
theorem cart_write_body_chainInv (cfg : CartConfig) (idx : Nat) (buf : Buf)
    (L L1 : WriteLoop) (hidx : idx < cfg.CART_MAX_TOTAL_FILES)
    (h : cart_write_body cfg idx buf L = some L1)
    (hP : ∃ ch, ChainInv cfg L.st.mainStructure ch
      ∧ (∀ p, L.tempPtr = some p → p ∈ ch idx)
      ∧ (L.st.mainStructure.fileTable idx).handle ≠ -1) :
    ∃ ch, ChainInv cfg L1.st.mainStructure ch
      ∧ (∀ p, L1.tempPtr = some p → p ∈ ch idx)
      ∧ (L1.st.mainStructure.fileTable idx).handle ≠ -1 := by
  obtain ⟨ch, hinv, hptr, hh⟩ := hP
  have hfile := cart_write_body_file cfg idx buf L L1 h
  cases hp : L.tempPtr with
  | none =>
    unfold cart_write_body at h
    rw [hp] at h
    exact Option.noConfusion h
  | some p =>
    have hpm := hptr p hp
    have hA := hinv.1 idx hidx
    have hpown := hA.2.2.1 p hpm
    rcases cart_write_body_chain cfg idx buf L L1 p hp h with
      ⟨hsame, htp⟩ | ⟨q, hq1, hq2, hfree, hpn, htp, hown, hlink, hhandle, hnext⟩
    · refine ⟨ch, chainInv_congr cfg _ _ ch hsame hfile hinv, fun p1 hp1 => ?_, ?_⟩
      · rcases htp with htp | ⟨htp, _⟩
        · rw [htp] at hp1
          rw [← Option.some.inj hp1]
          exact hpm
        · rw [htp] at hp1
          exact isChain_next_mem _ _ _ p p1 hA.1 hpm hp1
      · rw [(hfile idx).2.1]
        exact hh
    · have hpq : p ≠ q := by
        intro hx
        rw [hx, hfree] at hpown
        exact hpown.2 hpown.1.symm
      have hqn : (L.st.mainStructure.infoTable q.1 q.2).nextFrame = none :=
        hinv.2.2.2 q.1 q.2 hq1 hq2 hfree
      have hq1n : (L1.st.mainStructure.infoTable q.1 q.2).nextFrame = none := by
        rw [hnext q.1 q.2 (fun hx => hpq (Prod.ext hx.1 hx.2).symm)]
        exact hqn
      refine ⟨Function.update ch idx (ch idx ++ [q]), ?_, fun p1 hp1 => ?_, ?_⟩
      · apply chainInv_extend cfg L.st.mainStructure L1.st.mainStructure ch idx q hidx hq1 hq2
          hfree hh ?_ (fun i => ⟨(hfile i).2.1, (hfile i).2.2, fun _ => (hfile i).1⟩) ?_ hhandle
          ?_ hinv
        · rw [(hfile idx).1]
          exact isChain_append _ _ p q hpn hlink hq1n (ch idx) _
            (fun r _ hr => hnext r.1 r.2 (fun hx => hr (Prod.ext hx.1 hx.2))) hpm hA.1
        · rw [hown]
          exact hpown.1
        · intro r hr
          exact hnext r.1 r.2 (fun hx => hr ((Prod.ext hx.1 hx.2 : r = p) ▸ hpm))
      · rw [htp] at hp1
        rw [Function.update_same, ← Option.some.inj hp1]
        exact List.mem_append_right _ (List.mem_singleton_self q)
      · rw [(hfile idx).2.1]
        exact hh

theorem headAlloc_chainInv (cfg : CartConfig) (m : CartStructure) (idx : Nat) (fd : Int)
    (ch : Nat → List (Nat × Nat)) (hidx : idx < cfg.CART_MAX_TOTAL_FILES)
    (hh : (m.fileTable idx).handle = fd) (hfd : fd ≠ -1) (hnone : (m.fileTable idx).tablePtr = none)
    (q : Nat × Nat) (hq : (freeFrameSearch cfg m cfg.CART_MAX_CARTRIDGES 0 false).1 = some q)
    (hinv : ChainInv cfg m ch) :
    ChainInv cfg
      (setInfo (setFile m idx { m.fileTable idx with tablePtr := some q }) q
        { m.infoTable q.1 q.2 with handle := fd })
      (Function.update ch idx (ch idx ++ [q])) := by
  have hfree := freeFrameSearch_free cfg m _ _ _ q hq
  obtain ⟨_, g2, g3⟩ := freeFrameSearch_grid cfg m _ _ _ q hq
  have hA := hinv.1 idx hidx
  have hnil : ch idx = [] := by
    have h1 := hA.1
    rw [hnone] at h1
    exact isChain_none m _ h1
  have hrec : ∀ a b, ((setInfo (setFile m idx { m.fileTable idx with tablePtr := some q }) q
      { m.infoTable q.1 q.2 with handle := fd }).infoTable a b).nextFrame
      = (m.infoTable a b).nextFrame := by
    intro a b
    rw [setInfo_apply]
    by_cases hab : a = q.1 ∧ b = q.2
    · rw [if_pos hab, hab.1, hab.2]
    · rw [if_neg hab]
      rfl
  have hchain : IsChain
      (setInfo (setFile m idx { m.fileTable idx with tablePtr := some q }) q
        { m.infoTable q.1 q.2 with handle := fd })
      ((setInfo (setFile m idx { m.fileTable idx with tablePtr := some q }) q
        { m.infoTable q.1 q.2 with handle := fd }).fileTable idx).tablePtr
      (ch idx ++ [q]) := by
    rw [hnil, setInfo_fileTable, setFile_same]
    simp only [List.nil_append]
    unfold IsChain
    refine ⟨rfl, ?_⟩
    rw [hrec, hinv.2.2.2 q.1 q.2 (by omega) g3 hfree]
    rfl
  have hfile : ∀ i,
      ((setInfo (setFile m idx { m.fileTable idx with tablePtr := some q }) q
        { m.infoTable q.1 q.2 with handle := fd }).fileTable i).handle = (m.fileTable i).handle
      ∧ ((setInfo (setFile m idx { m.fileTable idx with tablePtr := some q }) q
        { m.infoTable q.1 q.2 with handle := fd }).fileTable i).filled = (m.fileTable i).filled
      ∧ (i ≠ idx →
        ((setInfo (setFile m idx { m.fileTable idx with tablePtr := some q }) q
          { m.infoTable q.1 q.2 with handle := fd }).fileTable i).tablePtr
          = (m.fileTable i).tablePtr) := by
    intro i
    rw [setInfo_fileTable]
    by_cases hi : i = idx
    · subst hi
      rw [setFile_same]
      exact ⟨rfl, rfl, fun hx => absurd rfl hx⟩
    · rw [setFile_ne _ idx i _ hi]
      exact ⟨rfl, rfl, fun _ => rfl⟩
  have hown : ((setInfo (setFile m idx { m.fileTable idx with tablePtr := some q }) q
      { m.infoTable q.1 q.2 with handle := fd }).infoTable q.1 q.2).handle
      = (m.fileTable idx).handle := by
    rw [setInfo_apply, if_pos ⟨rfl, rfl⟩]
    exact hh.symm
  have hhandle : ∀ a b, ¬ (a = q.1 ∧ b = q.2) →
      ((setInfo (setFile m idx { m.fileTable idx with tablePtr := some q }) q
        { m.infoTable q.1 q.2 with handle := fd }).infoTable a b).handle
        = (m.infoTable a b).handle := by
    intro a b hab
    rw [setInfo_apply, if_neg hab]
    rfl
  exact chainInv_extend cfg m _ ch idx q hidx (by omega) g3 hfree (by rw [hh]; exact hfd) hchain
    hfile hown hhandle (fun r _ => hrec r.1 r.2) hinv

theorem headAlloc_expr_chainInv (cfg : CartConfig) (m : CartStructure) (idx : Nat) (fd : Int)
    (ch : Nat → List (Nat × Nat)) (hidx : idx < cfg.CART_MAX_TOTAL_FILES)
    (hh : (m.fileTable idx).handle = fd) (hfd : fd ≠ -1) (hinv : ChainInv cfg m ch) :
    ∃ ch1, ChainInv cfg
        (if (m.fileTable idx).tablePtr = none then
          match (freeFrameSearch cfg m cfg.CART_MAX_CARTRIDGES 0 false).1 with
          | some q =>
            setInfo (setFile m idx { m.fileTable idx with tablePtr := some q }) q
              { m.infoTable q.1 q.2 with handle := fd }
          | none => m
        else m) ch1
      ∧ ((if (m.fileTable idx).tablePtr = none then
          match (freeFrameSearch cfg m cfg.CART_MAX_CARTRIDGES 0 false).1 with
          | some q =>
            setInfo (setFile m idx { m.fileTable idx with tablePtr := some q }) q
              { m.infoTable q.1 q.2 with handle := fd }
          | none => m
        else m).fileTable idx).handle ≠ -1 := by
  by_cases hnone : (m.fileTable idx).tablePtr = none
  · rw [if_pos hnone]
    cases hq : (freeFrameSearch cfg m cfg.CART_MAX_CARTRIDGES 0 false).1 with
    | none =>
      simp only []
      exact ⟨ch, hinv, by rw [hh]; exact hfd⟩
    | some q =>
      simp only []
      refine ⟨_, headAlloc_chainInv cfg m idx fd ch hidx hh hfd hnone q hq hinv, ?_⟩
      rw [setInfo_fileTable, setFile_same]
      simp only []
      rw [hh]
      exact hfd
  · rw [if_neg hnone]
    exact ⟨ch, hinv, by rw [hh]; exact hfd⟩

theorem cart_write_chainInv (cfg : CartConfig) (s : State) (fd : Int) (buf tempbuf0 : Buf)
    (count : Int) (r : State × Int) (h : cart_write cfg s fd buf count tempbuf0 = some r)
    (hfd : fd ≠ -1) (hinv : ∃ ch, ChainInv cfg s.mainStructure ch) :
    ∃ ch, ChainInv cfg r.1.mainStructure ch := by
  obtain ⟨ch, hinv⟩ := hinv
  unfold cart_write at h
  cases hf : findHandle cfg s.mainStructure fd with
  | none =>
    rw [hf] at h
    simp only [Option.some.injEq] at h
    subst h
    exact ⟨ch, hinv⟩
  | some idx =>
    obtain ⟨hidx, hhb, _⟩ := firstIndex_some hf
    have hh : (s.mainStructure.fileTable idx).handle = fd := by simpa using hhb
    obtain ⟨ch1, hc1, hh1⟩ := headAlloc_expr_chainInv cfg s.mainStructure idx fd ch hidx hh hfd hinv
    rw [hf] at h
    simp only [] at h
    split at h
    · exact Option.noConfusion h
    · split at h
      · exact Option.noConfusion h
      · rename_i x1 tp hw x2 L1 hl
        simp only [Option.some.injEq] at h
        subst h
        obtain ⟨ch2, hc2, _, _⟩ := cart_write_loop_induct cfg idx buf
          (fun L => ∃ ch, ChainInv cfg L.st.mainStructure ch
            ∧ (∀ p, L.tempPtr = some p → p ∈ ch idx)
            ∧ (L.st.mainStructure.fileTable idx).handle ≠ -1)
          (fun L L2 hP _ hb => cart_write_body_chainInv cfg idx buf L L2 hidx hb hP)
          _ _ L1
          ⟨ch1, hc1, fun p hp => isChain_walk_mem _ _ _ _ p (hc1.1 idx hidx).1
            (by rw [← hp]; exact hw), hh1⟩ hl
        exact ⟨ch2, hc2⟩

theorem chainInv_setFile (cfg : CartConfig) (m : CartStructure) (idx : Nat)
    (f : FileStructure) (ch : Nat → List (Nat × Nat))
    (h1 : f.tablePtr = (m.fileTable idx).tablePtr) (h2 : f.handle = (m.fileTable idx).handle)
    (h3 : f.filled = (m.fileTable idx).filled) (h : ChainInv cfg m ch) :
    ChainInv cfg (setFile m idx f) ch := by
  apply chainInv_congr cfg m (setFile m idx f) ch (fun _ _ => ⟨rfl, rfl⟩) ?_ h
  intro i
  by_cases hi : i = idx
  · subst hi
    rw [setFile_same]
    exact ⟨h1, h2, h3⟩
  · rw [setFile_ne m idx i f hi]
    exact ⟨rfl, rfl, rfl⟩

theorem cart_poweron_chainInv (cfg : CartConfig) (s0 : State)
    (hon : (cart_poweron cfg s0).2 = 0) :
    ChainInv cfg (cart_poweron cfg s0).1.mainStructure (fun _ => []) := by
  obtain ⟨_, hm, _⟩ := cart_poweron_on cfg s0 hon
  rw [hm]
  have hf : ∀ i, ({ clearedTables cfg s0.mainStructure with cart_is_on := true } :
      CartStructure).fileTable i = (clearedTables cfg s0.mainStructure).fileTable i :=
    fun _ => rfl
  have hi : ∀ c f, ({ clearedTables cfg s0.mainStructure with cart_is_on := true } :
      CartStructure).infoTable c f = (clearedTables cfg s0.mainStructure).infoTable c f :=
    fun _ _ => rfl
  refine ⟨fun i hi1 => ?_, fun _ _ _ _ _ q hq => absurd hq (List.not_mem_nil q),
    fun c f hc hf1 _ => ?_, fun c f hc hf1 _ => ?_⟩
  · rw [hf, clearedTables_file cfg _ i hi1]
    refine ⟨?_, List.nodup_nil, fun q hq => absurd hq (List.not_mem_nil q), fun _ => rfl⟩
    unfold IsChain
    rfl
  · rw [hi, clearedTables_info cfg _ c f hc hf1]
  · rw [hi, clearedTables_info cfg _ c f hc hf1]

theorem cart_open_chainInv (cfg : CartConfig) (s s1 : State) (path : List Nat) (r : Int)
    (h : cart_open cfg s path = some (s1, r)) (hinv : ∃ ch, ChainInv cfg s.mainStructure ch) :
    ∃ ch, ChainInv cfg s1.mainStructure ch := by
  obtain ⟨ch, hinv⟩ := hinv
  cases hf : firstIndex (nameMatches s.mainStructure path) cfg.CART_MAX_TOTAL_FILES with
  | some i =>
    cases ho : (s.mainStructure.fileTable i).open_ with
    | true =>
      rw [cart_open_already_open cfg s path i hf ho] at h
      simp only [Option.some.injEq, Prod.mk.injEq] at h
      rw [← h.1]
      exact ⟨ch, hinv⟩
    | false =>
      rw [cart_open_reopen cfg s path i hf ho] at h
      simp only [Option.some.injEq, Prod.mk.injEq] at h
      rw [← h.1]
      exact ⟨ch, chainInv_setFile cfg _ i _ ch rfl rfl rfl hinv⟩
  | none =>
    cases hu : firstIndex (fun i => !(s.mainStructure.fileTable i).filled)
        cfg.CART_MAX_TOTAL_FILES with
    | none =>
      rw [cart_open_full cfg s path hf hu] at h
      exact Option.noConfusion h
    | some c =>
      obtain ⟨_, hcu, _⟩ := firstIndex_some hu
      have hunf : (s.mainStructure.fileTable c).filled = false := by simpa using hcu
      rw [cart_open_create cfg s path c hf hu] at h
      simp only [Option.some.injEq, Prod.mk.injEq] at h
      rw [← h.1]
      refine ⟨ch, chainInv_create cfg s.mainStructure _ ch c hunf rfl ?_ ?_ ?_ hinv⟩
      · simp only []
        rw [setFile_same]
      · simp only []
        rw [setFile_same]
      · intro i hi
        simp only []
        rw [setFile_ne _ c i _ hi]

theorem applyCall_chainInv (cfg : CartConfig) (s s1 : State) (c : FileCall)
    (h : applyCall cfg s c = some s1) (hok : handleOk c = true)
    (hinv : ∃ ch, ChainInv cfg s.mainStructure ch) :
    ∃ ch, ChainInv cfg s1.mainStructure ch := by
  cases c with
  | open_ path =>
    simp only [applyCall] at h
    cases ho : cart_open cfg s path with
    | none =>
      rw [ho] at h
      exact Option.noConfusion h
    | some r =>
      rw [ho] at h
      simp only [Option.map_some', Option.some.injEq] at h
      rw [← h]
      exact cart_open_chainInv cfg s r.1 path r.2 ho hinv
  | close fd =>
    obtain ⟨ch, hinv⟩ := hinv
    simp only [applyCall] at h
    simp only [Option.some.injEq] at h
    rw [← h]
    cases hf : findHandle cfg s.mainStructure fd with
    | none =>
      rw [cart_close_none cfg s fd hf]
      exact ⟨ch, hinv⟩
    | some idx =>
      cases hop : (s.mainStructure.fileTable idx).open_ with
      | false =>
        rw [cart_close_closed cfg s fd idx hf hop]
        exact ⟨ch, hinv⟩
      | true =>
        rw [cart_close_ok cfg s fd idx hf hop]
        exact ⟨ch, chainInv_setFile cfg _ idx _ ch rfl rfl rfl hinv⟩
  | seek fd loc =>
    obtain ⟨ch, hinv⟩ := hinv
    simp only [applyCall] at h
    simp only [Option.some.injEq] at h
    rw [← h]
    cases hf : findHandle cfg s.mainStructure fd with
    | none =>
      rw [cart_seek_none cfg s fd loc hf]
      exact ⟨ch, hinv⟩
    | some idx =>
      by_cases hbad : (s.mainStructure.fileTable idx).open_ = false
          ∨ (s.mainStructure.fileTable idx).length < loc
      · rw [cart_seek_fail cfg s fd loc idx hf hbad]
        exact ⟨ch, hinv⟩
      · have hop : (s.mainStructure.fileTable idx).open_ = true := by
          cases hop : (s.mainStructure.fileTable idx).open_ with
          | true => rfl
          | false => exact absurd (Or.inl hop) hbad
        have hl : loc ≤ (s.mainStructure.fileTable idx).length := by
          by_cases hl : loc ≤ (s.mainStructure.fileTable idx).length
          · exact hl
          · exact absurd (Or.inr (by omega)) hbad
        rw [cart_seek_ok cfg s fd loc idx hf hop hl]
        exact ⟨ch, chainInv_setFile cfg _ idx _ ch rfl rfl rfl hinv⟩
  | read fd buf count =>
    obtain ⟨ch, hinv⟩ := hinv
    simp only [applyCall] at h
    cases hr : cart_read cfg s fd buf count with
    | none =>
      rw [hr] at h
      exact Option.noConfusion h
    | some r =>
      rw [hr] at h
      simp only [Option.map_some', Option.some.injEq] at h
      rw [← h]
      rcases cart_read_frame cfg s r.1 fd buf r.2.2 count r.2.1 hr with
        ⟨_, he⟩ | ⟨idx, x, _, hm, _⟩
      · rw [he]
        exact ⟨ch, hinv⟩
      · rw [hm]
        exact ⟨ch, chainInv_setFile cfg _ idx _ ch rfl rfl rfl hinv⟩
  | write fd buf count tempbuf0 =>
    simp only [applyCall] at h
    cases hw : cart_write cfg s fd buf count tempbuf0 with
    | none =>
      rw [hw] at h
      exact Option.noConfusion h
    | some r =>
      rw [hw] at h
      simp only [Option.map_some', Option.some.injEq] at h
      rw [← h]
      have hfd : fd ≠ -1 := by
        simpa [handleOk] using hok
      exact cart_write_chainInv cfg s fd buf tempbuf0 count r hw hfd hinv

theorem runCalls_chainInv (cfg : CartConfig) (calls : List FileCall) :
    ∀ (s s1 : State), runCalls cfg s calls = some s1 →
      (∀ c, c ∈ calls → handleOk c = true) →
      (∃ ch, ChainInv cfg s.mainStructure ch) → ∃ ch, ChainInv cfg s1.mainStructure ch := by
  induction calls with
  | nil =>
    intro s s1 h _ hinv
    simp only [runCalls, Option.some.injEq] at h
    rw [← h]
    exact hinv
  | cons c cs ih =>
    intro s s1 h hok hinv
    simp only [runCalls] at h
    cases ha : applyCall cfg s c with
    | none =>
      rw [ha] at h
      exact Option.noConfusion h
    | some s2 =>
      rw [ha] at h
      simp only [] at h
      exact ih s2 s1 h (fun x hx => hok x (List.mem_cons_of_mem _ hx))
        (applyCall_chainInv cfg s s2 c ha (hok c (List.mem_cons_self _ _)) hinv)

/-- C31: in every state reached from a successful `cart_poweron` by calls of the file
interface whose handle argument is not -1 (the value `cart_open` returns on failure;
every call of the sequence returning), each entry of the file table has a chain, the list
of the Frame Records from its chain head along the `nextFrame` links to a `NULL` link,
such that: no chain holds a record twice (no cycle); every record on the chain of an
entry is owned by the handle of that entry, which is not the free marker -1; the chains
of two different entries share no record; and every Frame Record of the grid that is on
no chain is free. -/
theorem C31_chain_ownership (cfg : CartConfig) (s0 s : State) (calls : List FileCall)
    (hon : (cart_poweron cfg s0).2 = 0)
    (hok : ∀ c, c ∈ calls → handleOk c = true)
    (hrun : runCalls cfg (cart_poweron cfg s0).1 calls = some s) :
    ∃ ch : Nat → List (Nat × Nat),
      (∀ i, i < cfg.CART_MAX_TOTAL_FILES →
        IsChain s.mainStructure (s.mainStructure.fileTable i).tablePtr (ch i)
        ∧ (ch i).Nodup
        ∧ ∀ q, q ∈ ch i →
            (s.mainStructure.infoTable q.1 q.2).handle = (s.mainStructure.fileTable i).handle
            ∧ (s.mainStructure.infoTable q.1 q.2).handle ≠ -1)
      ∧ (∀ i j, i < cfg.CART_MAX_TOTAL_FILES → j < cfg.CART_MAX_TOTAL_FILES → i ≠ j →
          ∀ q, q ∈ ch i → q ∉ ch j)
      ∧ (∀ c f, c < cfg.CART_MAX_CARTRIDGES → f < cfg.CART_CARTRIDGE_SIZE →
          (∀ i, i < cfg.CART_MAX_TOTAL_FILES → (c, f) ∉ ch i) →
          (s.mainStructure.infoTable c f).handle = -1) := by
  obtain ⟨ch, hA, hB, hC, _⟩ := runCalls_chainInv cfg calls _ s hrun hok
    ⟨_, cart_poweron_chainInv cfg s0 hon⟩
  refine ⟨ch, fun i hi => ?_, hB, hC⟩
  obtain ⟨a1, a2, a3, _⟩ := hA i hi
  refine ⟨a1, a2, fun q hq => ?_⟩
  obtain ⟨b1, b2⟩ := a3 q hq
  exact ⟨b1, by rw [b1]; exact b2⟩

/-- Witness of C31: the sample session (open "a", write 2000 bytes, seek, read, close,
open "b", write 10 bytes) uses the handles 0 and 1 and runs to its end on the small grid;
the chain of "a" is (0, 0), (0, 1), owned by 0, the chain of "b" is (0, 2), owned by 1,
the frame (1, 0) is free, and the chains are as stated. -/
theorem C31_chain_ownership_witness :
    (cart_poweron smallConfig (bootStateCap 2)).2 = 0
    ∧ (∀ c, c ∈ sampleCalls → handleOk c = true)
    ∧ runCalls smallConfig (cart_poweron smallConfig (bootStateCap 2)).1 sampleCalls
        = some sampleState
    ∧ (sampleState.mainStructure.fileTable 0).tablePtr = some (0, 0)
    ∧ (sampleState.mainStructure.infoTable 0 0).nextFrame = some (0, 1)
    ∧ (sampleState.mainStructure.infoTable 0 1).nextFrame = none
    ∧ (sampleState.mainStructure.infoTable 0 0).handle = 0
    ∧ (sampleState.mainStructure.infoTable 0 1).handle = 0
    ∧ (sampleState.mainStructure.fileTable 1).tablePtr = some (0, 2)
    ∧ (sampleState.mainStructure.infoTable 0 2).handle = 1
    ∧ (sampleState.mainStructure.infoTable 1 0).handle = -1
    ∧ ∃ ch : Nat → List (Nat × Nat),
      (∀ i, i < smallConfig.CART_MAX_TOTAL_FILES →
        IsChain sampleState.mainStructure (sampleState.mainStructure.fileTable i).tablePtr (ch i)
        ∧ (ch i).Nodup
        ∧ ∀ q, q ∈ ch i →
            (sampleState.mainStructure.infoTable q.1 q.2).handle
              = (sampleState.mainStructure.fileTable i).handle
            ∧ (sampleState.mainStructure.infoTable q.1 q.2).handle ≠ -1)
      ∧ (∀ i j, i < smallConfig.CART_MAX_TOTAL_FILES → j < smallConfig.CART_MAX_TOTAL_FILES →
          i ≠ j → ∀ q, q ∈ ch i → q ∉ ch j)
      ∧ (∀ c f, c < smallConfig.CART_MAX_CARTRIDGES → f < smallConfig.CART_CARTRIDGE_SIZE →
          (∀ i, i < smallConfig.CART_MAX_TOTAL_FILES → (c, f) ∉ ch i) →
          (sampleState.mainStructure.infoTable c f).handle = -1) :=
  ⟨by decide, by decide, eq_some_getD _ bootState (by decide), by decide, by decide,
    by decide, by decide, by decide, by decide, by decide, by decide,
    C31_chain_ownership smallConfig (bootStateCap 2) sampleState sampleCalls (by decide)
      (by decide) (eq_some_getD _ bootState (by decide))⟩

/-! ## Failing inputs: seek and close on the handle of an unfilled entry -/

/-- C13 (failing input): after `cart_poweron`, `cart_open(" ")` returns the handle 0 and
leaves the entry 0 open, unfilled and with the handle -1.  Then `cart_seek(0, 0)`, on the
handle that `cart_open` returned, with the file open and offset 0 <= length 0, returns
-1; and `cart_seek(-1, 0)`, on a handle that no successful `cart_open` returned, returns
0. -/
theorem C13_seek_on_unfilled_entry :
    (cart_open smallConfig poweredState [32]).map (fun r => r.2) = some 0
    ∧ (blankOpenState.mainStructure.fileTable 0).filled = false
    ∧ (blankOpenState.mainStructure.fileTable 0).handle = -1
    ∧ (blankOpenState.mainStructure.fileTable 0).open_ = true
    ∧ (blankOpenState.mainStructure.fileTable 0).length = 0
    ∧ findHandle smallConfig blankOpenState.mainStructure 0 = none
    ∧ (cart_seek smallConfig blankOpenState 0 0).2 = -1
    ∧ findHandle smallConfig blankOpenState.mainStructure (-1) = some 0
    ∧ (cart_seek smallConfig blankOpenState (-1) 0).2 = 0 := by
  decide

/-- C17 (failing input): after `cart_poweron`, `cart_open(" ")` returns the handle 0 and
leaves the entry 0 open, unfilled and with the handle -1.  Then `cart_close(0)`, on the
handle that `cart_open` returned and with the file open, returns -1 and leaves the entry
open; and `cart_close(-1)`, on a handle that no successful `cart_open` returned, returns 0
and clears the open flag of the entry 0. -/
theorem C17_close_on_unfilled_entry :
    (cart_open smallConfig poweredState [32]).map (fun r => r.2) = some 0
    ∧ (blankOpenState.mainStructure.fileTable 0).filled = false
    ∧ (blankOpenState.mainStructure.fileTable 0).handle = -1
    ∧ (blankOpenState.mainStructure.fileTable 0).open_ = true
    ∧ (cart_close smallConfig blankOpenState 0).2 = -1
    ∧ ((cart_close smallConfig blankOpenState 0).1.mainStructure.fileTable 0).open_ = true
    ∧ (cart_close smallConfig blankOpenState (-1)).2 = 0
    ∧ ((cart_close smallConfig blankOpenState (-1)).1.mainStructure.fileTable 0).open_
        = false := by
  decide

/-! ## Eviction on the caches that the interface builds without duplicate puts -/

theorem not_held_of_lookup_none (s : CacheState) (hc : CacheConsistent s) (c f : Nat)
    (hcl : c < 65536) (hfl : f < 65536) (hm : ¬ (c = 65535 ∧ f = 65535))
    (h : (get_cart_cache s c f).2.isNone = true) : ¬ Held s c f := by
  intro hh
  have hl := (lookup_isSome_iff_held s hc c f hm).2 hh
  rw [get_cart_cache_snd, Nat.mod_eq_of_lt hcl, Nat.mod_eq_of_lt hfl] at h
  cases hfi : firstIndex (slotMatches s c f) s.size.toNat with
  | none =>
    rw [hfi] at hl
    exact Bool.noConfusion hl
  | some i =>
    rw [hfi] at h
    exact Bool.noConfusion h

theorem applyOp_consistent (s : CacheState) (op : CacheOp) (hc : CacheConsistent s)
    (hdom : opInDomain op = true) (hfresh : putNotHeld s op = true)
    (hg : s.global_time < 2147483648) : CacheConsistent (applyOp s op) := by
  cases op with
  | put c f b =>
    simp only [opInDomain, decide_eq_true_eq] at hdom
    simp only [putNotHeld] at hfresh
    have hnh := not_held_of_lookup_none s hc c f hdom.1 hdom.2.1 hdom.2.2 hfresh
    simp only [applyOp]
    by_cases hroom : s.num_occupied < s.size
    · exact (put_spec s hc c f b hdom.1 hdom.2.1 hdom.2.2 hg hnh hroom).1
    · have hle := consistent_occ_le s hc
      have hc2 := hc
      obtain ⟨h0, _, hcnt, _, _, _⟩ := hc2
      have hcl := countNonEmpty_le s.frames s.size.toNat
      have hall := countNonEmpty_full s.frames s.size.toNat (by omega)
      have hnone : firstIndex (fun i => (s.frames i).time == -1) s.size.toNat = none := by
        apply firstIndex_eq_none
        intro j hj
        simp only [beq_eq_false_iff_ne, ne_eq]
        exact hall j hj
      unfold put_cart_cache
      rw [hnone]
      exact hc
  | get c f =>
    simp only [opInDomain, decide_eq_true_eq] at hdom
    simp only [applyOp]
    by_cases hh : Held s c f
    · exact (get_hit_spec s hc c f hdom.1 hdom.2.1 hdom.2.2 hg hh).2.1
    · exact (get_miss_spec s hc c f hdom.1 hdom.2.1 hdom.2.2 hg hh).2.1
  | update c f b =>
    simp only [opInDomain, decide_eq_true_eq] at hdom
    simp only [applyOp]
    by_cases hh : Held s c f
    · exact (update_hit_spec s hc c f b hdom.1 hdom.2.1 hdom.2.2 hg hh).1
    · have hl := (lookup_isSome_iff_held s hc c f hdom.2.2).not.2 hh
      unfold update_cache
      rw [Nat.mod_eq_of_lt hdom.1, Nat.mod_eq_of_lt hdom.2.1]
      cases hfi : firstIndex (slotMatches s c f) s.size.toNat with
      | some i =>
        rw [hfi] at hl
        exact absurd rfl hl
      | none => exact hc
  | delete c f =>
    simp only [opInDomain, decide_eq_true_eq] at hdom
    simp only [applyOp]
    unfold delete_cart_cache
    rw [Nat.mod_eq_of_lt hdom.1, Nat.mod_eq_of_lt hdom.2.1]
    cases hfi : firstIndex (slotMatches s c f) s.size.toNat with
    | none => exact hc
    | some i =>
      obtain ⟨hi, hp, _⟩ := firstIndex_some hfi
      have hne := held_slot_nonempty s hc c f i hdom.2.2 hi hp
      exact (consistent_clear s
        ({ s with
            frames := Function.update s.frames i
              { s.frames i with frame_num := 65535, cart_num := 65535, time := -1 }
            num_occupied := s.num_occupied - 1 } : CacheState) i
        { s.frames i with frame_num := 65535, cart_num := 65535, time := -1 }
        hc hi rfl rfl rfl hne rfl rfl rfl).1

theorem runOps_consistent (ops : List CacheOp) (s : CacheState) (hc : CacheConsistent s)
    (hdom : ∀ op, op ∈ ops → opInDomain op = true) (hfresh : putsNotHeld s ops = true)
    (hg : s.global_time + ops.length < 2147483648) : CacheConsistent (runOps s ops) := by
  induction ops generalizing s with
  | nil => exact hc
  | cons op ops ih =>
    simp only [List.length_cons] at hg
    simp only [putsNotHeld, Bool.and_eq_true] at hfresh
    have hcl := applyOp_clock s op (by omega)
    exact ih (applyOp s op)
      (applyOp_consistent s op hc (hdom op (List.mem_cons_self _ _)) hfresh.1 (by omega))
      (fun o ho => hdom o (List.mem_cons_of_mem _ ho)) hfresh.2 (by omega)

/-- C7 (amended): the cache `s` is reached from `set_cart_cache_size(n)`, with
`1 <= n <= DEFAULT_CART_FRAME_CACHE_SIZE`, and `init_cart_cache()` by any sequence of
`put_cart_cache`, `get_cart_cache`, `update_cache` and `delete_cart_cache` calls with
16-bit pairs other than (65535, 65535) in which every put is of a pair that is not in
the cache at that point, the logical clock staying below 2^31, and `s` is full.  Then
deleting the pair `(get_lowest_time_cart(), get_lowest_time_frame())` decreases the
occupancy by exactly 1, removes that pair (a lookup of it misses) and nothing else
(every other slot is unchanged and every other pair is looked up as before), and a
subsequent `put_cart_cache` of any pair succeeds: the pair is found by `get_cart_cache`
and the occupancy equals the capacity again. -/
theorem C7_eviction_frees_one_slot (s0 s : CacheState) (n : Nat) (ops : List CacheOp)
    (hn1 : 1 ≤ n) (hn : n ≤ DEFAULT_CART_FRAME_CACHE_SIZE)
    (hdom : ∀ op, op ∈ ops → opInDomain op = true)
    (hfresh : putsNotHeld (init_cart_cache (set_cart_cache_size s0 n)) ops = true)
    (hclock : s0.global_time + ops.length < 2147483648)
    (hs : s = runOps (init_cart_cache (set_cart_cache_size s0 n)) ops)
    (hfull : get_cache_num_occupied s = get_cache_size s) :
    1 ≤ get_cache_size s
    ∧ get_cache_num_occupied (evictLowest s) = get_cache_num_occupied s - 1
    ∧ (get_cart_cache (evictLowest s) (get_lowest_time_cart s) (get_lowest_time_frame s)).2
        = none
    ∧ (∀ i, i ≠ lowest_time_index s → (evictLowest s).frames i = s.frames i)
    ∧ (∀ c f, ¬ (c % 65536 = get_lowest_time_cart s ∧ f % 65536 = get_lowest_time_frame s) →
        ¬ (c % 65536 = 65535 ∧ f % 65536 = 65535) →
        (get_cart_cache (evictLowest s) c f).2 = (get_cart_cache s c f).2)
    ∧ (∀ c f b,
        (get_cart_cache (put_cart_cache (evictLowest s) c f b) c f).2.isSome = true
        ∧ get_cache_num_occupied (put_cart_cache (evictLowest s) c f b)
            = get_cache_size (put_cart_cache (evictLowest s) c f b)) := by
  have hc : CacheConsistent s := by
    rw [hs]
    exact runOps_consistent ops _ (init_consistent s0 n hn).1 hdom hfresh hclock
  have h1 : 1 ≤ get_cache_size s := by
    rw [hs]
    unfold get_cache_size
    rw [runOps_size, init_size s0 n hn]
    omega
  exact ⟨h1, evictLowest_put_spec s hc h1 hfull⟩

/-- Witness of C7: capacity 2 from the start-up globals; after putting (1, 1), looking it
up, putting (2, 2), deleting (1, 1) and putting (3, 3) the cache is full, and the
eviction and the following put behave as stated. -/
theorem C7_eviction_frees_one_slot_witness :
    get_cache_num_occupied (runOps (init_cart_cache (set_cart_cache_size bootCache 2))
        [CacheOp.put 1 1 zeroBuf, CacheOp.get 1 1, CacheOp.put 2 2 zeroBuf,
         CacheOp.delete 1 1, CacheOp.put 3 3 zeroBuf]) = 2
    ∧ get_cache_num_occupied (evictLowest
        (runOps (init_cart_cache (set_cart_cache_size bootCache 2))
          [CacheOp.put 1 1 zeroBuf, CacheOp.get 1 1, CacheOp.put 2 2 zeroBuf,
           CacheOp.delete 1 1, CacheOp.put 3 3 zeroBuf])) = 1
    ∧ (get_cart_cache (evictLowest
        (runOps (init_cart_cache (set_cart_cache_size bootCache 2))
          [CacheOp.put 1 1 zeroBuf, CacheOp.get 1 1, CacheOp.put 2 2 zeroBuf,
           CacheOp.delete 1 1, CacheOp.put 3 3 zeroBuf]))
        (get_lowest_time_cart (runOps (init_cart_cache (set_cart_cache_size bootCache 2))
          [CacheOp.put 1 1 zeroBuf, CacheOp.get 1 1, CacheOp.put 2 2 zeroBuf,
           CacheOp.delete 1 1, CacheOp.put 3 3 zeroBuf]))
        (get_lowest_time_frame (runOps (init_cart_cache (set_cart_cache_size bootCache 2))
          [CacheOp.put 1 1 zeroBuf, CacheOp.get 1 1, CacheOp.put 2 2 zeroBuf,
           CacheOp.delete 1 1, CacheOp.put 3 3 zeroBuf]))).2 = none
    ∧ (get_cart_cache (put_cart_cache (evictLowest
        (runOps (init_cart_cache (set_cart_cache_size bootCache 2))
          [CacheOp.put 1 1 zeroBuf, CacheOp.get 1 1, CacheOp.put 2 2 zeroBuf,
           CacheOp.delete 1 1, CacheOp.put 3 3 zeroBuf])) 4 4 zeroBuf) 4 4).2.isSome = true :=
  have h := C7_eviction_frees_one_slot bootCache
    (runOps (init_cart_cache (set_cart_cache_size bootCache 2))
      [CacheOp.put 1 1 zeroBuf, CacheOp.get 1 1, CacheOp.put 2 2 zeroBuf,
       CacheOp.delete 1 1, CacheOp.put 3 3 zeroBuf]) 2 _
    (by decide) (by decide) (by decide) (by decide) (by decide) rfl (by decide)
  ⟨by decide, by decide, h.2.2.1, (h.2.2.2.2.2 4 4 zeroBuf).1⟩

/-- C7 (counterexample to the unrestricted claim): the cache of capacity 2 after
`put_cart_cache(1, 1, buf)` twice is full (occupancy 2 = capacity 2 >= 1) and the pair of
lowest time is (1, 1); deleting it decreases the occupancy to 1, but the pair (1, 1) is
not removed: `get_cart_cache(1, 1)` still finds it, in slot 1. -/
theorem C7_counterexample :
    get_cache_num_occupied twiceCache2 = get_cache_size twiceCache2
    ∧ 1 ≤ get_cache_size twiceCache2
    ∧ get_lowest_time_cart twiceCache2 = 1
    ∧ get_lowest_time_frame twiceCache2 = 1
    ∧ get_cache_num_occupied (evictLowest twiceCache2) = 1
    ∧ (get_cart_cache (evictLowest twiceCache2) 1 1).2 = some 1 := by
  decide

/-! ## The requests of a call, iteration by iteration -/

theorem cart_read_body_log (cfg : CartConfig) (idx : Nat) (L L1 : ReadLoop)
    (hd : OpcodesDistinct cfg) (h : cart_read_body cfg idx L = some L1)
    (hregs : L.regs = ⟨0, 0, 0, 0, 0⟩) :
    L1.regs = ⟨0, 0, 0, 0, 0⟩
    ∧ L1.st.mainStructure.infoTable = L.st.mainStructure.infoTable
    ∧ ∃ (p : Nat × Nat) (g : List Nat), L.tempPtr = some p
        ∧ (g = [] ∨ FrameGroup cfg (L.st.mainStructure.infoTable p.1 p.2).cart_num
            (L.st.mainStructure.infoTable p.1 p.2).frame_num g)
        ∧ L1.st.bus.log = L.st.bus.log ++ g
        ∧ (L1.tempPtr = some p
          ∨ L1.tempPtr = (L.st.mainStructure.infoTable p.1 p.2).nextFrame) := by
  cases hp : L.tempPtr with
  | none =>
    unfold cart_read_body at h
    rw [hp] at h
    exact Option.noConfusion h
  | some p =>
    unfold cart_read_body at h
    rw [hp] at h
    simp only [Option.some.injEq] at h
    subst h
    simp only []
    have htp : ((if L.start_read_bit + chunk L.start_read_bit L.bytes_left_to_read = 1024
          ∧ L.bytes_left_to_read - chunk L.start_read_bit L.bytes_left_to_read > 0
        then (L.st.mainStructure.infoTable p.1 p.2).nextFrame else some p) = some p
        ∨ (if L.start_read_bit + chunk L.start_read_bit L.bytes_left_to_read = 1024
          ∧ L.bytes_left_to_read - chunk L.start_read_bit L.bytes_left_to_read > 0
        then (L.st.mainStructure.infoTable p.1 p.2).nextFrame else some p)
          = (L.st.mainStructure.infoTable p.1 p.2).nextFrame) := by
      split
      · exact Or.inr rfl
      · exact Or.inl rfl
    cases hg : (get_cart_cache L.st.cache (L.st.mainStructure.infoTable p.1 p.2).cart_num
        (L.st.mainStructure.infoTable p.1 p.2).frame_num).2 with
    | some i =>
      simp only []
      exact ⟨hregs, rfl, p, [], rfl, Or.inl rfl, (List.append_nil _).symm, htp⟩
    | none =>
      simp only []
      refine ⟨busCall_regs _ _ _ _, rfl, p,
        [create_cart_opcode cfg.CART_OP_LDCART 0 0
            (L.st.mainStructure.infoTable p.1 p.2).cart_num 0,
         create_cart_opcode cfg.CART_OP_RDFRME 0 0 0
            (L.st.mainStructure.infoTable p.1 p.2).frame_num], rfl, Or.inr ?_, ?_, htp⟩
      · exact frameGroup_two cfg hd (L.st.mainStructure.infoTable p.1 p.2).cart_num
          (L.st.mainStructure.infoTable p.1 p.2).frame_num cfg.CART_OP_RDFRME (Or.inl rfl)
      · rw [busCall_log, busCall_log, busCall_regs, hregs]
        simp only [Nat.cast_zero, List.append_assoc, List.singleton_append]

theorem cart_write_body_log (cfg : CartConfig) (idx : Nat) (buf : Buf) (L L1 : WriteLoop)
    (hd : OpcodesDistinct cfg) (p : Nat × Nat) (hp : L.tempPtr = some p)
    (h : cart_write_body cfg idx buf L = some L1)
    (hregs : L.regs = ⟨0, 0, 0, 0, 0⟩) :
    L1.regs = ⟨0, 0, 0, 0, 0⟩
    ∧ ∃ g : List Nat,
        FrameGroup cfg (L.st.mainStructure.infoTable p.1 p.2).cart_num
          (L.st.mainStructure.infoTable p.1 p.2).frame_num g
        ∧ L1.st.bus.log = L.st.bus.log ++ g := by
  unfold cart_write_body at h
  rw [hp] at h
  simp only [Option.some.injEq] at h
  subst h
  simp only []
  cases hg : (get_cart_cache L.st.cache (L.st.mainStructure.infoTable p.1 p.2).cart_num
      (L.st.mainStructure.infoTable p.1 p.2).frame_num).2 with
  | some i =>
    simp only []
    refine ⟨busCall_regs _ _ _ _,
      [create_cart_opcode cfg.CART_OP_LDCART 0 0
          (L.st.mainStructure.infoTable p.1 p.2).cart_num 0,
       create_cart_opcode cfg.CART_OP_WRFRME 0 0 0
          (L.st.mainStructure.infoTable p.1 p.2).frame_num], ?_, ?_⟩
    · exact frameGroup_two cfg hd (L.st.mainStructure.infoTable p.1 p.2).cart_num
        (L.st.mainStructure.infoTable p.1 p.2).frame_num cfg.CART_OP_WRFRME (Or.inr rfl)
    · rw [busCall_log, busCall_log, busCall_regs, hregs]
      simp only [Nat.cast_zero, List.append_assoc, List.singleton_append]
  | none =>
    simp only []
    by_cases hfull : get_cache_size (get_cart_cache L.st.cache
        (L.st.mainStructure.infoTable p.1 p.2).cart_num
        (L.st.mainStructure.infoTable p.1 p.2).frame_num).1
        = get_cache_num_occupied (get_cart_cache L.st.cache
          (L.st.mainStructure.infoTable p.1 p.2).cart_num
          (L.st.mainStructure.infoTable p.1 p.2).frame_num).1
    · rw [if_pos hfull]
      simp only []
      refine ⟨busCall_regs _ _ _ _,
        [create_cart_opcode cfg.CART_OP_LDCART 0 0
            (L.st.mainStructure.infoTable p.1 p.2).cart_num 0,
         create_cart_opcode cfg.CART_OP_RDFRME 0 0 0
            (L.st.mainStructure.infoTable p.1 p.2).frame_num,
         create_cart_opcode cfg.CART_OP_WRFRME 0 0 0
            (L.st.mainStructure.infoTable p.1 p.2).frame_num], ?_, ?_⟩
      · exact frameGroup_three cfg hd _ _
      · rw [busCall_log, busCall_log, busCall_log, busCall_regs, busCall_regs, hregs]
        simp only [Nat.cast_zero, List.append_assoc, List.singleton_append,
          List.cons_append, List.nil_append]
    · rw [if_neg hfull]
      simp only []
      refine ⟨busCall_regs _ _ _ _,
        [create_cart_opcode cfg.CART_OP_LDCART 0 0
            (L.st.mainStructure.infoTable p.1 p.2).cart_num 0,
         create_cart_opcode cfg.CART_OP_WRFRME 0 0 0
            (L.st.mainStructure.infoTable p.1 p.2).frame_num], ?_, ?_⟩
      · exact frameGroup_two cfg hd (L.st.mainStructure.infoTable p.1 p.2).cart_num
          (L.st.mainStructure.infoTable p.1 p.2).frame_num cfg.CART_OP_WRFRME (Or.inr rfl)
      · rw [busCall_log, busCall_log, busCall_regs, hregs]
        simp only [Nat.cast_zero, List.append_assoc, List.singleton_append]

/-- A walk that reaches a record still reaches it when links are only added. -/
theorem walkFrames_mono (m m1 : CartStructure)
    (h : ∀ a b x, (m.infoTable a b).nextFrame = some x → (m1.infoTable a b).nextFrame = some x) :
    ∀ (k : Nat) (p : FramePtr) (q : Nat × Nat),
      walkFrames m k p = some (some q) → walkFrames m1 k p = some (some q) := by
  intro k
  induction k with
  | zero =>
    intro p q hw
    unfold walkFrames at hw ⊢
    exact hw
  | succ k ih =>
    intro p q hw
    cases p with
    | none =>
      unfold walkFrames at hw
      exact Option.noConfusion hw
    | some r =>
      unfold walkFrames at hw ⊢
      simp only [] at hw ⊢
      cases hn : (m.infoTable r.1 r.2).nextFrame with
      | none =>
        rw [hn] at hw
        cases k with
        | zero =>
          unfold walkFrames at hw
          simp only [Option.some.injEq] at hw
          exact Option.noConfusion hw
        | succ k1 =>
          unfold walkFrames at hw
          exact Option.noConfusion hw
      | some x =>
        rw [hn] at hw
        rw [h r.1 r.2 x hn]
        exact ih _ q hw

theorem cart_read_loop_groups (cfg : CartConfig) (idx : Nat) (hd : OpcodesDistinct cfg) :
    ∀ (fuel : Nat) (L L1 : ReadLoop), L.regs = ⟨0, 0, 0, 0, 0⟩ →
      cart_read_loop cfg idx fuel L = some L1 →
      (∃ gs : List (List Nat),
        L1.st.bus.log = L.st.bus.log ++ gs.flatten
        ∧ List.Forall₂ (fun p g => g = []
            ∨ FrameGroup cfg (L.st.mainStructure.infoTable p.1 p.2).cart_num
              (L.st.mainStructure.infoTable p.1 p.2).frame_num g)
            (cart_read_loop_visits cfg idx fuel L) gs)
      ∧ (∀ p, (cart_read_loop_visits cfg idx fuel L).head? = some p → L.tempPtr = some p)
      ∧ (cart_read_loop_visits cfg idx fuel L).Chain' (fun p p1 => p1 = p
            ∨ (L.st.mainStructure.infoTable p.1 p.2).nextFrame = some p1) := by
  intro fuel
  induction fuel with
  | zero =>
    intro L L1 _ h
    unfold cart_read_loop at h
    unfold cart_read_loop_visits
    by_cases hl : L.bytes_left_to_read > 0
    · rw [if_pos hl] at h
      exact Option.noConfusion h
    · rw [if_neg hl] at h
      simp only [Option.some.injEq] at h
      subst h
      exact ⟨⟨[], by simp, List.Forall₂.nil⟩, fun p hp => Option.noConfusion hp,
        List.chain'_nil⟩
  | succ n ih =>
    intro L L1 hregs h
    unfold cart_read_loop at h
    unfold cart_read_loop_visits
    by_cases hl : L.bytes_left_to_read > 0
    · rw [if_pos hl] at h
      rw [if_pos hl]
      cases hb : cart_read_body cfg idx L with
      | none =>
        rw [hb] at h
        exact Option.noConfusion h
      | some L2 =>
        rw [hb] at h
        simp only [] at h
        obtain ⟨b1, b2, p, g, hp, hg, hlog, htp⟩ := cart_read_body_log cfg idx L L2 hd hb hregs
        obtain ⟨⟨gs, i1, i2⟩, i3, i4⟩ := ih L2 L1 b1 h
        rw [b2] at i2 i4
        rw [hp]
        simp only []
        refine ⟨⟨g :: gs, ?_, List.Forall₂.cons hg i2⟩, ?_, ?_⟩
        · rw [i1, hlog]
          simp [List.append_assoc]
        · intro p1 hp1
          simp only [List.head?_cons, Option.some.injEq] at hp1
          rw [← hp1]
        · rw [List.chain'_cons']
          refine ⟨fun y hy => ?_, i4⟩
          have hy2 := i3 y hy
          rcases htp with htp | htp
          · rw [htp] at hy2
            exact Or.inl (Option.some.inj hy2).symm
          · rw [htp] at hy2
            exact Or.inr hy2
    · rw [if_neg hl] at h
      rw [if_neg hl]
      simp only [Option.some.injEq] at h
      subst h
      exact ⟨⟨[], by simp, List.Forall₂.nil⟩, fun p hp => Option.noConfusion hp,
        List.chain'_nil⟩

theorem cart_write_loop_groups (cfg : CartConfig) (idx : Nat) (buf : Buf)
    (hd : OpcodesDistinct cfg) :
    ∀ (fuel : Nat) (L L1 : WriteLoop), L.regs = ⟨0, 0, 0, 0, 0⟩ →
      cart_write_loop cfg idx buf fuel L = some L1 →
      (∀ a b x, (L.st.mainStructure.infoTable a b).nextFrame = some x →
        (L1.st.mainStructure.infoTable a b).nextFrame = some x)
      ∧ (∃ gs : List (List Nat),
        L1.st.bus.log = L.st.bus.log ++ gs.flatten
        ∧ List.Forall₂ (fun p g =>
            FrameGroup cfg (L.st.mainStructure.infoTable p.1 p.2).cart_num
              (L.st.mainStructure.infoTable p.1 p.2).frame_num g)
            (cart_write_loop_visits cfg idx buf fuel L) gs)
      ∧ (∀ p, (cart_write_loop_visits cfg idx buf fuel L).head? = some p →
          L.tempPtr = some p)
      ∧ (cart_write_loop_visits cfg idx buf fuel L).Chain' (fun p p1 => p1 = p
            ∨ (L1.st.mainStructure.infoTable p.1 p.2).nextFrame = some p1) := by
  intro fuel
  induction fuel with
  | zero =>
    intro L L1 _ h
    unfold cart_write_loop at h
    unfold cart_write_loop_visits
    by_cases hl : L.bytes_left_to_write > 0
    · rw [if_pos hl] at h
      exact Option.noConfusion h
    · rw [if_neg hl] at h
      simp only [Option.some.injEq] at h
      subst h
      exact ⟨fun _ _ _ hx => hx, ⟨[], by simp, List.Forall₂.nil⟩,
        fun p hp => Option.noConfusion hp, List.chain'_nil⟩
  | succ n ih =>
    intro L L1 hregs h
    unfold cart_write_loop at h
    unfold cart_write_loop_visits
    by_cases hl : L.bytes_left_to_write > 0
    · rw [if_pos hl] at h
      rw [if_pos hl]
      cases hb : cart_write_body cfg idx buf L with
      | none =>
        rw [hb] at h
        exact Option.noConfusion h
      | some L2 =>
        rw [hb] at h
        simp only [] at h
        cases hp : L.tempPtr with
        | none =>
          unfold cart_write_body at hb
          rw [hp] at hb
          exact Option.noConfusion hb
        | some p =>
          obtain ⟨b1, g, hg, hlog⟩ := cart_write_body_log cfg idx buf L L2 hd p hp hb hregs
          obtain ⟨_, _, hrec, _⟩ := cart_write_body_records cfg idx buf L L2 hb
          obtain ⟨i0, ⟨gs, i1, i2⟩, i3, i4⟩ := ih L2 L1 b1 h
          have hmono : ∀ a b x, (L.st.mainStructure.infoTable a b).nextFrame = some x →
              (L2.st.mainStructure.infoTable a b).nextFrame = some x := by
            intro a b x hx
            rcases cart_write_body_chain cfg idx buf L L2 p hp hb with
              ⟨hk, _⟩ | ⟨q, _, _, _, hnone, _, _, _, _, hk⟩
            · rw [(hk a b).2]
              exact hx
            · by_cases hab : a = p.1 ∧ b = p.2
              · rw [hab.1, hab.2, hnone] at hx
                exact Option.noConfusion hx
              · rw [hk a b hab]
                exact hx
          have hnext : ∀ y, L2.tempPtr = some y →
              y = p ∨ (L2.st.mainStructure.infoTable p.1 p.2).nextFrame = some y := by
            intro y hy
            rcases cart_write_body_chain cfg idx buf L L2 p hp hb with
              ⟨hk, hk2 | ⟨hk2, _⟩⟩ | ⟨q, _, _, _, _, hq, _, hlink, _, _⟩
            · rw [hk2] at hy
              exact Or.inl (Option.some.inj hy).symm
            · rw [(hk p.1 p.2).2, ← hk2]
              exact Or.inr hy
            · rw [hq] at hy
              rw [← Option.some.inj hy]
              exact Or.inr hlink
          simp only []
          refine ⟨fun a b x hx => i0 a b x (hmono a b x hx),
            ⟨g :: gs, ?_, List.Forall₂.cons hg (List.Forall₂.imp (fun q g1 hq => ?_) i2)⟩,
            ?_, ?_⟩
          · rw [i1, hlog]
            simp [List.append_assoc]
          · rw [(hrec q.1 q.2).1, (hrec q.1 q.2).2] at hq
            exact hq
          · intro p1 hp1
            simp only [List.head?_cons, Option.some.injEq] at hp1
            rw [← hp1]
          · rw [List.chain'_cons']
            refine ⟨fun y hy => ?_, i4⟩
            rcases hnext y (i3 y hy) with hy2 | hy2
            · exact Or.inl hy2
            · exact Or.inr (i0 _ _ _ hy2)
    · rw [if_neg hl] at h
      rw [if_neg hl]
      simp only [Option.some.injEq] at h
      subst h
      exact ⟨fun _ _ _ hx => hx, ⟨[], by simp, List.Forall₂.nil⟩,
        fun p hp => Option.noConfusion hp, List.chain'_nil⟩

/-- The allocation of the first frame at the start of `cart_write` keeps the cursor of
the file and the indices stored in every Frame Record. -/
theorem headAlloc_expr_fields (cfg : CartConfig) (m : CartStructure) (idx : Nat) (fd : Int) :
    ((if (m.fileTable idx).tablePtr = none then
        match (freeFrameSearch cfg m cfg.CART_MAX_CARTRIDGES 0 false).1 with
        | some q =>
          setInfo (setFile m idx { m.fileTable idx with tablePtr := some q }) q
            { m.infoTable q.1 q.2 with handle := fd }
        | none => m
      else m).fileTable idx).location = (m.fileTable idx).location
    ∧ ∀ a b,
      ((if (m.fileTable idx).tablePtr = none then
          match (freeFrameSearch cfg m cfg.CART_MAX_CARTRIDGES 0 false).1 with
          | some q =>
            setInfo (setFile m idx { m.fileTable idx with tablePtr := some q }) q
              { m.infoTable q.1 q.2 with handle := fd }
          | none => m
        else m).infoTable a b).cart_num = (m.infoTable a b).cart_num
      ∧ ((if (m.fileTable idx).tablePtr = none then
          match (freeFrameSearch cfg m cfg.CART_MAX_CARTRIDGES 0 false).1 with
          | some q =>
            setInfo (setFile m idx { m.fileTable idx with tablePtr := some q }) q
              { m.infoTable q.1 q.2 with handle := fd }
          | none => m
        else m).infoTable a b).frame_num = (m.infoTable a b).frame_num := by
  by_cases hnone : (m.fileTable idx).tablePtr = none
  · rw [if_pos hnone]
    cases hq : (freeFrameSearch cfg m cfg.CART_MAX_CARTRIDGES 0 false).1 with
    | none =>
      exact ⟨rfl, fun _ _ => ⟨rfl, rfl⟩⟩
    | some q =>
      simp only []
      refine ⟨?_, fun a b => ?_⟩
      · rw [setInfo_fileTable, setFile_same]
      · rw [setInfo_apply]
        by_cases hab : a = q.1 ∧ b = q.2
        · rw [if_pos hab, hab.1, hab.2]
          exact ⟨rfl, rfl⟩
        · rw [if_neg hab]
          exact ⟨rfl, rfl⟩
  · rw [if_neg hnone]
    exact ⟨rfl, fun _ _ => ⟨rfl, rfl⟩⟩

/-- C29: in a `cart_read` or `cart_write` call that returns, from any state and with
any arguments (the opcodes being distinct 7-bit values), the transport requests issued
are, iteration by iteration of the loop, the groups of the Frame Records the loop is at
(`cart_read_visits`, `cart_write_visits`: the values of `tempPtr`): the group of an
iteration at the record with indices `(c, f)` is one LOAD-CARTRIDGE that carries `c` in
its cartridge field, followed by the READ-FRAME and WRITE-FRAME requests of that
iteration, each carrying `f` in its frame field (the 16-bit fields carry the indices
modulo 2^16); an iteration of `cart_read` that finds the frame in the cache issues no
request.  So every READ-FRAME and WRITE-FRAME carries the frame index of the record
the loop is at, and the most recent LOAD-CARTRIDGE before it carries the cartridge
index of that same record.  The records the loop is at are a walk along the chain of
the file of the handle: the first is the record reached from the head of the chain by
`location / 1024` links, and each later one is its predecessor or the record its
predecessor links to. -/
theorem C29_cartridge_load_protocol (cfg : CartConfig) (s : State) (fd : Int)
    (buf tempbuf0 : Buf) (count : Int) (hd : OpcodesDistinct cfg) :
    (∀ r, cart_read cfg s fd buf count = some r →
      (∃ gs : List (List Nat), r.1.bus.log = s.bus.log ++ gs.flatten
        ∧ List.Forall₂ (fun p g => g = []
            ∨ FrameGroup cfg (s.mainStructure.infoTable p.1 p.2).cart_num
              (s.mainStructure.infoTable p.1 p.2).frame_num g)
          (cart_read_visits cfg s fd buf count) gs)
      ∧ ∀ idx, findHandle cfg s.mainStructure fd = some idx →
          ChainWalk s.mainStructure ((s.mainStructure.fileTable idx).location / 1024)
            (s.mainStructure.fileTable idx).tablePtr (cart_read_visits cfg s fd buf count))
    ∧ (∀ r, cart_write cfg s fd buf count tempbuf0 = some r →
      (∃ gs : List (List Nat), r.1.bus.log = s.bus.log ++ gs.flatten
        ∧ List.Forall₂ (fun p g =>
            FrameGroup cfg (s.mainStructure.infoTable p.1 p.2).cart_num
              (s.mainStructure.infoTable p.1 p.2).frame_num g)
          (cart_write_visits cfg s fd buf count tempbuf0) gs)
      ∧ ∀ idx, findHandle cfg s.mainStructure fd = some idx →
          ChainWalk r.1.mainStructure ((s.mainStructure.fileTable idx).location / 1024)
            (r.1.mainStructure.fileTable idx).tablePtr
            (cart_write_visits cfg s fd buf count tempbuf0)) := by
  constructor
  · intro r
    unfold cart_read cart_read_visits
    cases hf : findHandle cfg s.mainStructure fd with
    | none =>
      intro h
      simp only [Option.some.injEq] at h
      subst h
      exact ⟨⟨[], by simp, List.Forall₂.nil⟩, fun idx hidx => Option.noConfusion hidx⟩
    | some idx =>
      simp only []
      cases hw : walkFrames s.mainStructure ((s.mainStructure.fileTable idx).location / 1024)
          (s.mainStructure.fileTable idx).tablePtr with
      | none =>
        intro h
        exact Option.noConfusion h
      | some tp =>
        simp only []
        split
        · intro h
          exact Option.noConfusion h
        · rename_i L1 hl
          intro h
          simp only [Option.some.injEq] at h
          subst h
          obtain ⟨i12, i3, i4⟩ := cart_read_loop_groups cfg idx hd _ _ L1 rfl hl
          refine ⟨i12, fun idx1 hidx => ?_⟩
          have he := Option.some.inj hidx
          subst he
          refine ⟨fun p hp => ?_, i4⟩
          rw [hw]
          exact congrArg some (i3 p hp)
  · intro r
    unfold cart_write cart_write_visits
    cases hf : findHandle cfg s.mainStructure fd with
    | none =>
      intro h
      simp only [Option.some.injEq] at h
      subst h
      exact ⟨⟨[], by simp, List.Forall₂.nil⟩, fun idx hidx => Option.noConfusion hidx⟩
    | some idx =>
      simp only []
      obtain ⟨hloc, hfields⟩ := headAlloc_expr_fields cfg s.mainStructure idx fd
      split
      · intro h
        exact Option.noConfusion h
      · rename_i tp hw
        split
        · intro h
          exact Option.noConfusion h
        · rename_i L1 hl
          intro h
          simp only [Option.some.injEq] at h
          subst h
          obtain ⟨i0, ⟨gs, i1, i2⟩, i3, i4⟩ :=
            cart_write_loop_groups cfg idx buf hd _ _ L1 rfl hl
          have htab := (cart_write_loop_frame cfg idx buf _ _ L1 hl).2.2.2.2.2.1
          refine ⟨⟨gs, i1, List.Forall₂.imp (fun q g1 hq => ?_) i2⟩, fun idx1 hidx => ?_⟩
          · rw [← (hfields q.1 q.2).1, ← (hfields q.1 q.2).2]
            exact hq
          · have he := Option.some.inj hidx
            subst he
            refine ⟨fun p hp => ?_, i4⟩
            have h1 := i3 p hp
            rw [← hloc]
            simp only []
            rw [htab]
            exact walkFrames_mono _ _ i0 _ _ p (by rw [← congrArg some h1]; exact hw)

/-- Witness of C29: on the small grid, `cart_read(0, buf, 3072)` of the three-frame file
is at the records (0,0), (0,1), (0,2) and, only the first frame not being cached,
issues LOAD-CARTRIDGE 0 and READ-FRAME 0; `cart_write(0, buf, 2048)` to the new file
"a" is at the records (0,0), (0,1) and issues LOAD-CARTRIDGE 0 and WRITE-FRAME 0, then
LOAD-CARTRIDGE 0 and WRITE-FRAME 1; both sequences are the groups of those records, and
the records are a walk along the chain of the file, as stated. -/
theorem C29_cartridge_load_protocol_witness :
    (cart_read_visits smallConfig rewoundState 0 zeroBuf 3072 = [(0, 0), (0, 1), (0, 2)]
      ∧ ((cart_read smallConfig rewoundState 0 zeroBuf 3072).map
          (fun r => (r.1.bus.log.drop rewoundState.bus.log.length).map
            (fun w => (extract_reg w, regCart w, regFrame w))))
        = some [(2, 0, 0), (3, 0, 0)])
    ∧ (cart_write_visits smallConfig openedState 0 allOnes 2048 zeroBuf = [(0, 0), (0, 1)]
      ∧ ((cart_write smallConfig openedState 0 allOnes 2048 zeroBuf).map
          (fun r => (r.1.bus.log.drop openedState.bus.log.length).map
            (fun w => (extract_reg w, regCart w, regFrame w))))
        = some [(2, 0, 0), (4, 0, 0), (2, 0, 0), (4, 0, 1)])
    ∧ ((∃ gs : List (List Nat),
        ((cart_read smallConfig rewoundState 0 zeroBuf 3072).getD
          (bootState, 0, zeroBuf)).1.bus.log = rewoundState.bus.log ++ gs.flatten
        ∧ List.Forall₂ (fun p g => g = []
            ∨ FrameGroup smallConfig (rewoundState.mainStructure.infoTable p.1 p.2).cart_num
              (rewoundState.mainStructure.infoTable p.1 p.2).frame_num g)
          (cart_read_visits smallConfig rewoundState 0 zeroBuf 3072) gs)
      ∧ ChainWalk rewoundState.mainStructure
          ((rewoundState.mainStructure.fileTable 0).location / 1024)
          (rewoundState.mainStructure.fileTable 0).tablePtr
          (cart_read_visits smallConfig rewoundState 0 zeroBuf 3072))
    ∧ ((∃ gs : List (List Nat),
        ((cart_write smallConfig openedState 0 allOnes 2048 zeroBuf).getD
          (bootState, 0)).1.bus.log = openedState.bus.log ++ gs.flatten
        ∧ List.Forall₂ (fun p g =>
            FrameGroup smallConfig (openedState.mainStructure.infoTable p.1 p.2).cart_num
              (openedState.mainStructure.infoTable p.1 p.2).frame_num g)
          (cart_write_visits smallConfig openedState 0 allOnes 2048 zeroBuf) gs)
      ∧ ChainWalk ((cart_write smallConfig openedState 0 allOnes 2048 zeroBuf).getD
            (bootState, 0)).1.mainStructure
          ((openedState.mainStructure.fileTable 0).location / 1024)
          ((((cart_write smallConfig openedState 0 allOnes 2048 zeroBuf).getD
            (bootState, 0)).1.mainStructure.fileTable 0).tablePtr)
          (cart_write_visits smallConfig openedState 0 allOnes 2048 zeroBuf)) :=
  ⟨⟨by decide, by decide⟩, ⟨by decide, by decide⟩,
    ⟨((C29_cartridge_load_protocol smallConfig rewoundState 0 zeroBuf zeroBuf 3072
        (by unfold OpcodesDistinct; decide)).1 _
        (eq_some_getD _ (bootState, 0, zeroBuf) (by decide))).1,
     ((C29_cartridge_load_protocol smallConfig rewoundState 0 zeroBuf zeroBuf 3072
        (by unfold OpcodesDistinct; decide)).1 _
        (eq_some_getD _ (bootState, 0, zeroBuf) (by decide))).2 0 (by decide)⟩,
    ⟨((C29_cartridge_load_protocol smallConfig openedState 0 allOnes zeroBuf 2048
        (by unfold OpcodesDistinct; decide)).2 _
        (eq_some_getD _ (bootState, 0) (by decide))).1,
     ((C29_cartridge_load_protocol smallConfig openedState 0 allOnes zeroBuf 2048
        (by unfold OpcodesDistinct; decide)).2 _
        (eq_some_getD _ (bootState, 0) (by decide))).2 0 (by decide)⟩⟩

end Cart
